import Mathlib

/-!
Fax-Sender: a verification development.

A shallow embedding of the parts of the Fax-Sender repository (Go) that its
specification makes claims about, followed by the theorems that settle those
claims.

Conventions of the embedding

* A Go `string` is a Lean `String`; the library functions on strings are
  modelled on `List Char` (the string's code points) and wrapped.
* A Go `[]byte` is a `List Nat`; a well-formed byte sequence has every entry
  below 256 (`Bytes`).
* A Go `int` is 64 bits wide (`strconv.intSize`), held in an `Int`, with the
  wrap-around written out where the source can overflow.
* A Go `(value, error)` result is a pair with an `Option` error, or an
  `Except`; a run-time panic is an outcome of its own.
* Calls that leave the process (HTTP, the file system, the random source) are
  parameters of the embedded functions; their results are inputs.
-/

set_option autoImplicit false

/-! ## Go standard library: `strconv` -/

namespace strconv

/-- Width of Go's `int` on the 64-bit targets the application is built for. -/
def intSize : Nat := 64

/-- The `Err` field of a `*strconv.NumError`. -/
inductive NumError where
  | ErrSyntax
  | ErrRange
  deriving DecidableEq, Repr

/-- Go's `len(s)` for a string: the number of bytes of its UTF-8 encoding. -/
def byteLen (s : List Char) : Nat :=
  (s.map Char.utf8Size).sum

/-- The digit value `ParseUint` reads from one character: decimal digits, then
letters (either case) from 10 upwards; `none` is the `default:` branch. -/
def digitOf (c : Char) : Option Nat :=
  if '0'.toNat ≤ c.toNat ∧ c.toNat ≤ '9'.toNat then some (c.toNat - '0'.toNat)
  else if 'a'.toNat ≤ c.toNat ∧ c.toNat ≤ 'z'.toNat then some (c.toNat - 'a'.toNat + 10)
  else if 'A'.toNat ≤ c.toNat ∧ c.toNat ≤ 'Z'.toNat then some (c.toNat - 'A'.toNat + 10)
  else none

/-- The digit loop of `strconv.ParseUint(s, 10, bitSize)` over a `uint64`
accumulator `n`; `cutoff = maxUint64/10 + 1`, `maxVal = 2^bitSize - 1`. -/
def parseUintLoop (cutoff maxVal : Nat) : List Char → Nat → Nat × Option NumError
  | [], n => (n, none)
  | c :: cs, n =>
    match digitOf c with
    | none => (0, some .ErrSyntax)
    | some d =>
      if d ≥ 10 then (0, some .ErrSyntax)
      else if n ≥ cutoff then (maxVal, some .ErrRange)
      else
        let n10 := (n * 10) % 2 ^ 64
        let n1 := (n10 + d) % 2 ^ 64
        if n1 < n10 ∨ n1 > maxVal then (maxVal, some .ErrRange)
        else parseUintLoop cutoff maxVal cs n1

/-- Go's `strconv.ParseUint(s, 10, bitSize)` (`bitSize = 0` means `int`). -/
def ParseUint (s : List Char) (bitSize : Nat) : Nat × Option NumError :=
  if s = [] then (0, some .ErrSyntax)
  else
    let bits := if bitSize = 0 then intSize else bitSize
    parseUintLoop ((2 ^ 64 - 1) / 10 + 1) (2 ^ bits - 1) s 0

/-- Conversion `int64(u)` of a `uint64`. -/
def toInt64 (u : Nat) : Int :=
  if u < 2 ^ 63 then (u : Int) else (u : Int) - 2 ^ 64

/-- A mathematical integer wrapped into the `int64` range (two's complement). -/
def wrapInt64 (i : Int) : Int :=
  (i + 2 ^ 63) % 2 ^ 64 - 2 ^ 63

/-- Go's `strconv.ParseInt(s, 10, bitSize)`. -/
def ParseInt (s : List Char) (bitSize : Nat) : Int × Option NumError :=
  if s = [] then (0, some .ErrSyntax)
  else
    let neg : Bool := s.head? = some '-'
    let body := if s.head? = some '+' ∨ s.head? = some '-' then s.tail else s
    let r := ParseUint body bitSize
    if r.2 = some .ErrSyntax then (0, some .ErrSyntax)
    else
      let bits := if bitSize = 0 then intSize else bitSize
      let cutoff : Nat := 2 ^ (bits - 1)
      if !neg ∧ r.1 ≥ cutoff then ((cutoff : Int) - 1, some .ErrRange)
      else if neg ∧ r.1 > cutoff then (-(cutoff : Int), some .ErrRange)
      else
        let n := toInt64 r.1
        (if neg then wrapInt64 (-n) else n, none)

/-- The fast-path loop of `strconv.Atoi`: `none` when a byte is not a decimal
digit. The accumulator cannot overflow: the path runs on fewer than 19 bytes. -/
def atoiLoop : List Char → Nat → Option Nat
  | [], n => some n
  | c :: cs, n =>
    if '0'.toNat ≤ c.toNat ∧ c.toNat ≤ '9'.toNat then atoiLoop cs (n * 10 + (c.toNat - '0'.toNat))
    else none

/-- Go's `strconv.Atoi` on the code points of `s`. -/
def atoiChars (s : List Char) : Int × Option NumError :=
  let sLen := byteLen s
  if (intSize = 32 ∧ 0 < sLen ∧ sLen < 10) ∨ (intSize = 64 ∧ 0 < sLen ∧ sLen < 19) then
    let signed : Bool := s.head? = some '-' ∨ s.head? = some '+'
    let body := if signed then s.tail else s
    if signed ∧ body.length < 1 then (0, some .ErrSyntax)
    else
      match atoiLoop body 0 with
      | none => (0, some .ErrSyntax)
      | some n => (if s.head? = some '-' then -(n : Int) else (n : Int), none)
  else
    ParseInt s 0

/-- Go's `strconv.Atoi`. -/
def Atoi (s : String) : Int × Option NumError :=
  atoiChars s.data

end strconv

/-! ## `src/api/ApiModels.go` -/

/-- Transmission data in the process of sending a fax (all fields strings). -/
structure Transmission where
  Title : String
  ContactID : String
  AccountID : String
  ProgramID : String
  IsPrint : String
  IsCoverPage : String
  TryAllowed : String
  deriving DecidableEq, Repr

/-- The converted transmission data (numeric fields as `int`). -/
structure ConvertedTransmission where
  Title : String
  ContactID : Int
  AccountID : Int
  ProgramID : Int
  IsPrint : Int
  IsCoverPage : Int
  TryAllowed : Int
  deriving DecidableEq, Repr

/-- `convertTransmission`: every numeric field is `strconv.Atoi` of its source
string, the error discarded. -/
def convertTransmission (transmission : Transmission) : ConvertedTransmission :=
  let contactID := (strconv.Atoi transmission.ContactID).1
  let programID := (strconv.Atoi transmission.ProgramID).1
  let accountID := (strconv.Atoi transmission.AccountID).1
  let isPrint := (strconv.Atoi transmission.IsPrint).1
  let isCoverPage := (strconv.Atoi transmission.IsCoverPage).1
  let tryAllowed := (strconv.Atoi transmission.TryAllowed).1
  { Title := transmission.Title
    ContactID := contactID
    AccountID := accountID
    ProgramID := programID
    IsPrint := isPrint
    IsCoverPage := isCoverPage
    TryAllowed := tryAllowed }

/-! ## Go standard library: `unicode`, `strings`, `path/filepath` -/

namespace unicode

/-- Go's `unicode.IsSpace`: the Latin-1 cases are listed in the function, the
others are the `White_Space` range table. -/
def IsSpace (r : Char) : Bool :=
  let n := r.toNat
  if n ≤ 0xFF then
    n = 0x09 ∨ n = 0x0A ∨ n = 0x0B ∨ n = 0x0C ∨ n = 0x0D ∨ n = 0x20 ∨ n = 0x85 ∨ n = 0xA0
  else
    n = 0x1680 ∨ (0x2000 ≤ n ∧ n ≤ 0x200A) ∨ n = 0x2028 ∨ n = 0x2029 ∨ n = 0x202F
      ∨ n = 0x205F ∨ n = 0x3000

end unicode

namespace strings

/-- Go's `strings.TrimLeftFunc`. -/
def TrimLeftFunc (s : List Char) (f : Char → Bool) : List Char :=
  s.dropWhile f

/-- Go's `strings.TrimRightFunc`. -/
def TrimRightFunc (s : List Char) (f : Char → Bool) : List Char :=
  (s.reverse.dropWhile f).reverse

/-- Go's `strings.TrimFunc`. -/
def TrimFunc (s : List Char) (f : Char → Bool) : List Char :=
  TrimRightFunc (TrimLeftFunc s f) f

/-- Go's `strings.TrimSpace`: leading and trailing white space (as defined by
Unicode) removed. -/
def TrimSpace (s : List Char) : List Char :=
  TrimFunc s unicode.IsSpace

/-- Go's `strings.Trim(s, cutset)`: leading and trailing code points contained
in `cutset` removed. -/
def Trim (s cutset : List Char) : List Char :=
  TrimFunc s (fun c => cutset.contains c)

/-- Left-to-right replacement of the non-overlapping occurrences of a non-empty
`old`; `skip` counts the characters of a matched occurrence still to drop. -/
def replaceFrom (old new : List Char) : Nat → List Char → List Char
  | _, [] => []
  | skip + 1, _ :: cs => replaceFrom old new skip cs
  | 0, c :: cs =>
    if old.isPrefixOf (c :: cs) then new ++ replaceFrom old new (old.length - 1) cs
    else c :: replaceFrom old new 0 cs

/-- Go's `strings.ReplaceAll(s, old, new)`; an empty `old` matches before every
code point and at the end. -/
def ReplaceAll (s old new : List Char) : List Char :=
  if old = [] then new ++ s.foldr (fun c acc => c :: (new ++ acc)) []
  else replaceFrom old new 0 s

end strings

namespace filepath

/-- Go's `os.IsPathSeparator` on the Unix targets the packages are built for. -/
def IsPathSeparator (c : Char) : Bool :=
  c = '/'

/-- The loop of `filepath.Ext`, `i` running down from `len(path) - 1`; the
argument is `i + 1`. -/
def extLoop (path : List Char) : Nat → List Char
  | 0 => []
  | i + 1 =>
    match path[i]? with
    | none => []
    | some c =>
      if IsPathSeparator c then []
      else if c = '.' then path.drop i
      else extLoop path i

/-- Go's `filepath.Ext`: the suffix beginning at the final dot in the final
element of `path`; empty if there is no dot. -/
def Ext (path : List Char) : List Char :=
  extLoop path path.length

end filepath

/-! ## `src/utilities/Constants.go`, `src/utilities/FileHelper.go` -/

def TEXT_FILE_EXTENSION : String := "txt"
def PDF_FILE_EXTENSION : String := "pdf"
def TIFF_FILE_EXTENSION : String := "tiff"
def TIF_FILE_EXTENSION : String := "tif"
def JPEG_FILE_EXTENSION : String := "jpeg"
def JPG_FILE_EXTENSION : String := "jpg"
def PNG_FILE_EXTENSION : String := "png"
def DOC_FILE_EXTENSION : String := "doc"
def DOCX_FILE_EXTENSION : String := "docx"
def ODT_FILE_EXTENSION : String := "odt"
def EMPTY_FILE_EXTENSION : String := ""

def WITH_PRINT : String := "1"
def WITHOUT_PRINT : String := "0"
def ENCRYPTION_KEY : String := "0123456789012345"

/-- `RemoveDot`: every dot deleted, then spaces trimmed at both ends. -/
def RemoveDot (name : String) : String :=
  ⟨strings.Trim (strings.ReplaceAll name.data ['.'] []) [' ']⟩

/-- `CleanupFilePath`: newline characters deleted, then white space trimmed. -/
def CleanupFilePath (str : String) : String :=
  ⟨strings.TrimSpace (strings.ReplaceAll str.data ['\n'] [])⟩

/-- `CalculateFileExtension`. -/
def CalculateFileExtension (fpath : String) : String :=
  let fpath := RemoveDot ⟨filepath.Ext fpath.data⟩
  CleanupFilePath fpath

/-- `ExtractFileExtension`: the calculated extension when it is one of the
ten recognised ones, the empty string otherwise. -/
def ExtractFileExtension (filePath : String) : String :=
  let extension := CalculateFileExtension filePath
  if extension = TEXT_FILE_EXTENSION ∨
      extension = PDF_FILE_EXTENSION ∨
      extension = TIFF_FILE_EXTENSION ∨
      extension = JPEG_FILE_EXTENSION ∨
      extension = JPG_FILE_EXTENSION ∨
      extension = PNG_FILE_EXTENSION ∨
      extension = DOCX_FILE_EXTENSION ∨
      extension = DOC_FILE_EXTENSION ∨
      extension = TIF_FILE_EXTENSION ∨
      extension = ODT_FILE_EXTENSION then
    extension
  else
    EMPTY_FILE_EXTENSION

/-! ## Go standard library: `unicode/utf8` and the conversions between strings and bytes

A Go string is a sequence of bytes, which need not be valid UTF-8: it is a
`GoString`. Where the program only handles text the model keeps a `String`,
and converts between text and bytes with UTF-8, the encoding Go uses for
string literals and for `range` over a string. -/

namespace utf8

/-- The "error" rune U+FFFD. -/
def RuneError : Nat := 0xFFFD

/-- Bytes below `RuneSelf` are single-byte runes. -/
def RuneSelf : Nat := 0x80

/-- The largest Unicode code point. -/
def MaxRune : Nat := 0x10FFFF

/-- `utf8.AppendRune(nil, r)`: the UTF-8 encoding of the rune. Go writes the
bytes with shifts and masks (`t2 | byte(r>>6)`, `tx | byte(r)&maskx`, ...);
here they are the same numbers by division and remainder. A surrogate or a
value above `MaxRune` is encoded as `RuneError`. -/
def EncodeRune (r : Nat) : List Nat :=
  if r ≤ 0x7F then [r]
  else if r ≤ 0x7FF then [0xC0 + r / 64, 0x80 + r % 64]
  else if MaxRune < r ∨ (0xD800 ≤ r ∧ r ≤ 0xDFFF) then [0xEF, 0xBF, 0xBD]
  else if r ≤ 0xFFFF then [0xE0 + r / 4096, 0x80 + r / 64 % 64, 0x80 + r % 64]
  else [0xF0 + r / 262144, 0x80 + r / 4096 % 64, 0x80 + r / 64 % 64, 0x80 + r % 64]

/-- The table `first` joined with `acceptRanges`, for a first byte that is not
ASCII: the length of the sequence and the lowest and highest second byte, or
`none` for a byte that cannot start a sequence. -/
def first (p0 : Nat) : Option (Nat × Nat × Nat) :=
  if p0 < 0xC2 then none
  else if p0 ≤ 0xDF then some (2, 0x80, 0xBF)
  else if p0 = 0xE0 then some (3, 0xA0, 0xBF)
  else if p0 = 0xED then some (3, 0x80, 0x9F)
  else if p0 ≤ 0xEF then some (3, 0x80, 0xBF)
  else if p0 = 0xF0 then some (4, 0x90, 0xBF)
  else if p0 ≤ 0xF3 then some (4, 0x80, 0xBF)
  else if p0 = 0xF4 then some (4, 0x80, 0x8F)
  else none

/-- `utf8.DecodeRune`: the first rune of `p` and its width in bytes;
`(RuneError, 0)` for the empty input and `(RuneError, 1)` for an encoding that
is invalid, too short, over-long, a surrogate or out of range. -/
def DecodeRune (p : List Nat) : Nat × Nat :=
  match p with
  | [] => (RuneError, 0)
  | p0 :: rest =>
    if p0 < RuneSelf then (p0, 1)
    else
      match first p0 with
      | none => (RuneError, 1)
      | some (sz, lo, hi) =>
        match rest with
        | [] => (RuneError, 1)
        | b1 :: rest1 =>
          if b1 < lo ∨ hi < b1 then (RuneError, 1)
          else if sz ≤ 2 then (p0 % 32 * 64 + b1 % 64, 2)
          else
            match rest1 with
            | [] => (RuneError, 1)
            | b2 :: rest2 =>
              if b2 < 0x80 ∨ 0xBF < b2 then (RuneError, 1)
              else if sz ≤ 3 then (p0 % 16 * 4096 + b1 % 64 * 64 + b2 % 64, 3)
              else
                match rest2 with
                | [] => (RuneError, 1)
                | b3 :: _ =>
                  if b3 < 0x80 ∨ 0xBF < b3 then (RuneError, 1)
                  else (p0 % 8 * 262144 + b1 % 64 * 4096 + b2 % 64 * 64 + b3 % 64, 4)

/-- The runes of a byte sequence read as a Go string, as `range` yields them:
each step decodes one rune and advances by its width. -/
def decodeRunes : Nat → List Nat → List Char
  | 0, _ => []
  | fuel + 1, p =>
    match p with
    | [] => []
    | _ :: _ => Char.ofNat (DecodeRune p).1 :: decodeRunes fuel (p.drop (DecodeRune p).2)

end utf8

/-- Go's conversion `[]byte(s)` of a text. -/
def bytesOfString (s : String) : List Nat :=
  s.data.flatMap (fun c => utf8.EncodeRune c.toNat)

/-- Go's conversion `string(b)` of bytes that are read as text. A byte that
is not part of a valid UTF-8 sequence is kept by Go and reads as U+FFFD; in
the model it is that rune. -/
def stringOfBytes (b : List Nat) : String :=
  String.mk (utf8.decodeRunes b.length b)

/-- A Go `string`: a sequence of bytes, which need not be valid UTF-8. -/
structure GoString where
  bytes : List Nat
  deriving DecidableEq, Repr

/-- A text as a Go string: its UTF-8 encoding. -/
instance : Coe String GoString :=
  ⟨fun s => { bytes := bytesOfString s }⟩

/-- The text of a Go string that is valid UTF-8, `none` for any other Go
string. -/
def GoString.toText (g : GoString) : Option String :=
  if bytesOfString (stringOfBytes g.bytes) = g.bytes then some (stringOfBytes g.bytes)
  else none

/-! ## `src/api/ApiModels.go`: the records of the API -/

/-- User credentials to log in. The three fields are Go strings. -/
structure UserData where
  Username : GoString
  Password : GoString
  Hostname : GoString
  deriving DecidableEq, Repr

/-- Contact information for the fax destination. -/
structure Contact where
  FirstName : String
  LastName : String
  Email : String
  Phone : String
  Address : String
  Custom1 : String
  Custom2 : String
  Custom3 : String
  Description : String
  deriving DecidableEq, Repr

/-- Title and description of the fax document. -/
structure DocumentRecord where
  Title : String
  Description : String
  deriving DecidableEq, Repr

/-- Information about the content type of the file. -/
structure SendFileInfo where
  ContentType : String
  deriving DecidableEq, Repr

/-- The authentication response of the remote API. -/
structure AuthResponse where
  Token : String
  FirstName : String
  LastName : String
  Email : String
  Phone : String
  Country : String
  Company : String
  deriving DecidableEq, Repr

/-- A Go `time.Time` as the code builds it: the zero value `time.Time{}`, or
`time.Unix(sec, 0)`. -/
inductive Time where
  | zero
  | unix (sec : Int)
  deriving DecidableEq, Repr

/-- Fax-related data shown on the third tab. -/
structure FaxData where
  DateTime : Time
  Title : String
  DestinationFax : String
  CallerID : String
  Status : String
  deriving DecidableEq, Repr

/-- The fax details of the remote API's response. -/
structure FaxResponse where
  DateTime : String
  Title : String
  DestinationFax : String
  CallerID : String
  Status : String
  Is_Print : String
  DateTimeParsed : Time
  deriving DecidableEq, Repr

/-- The outcome of a Go call that can return a value, return an error (its
message), or panic at run time. -/
inductive Outcome (α : Type) where
  | ok (value : α)
  | error (msg : String)
  | panic (msg : String)
  deriving DecidableEq, Repr

/-- The zero value of `FaxData`, which `make([]FaxData, n)` fills the slice
with. -/
def FaxData.zeroValue : FaxData :=
  { DateTime := Time.zero, Title := "", DestinationFax := "", CallerID := "", Status := "" }

/-- One iteration of the loop of `ConvertFilteredFaxResponsesToFaxData`: the
entry `faxDataList[i]` after the iteration for `response`. The entry is
assigned only when `strconv.ParseInt(response.DateTime, 10, 64)` succeeds. -/
def convertFaxResponse (response : FaxResponse) : FaxData :=
  let r := strconv.ParseInt response.DateTime.data 64
  if r.2 = none then
    { DateTime := Time.unix r.1
      Title := response.Title
      DestinationFax := response.DestinationFax
      CallerID := response.CallerID
      Status := response.Status }
  else FaxData.zeroValue

/-- `ConvertFilteredFaxResponsesToFaxData`: a slice of the same length, entry
`i` written by iteration `i`. -/
def ConvertFilteredFaxResponsesToFaxData (res : List FaxResponse) : List FaxData :=
  res.map convertFaxResponse

/-! ## `src/api/ApiICTCore.go`: the fax submission workflow -/

/-- A call of one of the six remote operations of the workflow, with the
arguments it was given. -/
inductive StepCall where
  | CreateContact (userData : UserData) (authToken : String) (contact : Contact)
  | CreateDocumentRecord (userData : UserData) (authToken : String) (document : DocumentRecord)
  | UploadDocumentFile (userData : UserData) (authToken : String) (documentID : Int)
      (fileContents : List Nat) (contentType : String)
  | CreateProgram (userData : UserData) (authToken : String) (documentID : Int)
  | CreateTransmission (userData : UserData) (authToken : String) (transmission : Transmission)
      (contactID accountID programID : Int)
  | SendTransmission (userData : UserData) (authToken : String) (transmissionID : Int)
  deriving DecidableEq, Repr

/-- The six steps of the workflow. -/
inductive Step where
  | CreateContact
  | CreateDocumentRecord
  | UploadDocumentFile
  | CreateProgram
  | CreateTransmission
  | SendTransmission
  deriving DecidableEq, Repr

/-- The step a call belongs to. -/
def StepCall.step : StepCall → Step
  | .CreateContact .. => .CreateContact
  | .CreateDocumentRecord .. => .CreateDocumentRecord
  | .UploadDocumentFile .. => .UploadDocumentFile
  | .CreateProgram .. => .CreateProgram
  | .CreateTransmission .. => .CreateTransmission
  | .SendTransmission .. => .SendTransmission

/-- The remote operations `SendFaxICT` calls, over the state `σ` of whatever
they talk to: each returns its Go result (`Except.error` carries `err.Error()`)
and the state after the call. -/
structure ICTOperations (σ : Type) where
  CreateContact : UserData → String → Contact → σ → Except String Int × σ
  CreateDocumentRecord : UserData → String → DocumentRecord → σ → Except String Int × σ
  UploadDocumentFile : UserData → String → Int → List Nat → String → σ → Except String Unit × σ
  CreateProgram : UserData → String → Int → σ → Except String Int × σ
  CreateTransmission : UserData → String → Transmission → Int → Int → Int → σ →
    Except String Int × σ
  SendTransmission : UserData → String → Int → σ → Except String Unit × σ

/-- The result of a run of `SendFaxICT`: the returned error (`none` is `nil`),
the calls made, in order, and the state after the run. -/
structure SendFaxRun (σ : Type) where
  err : Option String
  calls : List StepCall
  state : σ

/-- `SendFaxICT`. The state `s` is threaded through the six calls, and every
call made is appended to `calls`. -/
def SendFaxICT {σ : Type} (ops : ICTOperations σ) (userData : UserData) (authToken : String)
    (contact : Contact) (document : DocumentRecord) (transmission : Transmission)
    (fileContents : List Nat) (fileModel : SendFileInfo) (s : σ) : SendFaxRun σ :=
  let accountID := (strconv.Atoi transmission.AccountID).1
  let contentType := fileModel.ContentType
  -- Step 1: Create Contact
  let call1 := StepCall.CreateContact userData authToken contact
  match ops.CreateContact userData authToken contact s with
  | (.error err, s1) => ⟨some ("Failed to create contact: " ++ err), [call1], s1⟩
  | (.ok contactID, s1) =>
  -- Step 2: Create Document Record
  let call2 := StepCall.CreateDocumentRecord userData authToken document
  match ops.CreateDocumentRecord userData authToken document s1 with
  | (.error err, s2) => ⟨some ("Failed to create document record: " ++ err), [call1, call2], s2⟩
  | (.ok documentID, s2) =>
  -- Step 3: Upload Document File
  let call3 := StepCall.UploadDocumentFile userData authToken documentID fileContents contentType
  match ops.UploadDocumentFile userData authToken documentID fileContents contentType s2 with
  | (.error err, s3) =>
    ⟨some ("Failed to upload document file: " ++ err), [call1, call2, call3], s3⟩
  | (.ok _, s3) =>
  -- Step 4: Create Program
  let call4 := StepCall.CreateProgram userData authToken documentID
  match ops.CreateProgram userData authToken documentID s3 with
  | (.error err, s4) =>
    ⟨some ("Failed to create program: " ++ err), [call1, call2, call3, call4], s4⟩
  | (.ok programID, s4) =>
  -- Step 5: Create Transmission
  let call5 := StepCall.CreateTransmission userData authToken transmission contactID accountID
    programID
  match ops.CreateTransmission userData authToken transmission contactID accountID programID s4
    with
  | (.error err, s5) =>
    ⟨some ("Failed to create transmission: " ++ err), [call1, call2, call3, call4, call5], s5⟩
  | (.ok transmissionID, s5) =>
  -- Step 6: Send Transmission
  let call6 := StepCall.SendTransmission userData authToken transmissionID
  match ops.SendTransmission userData authToken transmissionID s5 with
  | (.error err, s6) =>
    ⟨some ("Failed to send transmission: " ++ err),
      [call1, call2, call3, call4, call5, call6], s6⟩
  | (.ok _, s6) => ⟨none, [call1, call2, call3, call4, call5, call6], s6⟩

/-- The order of the steps in `SendFaxICT`. -/
def stepOrder : List Step :=
  [.CreateContact, .CreateDocumentRecord, .UploadDocumentFile, .CreateProgram,
   .CreateTransmission, .SendTransmission]

/-- The text `SendFaxICT` puts before the error of a failed step. -/
def Step.errorPrefix : Step → String
  | .CreateContact => "Failed to create contact: "
  | .CreateDocumentRecord => "Failed to create document record: "
  | .UploadDocumentFile => "Failed to upload document file: "
  | .CreateProgram => "Failed to create program: "
  | .CreateTransmission => "Failed to create transmission: "
  | .SendTransmission => "Failed to send transmission: "

/-! ## `src/api/ApiServerDirectCalls.go` -/

/-- The calls of `ApiServerDirectCalls` that leave the process, as results:
reading the settings file, authenticating, and fetching the transmissions. -/
structure DirectCallsEnv where
  loadUserDataFromFile : Except String UserData
  AuthenticateICT : UserData → Except String AuthResponse
  TransmissionsICT : UserData → String → Except String (List FaxResponse)

/-- The filter loop of `GetLastFaxes`: the records whose `Is_Print` is
`WITH_PRINT`, appended in order. -/
def filterPrinted (faxResponses : List FaxResponse) : List FaxResponse :=
  faxResponses.foldl
    (fun filtered response =>
      if response.Is_Print = WITH_PRINT then filtered ++ [response] else filtered)
    []

/-- Go's slice expression `s[low:]`; out of range is a run-time panic
(`none`). -/
def sliceFrom {α : Type} (s : List α) (low : Int) : Option (List α) :=
  if 0 ≤ low ∧ low ≤ s.length then some (s.drop low.toNat) else none

/-- `ApiServerDirectCalls.GetLastFaxes`. -/
def GetLastFaxes (env : DirectCallsEnv) (count : Int) : Outcome (List FaxData) :=
  match env.loadUserDataFromFile with
  | .error _ => .error "error in load data from settings file"
  | .ok userData =>
  match env.AuthenticateICT userData with
  | .error _ => .error "error in get  key from api the host"
  | .ok authResponse =>
  let authToken := authResponse.Token
  match env.TransmissionsICT userData authToken with
  | .error _ => .error "error fetching fax transmissions"
  | .ok faxResponses =>
  let filteredFaxResponses := filterPrinted faxResponses
  let startIndex := strconv.wrapInt64 ((filteredFaxResponses.length : Int) - count)
  let startIndex := if startIndex < 0 then 0 else startIndex
  match sliceFrom filteredFaxResponses startIndex with
  | none => .panic "slice bounds out of range"
  | some filteredFaxResponses =>
    .ok (ConvertFilteredFaxResponsesToFaxData filteredFaxResponses)

/-! ## Go standard library: `crypto/aes` (FIPS 197) -/

/-- A well-formed Go `[]byte`: every entry is a byte. -/
def Bytes (b : List Nat) : Prop :=
  ∀ x ∈ b, x < 256

instance (b : List Nat) : Decidable (Bytes b) :=
  inferInstanceAs (Decidable (∀ x ∈ b, x < 256))

/-- The conversion `[]byte(s)` of a string: its UTF-8 encoding. -/
def stringBytes (s : String) : List Nat :=
  s.data.foldr (fun c acc => (String.utf8EncodeChar c).map UInt8.toNat ++ acc) []

namespace aes

/-- The AES block size in bytes. -/
def BlockSize : Nat := 16

/-- The S-box of FIPS 197, figure 7. -/
def sbox : List Nat :=
  [
   0x63, 0x7c, 0x77, 0x7b, 0xf2, 0x6b, 0x6f, 0xc5, 0x30, 0x01, 0x67, 0x2b, 0xfe, 0xd7, 0xab, 0x76,
   0xca, 0x82, 0xc9, 0x7d, 0xfa, 0x59, 0x47, 0xf0, 0xad, 0xd4, 0xa2, 0xaf, 0x9c, 0xa4, 0x72, 0xc0,
   0xb7, 0xfd, 0x93, 0x26, 0x36, 0x3f, 0xf7, 0xcc, 0x34, 0xa5, 0xe5, 0xf1, 0x71, 0xd8, 0x31, 0x15,
   0x04, 0xc7, 0x23, 0xc3, 0x18, 0x96, 0x05, 0x9a, 0x07, 0x12, 0x80, 0xe2, 0xeb, 0x27, 0xb2, 0x75,
   0x09, 0x83, 0x2c, 0x1a, 0x1b, 0x6e, 0x5a, 0xa0, 0x52, 0x3b, 0xd6, 0xb3, 0x29, 0xe3, 0x2f, 0x84,
   0x53, 0xd1, 0x00, 0xed, 0x20, 0xfc, 0xb1, 0x5b, 0x6a, 0xcb, 0xbe, 0x39, 0x4a, 0x4c, 0x58, 0xcf,
   0xd0, 0xef, 0xaa, 0xfb, 0x43, 0x4d, 0x33, 0x85, 0x45, 0xf9, 0x02, 0x7f, 0x50, 0x3c, 0x9f, 0xa8,
   0x51, 0xa3, 0x40, 0x8f, 0x92, 0x9d, 0x38, 0xf5, 0xbc, 0xb6, 0xda, 0x21, 0x10, 0xff, 0xf3, 0xd2,
   0xcd, 0x0c, 0x13, 0xec, 0x5f, 0x97, 0x44, 0x17, 0xc4, 0xa7, 0x7e, 0x3d, 0x64, 0x5d, 0x19, 0x73,
   0x60, 0x81, 0x4f, 0xdc, 0x22, 0x2a, 0x90, 0x88, 0x46, 0xee, 0xb8, 0x14, 0xde, 0x5e, 0x0b, 0xdb,
   0xe0, 0x32, 0x3a, 0x0a, 0x49, 0x06, 0x24, 0x5c, 0xc2, 0xd3, 0xac, 0x62, 0x91, 0x95, 0xe4, 0x79,
   0xe7, 0xc8, 0x37, 0x6d, 0x8d, 0xd5, 0x4e, 0xa9, 0x6c, 0x56, 0xf4, 0xea, 0x65, 0x7a, 0xae, 0x08,
   0xba, 0x78, 0x25, 0x2e, 0x1c, 0xa6, 0xb4, 0xc6, 0xe8, 0xdd, 0x74, 0x1f, 0x4b, 0xbd, 0x8b, 0x8a,
   0x70, 0x3e, 0xb5, 0x66, 0x48, 0x03, 0xf6, 0x0e, 0x61, 0x35, 0x57, 0xb9, 0x86, 0xc1, 0x1d, 0x9e,
   0xe1, 0xf8, 0x98, 0x11, 0x69, 0xd9, 0x8e, 0x94, 0x9b, 0x1e, 0x87, 0xe9, 0xce, 0x55, 0x28, 0xdf,
   0x8c, 0xa1, 0x89, 0x0d, 0xbf, 0xe6, 0x42, 0x68, 0x41, 0x99, 0x2d, 0x0f, 0xb0, 0x54, 0xbb, 0x16]

/-- Substitution of one byte. -/
def subByte (b : Nat) : Nat :=
  sbox.getD b 0

/-- Multiplication by `x` in GF(2^8) modulo `x^8 + x^4 + x^3 + x + 1`
(`xtime` of FIPS 197, 4.2.1): a left shift, and `0x11b` taken off when bit 7 was
set. -/
def xtime (b : Nat) : Nat :=
  (b <<< 1) ^^^ (if b.testBit 7 then 0x11b else 0)

/-- `SubBytes`. -/
def SubBytes (state : List Nat) : List Nat :=
  state.map subByte

/-- `ShiftRows` on the state in input order (byte `r + 4c` is row `r`, column
`c`): row `r` is rotated left by `r` columns. -/
def ShiftRows (state : List Nat) : List Nat :=
  [0, 5, 10, 15, 4, 9, 14, 3, 8, 13, 2, 7, 12, 1, 6, 11].map (fun i => state.getD i 0)

/-- `MixColumns` on one column. -/
def mixColumn (a0 a1 a2 a3 : Nat) : List Nat :=
  [xtime a0 ^^^ (xtime a1 ^^^ a1) ^^^ a2 ^^^ a3,
   a0 ^^^ xtime a1 ^^^ (xtime a2 ^^^ a2) ^^^ a3,
   a0 ^^^ a1 ^^^ xtime a2 ^^^ (xtime a3 ^^^ a3),
   (xtime a0 ^^^ a0) ^^^ a1 ^^^ a2 ^^^ xtime a3]

/-- `MixColumns`. -/
def MixColumns (state : List Nat) : List Nat :=
  [0, 1, 2, 3].foldr
    (fun c acc =>
      mixColumn (state.getD (4 * c) 0) (state.getD (4 * c + 1) 0) (state.getD (4 * c + 2) 0)
        (state.getD (4 * c + 3) 0) ++ acc)
    []

/-- `AddRoundKey`. -/
def AddRoundKey (state roundKey : List Nat) : List Nat :=
  (List.range 16).map (fun i => state.getD i 0 ^^^ roundKey.getD i 0)

/-- The rounds after the initial `AddRoundKey`: full rounds, and the last one
without `MixColumns`. -/
def rounds : List (List Nat) → List Nat → List Nat
  | [], state => state
  | [last], state => AddRoundKey (ShiftRows (SubBytes state)) last
  | k :: ks, state => rounds ks (AddRoundKey (MixColumns (ShiftRows (SubBytes state))) k)

/-- `Cipher` of FIPS 197, over the list of round keys. -/
def Cipher (roundKeys : List (List Nat)) (input : List Nat) : List Nat :=
  match roundKeys with
  | [] => input
  | k0 :: ks => rounds ks (AddRoundKey input k0)

/-- The round constant `Rcon[j]`, `x^(j-1)` in GF(2^8). -/
def rcon (j : Nat) : Nat :=
  xtime^[j - 1] 1

/-- `RotWord`. -/
def RotWord (w : List Nat) : List Nat :=
  w.drop 1 ++ w.take 1

/-- `SubWord`. -/
def SubWord (w : List Nat) : List Nat :=
  w.map subByte

/-- The loop of `KeyExpansion`: `fuel` more words are appended to `w`, the
next one being `w[i]`. -/
def keyExpansionLoop (Nk : Nat) : Nat → Nat → List (List Nat) → List (List Nat)
  | 0, _, w => w
  | fuel + 1, i, w =>
    let temp := w.getD (i - 1) []
    let temp :=
      if i % Nk = 0 then
        List.zipWith (· ^^^ ·) (SubWord (RotWord temp)) [rcon (i / Nk), 0, 0, 0]
      else if Nk > 6 ∧ i % Nk = 4 then SubWord temp
      else temp
    keyExpansionLoop Nk fuel (i + 1) (w ++ [List.zipWith (· ^^^ ·) (w.getD (i - Nk) []) temp])

/-- `KeyExpansion`: the `Nr + 1` round keys of a key of `4 * Nk` bytes. -/
def KeyExpansion (key : List Nat) : List (List Nat) :=
  let Nk := key.length / 4
  let Nr := Nk + 6
  let w0 := (List.range Nk).map (fun i => (key.drop (4 * i)).take 4)
  let w := keyExpansionLoop Nk (4 * (Nr + 1) - Nk) Nk w0
  (List.range (Nr + 1)).map
    (fun r => w.getD (4 * r) [] ++ w.getD (4 * r + 1) [] ++ w.getD (4 * r + 2) []
      ++ w.getD (4 * r + 3) [])

/-- The value `aes.NewCipher` returns: a block cipher with its key schedule. -/
structure Block where
  roundKeys : List (List Nat)
  deriving DecidableEq, Repr

/-- Go's `aes.NewCipher`: a key of 16, 24 or 32 bytes, otherwise a
`KeySizeError`. -/
def NewCipher (key : List Nat) : Except String Block :=
  if key.length = 16 ∨ key.length = 24 ∨ key.length = 32 then
    .ok { roundKeys := KeyExpansion key }
  else .error ("crypto/aes: invalid key size " ++ toString key.length)

/-- The method `Encrypt` of the block: one block of 16 bytes. -/
def Block.Encrypt (c : Block) (src : List Nat) : List Nat :=
  Cipher c.roundKeys src

end aes

/-! ## Go standard library: `crypto/cipher`, GCM (NIST SP 800-38D) -/

namespace cipher

def gcmBlockSize : Nat := 16
def gcmTagSize : Nat := 16
def gcmStandardNonceSize : Nat := 12

/-- The text of `errOpen`. -/
def errOpen : String := "cipher: message authentication failed"

/-- The big-endian value of a byte string. -/
def beToNat (b : List Nat) : Nat :=
  b.foldl (fun acc x => acc * 256 + x) 0

/-- The big-endian byte string of length `len` of a number. -/
def natToBE (len n : Nat) : List Nat :=
  (List.range len).map (fun i => n / 256 ^ (len - 1 - i) % 256)

/-- Multiplication by `x` in GF(2^128) on a block held as its big-endian
value (bit 0 of the block, the coefficient of `x^0`, is the most significant):
a right shift, and `R = 11100001 || 0^120` added when a bit fell off. -/
def mulX (v : Nat) : Nat :=
  (v >>> 1) ^^^ (if v.testBit 0 then 0xe1 <<< 120 else 0)

/-- The loop of the multiplication of SP 800-38D, algorithm 1: `n` more bits of
`x`, the next one bit `i`, `z` the sum so far and `v` the current multiple. -/
def gfMulLoop (x : Nat) : Nat → Nat → Nat → Nat → Nat
  | 0, _, z, _ => z
  | n + 1, i, z, v =>
    gfMulLoop x n (i + 1) (if x.testBit (127 - i) then z ^^^ v else z) (mulX v)

/-- The product of two blocks in GF(2^128). -/
def gfMul (x y : Nat) : Nat :=
  gfMulLoop x 128 0 0 y

/-- The value `cipher.NewGCM` returns. -/
structure GCM where
  cipher : aes.Block
  nonceSize : Nat
  tagSize : Nat
  deriving DecidableEq, Repr

/-- Go's `cipher.NewGCM`: the standard nonce size and tag size; an error for a
block cipher whose block is not 128 bits. -/
def NewGCM (block : aes.Block) : Except String GCM :=
  if aes.BlockSize ≠ gcmBlockSize then .error "cipher: NewGCM requires 128-bit block cipher"
  else .ok { cipher := block, nonceSize := gcmStandardNonceSize, tagSize := gcmTagSize }

/-- The method `NonceSize`. -/
def GCM.NonceSize (g : GCM) : Nat :=
  g.nonceSize

/-- The hash subkey `H`: the encryption of the zero block. -/
def GCM.hashKey (g : GCM) : Nat :=
  beToNat (g.cipher.Encrypt (List.replicate 16 0))

/-- The blocks of `data` as `update` hashes them: 16 bytes each, the last one
padded with zeros on the right. -/
def blocksOf (data : List Nat) : List Nat :=
  (List.range ((data.length + 15) / 16)).map
    (fun i =>
      let blk := (data.drop (16 * i)).take 16
      beToNat (blk ++ List.replicate (16 - blk.length) 0))

/-- The method `update`: `y` after hashing `data`, block by block. -/
def GCM.update (g : GCM) (y : Nat) (data : List Nat) : Nat :=
  (blocksOf data).foldl (fun y x => gfMul (y ^^^ x) g.hashKey) y

/-- `gcmInc32`: the last four bytes of the counter block, as a big-endian
number, incremented modulo `2^32`. -/
def gcmInc32 (counterBlock : List Nat) : List Nat :=
  counterBlock.take 12 ++ natToBE 4 ((beToNat (counterBlock.drop 12) + 1) % 2 ^ 32)

/-- The method `deriveCounter`: the first counter block of a nonce. -/
def GCM.deriveCounter (g : GCM) (nonce : List Nat) : List Nat :=
  if nonce.length = gcmStandardNonceSize then nonce ++ [0, 0, 0, 1]
  else
    let y := g.update 0 nonce
    let y := y ^^^ (nonce.length * 8 % 2 ^ 64)
    natToBE 16 (gfMul y g.hashKey)

/-- The key stream of `counterCrypt`: the encryptions of `n` successive counter
blocks. -/
def keyStream (c : aes.Block) : Nat → List Nat → List Nat
  | 0, _ => []
  | n + 1, counter => c.Encrypt counter ++ keyStream c n (gcmInc32 counter)

/-- The method `counterCrypt`: `input` xor-ed with the key stream from
`counter` on. -/
def GCM.counterCrypt (g : GCM) (input counter : List Nat) : List Nat :=
  List.zipWith (· ^^^ ·) input (keyStream g.cipher ((input.length + 15) / 16) counter)

/-- The method `auth`: the GHASH of the additional data, the ciphertext and
their bit lengths, xor-ed with the tag mask. -/
def GCM.auth (g : GCM) (ciphertext additionalData tagMask : List Nat) : List Nat :=
  let y := g.update 0 additionalData
  let y := g.update y ciphertext
  let y := y ^^^ ((additionalData.length * 8 % 2 ^ 64) * 2 ^ 64 + ciphertext.length * 8 % 2 ^ 64)
  let y := gfMul y g.hashKey
  List.zipWith (· ^^^ ·) (natToBE 16 y) tagMask

/-- The method `Seal`: `dst` with the ciphertext and the tag appended. -/
def GCM.Seal (g : GCM) (dst nonce plaintext data : List Nat) : Outcome (List Nat) :=
  if nonce.length ≠ g.nonceSize then
    .panic "crypto/cipher: incorrect nonce length given to GCM"
  else if plaintext.length > (2 ^ 32 - 2) * gcmBlockSize then
    .panic "crypto/cipher: message too large for GCM"
  else
    let counter := g.deriveCounter nonce
    let tagMask := g.cipher.Encrypt counter
    let counter := gcmInc32 counter
    let out := g.counterCrypt plaintext counter
    let tag := g.auth out data tagMask
    .ok (dst ++ out ++ tag)

/-- The method `Open`: `dst` with the plaintext appended, or `errOpen`. -/
def GCM.Open (g : GCM) (dst nonce ciphertext data : List Nat) : Outcome (List Nat) :=
  if nonce.length ≠ g.nonceSize then
    .panic "crypto/cipher: incorrect nonce length given to GCM"
  else if ciphertext.length < g.tagSize then .error errOpen
  else if ciphertext.length > (2 ^ 32 - 2) * gcmBlockSize + g.tagSize then .error errOpen
  else
    let tag := ciphertext.drop (ciphertext.length - g.tagSize)
    let ciphertext := ciphertext.take (ciphertext.length - g.tagSize)
    let counter := g.deriveCounter nonce
    let tagMask := g.cipher.Encrypt counter
    let counter := gcmInc32 counter
    let expectedTag := g.auth ciphertext data tagMask
    if expectedTag ≠ tag then .error errOpen
    else .ok (dst ++ g.counterCrypt ciphertext counter)

end cipher

/-! ## `src/utilities/CryptionHelper.go` -/

/-- `getEncryptionKey`: the bytes of `ENCRYPTION_KEY`. -/
def getEncryptionKey : List Nat :=
  stringBytes ENCRYPTION_KEY

/-- The buffer `make([]byte, n)` after `io.ReadFull` has filled it with the
bytes the reader supplied. -/
def readFull (n : Nat) (supplied : List Nat) : List Nat :=
  (List.range n).map (fun i => supplied.getD i 0 % 256)

/-- Go's slice expression `s[:high]`; out of range is a run-time panic
(`none`). -/
def sliceTo {α : Type} (s : List α) (high : Nat) : Option (List α) :=
  if high ≤ s.length then some (s.take high) else none

/-- `EncryptData`. The argument `randomBytes` is the result of reading the
nonce from `rand.Reader`: an error, or the bytes read. -/
def EncryptData (randomBytes : Except String (List Nat)) (binaryData : List Nat) :
    Outcome (List Nat) :=
  match aes.NewCipher getEncryptionKey with
  | .error err => .error err
  | .ok block =>
  match cipher.NewGCM block with
  | .error err => .error err
  | .ok gcm =>
  match randomBytes with
  | .error err => .error err
  | .ok supplied =>
    let nonce := readFull gcm.NonceSize supplied
    gcm.Seal nonce nonce binaryData []

/-- `DecryptData`. -/
def DecryptData (encryptedData : List Nat) : Outcome (List Nat) :=
  match aes.NewCipher getEncryptionKey with
  | .error err => .error err
  | .ok block =>
  match cipher.NewGCM block with
  | .error err => .error err
  | .ok gcm =>
  let nonceSize := gcm.NonceSize
  if encryptedData.length < nonceSize then .error "encrypted data is too short"
  else
    match sliceTo encryptedData nonceSize, sliceFrom encryptedData nonceSize with
    | some nonce, some ciphertext => gcm.Open [] nonce ciphertext []
    | _, _ => .panic "slice bounds out of range"

/-! ## Specification-side definitions -/

/-- Follows the specification's words, "decimal representation of an integer":
the value of a string of decimal digits, most significant first, from `n`. -/
def decimalDigitsValue (ds : List Char) (n : Nat) : Nat :=
  ds.foldl (fun acc c => acc * 10 + (c.toNat - 48)) n

/-- Whether every character is one of `0` to `9`. -/
def allDecimalDigits (ds : List Char) : Bool :=
  ds.all (fun c => 48 ≤ c.toNat ∧ c.toNat ≤ 57)

/-- Follows the specification's words: the integer a string is a decimal
representation of (an optional sign, then one or more decimal digits), `none`
when it is not one. -/
def decimalValue (s : String) : Option Int :=
  match s.data with
  | '+' :: ds => if ds ≠ [] ∧ allDecimalDigits ds then some (decimalDigitsValue ds 0) else none
  | '-' :: ds =>
    if ds ≠ [] ∧ allDecimalDigits ds then some (-(decimalDigitsValue ds 0 : Int)) else none
  | ds => if ds ≠ [] ∧ allDecimalDigits ds then some (decimalDigitsValue ds 0) else none

/-- Follows the specification's words, "within the integer range": the range of
Go's 64-bit `int`. -/
def inIntRange (n : Int) : Prop :=
  -2 ^ 63 ≤ n ∧ n < 2 ^ 63

instance (n : Int) : Decidable (inIntRange n) :=
  inferInstanceAs (Decidable (-2 ^ 63 ≤ n ∧ n < 2 ^ 63))

/-- Follows the specification's words: the text after the last occurrence of
`c` in `s`, `none` when `c` does not occur. -/
def afterLast (c : Char) : List Char → Option (List Char)
  | [] => none
  | x :: xs =>
    match afterLast c xs with
    | some r => some r
    | none => if x = c then some xs else none

/-- Follows the specification's words: the final element of a path, the text
after its last separator (the whole path when it has none). -/
def finalElement (path : List Char) : List Char :=
  (afterLast '/' path).getD path

/-- Follows the specification's words: "the final element's extension (the text
after its last dot)", `none` when the final element has no dot. -/
def extensionText (path : List Char) : Option (List Char) :=
  afterLast '.' (finalElement path)

/-- Follows the specification's words: the extension "after deleting newline
characters and trimming surrounding whitespace". -/
def cleanedExtension (path : String) : Option String :=
  (extensionText path.data).map
    (fun e => ⟨strings.TrimSpace (e.filter (fun c => c ≠ '\n'))⟩)

/-- The ten supported extensions the specification lists. -/
def supportedExtensions : List String :=
  ["txt", "pdf", "tiff", "tif", "jpeg", "jpg", "png", "doc", "docx", "odt"]

/-- A remote side for the examples: the state counts the calls it has
received, `CreateContact` answers 11, `CreateDocumentRecord` fails with the
error of a 500 response, and the later operations would succeed. -/
def documentFailureOps : ICTOperations Nat where
  CreateContact := fun _ _ _ n => (.ok 11, n + 1)
  CreateDocumentRecord := fun _ _ _ n =>
    (.error "CreateDocumentRecord API call failed with status code: 500", n + 1)
  UploadDocumentFile := fun _ _ _ _ _ n => (.ok (), n + 1)
  CreateProgram := fun _ _ _ n => (.ok 22, n + 1)
  CreateTransmission := fun _ _ _ _ _ _ n => (.ok 33, n + 1)
  SendTransmission := fun _ _ _ n => (.ok (), n + 1)

/-- A fax record for the examples, with title `title` and print flag
`isPrint`. -/
def sampleFax (title isPrint : String) : FaxResponse :=
  { DateTime := "1700000000", Title := title, DestinationFax := "100", CallerID := "200",
    Status := "done", Is_Print := isPrint, DateTimeParsed := Time.unix 1700000000 }

/-- The specification's example list: three print-flagged records and two
unflagged ones. -/
def sampleFaxes : List FaxResponse :=
  [sampleFax "a" "1", sampleFax "b" "0", sampleFax "c" "1", sampleFax "d" "1",
   sampleFax "e" "0"]

/-- An environment for the examples in which the settings load, the
authentication and the fetch of the transmissions succeed, the fetch with
`sampleFaxes`. -/
def sampleEnv : DirectCallsEnv where
  loadUserDataFromFile := .ok ⟨"user", "pw", "http://host"⟩
  AuthenticateICT := fun _ => .ok ⟨"token", "A", "B", "a@b.c", "100", "IR", "ICT"⟩
  TransmissionsICT := fun _ _ => .ok sampleFaxes

/-- The GCM instance `EncryptData` and `DecryptData` construct from the
encryption key. -/
def settingsGCM : cipher.GCM :=
  { cipher := { roundKeys := aes.KeyExpansion getEncryptionKey }
    nonceSize := cipher.gcmStandardNonceSize
    tagSize := cipher.gcmTagSize }

/-- The byte sequence `c` with bit `k` flipped: bit `k % 8` of byte `k / 8`. -/
def flipBit (c : List Nat) (k : Nat) : List Nat :=
  c.set (k / 8) (c.getD (k / 8) 0 ^^^ 2 ^ (k % 8))

namespace aes

/-- The inverse S-box of FIPS 197, figure 14. -/
def invSbox : List Nat :=
  [
   0x52, 0x09, 0x6a, 0xd5, 0x30, 0x36, 0xa5, 0x38, 0xbf, 0x40, 0xa3, 0x9e, 0x81, 0xf3, 0xd7, 0xfb,
   0x7c, 0xe3, 0x39, 0x82, 0x9b, 0x2f, 0xff, 0x87, 0x34, 0x8e, 0x43, 0x44, 0xc4, 0xde, 0xe9, 0xcb,
   0x54, 0x7b, 0x94, 0x32, 0xa6, 0xc2, 0x23, 0x3d, 0xee, 0x4c, 0x95, 0x0b, 0x42, 0xfa, 0xc3, 0x4e,
   0x08, 0x2e, 0xa1, 0x66, 0x28, 0xd9, 0x24, 0xb2, 0x76, 0x5b, 0xa2, 0x49, 0x6d, 0x8b, 0xd1, 0x25,
   0x72, 0xf8, 0xf6, 0x64, 0x86, 0x68, 0x98, 0x16, 0xd4, 0xa4, 0x5c, 0xcc, 0x5d, 0x65, 0xb6, 0x92,
   0x6c, 0x70, 0x48, 0x50, 0xfd, 0xed, 0xb9, 0xda, 0x5e, 0x15, 0x46, 0x57, 0xa7, 0x8d, 0x9d, 0x84,
   0x90, 0xd8, 0xab, 0x00, 0x8c, 0xbc, 0xd3, 0x0a, 0xf7, 0xe4, 0x58, 0x05, 0xb8, 0xb3, 0x45, 0x06,
   0xd0, 0x2c, 0x1e, 0x8f, 0xca, 0x3f, 0x0f, 0x02, 0xc1, 0xaf, 0xbd, 0x03, 0x01, 0x13, 0x8a, 0x6b,
   0x3a, 0x91, 0x11, 0x41, 0x4f, 0x67, 0xdc, 0xea, 0x97, 0xf2, 0xcf, 0xce, 0xf0, 0xb4, 0xe6, 0x73,
   0x96, 0xac, 0x74, 0x22, 0xe7, 0xad, 0x35, 0x85, 0xe2, 0xf9, 0x37, 0xe8, 0x1c, 0x75, 0xdf, 0x6e,
   0x47, 0xf1, 0x1a, 0x71, 0x1d, 0x29, 0xc5, 0x89, 0x6f, 0xb7, 0x62, 0x0e, 0xaa, 0x18, 0xbe, 0x1b,
   0xfc, 0x56, 0x3e, 0x4b, 0xc6, 0xd2, 0x79, 0x20, 0x9a, 0xdb, 0xc0, 0xfe, 0x78, 0xcd, 0x5a, 0xf4,
   0x1f, 0xdd, 0xa8, 0x33, 0x88, 0x07, 0xc7, 0x31, 0xb1, 0x12, 0x10, 0x59, 0x27, 0x80, 0xec, 0x5f,
   0x60, 0x51, 0x7f, 0xa9, 0x19, 0xb5, 0x4a, 0x0d, 0x2d, 0xe5, 0x7a, 0x9f, 0x93, 0xc9, 0x9c, 0xef,
   0xa0, 0xe0, 0x3b, 0x4d, 0xae, 0x2a, 0xf5, 0xb0, 0xc8, 0xeb, 0xbb, 0x3c, 0x83, 0x53, 0x99, 0x61,
   0x17, 0x2b, 0x04, 0x7e, 0xba, 0x77, 0xd6, 0x26, 0xe1, 0x69, 0x14, 0x63, 0x55, 0x21, 0x0c, 0x7d]

/-- Inverse substitution of one byte. -/
def invSubByte (b : Nat) : Nat :=
  invSbox.getD b 0

/-- A state of the cipher: 16 bytes. -/
def IsState (state : List Nat) : Prop :=
  state.length = 16 ∧ Bytes state

end aes

/-! ## Go standard library: `strconv.Itoa` -/

namespace strconv

/-- The loop of `formatBits` for base 10: the digits of `u` are written in
front of `acc`, least significant first. -/
def formatBitsLoop : Nat → Nat → List Char → List Char
  | 0, _, acc => acc
  | fuel + 1, u, acc =>
    if 10 ≤ u then formatBitsLoop fuel (u / 10) (Char.ofNat (48 + u % 10) :: acc)
    else Char.ofNat (48 + u) :: acc

/-- `strconv.FormatInt(i, 10)`. -/
def FormatInt (i : Int) : String :=
  if i < 0 then String.mk ('-' :: formatBitsLoop (i.natAbs + 1) i.natAbs [])
  else String.mk (formatBitsLoop (i.natAbs + 1) i.natAbs [])

/-- `strconv.Itoa`, which is also what the verb `%d` of `fmt` writes for an
`int`. -/
def Itoa (i : Int) : String :=
  FormatInt i

end strconv

/-! ## Go standard library: `encoding/json`

The encoder for records of strings and integers, and the decoder into a record
of strings. Bytes are written as numbers: `0x22` is the double quote, `0x5C`
the backslash, `0x7B` and `0x7D` the braces, `0x5B` and `0x5D` the brackets,
`0x3A` the colon, `0x2C` the comma. -/

namespace json

/-- The digit `hex[n]` of `"0123456789abcdef"`, as a byte. -/
def hex (n : Nat) : Nat :=
  if n < 10 then 0x30 + n else 0x57 + n

/-- The table `htmlSafeSet`: the ASCII bytes that are written as they are,
which is every byte from the space on except the double quote, the backslash
and `<`, `>`, `&`. -/
def htmlSafeSet (b : Nat) : Bool :=
  decide (0x20 ≤ b ∧ b < 0x80 ∧ b ≠ 0x22 ∧ b ≠ 0x5C ∧ b ≠ 0x3C ∧ b ≠ 0x3E ∧ b ≠ 0x26)

/-- What `appendString` (with `escapeHTML`) writes for one rune of a string
that is valid UTF-8. -/
def appendRune (c : Char) : List Nat :=
  let b := c.toNat
  if b < utf8.RuneSelf then
    if htmlSafeSet b then [b]
    else if b = 0x5C ∨ b = 0x22 then [0x5C, b]
    else if b = 0x08 then [0x5C, 0x62]
    else if b = 0x0C then [0x5C, 0x66]
    else if b = 0x0A then [0x5C, 0x6E]
    else if b = 0x0D then [0x5C, 0x72]
    else if b = 0x09 then [0x5C, 0x74]
    else [0x5C, 0x75, 0x30, 0x30, hex (b / 16), hex (b % 16)]
  else if b = 0x2028 ∨ b = 0x2029 then [0x5C, 0x75, 0x32, 0x30, 0x32, hex (b % 16)]
  else utf8.EncodeRune b

/-- The loop of `appendString` (with `escapeHTML`) over the bytes that are
left: an ASCII byte is copied or escaped; from any other byte on a rune is
decoded, a byte that starts no valid UTF-8 sequence is written as the escape
`\ufffd`, the runes U+2028 and U+2029 are escaped, and the bytes of any other
rune are copied. -/
def appendStringLoop : Nat → List Nat → List Nat
  | 0, _ => []
  | _ + 1, [] => []
  | fuel + 1, b :: rest =>
    if b < utf8.RuneSelf then
      (if htmlSafeSet b then [b]
       else if b = 0x5C ∨ b = 0x22 then [0x5C, b]
       else if b = 0x08 then [0x5C, 0x62]
       else if b = 0x0C then [0x5C, 0x66]
       else if b = 0x0A then [0x5C, 0x6E]
       else if b = 0x0D then [0x5C, 0x72]
       else if b = 0x09 then [0x5C, 0x74]
       else [0x5C, 0x75, 0x30, 0x30, hex (b / 16), hex (b % 16)]) ++
        appendStringLoop fuel rest
    else
      let c := (utf8.DecodeRune (b :: rest)).1
      let size := (utf8.DecodeRune (b :: rest)).2
      if c = utf8.RuneError ∧ size = 1 then
        [0x5C, 0x75, 0x66, 0x66, 0x66, 0x64] ++ appendStringLoop fuel rest
      else if c = 0x2028 ∨ c = 0x2029 then
        [0x5C, 0x75, 0x32, 0x30, 0x32, hex (c % 16)] ++
          appendStringLoop fuel ((b :: rest).drop size)
      else (b :: rest).take size ++ appendStringLoop fuel ((b :: rest).drop size)

/-- `appendString`: the quoted JSON text of a Go string. -/
def appendString (src : GoString) : List Nat :=
  [0x22] ++ appendStringLoop src.bytes.length src.bytes ++ [0x22]

/-- The value of a field of the records the program marshals. -/
inductive Field where
  | string (s : GoString)
  | int (i : Int)

/-- The encoding of one field value. -/
def appendField : Field → List Nat
  | .string s => appendString s
  | .int i => bytesOfString (strconv.Itoa i)

/-- The members `"name":value` of an object, separated by commas. -/
def appendMembers : List (String × Field) → List Nat
  | [] => []
  | [(name, v)] => appendString name ++ [0x3A] ++ appendField v
  | (name, v) :: rest =>
    appendString name ++ [0x3A] ++ appendField v ++ [0x2C] ++ appendMembers rest

/-- The encoding of a struct, or of a map with its keys in sorted order. -/
def marshalObject (members : List (String × Field)) : List Nat :=
  [0x7B] ++ appendMembers members ++ [0x7D]

/-- `json.Marshal` of a `UserData`; it has no failing case. -/
def MarshalUserData (v : UserData) : Except String (List Nat) :=
  .ok (marshalObject
    [("username", .string v.Username), ("password", .string v.Password),
     ("host", .string v.Hostname)])

/-- `json.Marshal` of a `Contact`. -/
def MarshalContact (v : Contact) : Except String (List Nat) :=
  .ok (marshalObject
    [("first_name", .string v.FirstName), ("last_name", .string v.LastName),
     ("email", .string v.Email), ("phone", .string v.Phone),
     ("address", .string v.Address), ("custom1", .string v.Custom1),
     ("custom2", .string v.Custom2), ("custom3", .string v.Custom3),
     ("description", .string v.Description)])

/-- `json.Marshal` of a `DocumentRecord`. -/
def MarshalDocumentRecord (v : DocumentRecord) : Except String (List Nat) :=
  .ok (marshalObject [("name", .string v.Title), ("description", .string v.Description)])

/-- `json.Marshal` of a `ConvertedTransmission`. -/
def MarshalConvertedTransmission (v : ConvertedTransmission) : Except String (List Nat) :=
  .ok (marshalObject
    [("title", .string v.Title), ("contact_id", .int v.ContactID),
     ("account_id", .int v.AccountID), ("program_id", .int v.ProgramID),
     ("is_print", .int v.IsPrint), ("is_coverpage", .int v.IsCoverPage),
     ("try_allowed", .int v.TryAllowed)])

/-- `json.Marshal(map[string]int{"document_id": documentID})`. -/
def MarshalDocumentID (documentID : Int) : Except String (List Nat) :=
  .ok (marshalObject [("document_id", .int documentID)])

/-- The scanner's `isSpace`: space, tab, carriage return, line feed. -/
def isSpace (c : Nat) : Bool :=
  decide (c = 0x20 ∨ c = 0x09 ∨ c = 0x0D ∨ c = 0x0A)

/-- The input after its leading white space. -/
def skipSpace : List Nat → List Nat
  | [] => []
  | c :: rest => if isSpace c then skipSpace rest else c :: rest

/-- The value of a hexadecimal digit. -/
def unhex (c : Nat) : Option Nat :=
  if 0x30 ≤ c ∧ c ≤ 0x39 then some (c - 0x30)
  else if 0x61 ≤ c ∧ c ≤ 0x66 then some (c - 0x61 + 10)
  else if 0x41 ≤ c ∧ c ≤ 0x46 then some (c - 0x41 + 10)
  else none

/-- The four hexadecimal digits of an escape `\uXXXX`, read after the `\u`:
their value and the input behind them. -/
def getu4 (s : List Nat) : Option (Nat × List Nat) :=
  match s with
  | a :: b :: c :: d :: rest =>
    match unhex a, unhex b, unhex c, unhex d with
    | some a, some b, some c, some d => some (a * 4096 + b * 256 + c * 16 + d, rest)
    | _, _, _, _ => none
  | _ => none

/-- The escape `\uXXXX` at the head of the input, if there is one. -/
def getEscape (s : List Nat) : Option (Nat × List Nat) :=
  match s with
  | a :: b :: rest => if a = 0x5C ∧ b = 0x75 then getu4 rest else none
  | _ => none

/-- Puts a decoded rune in front of the rest of a string. -/
def consRune (r : Nat) (x : Option (List Char × List Nat)) : Option (List Char × List Nat) :=
  x.map (fun p => (Char.ofNat r :: p.1, p.2))

/-- A string literal from behind its opening quote: the scanner's check of
the literal together with `unquote`. The result is the text of the literal
and the input behind the closing quote; `none` is a syntax error (a control
character, an unknown escape, or no closing quote). An escaped surrogate
without its partner, and a byte sequence that is not UTF-8, read as
U+FFFD. -/
def unquoteLoop : Nat → List Nat → Option (List Char × List Nat)
  | 0, _ => none
  | fuel + 1, s =>
    match s with
    | [] => none
    | c :: rest =>
      if c = 0x22 then some ([], rest)
      else if c = 0x5C then
        match rest with
        | [] => none
        | e :: rest1 =>
          if e = 0x22 ∨ e = 0x5C ∨ e = 0x2F then consRune e (unquoteLoop fuel rest1)
          else if e = 0x62 then consRune 0x08 (unquoteLoop fuel rest1)
          else if e = 0x66 then consRune 0x0C (unquoteLoop fuel rest1)
          else if e = 0x6E then consRune 0x0A (unquoteLoop fuel rest1)
          else if e = 0x72 then consRune 0x0D (unquoteLoop fuel rest1)
          else if e = 0x74 then consRune 0x09 (unquoteLoop fuel rest1)
          else if e = 0x75 then
            match getu4 rest1 with
            | none => none
            | some (rr, rest2) =>
              if 0xD800 ≤ rr ∧ rr < 0xE000 then
                match getEscape rest2 with
                | none => consRune utf8.RuneError (unquoteLoop fuel rest2)
                | some (rr1, rest4) =>
                  if rr < 0xDC00 ∧ 0xDC00 ≤ rr1 ∧ rr1 < 0xE000 then
                    consRune ((rr - 0xD800) * 1024 + (rr1 - 0xDC00) + 0x10000)
                      (unquoteLoop fuel rest4)
                  else consRune utf8.RuneError (unquoteLoop fuel rest2)
              else consRune rr (unquoteLoop fuel rest2)
          else none
      else if c < 0x20 then none
      else if c < utf8.RuneSelf then consRune c (unquoteLoop fuel rest)
      else consRune (utf8.DecodeRune s).1 (unquoteLoop fuel (s.drop (utf8.DecodeRune s).2))

/-- A string literal from behind its opening quote. -/
def unquote (s : List Nat) : Option (List Char × List Nat) :=
  unquoteLoop s.length s

/-- Whether the byte is a decimal digit. -/
def isDigit (c : Nat) : Bool :=
  decide (0x30 ≤ c ∧ c ≤ 0x39)

/-- The input after its leading decimal digits. -/
def dropDigits : List Nat → List Nat
  | [] => []
  | c :: rest => if isDigit c then dropDigits rest else c :: rest

/-- The optional exponent of a number. -/
def skipExponent (s : List Nat) : Option (List Nat) :=
  match s with
  | [] => some s
  | c :: rest =>
    if c = 0x65 ∨ c = 0x45 then
      let digits :=
        match rest with
        | [] => rest
        | d :: r => if d = 0x2B ∨ d = 0x2D then r else rest
      match digits with
      | [] => none
      | d :: r => if isDigit d then some (dropDigits r) else none
    else some s

/-- The optional fraction of a number, and its exponent. -/
def skipFraction (s : List Nat) : Option (List Nat) :=
  match s with
  | [] => some s
  | c :: rest =>
    if c = 0x2E then
      match rest with
      | [] => none
      | d :: r => if isDigit d then skipExponent (dropDigits r) else none
    else skipExponent s

/-- A number literal: the input behind it, `none` when the input does not
start with a number. -/
def skipNumber (s : List Nat) : Option (List Nat) :=
  let digits :=
    match s with
    | [] => s
    | c :: rest => if c = 0x2D then rest else s
  match digits with
  | [] => none
  | d :: r =>
    if d = 0x30 then skipFraction r
    else if isDigit d then skipFraction (dropDigits r)
    else none

/-- The input behind the literal `lit`, `none` when the input does not start
with it. -/
def stripLiteral : List Nat → List Nat → Option (List Nat)
  | [], s => some s
  | _ :: _, [] => none
  | l :: lit, c :: rest => if l = c then stripLiteral lit rest else none

/-- The bytes of `true`, `false` and `null`. -/
def trueLiteral : List Nat := [0x74, 0x72, 0x75, 0x65]
def falseLiteral : List Nat := [0x66, 0x61, 0x6C, 0x73, 0x65]
def nullLiteral : List Nat := [0x6E, 0x75, 0x6C, 0x6C]

/-- The scanner refuses input nested deeper than this. -/
def maxNestingDepth : Nat := 10000

mutual

/-- One JSON value at the head of the input, checked as the scanner checks it
and skipped: the input behind it, `none` for a syntax error. `depth` counts
the arrays and objects the value lies in. -/
def skipValue : Nat → Nat → List Nat → Option (List Nat)
  | 0, _, _ => none
  | fuel + 1, depth, s =>
    match s with
    | [] => none
    | c :: rest =>
      if c = 0x22 then (unquote rest).map (fun r => r.2)
      else if c = 0x7B then
        if maxNestingDepth < depth + 1 then none
        else
          match skipSpace rest with
          | [] => none
          | d :: r => if d = 0x7D then some r else skipMembers fuel (depth + 1) (d :: r)
      else if c = 0x5B then
        if maxNestingDepth < depth + 1 then none
        else
          match skipSpace rest with
          | [] => none
          | d :: r => if d = 0x5D then some r else skipElements fuel (depth + 1) (d :: r)
      else if c = 0x74 then stripLiteral trueLiteral s
      else if c = 0x66 then stripLiteral falseLiteral s
      else if c = 0x6E then stripLiteral nullLiteral s
      else skipNumber s

/-- The members of an object from its first key on, up to the closing
brace. -/
def skipMembers : Nat → Nat → List Nat → Option (List Nat)
  | 0, _, _ => none
  | fuel + 1, depth, s =>
    match s with
    | [] => none
    | c :: rest =>
      if c = 0x22 then
        match unquote rest with
        | none => none
        | some (_, r1) =>
          match skipSpace r1 with
          | [] => none
          | colon :: r2 =>
            if colon = 0x3A then
              match skipValue fuel depth (skipSpace r2) with
              | none => none
              | some r3 =>
                match skipSpace r3 with
                | [] => none
                | d :: r4 =>
                  if d = 0x2C then skipMembers fuel depth (skipSpace r4)
                  else if d = 0x7D then some r4
                  else none
            else none
      else none

/-- The elements of an array from its first element on, up to the closing
bracket. -/
def skipElements : Nat → Nat → List Nat → Option (List Nat)
  | 0, _, _ => none
  | fuel + 1, depth, s =>
    match skipValue fuel depth s with
    | none => none
    | some r1 =>
      match skipSpace r1 with
      | [] => none
      | d :: r2 =>
        if d = 0x2C then skipElements fuel depth (skipSpace r2)
        else if d = 0x5D then some r2
        else none

end

/-- The value of a member of an object that is decoded into a record of
strings: a string, `null`, or a value of another kind. -/
inductive Member where
  | string (s : String)
  | null
  | other (kind : String)
  deriving DecidableEq, Repr

/-- The kind of the value that starts with byte `c` and is neither a string
nor `null`, as `UnmarshalTypeError` names it. -/
def kindOf (c : Nat) : String :=
  if c = 0x7B then "object"
  else if c = 0x5B then "array"
  else if c = 0x74 ∨ c = 0x66 then "bool"
  else "number"

/-- The value of a member at the head of the input. -/
def memberValue (s : List Nat) : Option (Member × List Nat) :=
  match s with
  | [] => none
  | c :: rest =>
    if c = 0x22 then (unquote rest).map (fun r => (Member.string (String.mk r.1), r.2))
    else if c = 0x6E then (stripLiteral nullLiteral s).map (fun r => (Member.null, r))
    else (skipValue (s.length + 1) 1 s).map (fun r => (Member.other (kindOf c), r))

/-- The members of the outermost object from its first key on, up to the
closing brace: keys and values in the order of the input. -/
def objectMembers : Nat → List Nat → Option (List (String × Member) × List Nat)
  | 0, _ => none
  | fuel + 1, s =>
    match s with
    | [] => none
    | c :: rest =>
      if c = 0x22 then
        match unquote rest with
        | none => none
        | some (key, r1) =>
          match skipSpace r1 with
          | [] => none
          | colon :: r2 =>
            if colon = 0x3A then
              match memberValue (skipSpace r2) with
              | none => none
              | some (m, r3) =>
                match skipSpace r3 with
                | [] => none
                | d :: r4 =>
                  if d = 0x2C then
                    (objectMembers fuel (skipSpace r4)).map
                      (fun r => ((String.mk key, m) :: r.1, r.2))
                  else if d = 0x7D then some ([(String.mk key, m)], r4)
                  else none
            else none
      else none

/-- The first value of an input, as far as decoding into a record needs it:
an object with its members, `null`, or a value of another kind. -/
inductive Top where
  | object (members : List (String × Member))
  | null
  | other (kind : String)
  deriving DecidableEq, Repr

/-- The first JSON value of the input (behind leading white space) and the
input behind it; `none` for a syntax error or when there is no value. -/
def firstValue (data : List Nat) : Option (Top × List Nat) :=
  match skipSpace data with
  | [] => none
  | c :: rest =>
    if c = 0x7B then
      match skipSpace rest with
      | [] => none
      | d :: r =>
        if d = 0x7D then some (Top.object [], r)
        else (objectMembers (rest.length + 1) (d :: r)).map (fun x => (Top.object x.1, x.2))
    else if c = 0x22 then (unquote rest).map (fun r => (Top.other "string", r.2))
    else if c = 0x6E then (stripLiteral nullLiteral (c :: rest)).map (fun r => (Top.null, r))
    else (skipValue (rest.length + 2) 0 (c :: rest)).map (fun r => (Top.other (kindOf c), r))

/-- The error of a syntactically invalid input. The texts of the decoder's
errors are not modelled in detail. -/
def errSyntaxText : String := "json: invalid input"

/-- `checkValid` for `json.Unmarshal`: the whole input is one JSON value with
white space around it. -/
def checkValid (data : List Nat) : Option Top :=
  match firstValue data with
  | none => none
  | some (top, rest) => if skipSpace rest = [] then some top else none

/-- The folding of one rune of a name: letters `a` to `z` to upper case, and
the two runes outside ASCII that fold to an ASCII letter, U+017F to `S` and
U+212A to `K`. Every other rune folds to a rune outside ASCII and is left as
it is. -/
def foldRune (c : Char) : Char :=
  if 0x61 ≤ c.toNat ∧ c.toNat ≤ 0x7A then Char.ofNat (c.toNat - 0x20)
  else if c.toNat = 0x17F then Char.ofNat 0x53
  else if c.toNat = 0x212A then Char.ofNat 0x4B
  else c

/-- `foldName`: the name with every rune folded. -/
def foldName (name : String) : List Char :=
  name.data.map foldRune

/-- The index of the first name that satisfies `p`, counted from `i`. -/
def findName (p : String → Bool) : List String → Nat → Option Nat
  | [], _ => none
  | n :: rest, i => if p n then some i else findName p rest (i + 1)

/-- The field a key is decoded into: the field with exactly that name, else
the first whose folded name equals the folded key. -/
def fieldIndex (names : List String) (key : String) : Option Nat :=
  match findName (fun n => decide (n = key)) names 0 with
  | some i => some i
  | none => findName (fun n => decide (foldName n = foldName key)) names 0

/-- The decoding of the members of an object into a record of strings with
the field names `names`: a string is stored in its field, `null` and a key
that names no field change nothing, and a value of another kind for a field
leaves the field and is remembered as an `UnmarshalTypeError` (the first one
is kept) while decoding goes on. -/
def assignMembers {α : Type} (names : List String) (set : Nat → String → α → α)
    (typeName : String) : List (String × Member) → α × Option String → α × Option String
  | [], acc => acc
  | (key, m) :: rest, (v, err) =>
    match fieldIndex names key with
    | none => assignMembers names set typeName rest (v, err)
    | some i =>
      match m with
      | .string s => assignMembers names set typeName rest (set i s v, err)
      | .null => assignMembers names set typeName rest (v, err)
      | .other kind =>
        assignMembers names set typeName rest
          (v, match err with
              | some e => some e
              | none =>
                some ("json: cannot unmarshal " ++ kind ++ " into Go struct field " ++
                  typeName ++ "." ++ key ++ " of type string"))

/-- The JSON names of the fields of `UserData`. -/
def userDataFields : List String := ["username", "password", "host"]

/-- Storing a string in the field of `UserData` with the given index. -/
def setUserDataField (i : Nat) (s : String) (v : UserData) : UserData :=
  match i with
  | 0 => { v with Username := s }
  | 1 => { v with Password := s }
  | _ => { v with Hostname := s }

/-- The JSON names of the fields of `AuthResponse`. -/
def authResponseFields : List String :=
  ["token", "first_name", "last_name", "email", "phone", "country", "company"]

/-- Storing a string in the field of `AuthResponse` with the given index. -/
def setAuthResponseField (i : Nat) (s : String) (v : AuthResponse) : AuthResponse :=
  match i with
  | 0 => { v with Token := s }
  | 1 => { v with FirstName := s }
  | 2 => { v with LastName := s }
  | 3 => { v with Email := s }
  | 4 => { v with Phone := s }
  | 5 => { v with Country := s }
  | _ => { v with Company := s }

/-- `json.Unmarshal(data, &userData)` for `var userData *UserData`: the
pointer after the call (`none` is `nil`), or the error. An object is decoded
into a new `UserData`; the value `null` leaves the pointer `nil` without an
error; any other value is an `UnmarshalTypeError`. -/
def UnmarshalUserData (data : List Nat) : Except String (Option UserData) :=
  match checkValid data with
  | none => .error errSyntaxText
  | some .null => .ok none
  | some (.other kind) =>
    .error ("json: cannot unmarshal " ++ kind ++ " into Go value of type api.UserData")
  | some (.object members) =>
    match assignMembers userDataFields setUserDataField "UserData" members
        ({ Username := "", Password := "", Hostname := "" }, none) with
    | (_, some err) => .error err
    | (v, none) => .ok (some v)

/-- `json.NewDecoder(body).Decode(&authResponse)` for `var authResponse
AuthResponse`: the variable after the call, or the error. The decoder reads
the first JSON value of the stream and leaves what follows it unread. -/
def DecodeAuthResponse (body : List Nat) : Except String AuthResponse :=
  let zeroValue : AuthResponse :=
    { Token := "", FirstName := "", LastName := "", Email := "", Phone := "",
      Country := "", Company := "" }
  match firstValue body with
  | none => .error errSyntaxText
  | some (.null, _) => .ok zeroValue
  | some (.other kind, _) =>
    .error ("json: cannot unmarshal " ++ kind ++ " into Go value of type api.AuthResponse")
  | some (.object members, _) =>
    match assignMembers authResponseFields setAuthResponseField "AuthResponse" members
        (zeroValue, none) with
    | (_, some err) => .error err
    | (v, none) => .ok v

end json

/-! ## The settings file as explicit state

`utilities.GetSystemSettingsPath` names one fixed file. The state is what the
file system holds at that path, together with what the operating system
answers to a process that writes or removes the file. -/

/-- The state of the settings file: its content, or `none` when the file does
not exist; the error of writing the file, and the error of removing it, or
`none` when the operating system allows the operation. -/
structure SettingsFile where
  content : Option (List Nat)
  writeError : Option String
  removeError : Option String
  deriving DecidableEq, Repr

namespace os

/-- The error of `os.Stat` on the settings path. -/
inductive StatError where
  | notExist
  deriving DecidableEq, Repr

/-- `os.Stat(settingsFilePath)`, its error only: the call fails exactly when
the file does not exist. -/
def Stat (fs : SettingsFile) : Option StatError :=
  match fs.content with
  | none => some StatError.notExist
  | some _ => none

/-- `os.IsNotExist(err)`. -/
def IsNotExist (err : Option StatError) : Bool :=
  match err with
  | some StatError.notExist => true
  | none => false

/-- `os.ReadFile(settingsFilePath)`. -/
def ReadFile (fs : SettingsFile) : Except String (List Nat) :=
  match fs.content with
  | none => .error "open settings.bin: no such file or directory"
  | some data => .ok data

/-- `os.WriteFile(settingsFilePath, data, 0644)`: the error and the state
after the call. A refused write leaves the file as it was. -/
def WriteFile (data : List Nat) (fs : SettingsFile) : Option String × SettingsFile :=
  match fs.writeError with
  | some err => (some err, fs)
  | none => (none, { fs with content := some data })

/-- `os.Remove(settingsFilePath)`: the error and the state after the call. -/
def Remove (fs : SettingsFile) : Option String × SettingsFile :=
  match fs.content with
  | none => (some "remove settings.bin: no such file or directory", fs)
  | some _ =>
    match fs.removeError with
    | some err => (some err, fs)
    | none => (none, { fs with content := none })

end os

/-- `utilities.CheckIfFileExists(settingsFilePath)`. -/
def CheckIfFileExists (fs : SettingsFile) : Bool :=
  !os.IsNotExist (os.Stat fs)

/-- `getSettingsFileContent`: the pointer it returns (`none` is `nil`), or the
error. -/
def getSettingsFileContent (fs : SettingsFile) : Outcome (Option UserData) :=
  match os.ReadFile fs with
  | .error err => .error err
  | .ok settingsFileContent =>
  match DecryptData settingsFileContent with
  | .panic msg => .panic msg
  | .error err => .error err
  | .ok decryptedSettings =>
  match json.UnmarshalUserData decryptedSettings with
  | .error err => .error err
  | .ok userData => .ok userData

/-- `loadUserDataFromFile`. -/
def loadUserDataFromFile (fs : SettingsFile) : Outcome (Option UserData) :=
  if !CheckIfFileExists fs then .error "the settings file not found"
  else getSettingsFileContent fs

/-- `ApiServerDirectCalls.SaveSettings`: the returned error (`Outcome.ok ()`
is `nil`) and the state after the call. The argument `randomBytes` is what
`EncryptData` reads from `rand.Reader`. -/
def SaveSettings (randomBytes : Except String (List Nat)) (userData : UserData)
    (fs : SettingsFile) : Outcome Unit × SettingsFile :=
  match json.MarshalUserData userData with
  | .error _ => (.error "Error marshaling UserData to JSON", fs)
  | .ok jsonData =>
  match EncryptData randomBytes jsonData with
  | .panic msg => (.panic msg, fs)
  | .error _ => (.error "Error encrypting binary data", fs)
  | .ok encryptedData =>
  match os.WriteFile encryptedData fs with
  | (some _, fs1) => (.error "Error in saving data", fs1)
  | (none, fs1) => (.ok (), fs1)

/-- `ApiServerDirectCalls.LoadSettings`. -/
def LoadSettings (fs : SettingsFile) : Outcome (Option UserData) :=
  match loadUserDataFromFile fs with
  | .panic msg => .panic msg
  | .error _ => .error "error in load data from settings file"
  | .ok userData => .ok userData

/-- `ApiServerDirectCalls.Logout`: the returned error (`none` is `nil`) and
the state after the call. -/
def Logout (fs : SettingsFile) : Option String × SettingsFile :=
  if CheckIfFileExists fs then
    match os.Remove fs with
    | (some _, fs1) => (some "error in logout!", fs1)
    | (none, fs1) => (none, fs1)
  else (none, fs)

/-! ## The remote API: `net/url`, `net/http` and the operations of `src/api/ApiICTCore.go` -/

namespace url

/-- The fields of a parsed `url.URL` that the program reads. -/
structure URL where
  Scheme : String
  Host : String
  deriving DecidableEq, Repr

end url

namespace http

/-- The body of a request: none, bytes, or a multipart form with one file
part (its boundary is drawn at random and is not part of the model). -/
inductive Body where
  | none
  | bytes (data : List Nat)
  | formFile (fieldname filename : String) (contents : List Nat)
  deriving DecidableEq, Repr

/-- A request as the program builds it: method, URL, the two headers it sets
(`none` when the header is not set), the body, and the time-out of the client
that sends it, in seconds (`none` for the default client). -/
structure Request where
  Method : String
  URL : String
  ContentType : Option String
  Authorization : Option String
  Body : Body
  Timeout : Option Nat
  deriving DecidableEq, Repr

/-- A response: the status code, and the body as reading it to the end gives
it, the bytes or the error of the read. -/
structure Response where
  StatusCode : Int
  Body : Except String (List Nat)

/-- `http.StatusOK`. -/
def StatusOK : Int := 200

end http

/-- `(*strconv.NumError).Error()`: the function, the quoted input and the
kind of the error. -/
def strconv.NumError.Error (quote : String → String) (fn num : String)
    (err : strconv.NumError) : String :=
  "strconv." ++ fn ++ ": parsing " ++ quote num ++ ": " ++
    (match err with
     | .ErrSyntax => "invalid syntax"
     | .ErrRange => "value out of range")

/-- The response containing account details from the API call. -/
structure AccountResponse where
  AccountID : String
  TenantID : String
  Type_ : String
  UserName : String
  FirstName : String
  LastName : String
  Phone : String
  Email : String
  CreatedBy : String
  Company : String
  deriving DecidableEq, Repr

/-- Library functions whose results the operations use as they are given:
`url.ParseRequestURI`, `strconv.Quote` (it writes the input into the text of
a `strconv.NumError`), and the JSON decoding of the two lists of records
(`json.NewDecoder(resp.Body).Decode` into `[]FaxResponse` and into
`[]AccountResponse`). -/
structure Library where
  ParseRequestURI : GoString → Except String url.URL
  Quote : String → String
  DecodeFaxResponses : List Nat → Except String (List FaxResponse)
  DecodeAccountResponses : List Nat → Except String (List AccountResponse)

/-- The network as the program meets it: the outcomes of the coming HTTP
calls, in order (a transport error, or the response of the server), and the
requests sent so far. -/
structure Network where
  pending : List (Except String http.Response)
  sent : List http.Request

/-- One HTTP call, `client.Do(req)` together with the `http.NewRequest` before
it: the request is recorded and the next outcome is taken; when no outcome is
left the call fails with a transport error. -/
def Network.Do (net : Network) (req : http.Request) :
    Except String http.Response × Network :=
  match net.pending with
  | [] => (.error "connection refused", { pending := [], sent := net.sent ++ [req] })
  | outcome :: rest => (outcome, { pending := rest, sent := net.sent ++ [req] })

/-- What a Go call does: it returns its results, or it panics. -/
inductive Completion (α : Type) where
  | returned (results : α)
  | panicked (msg : String)

def ICT_AUTHENTICATION_API_PATH : String := "api/authenticate"
def ICT_TRANSMISSION_API_PATH : String := "api/transmissions"
def ICT_ACCOUNTS_API_PATH : String := "api/accounts"
def ICT_CONTACTS_API_PATH : String := "api/contacts"
def ICT_Document_API_PATH : String := "api/documents"
def ICT_PROGRAMS_API_PATH : String := "api/programs/sendfax"

/-- `fmt.Sprintf(ICT_DOCUMENS_WITH_ID_API_PATH, documentID)`, the format being
`"api/documents/%d/media"`. -/
def ICT_DOCUMENS_WITH_ID_API_PATH (documentID : Int) : String :=
  "api/documents/" ++ strconv.Itoa documentID ++ "/media"

/-- `fmt.Sprintf(ICT_TRANMISSTIONS_WITH_ID_API_PATH, transmissionID)`, the
format being `"api/transmissions/%d/send"`. -/
def ICT_TRANMISSTIONS_WITH_ID_API_PATH (transmissionID : Int) : String :=
  "api/transmissions/" ++ strconv.Itoa transmissionID ++ "/send"

def JSON_CONTENT_TYPE : String := "application/json"

/-- `buildICTReqeustURL`. The error of `url.ParseRequestURI` is discarded;
when the parse fails `parsedUrl` is `nil` and reading `parsedUrl.Scheme`
panics. -/
def buildICTReqeustURL (lib : Library) (userData : UserData) (uriPath : String) :
    Completion String :=
  match lib.ParseRequestURI userData.Hostname with
  | .error _ => .panicked "runtime error: invalid memory address or nil pointer dereference"
  | .ok parsedUrl => .returned (parsedUrl.Scheme ++ "://" ++ parsedUrl.Host ++ "/" ++ uriPath)

/-- `http.Post(url, contentType, body)`, sent by the default client. -/
def http.Post (url contentType : String) (body : List Nat) (net : Network) :
    Except String http.Response × Network :=
  net.Do
    { Method := "POST", URL := url, ContentType := some contentType, Authorization := none,
      Body := .bytes body, Timeout := none }

/-- The authenticated `GET` of `TransmissionsICT` and `AccountsICT`. -/
def authenticatedGet (url authToken : String) (net : Network) :
    Except String http.Response × Network :=
  net.Do
    { Method := "GET", URL := url, ContentType := none,
      Authorization := some ("Bearer " ++ authToken), Body := .none, Timeout := some 10 }

/-- `makeAuthenticatedPostRequest`. -/
def makeAuthenticatedPostRequest (url authToken : String) (body : List Nat) (net : Network) :
    Except String http.Response × Network :=
  net.Do
    { Method := "POST", URL := url, ContentType := some "",
      Authorization := some ("Bearer " ++ authToken), Body := .bytes body, Timeout := some 10 }

/-- `makeAuthenticatedPostRequestWithBody`. -/
def makeAuthenticatedPostRequestWithBody (url authToken contentType : String)
    (body : http.Body) (net : Network) : Except String http.Response × Network :=
  net.Do
    { Method := "PUT", URL := url, ContentType := some contentType,
      Authorization := some ("Bearer " ++ authToken), Body := body, Timeout := some 10 }

/-- `AuthenticateICT`: the pointer (`none` is `nil`) and the error it returns,
and the network after the call. -/
def AuthenticateICT (lib : Library) (userData : UserData) (net : Network) :
    Completion (Option AuthResponse × Option String) × Network :=
  match json.MarshalUserData userData with
  | .error err => (.returned (none, some err), net)
  | .ok bodyBytes =>
  match buildICTReqeustURL lib userData ICT_AUTHENTICATION_API_PATH with
  | .panicked msg => (.panicked msg, net)
  | .returned authURL =>
  match http.Post authURL JSON_CONTENT_TYPE bodyBytes net with
  | (.error err, net1) => (.returned (none, some err), net1)
  | (.ok resp, net1) =>
    if resp.StatusCode ≠ http.StatusOK then
      (.returned (none, some ("Authentication failed with status code: " ++
        strconv.Itoa resp.StatusCode)), net1)
    else
      match resp.Body with
      | .error err => (.returned (none, some err), net1)
      | .ok body =>
        match json.DecodeAuthResponse body with
        | .error err => (.returned (none, some err), net1)
        | .ok authResponse => (.returned (some authResponse, none), net1)

/-- One iteration of the loop of `TransmissionsICT`: the record
`faxResponse[i]` after the iteration. `DateTimeParsed` is assigned only when
`strconv.ParseInt(response.DateTime, 10, 64)` succeeds. -/
def parseDateTime (response : FaxResponse) : FaxResponse :=
  let r := strconv.ParseInt response.DateTime.data 64
  if r.2 = none then { response with DateTimeParsed := Time.unix r.1 } else response

/-- `TransmissionsICT`. A `nil` slice is the empty list. -/
def TransmissionsICT (lib : Library) (userData : UserData) (authToken : String)
    (net : Network) : Completion (List FaxResponse × Option String) × Network :=
  match buildICTReqeustURL lib userData ICT_TRANSMISSION_API_PATH with
  | .panicked msg => (.panicked msg, net)
  | .returned faxURL =>
  match authenticatedGet faxURL authToken net with
  | (.error err, net1) => (.returned ([], some err), net1)
  | (.ok resp, net1) =>
    if resp.StatusCode ≠ http.StatusOK then
      (.returned ([], some ("Fetching faxes failed with status code: " ++
        strconv.Itoa resp.StatusCode)), net1)
    else
      match resp.Body with
      | .error err => (.returned ([], some err), net1)
      | .ok body =>
        match lib.DecodeFaxResponses body with
        | .error err => (.returned ([], some err), net1)
        | .ok faxResponse => (.returned (faxResponse.map parseDateTime, none), net1)

/-- `AccountsICT`. A `nil` slice is the empty list. -/
def AccountsICT (lib : Library) (userData : UserData) (authToken : String)
    (net : Network) : Completion (List AccountResponse × Option String) × Network :=
  match buildICTReqeustURL lib userData ICT_ACCOUNTS_API_PATH with
  | .panicked msg => (.panicked msg, net)
  | .returned accountURL =>
  match authenticatedGet accountURL authToken net with
  | (.error err, net1) => (.returned ([], some err), net1)
  | (.ok resp, net1) =>
    if resp.StatusCode ≠ http.StatusOK then
      (.returned ([], some ("Fetching accounts failed with status code: " ++
        strconv.Itoa resp.StatusCode)), net1)
    else
      match resp.Body with
      | .error err => (.returned ([], some err), net1)
      | .ok body =>
        match lib.DecodeAccountResponses body with
        | .error err => (.returned ([], some err), net1)
        | .ok accountResponse => (.returned (accountResponse, none), net1)

/-- `CreateContact`. The error of `strconv.Atoi` is discarded. -/
def CreateContact (lib : Library) (userData : UserData) (authToken : String)
    (contact : Contact) (net : Network) : Completion (Int × Option String) × Network :=
  match buildICTReqeustURL lib userData ICT_CONTACTS_API_PATH with
  | .panicked msg => (.panicked msg, net)
  | .returned url =>
  match json.MarshalContact contact with
  | .error err => (.returned (0, some ("error marshaling contact data: " ++ err)), net)
  | .ok bodyBytes =>
  match makeAuthenticatedPostRequest url authToken bodyBytes net with
  | (.error err, net1) =>
    (.returned (0, some ("error making authenticated POST request: " ++ err)), net1)
  | (.ok resp, net1) =>
    if resp.StatusCode ≠ http.StatusOK then
      (.returned (0, some ("CreateContact API call failed with status code: " ++
        strconv.Itoa resp.StatusCode)), net1)
    else
      match resp.Body with
      | .error err => (.returned (0, some ("error reading response body: " ++ err)), net1)
      | .ok body => (.returned ((strconv.Atoi (stringOfBytes body)).1, none), net1)

/-- `CreateDocumentRecord`. The error of `strconv.Atoi` is discarded. -/
def CreateDocumentRecord (lib : Library) (userData : UserData) (authToken : String)
    (document : DocumentRecord) (net : Network) : Completion (Int × Option String) × Network :=
  match buildICTReqeustURL lib userData ICT_Document_API_PATH with
  | .panicked msg => (.panicked msg, net)
  | .returned url =>
  match json.MarshalDocumentRecord document with
  | .error err => (.returned (0, some err), net)
  | .ok bodyBytes =>
  match makeAuthenticatedPostRequest url authToken bodyBytes net with
  | (.error err, net1) =>
    (.returned (0, some ("error making authenticated POST request: " ++ err)), net1)
  | (.ok resp, net1) =>
    if resp.StatusCode ≠ http.StatusOK then
      (.returned (0, some ("CreateDocumentRecord API call failed with status code: " ++
        strconv.Itoa resp.StatusCode)), net1)
    else
      match resp.Body with
      | .error err => (.returned (0, some ("error reading response body: " ++ err)), net1)
      | .ok body => (.returned ((strconv.Atoi (stringOfBytes body)).1, none), net1)

/-- `UploadDocumentFile`: the error it returns (`none` is `nil`). -/
def UploadDocumentFile (lib : Library) (userData : UserData) (authToken : String)
    (documentID : Int) (fileContents : List Nat) (contentType : String) (net : Network) :
    Completion (Option String) × Network :=
  let documentUrl := ICT_DOCUMENS_WITH_ID_API_PATH documentID
  match buildICTReqeustURL lib userData documentUrl with
  | .panicked msg => (.panicked msg, net)
  | .returned url =>
  let body := http.Body.formFile "file" "filename.txt" fileContents
  match makeAuthenticatedPostRequestWithBody url authToken contentType body net with
  | (.error err, net1) => (.returned (some ("error making request: " ++ err)), net1)
  | (.ok req, net1) =>
    if req.StatusCode ≠ http.StatusOK then
      (.returned (some ("Uploading document file failed with status code: " ++
        strconv.Itoa req.StatusCode)), net1)
    else (.returned none, net1)

/-- `CreateProgram`. On a status other than 200 the body is read and printed,
which changes no result. -/
def CreateProgram (lib : Library) (userData : UserData) (authToken : String)
    (documentID : Int) (net : Network) : Completion (Int × Option String) × Network :=
  match buildICTReqeustURL lib userData ICT_PROGRAMS_API_PATH with
  | .panicked msg => (.panicked msg, net)
  | .returned url =>
  match json.MarshalDocumentID documentID with
  | .error err => (.returned (0, some err), net)
  | .ok bodyBytes =>
  match makeAuthenticatedPostRequest url authToken bodyBytes net with
  | (.error err, net1) =>
    (.returned (0, some ("error making authenticated POST request: " ++ err)), net1)
  | (.ok resp, net1) =>
    if resp.StatusCode ≠ http.StatusOK then
      (.returned (0, some ("CreateProgram API call failed with status code: " ++
        strconv.Itoa resp.StatusCode)), net1)
    else
      match resp.Body with
      | .error err => (.returned (0, some ("error reading response body: " ++ err)), net1)
      | .ok body =>
        let text := String.mk (strings.TrimSpace (stringOfBytes body).data)
        match (strconv.Atoi text).2 with
        | some err =>
          (.returned (0, some ("error converting program ID: " ++
            strconv.NumError.Error lib.Quote "Atoi" text err)), net1)
        | none => (.returned ((strconv.Atoi text).1, none), net1)

/-- The record `CreateTransmission` marshals: the transmission with
`ContactID` and `ProgramID` overwritten by the decimal text of the arguments,
converted by `convertTransmission`. -/
def transmissionRecord (transmission : Transmission) (contactID programID : Int) :
    ConvertedTransmission :=
  convertTransmission
    { transmission with
      ContactID := strconv.Itoa contactID
      ProgramID := strconv.Itoa programID }

/-- `CreateTransmission`. Its fifth argument is not named and not used. The
error of `strconv.Atoi` is discarded. -/
def CreateTransmission (lib : Library) (userData : UserData) (authToken : String)
    (transmission : Transmission) (contactID _accountID programID : Int) (net : Network) :
    Completion (Int × Option String) × Network :=
  match buildICTReqeustURL lib userData ICT_TRANSMISSION_API_PATH with
  | .panicked msg => (.panicked msg, net)
  | .returned url =>
  let convertedTransmission := transmissionRecord transmission contactID programID
  match json.MarshalConvertedTransmission convertedTransmission with
  | .error err => (.returned (0, some err), net)
  | .ok bodyBytes =>
  match makeAuthenticatedPostRequest url authToken bodyBytes net with
  | (.error err, net1) =>
    (.returned (0, some ("error making authenticated POST request: " ++ err)), net1)
  | (.ok resp, net1) =>
    if resp.StatusCode ≠ http.StatusOK then
      (.returned (0, some ("CreateTransmission API call failed with status code: " ++
        strconv.Itoa resp.StatusCode)), net1)
    else
      match resp.Body with
      | .error err => (.returned (0, some ("error reading response body: " ++ err)), net1)
      | .ok body => (.returned ((strconv.Atoi (stringOfBytes body)).1, none), net1)

/-- `SendTransmission`: the error it returns (`none` is `nil`). The request
has an empty body. -/
def SendTransmission (lib : Library) (userData : UserData) (authToken : String)
    (transmissionID : Int) (net : Network) : Completion (Option String) × Network :=
  let transmissionUrl := ICT_TRANMISSTIONS_WITH_ID_API_PATH transmissionID
  match buildICTReqeustURL lib userData transmissionUrl with
  | .panicked msg => (.panicked msg, net)
  | .returned url =>
  match makeAuthenticatedPostRequest url authToken [] net with
  | (.error err, net1) => (.returned (some err), net1)
  | (.ok resp, net1) =>
    if resp.StatusCode ≠ http.StatusOK then
      (.returned (some ("Sending transmission failed with status code: " ++
        strconv.Itoa resp.StatusCode)), net1)
    else (.returned none, net1)

/-! ## Examples -/

/-- A remote side for the examples on which every operation succeeds: the
state counts the calls it has received, and the identifiers issued are 11 for
the contact, 22 for the document, 33 for the program and 44 for the
transmission. -/
def succeedingOps : ICTOperations Nat where
  CreateContact := fun _ _ _ n => (.ok 11, n + 1)
  CreateDocumentRecord := fun _ _ _ n => (.ok 22, n + 1)
  UploadDocumentFile := fun _ _ _ _ _ n => (.ok (), n + 1)
  CreateProgram := fun _ _ _ n => (.ok 33, n + 1)
  CreateTransmission := fun _ _ _ _ _ _ n => (.ok 44, n + 1)
  SendTransmission := fun _ _ _ n => (.ok (), n + 1)

/-- Library functions for the examples: the hostname parses to the scheme
`http` and the host `fax.example.com`, the quoting puts the text between
double quotes, and both lists of records decode to the given list of fax
records and to no account. -/
def sampleLibrary (faxResponses : List FaxResponse) : Library where
  ParseRequestURI := fun _ => .ok { Scheme := "http", Host := "fax.example.com" }
  Quote := fun s => "\"" ++ s ++ "\""
  DecodeFaxResponses := fun _ => .ok faxResponses
  DecodeAccountResponses := fun _ => .ok []

/-- The user data of the examples. -/
def sampleUser : UserData :=
  { Username := "user", Password := "secret", Hostname := "http://fax.example.com" }

/-- The contact of the examples. -/
def sampleContact : Contact :=
  { FirstName := "Ann", LastName := "Lee", Email := "ann@example.com", Phone := "100",
    Address := "", Custom1 := "", Custom2 := "", Custom3 := "", Description := "" }

/-- A network whose next response has the given status and body. -/
def respondingNetwork (status : Int) (body : String) : Network :=
  { pending := [.ok { StatusCode := status, Body := .ok (bytesOfString body) }], sent := [] }

/-- Equality of two results of a fallible call is decidable when equality of
the values and of the errors is. -/
instance instDecidableEqExcept {ε α : Type} [DecidableEq ε] [DecidableEq α] :
    DecidableEq (Except ε α) :=
  fun a b =>
    match a, b with
    | .ok x, .ok y =>
      if h : x = y then isTrue (by rw [h]) else isFalse (fun e => h (by cases e; rfl))
    | .error x, .error y =>
      if h : x = y then isTrue (by rw [h]) else isFalse (fun e => h (by cases e; rfl))
    | .ok _, .error _ => isFalse (fun e => by cases e)
    | .error _, .ok _ => isFalse (fun e => by cases e)

/-! ## `src/api/ApiModels.go`: the account information -/

def EMPTY_FIELD : String := "N/A"

/-- The account information shown on the first tab. -/
structure AccountInfo where
  FirstName : String
  LastName : String
  Email : String
  Phone : String
  Country : String
  Company : String
  deriving DecidableEq, Repr

/-- `ConvertAuthResponseToAccountInfo`. -/
def ConvertAuthResponseToAccountInfo (res : AuthResponse) : AccountInfo :=
  { FirstName := res.FirstName
    LastName := res.LastName
    Email := res.Email
    Phone := res.Phone
    Country := EMPTY_FIELD
    Company := res.Company }

/-! ## `src/utilities/FileHelper.go`: the content type of an extension -/

namespace strings

/-- The ASCII branch of `strings.ToLower` on one character: `c += 'a' - 'A'`
for `'A' <= c && c <= 'Z'`. -/
def lowerASCII (c : Char) : Char :=
  if 65 ≤ c.toNat ∧ c.toNat ≤ 90 then Char.ofNat (c.toNat + 32) else c

/-- Go's `strings.ToLower`. A string of ASCII characters is mapped by
`lowerASCII` (and returned as it is when it has no upper-case letter); any
other string is `strings.Map(unicode.ToLower, s)`. The tables of
`unicode.ToLower` are not reproduced: the function is the argument
`unicodeToLower`. -/
def ToLower (unicodeToLower : Char → Char) (s : List Char) : List Char :=
  let isASCII := s.all (fun c => c.toNat < utf8.RuneSelf)
  let hasUpper := s.any (fun c => 65 ≤ c.toNat ∧ c.toNat ≤ 90)
  if isASCII then
    if !hasUpper then s else s.map lowerASCII
  else s.map unicodeToLower

end strings

def MS_WORD_CONTENT_TYPE : String :=
  "application/vnd.openxmlformats-officedocument.wordprocessingml.document"

/-- The map `contentTypes` of `GetContentType`, as its list of entries. -/
def contentTypes : List (String × String) :=
  [(PDF_FILE_EXTENSION, "application/pdf"),
   (JPEG_FILE_EXTENSION, "image/jpeg"),
   (JPG_FILE_EXTENSION, "image/jpg"),
   (PNG_FILE_EXTENSION, "image/png"),
   (TIFF_FILE_EXTENSION, "image/tiff"),
   (TIF_FILE_EXTENSION, "image/tiff"),
   (DOCX_FILE_EXTENSION, MS_WORD_CONTENT_TYPE),
   (DOC_FILE_EXTENSION, MS_WORD_CONTENT_TYPE),
   (ODT_FILE_EXTENSION, "application/vnd.oasis.opendocument.text")]

/-- `GetContentType`: the entry of the map at the lower-cased extension; a
key that is not in the map gives the empty string. -/
def GetContentType (unicodeToLower : Char → Char) (extension : String) : String :=
  (contentTypes.lookup ⟨strings.ToLower unicodeToLower extension.data⟩).getD ""

/-- `onSendClick` of the send form, the content type it puts into the file
model for the chosen file path. -/
def onSendClickContentType (unicodeToLower : Char → Char) (filePath : String) : String :=
  let fileExtension := ExtractFileExtension filePath
  GetContentType unicodeToLower fileExtension

/-! ## Go standard library: `net/url`, the parsing of a request URI

A Go string is its bytes; the functions below work on the list of bytes. -/

namespace strings

/-- Go's `strings.Index(s, substr)`: the index of the first occurrence, `none`
when there is none (Go's `-1`). -/
def Index {α : Type} [DecidableEq α] (s substr : List α) : Option Nat :=
  (List.range (s.length + 1)).find? (fun i => substr.isPrefixOf (s.drop i))

/-- Go's `strings.LastIndex(s, substr)`: the index of the last occurrence,
`none` when there is none. -/
def LastIndex {α : Type} [DecidableEq α] (s substr : List α) : Option Nat :=
  (List.range (s.length + 1)).reverse.find? (fun i => substr.isPrefixOf (s.drop i))

/-- Go's `strings.Cut(s, sep)`, without its third result: the text before and
after the first occurrence of `sep`, the whole of `s` and nothing when there is
none. -/
def Cut {α : Type} [DecidableEq α] (s sep : List α) : List α × List α :=
  match Index s sep with
  | some i => (s.take i, s.drop (i + sep.length))
  | none => (s, [])

end strings

namespace url

/-- The errors of the parse: `EscapeError`, `InvalidHostError`, the error of
`fmt.Errorf("invalid port %q after host", colonPort)`, and `errors.New(msg)`. -/
inductive ParseError where
  | EscapeError (s : List Nat)
  | InvalidHostError (s : List Nat)
  | invalidPort (colonPort : List Nat)
  | New (msg : String)
  deriving DecidableEq, Repr

/-- The modes of `unescape` that the parse of a request URI uses. -/
inductive encoding where
  | encodePath
  | encodeHost
  | encodeZone
  | encodeUserPassword
  deriving DecidableEq, Repr

def ishex (c : Nat) : Bool :=
  (48 ≤ c ∧ c ≤ 57) ∨ (97 ≤ c ∧ c ≤ 102) ∨ (65 ≤ c ∧ c ≤ 70)

def unhex (c : Nat) : Nat :=
  if 48 ≤ c ∧ c ≤ 57 then c - 48
  else if 97 ≤ c ∧ c ≤ 102 then c - 97 + 10
  else if 65 ≤ c ∧ c ≤ 70 then c - 65 + 10
  else 0

/-- `shouldEscape(c, encodeHost)`, the only mode `unescape` asks about:
letters, digits, the characters a host may hold (the sub-delimiters, the
colon, the square and the angle brackets, and the double quote) and the four
marks (hyphen, underscore, dot, tilde) are not escaped, every other byte
is. -/
def shouldEscapeHost (c : Nat) : Bool :=
  if (97 ≤ c ∧ c ≤ 122) ∨ (65 ≤ c ∧ c ≤ 90) ∨ (48 ≤ c ∧ c ≤ 57) then false
  else if c ∈ [33, 36, 38, 39, 40, 41, 42, 43, 44, 59, 61, 58, 91, 93, 60, 62, 34] then false
  else if c ∈ [45, 95, 46, 126] then false
  else true

/-- `unescape(s, mode)` for the four modes of the parse: the escapes `%XX` are
checked and decoded; in a host an escape may only stand for a byte from 0x80
on (or be `%25`), and an ASCII byte that would have to be escaped is an
error. -/
def unescape (mode : encoding) : List Nat → Except ParseError (List Nat)
  | [] => .ok []
  | 37 :: h1 :: h2 :: rest =>
    if !(ishex h1 && ishex h2) then .error (.EscapeError [37, h1, h2])
    else if mode = .encodeHost ∧ unhex h1 < 8 ∧ [h1, h2] ≠ [50, 53] then
      .error (.EscapeError [37, h1, h2])
    else if mode = .encodeZone ∧ [h1, h2] ≠ [50, 53] ∧ unhex h1 * 16 + unhex h2 ≠ 32 ∧
        shouldEscapeHost (unhex h1 * 16 + unhex h2) then
      .error (.EscapeError [37, h1, h2])
    else
      match unescape mode rest with
      | .error err => .error err
      | .ok t => .ok ((unhex h1 * 16 + unhex h2) :: t)
  | 37 :: rest => .error (.EscapeError (37 :: rest))
  | c :: rest =>
    if (mode = .encodeHost ∨ mode = .encodeZone) ∧ c < 128 ∧ shouldEscapeHost c then
      .error (.InvalidHostError [c])
    else
      match unescape mode rest with
      | .error err => .error err
      | .ok t => .ok (c :: t)

/-- `stringContainsCTLByte`. -/
def stringContainsCTLByte (s : List Nat) : Bool :=
  s.any (fun b => b < 32 ∨ b = 127)

/-- The loop of `getScheme` at index `i`, with the bytes from `i` on: the
scheme and the rest, or the error. -/
def getSchemeLoop (rawURL : List Nat) : Nat → List Nat →
    Except ParseError (List Nat × List Nat)
  | _, [] => .ok ([], rawURL)
  | i, c :: cs =>
    if (97 ≤ c ∧ c ≤ 122) ∨ (65 ≤ c ∧ c ≤ 90) then getSchemeLoop rawURL (i + 1) cs
    else if (48 ≤ c ∧ c ≤ 57) ∨ c = 43 ∨ c = 45 ∨ c = 46 then
      if i = 0 then .ok ([], rawURL) else getSchemeLoop rawURL (i + 1) cs
    else if c = 58 then
      if i = 0 then .error (.New "missing protocol scheme")
      else .ok (rawURL.take i, cs)
    else .ok ([], rawURL)

/-- `getScheme`. -/
def getScheme (rawURL : List Nat) : Except ParseError (List Nat × List Nat) :=
  getSchemeLoop rawURL 0 rawURL

/-- `validOptionalPort`. -/
def validOptionalPort (port : List Nat) : Bool :=
  match port with
  | [] => true
  | c :: digits => c = 58 ∧ digits.all (fun b => 48 ≤ b ∧ b ≤ 57)

/-- `validUserinfo`: letters, digits, the four marks, the colon, the
sub-delimiters, the percent sign and the at sign only. -/
def validUserinfo (s : List Nat) : Bool :=
  s.all (fun r =>
    (65 ≤ r ∧ r ≤ 90) ∨ (97 ≤ r ∧ r ≤ 122) ∨ (48 ≤ r ∧ r ≤ 57) ∨
    r ∈ [45, 46, 95, 58, 126, 33, 36, 38, 39, 40, 41, 42, 43, 44, 59, 61, 37, 64])

/-- `parseHost`. -/
def parseHost (host : List Nat) : Except ParseError (List Nat) :=
  if [91].isPrefixOf host then
    match strings.LastIndex host [93] with
    | none => .error (.New "missing ']' in host")
    | some i =>
      let colonPort := host.drop (i + 1)
      if !validOptionalPort colonPort then .error (.invalidPort colonPort)
      else
        match strings.Index (host.take i) [37, 50, 53] with
        | some zone =>
          match unescape .encodeHost (host.take zone) with
          | .error err => .error err
          | .ok host1 =>
          match unescape .encodeZone ((host.take i).drop zone) with
          | .error err => .error err
          | .ok host2 =>
          match unescape .encodeHost (host.drop i) with
          | .error err => .error err
          | .ok host3 => .ok (host1 ++ host2 ++ host3)
        | none => unescape .encodeHost host
  else
    match strings.LastIndex host [58] with
    | some i =>
      let colonPort := host.drop i
      if !validOptionalPort colonPort then .error (.invalidPort colonPort)
      else unescape .encodeHost host
    | none => unescape .encodeHost host

/-- `parseAuthority`, the host it returns: the user information is checked and
not kept. -/
def parseAuthority (authority : List Nat) : Except ParseError (List Nat) :=
  let i := strings.LastIndex authority [64]
  match (match i with
      | none => parseHost authority
      | some i => parseHost (authority.drop (i + 1))) with
  | .error err => .error err
  | .ok host =>
  match i with
  | none => .ok host
  | some i =>
    let userinfo := authority.take i
    if !validUserinfo userinfo then .error (.New "net/url: invalid userinfo")
    else if !(userinfo.contains 58) then
      match unescape .encodeUserPassword userinfo with
      | .error err => .error err
      | .ok _ => .ok host
    else
      let (username, password) := strings.Cut userinfo [58]
      match unescape .encodeUserPassword username with
      | .error err => .error err
      | .ok _ =>
      match unescape .encodeUserPassword password with
      | .error err => .error err
      | .ok _ => .ok host

/-- `parse(rawURL, viaRequest)` with `viaRequest` true: the scheme and the host
of the URL, as bytes. -/
def parse (rawURL : List Nat) : Except ParseError (List Nat × List Nat) :=
  if stringContainsCTLByte rawURL then
    .error (.New "net/url: invalid control character in URL")
  else if rawURL = [] then .error (.New "empty url")
  else if rawURL = [42] then .ok ([], [])
  else
  match getScheme rawURL with
  | .error err => .error err
  | .ok (scheme, rest) =>
  -- the scheme holds ASCII letters, digits, `+`, `-` and `.` only
  let scheme := scheme.map (fun c => if 65 ≤ c ∧ c ≤ 90 then c + 32 else c)
  let rest :=
    if [63].isSuffixOf rest ∧ rest.count 63 = 1 then rest.take (rest.length - 1)
    else (strings.Cut rest [63]).1
  if ([47].isPrefixOf rest) = false then
    if scheme ≠ [] then .ok (scheme, [])
    else .error (.New "invalid URI for request")
  else
  if scheme ≠ [] ∧ [47, 47].isPrefixOf rest then
    let authority := rest.drop 2
    let (authority, rest) :=
      match strings.Index authority [47] with
      | some i => (authority.take i, authority.drop i)
      | none => (authority, [])
    match parseAuthority authority with
    | .error err => .error err
    | .ok host =>
    match unescape .encodePath rest with
    | .error err => .error err
    | .ok _ => .ok (scheme, host)
  else
    match unescape .encodePath rest with
    | .error err => .error err
    | .ok _ => .ok (scheme, [])

/-- `(*url.Error).Error()` for the operation `parse`. -/
def ParseError.Error (quote : String → String) (rawURL : String) (err : ParseError) : String :=
  "parse " ++ quote rawURL ++ ": " ++
    (match err with
     | .EscapeError s => "invalid URL escape " ++ quote (stringOfBytes s)
     | .InvalidHostError s => "invalid character " ++ quote (stringOfBytes s) ++ " in host name"
     | .invalidPort colonPort => "invalid port " ++ quote (stringOfBytes colonPort) ++ " after host"
     | .New msg => msg)

/-- Go's `url.ParseRequestURI`. -/
def ParseRequestURI (rawURL : String) : Except ParseError URL :=
  match parse (bytesOfString rawURL) with
  | .error err => .error err
  | .ok (scheme, host) => .ok { Scheme := stringOfBytes scheme, Host := stringOfBytes host }

end url

/-- The library with `url.ParseRequestURI` as modelled above in the place of
the given function, for every raw URL that is valid UTF-8 text; on any other
Go string the given function is kept. -/
def Library.withURLParsing (lib : Library) : Library :=
  { lib with
    ParseRequestURI := fun rawURL =>
      match rawURL.toText with
      | none => lib.ParseRequestURI rawURL
      | some text =>
        match url.ParseRequestURI text with
        | .error err => .error (err.Error lib.Quote text)
        | .ok parsedUrl => .ok parsedUrl }

/-! ## The relay: `src/api/ApiServer.go` and `src/api/ApiUI.go`

A route answers with `c.JSON(code, obj)`. The JSON text of the body is not
part of the model: a response carries the value that is marshalled, and the
caller that decodes the body receives that value. -/

/-- The response of a route: the status code, and the marshalled value,
`Except.error msg` being `gin.H{"error": msg}`. -/
structure RouteResponse (α : Type) where
  StatusCode : Int
  obj : Except String α
  deriving DecidableEq

def http.StatusInternalServerError : Int := 500

/-- `routeLastFaxes`. -/
def routeLastFaxes (env : DirectCallsEnv) : Completion (RouteResponse (List FaxData)) :=
  match GetLastFaxes env 0 with
  | .panic msg => .panicked msg
  | .error err =>
    .returned { StatusCode := http.StatusInternalServerError, obj := .error err }
  | .ok faxeList => .returned { StatusCode := http.StatusOK, obj := .ok faxeList }

/-- `(*ApiUI).readBody` into a value of type `α`: the error it returns, or the
decoded value. An error object does not decode into the value. -/
def ApiUI.readBody {α : Type} (resp : RouteResponse α) : Except String α :=
  if resp.StatusCode ≠ http.StatusOK then
    .error ("API call failed with status code: " ++ strconv.Itoa resp.StatusCode)
  else
    match resp.obj with
    | .error _ => .error "json: cannot unmarshal object into Go value"
    | .ok value => .ok value

/-- `(*ApiUI).GetLastFaxes`; `resp` is the result of `http.Get(url)`, the
response of the relay or the error of the transport. -/
def ApiUI.GetLastFaxes (resp : Except String (RouteResponse (List FaxData))) (count : Int) :
    Outcome (List FaxData) :=
  match resp with
  | .error err => .error err
  | .ok resp =>
  match ApiUI.readBody resp with
  | .error err => .error err
  | .ok allFaxes =>
  let startIndex := strconv.wrapInt64 ((allFaxes.length : Int) - count)
  let startIndex := if startIndex < 0 then 0 else startIndex
  match sliceFrom allFaxes startIndex with
  | none => .panic "slice bounds out of range"
  | some lastFaxes => .ok lastFaxes

/-- `ApiServerDirectCalls.SendFax`: the error it returns (`none` is `nil`) and
the state of the remote side after the call. -/
def SendFax {σ : Type} (env : DirectCallsEnv) (ops : ICTOperations σ) (contact : Contact)
    (document : DocumentRecord) (transmission : Transmission) (fileContents : List Nat)
    (fileModel : SendFileInfo) (s : σ) : Option String × σ :=
  match env.loadUserDataFromFile with
  | .error _ => (some "error in load data from settings file", s)
  | .ok userData =>
  match env.AuthenticateICT userData with
  | .error _ => (some "error in getting  key from api the host", s)
  | .ok authResponse =>
  let authToken := authResponse.Token
  let run := SendFaxICT ops userData authToken contact document transmission fileContents
    fileModel s
  match run.err with
  | some _ => (some "error sending the fax", run.state)
  | none => (none, run.state)

/-- `routeSendFax` from the call of `SendFax` on, the form of the request
having been read into the five values: the response (`Except.ok msg` is
`gin.H{"message": msg}`) and the state of the remote side. -/
def routeSendFax {σ : Type} (env : DirectCallsEnv) (ops : ICTOperations σ) (contact : Contact)
    (document : DocumentRecord) (transmission : Transmission) (fileContents : List Nat)
    (fileModel : SendFileInfo) (s : σ) : RouteResponse String × σ :=
  match SendFax env ops contact document transmission fileContents fileModel s with
  | (some err, s1) => ({ StatusCode := http.StatusInternalServerError, obj := .error err }, s1)
  | (none, s1) => ({ StatusCode := http.StatusOK, obj := .ok "fax sent successfully" }, s1)

/-- `(*ApiUI).SendFax` from the reply of `http.DefaultClient.Do(req)` on (the
form is written to a buffer, which does not fail): the error it returns. -/
def ApiUI.SendFax (resp : Except String (RouteResponse String)) : Option String :=
  match resp with
  | .error err => some ("error performing HTTP request: " ++ err)
  | .ok resp =>
    if resp.StatusCode ≠ http.StatusOK then
      some ("APIUI call failed with status code: " ++ strconv.Itoa resp.StatusCode)
    else none

/-! ## Further examples -/

/-- A remote side for the examples on which the last step fails: the first
five operations succeed and `SendTransmission` fails with the error of a 404
response. -/
def sendFailureOps : ICTOperations Nat where
  CreateContact := fun _ _ _ n => (.ok 11, n + 1)
  CreateDocumentRecord := fun _ _ _ n => (.ok 22, n + 1)
  UploadDocumentFile := fun _ _ _ _ _ n => (.ok (), n + 1)
  CreateProgram := fun _ _ _ n => (.ok 33, n + 1)
  CreateTransmission := fun _ _ _ _ _ _ n => (.ok 44, n + 1)
  SendTransmission := fun _ _ _ n =>
    (.error "Sending transmission failed with status code: 404", n + 1)

/-- The document record of the examples. -/
def sampleDocument : DocumentRecord :=
  { Title := "letter", Description := "" }

/-- The transmission of the examples. -/
def sampleTransmission : Transmission :=
  { Title := "Invoice", ContactID := "1", AccountID := "7", ProgramID := "2",
    IsPrint := "1", IsCoverPage := "0", TryAllowed := "3" }

/-! ## `strconv`: lemmas -/

namespace strconv

theorem decimalDigitsValue_ge (ds : List Char) (n : Nat) : n ≤ decimalDigitsValue ds n := by
  induction ds generalizing n with
  | nil => simp [decimalDigitsValue]
  | cons c cs ih =>
    have h := ih (n * 10 + (c.toNat - 48))
    simp only [decimalDigitsValue, List.foldl_cons] at h ⊢
    omega

theorem atoiLoop_digits (ds : List Char) (n : Nat) (h : allDecimalDigits ds = true) :
    atoiLoop ds n = some (decimalDigitsValue ds n) := by
  induction ds generalizing n with
  | nil => simp [atoiLoop, decimalDigitsValue]
  | cons c cs ih =>
    simp only [allDecimalDigits, List.all_cons, Bool.and_eq_true, decide_eq_true_eq] at h
    have hc : '0'.toNat = 48 := by decide
    have h9 : '9'.toNat = 57 := by decide
    simp only [atoiLoop, hc, h9, h.1, and_self, if_true]
    rw [ih _ (by simpa [allDecimalDigits] using h.2)]
    simp [decimalDigitsValue]

theorem digitOf_digit (c : Char) (h : 48 ≤ c.toNat ∧ c.toNat ≤ 57) :
    digitOf c = some (c.toNat - 48) := by
  have hc : '0'.toNat = 48 := by decide
  have h9 : '9'.toNat = 57 := by decide
  simp [digitOf, hc, h9, h]

theorem parseUintLoop_digits (ds : List Char) (n : Nat) (h : allDecimalDigits ds = true)
    (hv : decimalDigitsValue ds n < 2 ^ 64) :
    parseUintLoop ((2 ^ 64 - 1) / 10 + 1) (2 ^ 64 - 1) ds n = (decimalDigitsValue ds n, none) := by
  induction ds generalizing n with
  | nil => simp [parseUintLoop, decimalDigitsValue]
  | cons c cs ih =>
    simp only [allDecimalDigits, List.all_cons, Bool.and_eq_true, decide_eq_true_eq] at h
    have hge := decimalDigitsValue_ge cs (n * 10 + (c.toNat - 48))
    have hv' : decimalDigitsValue cs (n * 10 + (c.toNat - 48)) < 2 ^ 64 := by
      simpa [decimalDigitsValue] using hv
    have hd : c.toNat - 48 < 10 := by omega
    have hn : n * 10 + (c.toNat - 48) < 2 ^ 64 := by omega
    have hcut : ¬ n ≥ (2 ^ 64 - 1) / 10 + 1 := by
      norm_num at hn ⊢
      omega
    have hm1 : n * 10 % 2 ^ 64 = n * 10 := Nat.mod_eq_of_lt (by omega)
    have hm2 : (n * 10 + (c.toNat - 48)) % 2 ^ 64 = n * 10 + (c.toNat - 48) :=
      Nat.mod_eq_of_lt hn
    have hno : ¬ (n * 10 + (c.toNat - 48) < n * 10 ∨ n * 10 + (c.toNat - 48) > 2 ^ 64 - 1) := by
      omega
    rw [parseUintLoop, digitOf_digit c h.1]
    simp only [hm1, hm2]
    rw [if_neg (by omega), if_neg hcut, if_neg hno]
    rw [ih _ (by simpa [allDecimalDigits] using h.2) hv']
    simp [decimalDigitsValue]

end strconv

namespace strconv

theorem head_digit_not_sign (c : Char) (cs : List Char)
    (h : allDecimalDigits (c :: cs) = true) : c ≠ '+' ∧ c ≠ '-' := by
  simp only [allDecimalDigits, List.all_cons, Bool.and_eq_true, decide_eq_true_eq] at h
  constructor <;> (rintro rfl; exact absurd h.1 (by decide))

theorem length_pos_of_ne_nil (ds : List Char) (hne : ds ≠ []) : ¬ ds.length < 1 := by
  cases ds with
  | nil => exact absurd rfl hne
  | cons c cs => simp

theorem ParseUint_digits (ds : List Char) (hne : ds ≠ []) (h : allDecimalDigits ds = true)
    (hv : decimalDigitsValue ds 0 < 2 ^ 64) :
    ParseUint ds 0 = (decimalDigitsValue ds 0, none) := by
  have hb : (if (0 : Nat) = 0 then intSize else 0) = 64 := rfl
  unfold ParseUint
  rw [if_neg hne]
  dsimp only
  rw [hb]
  exact parseUintLoop_digits ds 0 h hv

/-- The last steps of `ParseInt` once `ParseUint` has returned `v` without a
syntax error. -/
theorem ParseInt_of_ParseUint (s body : List Char) (v : Nat) (e : Option NumError)
    (hs : s ≠ [])
    (hbody : (if s.head? = some '+' ∨ s.head? = some '-' then s.tail else s) = body)
    (hu : ParseUint body 0 = (v, e)) (he : e ≠ some NumError.ErrSyntax) :
    ParseInt s 0 =
      if (!decide (s.head? = some '-')) = true ∧ v ≥ 2 ^ 63 then
        ((((2 : Nat) ^ 63 : Nat) : Int) - 1, some NumError.ErrRange)
      else if decide (s.head? = some '-') = true ∧ v > 2 ^ 63 then
        (-(((2 : Nat) ^ 63 : Nat) : Int), some NumError.ErrRange)
      else
        ((if decide (s.head? = some '-') = true then wrapInt64 (-toInt64 v) else toInt64 v),
          none) := by
  have hb : (if (0 : Nat) = 0 then intSize else 0) - 1 = 63 := rfl
  unfold ParseInt
  rw [if_neg hs]
  dsimp only
  rw [hbody, hu, hb]
  simp [he]

/-- The slow path of `Atoi` (`ParseInt`) on a digit string without sign. -/
theorem ParseInt_unsigned (ds : List Char) (hne : ds ≠ []) (h : allDecimalDigits ds = true)
    (hv : decimalDigitsValue ds 0 < 2 ^ 63) :
    ParseInt ds 0 = ((decimalDigitsValue ds 0 : Int), none) := by
  obtain ⟨c, cs, rfl⟩ := List.exists_cons_of_ne_nil hne
  obtain ⟨hp, hm⟩ := head_digit_not_sign c cs h
  rw [ParseInt_of_ParseUint (c :: cs) (c :: cs) _ none hne (by simp [hp, hm])
    (ParseUint_digits _ hne h (by omega)) (by simp)]
  simp only [List.head?_cons, Option.some.injEq, hm, decide_False, Bool.not_false, true_and,
    Bool.false_eq_true, false_and, if_false, toInt64]
  rw [if_neg (by omega), if_pos hv]

theorem ParseInt_plus (ds : List Char) (hne : ds ≠ []) (h : allDecimalDigits ds = true)
    (hv : decimalDigitsValue ds 0 < 2 ^ 63) :
    ParseInt ('+' :: ds) 0 = ((decimalDigitsValue ds 0 : Int), none) := by
  rw [ParseInt_of_ParseUint ('+' :: ds) ds _ none (by simp) (by simp)
    (ParseUint_digits _ hne h (by omega)) (by simp)]
  simp only [List.head?_cons, Option.some.injEq, reduceCtorEq, Char.reduceEq, decide_False,
    Bool.not_false, true_and, Bool.false_eq_true, false_and, if_false, toInt64]
  rw [if_neg (by omega), if_pos hv]

theorem ParseInt_minus (ds : List Char) (hne : ds ≠ []) (h : allDecimalDigits ds = true)
    (hv : decimalDigitsValue ds 0 ≤ 2 ^ 63) :
    ParseInt ('-' :: ds) 0 = (-(decimalDigitsValue ds 0 : Int), none) := by
  rw [ParseInt_of_ParseUint ('-' :: ds) ds _ none (by simp) (by simp)
    (ParseUint_digits _ hne h (by omega)) (by simp)]
  have hnot : ¬ decimalDigitsValue ds 0 > 2 ^ 63 := by omega
  simp only [List.head?_cons, decide_True, Bool.not_true, Bool.false_eq_true, false_and,
    if_false, true_and, hnot, if_true]
  by_cases hlt : decimalDigitsValue ds 0 < 2 ^ 63
  · simp only [toInt64, hlt, if_true, wrapInt64]
    congr 1
    omega
  · have heq : decimalDigitsValue ds 0 = 2 ^ 63 := by omega
    simp [heq, toInt64, wrapInt64]

theorem atoiChars_unsigned (ds : List Char) (hne : ds ≠ []) (h : allDecimalDigits ds = true)
    (hv : decimalDigitsValue ds 0 < 2 ^ 63) :
    atoiChars ds = ((decimalDigitsValue ds 0 : Int), none) := by
  unfold atoiChars
  dsimp only
  by_cases hfast : (intSize = 32 ∧ 0 < byteLen ds ∧ byteLen ds < 10) ∨
      (intSize = 64 ∧ 0 < byteLen ds ∧ byteLen ds < 19)
  · rw [if_pos hfast]
    obtain ⟨c, cs, rfl⟩ := List.exists_cons_of_ne_nil hne
    obtain ⟨hp, hm⟩ := head_digit_not_sign c cs h
    simp [hp, hm, atoiLoop_digits _ _ h]
  · rw [if_neg hfast]
    exact ParseInt_unsigned ds hne h hv

theorem atoiChars_plus (ds : List Char) (hne : ds ≠ []) (h : allDecimalDigits ds = true)
    (hv : decimalDigitsValue ds 0 < 2 ^ 63) :
    atoiChars ('+' :: ds) = ((decimalDigitsValue ds 0 : Int), none) := by
  unfold atoiChars
  dsimp only
  by_cases hfast : (intSize = 32 ∧ 0 < byteLen ('+' :: ds) ∧ byteLen ('+' :: ds) < 10) ∨
      (intSize = 64 ∧ 0 < byteLen ('+' :: ds) ∧ byteLen ('+' :: ds) < 19)
  · rw [if_pos hfast]
    simp [length_pos_of_ne_nil ds hne, atoiLoop_digits _ _ h]
  · rw [if_neg hfast]
    exact ParseInt_plus ds hne h hv

theorem atoiChars_minus (ds : List Char) (hne : ds ≠ []) (h : allDecimalDigits ds = true)
    (hv : decimalDigitsValue ds 0 ≤ 2 ^ 63) :
    atoiChars ('-' :: ds) = (-(decimalDigitsValue ds 0 : Int), none) := by
  unfold atoiChars
  dsimp only
  by_cases hfast : (intSize = 32 ∧ 0 < byteLen ('-' :: ds) ∧ byteLen ('-' :: ds) < 10) ∨
      (intSize = 64 ∧ 0 < byteLen ('-' :: ds) ∧ byteLen ('-' :: ds) < 19)
  · rw [if_pos hfast]
    simp [length_pos_of_ne_nil ds hne, atoiLoop_digits _ _ h]
  · rw [if_neg hfast]
    exact ParseInt_minus ds hne h hv

/-- `Atoi` on a decimal representation of an integer in the range of `int`
returns that integer and no error. -/
theorem Atoi_decimal (s : String) (n : Int) (h : decimalValue s = some n)
    (hlo : -2 ^ 63 ≤ n) (hhi : n < 2 ^ 63) : Atoi s = (n, none) := by
  unfold decimalValue at h
  unfold Atoi
  split at h
  · rename_i ds hs
    split at h
    · rename_i hd
      simp only [Option.some.injEq] at h
      subst h
      rw [hs]
      exact atoiChars_plus ds hd.1 hd.2 (by exact_mod_cast hhi)
    · exact absurd h (by simp)
  · rename_i ds hs
    split at h
    · rename_i hd
      simp only [Option.some.injEq] at h
      subst h
      rw [hs]
      refine atoiChars_minus ds hd.1 hd.2 ?_
      have h2 : (decimalDigitsValue ds 0 : Int) ≤ 2 ^ 63 := by omega
      exact_mod_cast h2
    · exact absurd h (by simp)
  · split at h
    · rename_i hd
      simp only [Option.some.injEq] at h
      subst h
      exact atoiChars_unsigned _ hd.1 hd.2 (by exact_mod_cast hhi)
    · exact absurd h (by simp)

end strconv

namespace strconv

theorem decimalDigitsValue_lt_pow (ds : List Char) (n : Nat)
    (h : allDecimalDigits ds = true) :
    decimalDigitsValue ds n < (n + 1) * 10 ^ ds.length := by
  induction ds generalizing n with
  | nil => simp [decimalDigitsValue]
  | cons c cs ih =>
    simp only [allDecimalDigits, List.all_cons, Bool.and_eq_true, decide_eq_true_eq] at h
    have h1 := ih (n * 10 + (c.toNat - 48)) (by simpa [allDecimalDigits] using h.2)
    have h2 : n * 10 + (c.toNat - 48) + 1 ≤ (n + 1) * 10 := by omega
    have h3 : (n * 10 + (c.toNat - 48) + 1) * 10 ^ cs.length ≤ (n + 1) * 10 * 10 ^ cs.length :=
      Nat.mul_le_mul_right _ h2
    simp only [decimalDigitsValue, List.foldl_cons, List.length_cons] at h1 ⊢
    calc _ < (n * 10 + (c.toNat - 48) + 1) * 10 ^ cs.length := h1
      _ ≤ (n + 1) * 10 * 10 ^ cs.length := h3
      _ = (n + 1) * 10 ^ (cs.length + 1) := by rw [Nat.pow_succ]; ring

theorem byteLen_digits (ds : List Char) (h : allDecimalDigits ds = true) :
    byteLen ds = ds.length := by
  induction ds with
  | nil => rfl
  | cons c cs ih =>
    simp only [allDecimalDigits, List.all_cons, Bool.and_eq_true, decide_eq_true_eq] at h
    have hc : c.utf8Size = 1 := by
      have : c.val ≤ 127 := by
        have h2 : c.toNat ≤ 57 := h.1.2
        simp only [Char.toNat] at h2
        exact UInt32.le_def.mpr (by simpa using (by omega : c.val.toNat ≤ 127))
      simp [Char.utf8Size, this]
    have := ih (by simpa [allDecimalDigits] using h.2)
    simp only [byteLen, List.map_cons, List.sum_cons, List.length_cons] at this ⊢
    omega

theorem byteLen_cons_pos (c : Char) (cs : List Char) : 0 < byteLen (c :: cs) := by
  have := Char.utf8Size_eq c
  simp only [byteLen, List.map_cons, List.sum_cons]
  omega

/-- What the digit loop of `ParseUint` returns on a string of decimal digits:
the value when it fits 64 bits, the range error otherwise. -/
theorem parseUintLoop_digits_full (ds : List Char) (n : Nat) (h : allDecimalDigits ds = true)
    (hn : n < 2 ^ 64) :
    parseUintLoop ((2 ^ 64 - 1) / 10 + 1) (2 ^ 64 - 1) ds n =
      if decimalDigitsValue ds n < 2 ^ 64 then (decimalDigitsValue ds n, none)
      else (2 ^ 64 - 1, some .ErrRange) := by
  induction ds generalizing n with
  | nil =>
    have hn' : decimalDigitsValue [] n < 2 ^ 64 := by simpa [decimalDigitsValue] using hn
    rw [if_pos hn']
    simp [parseUintLoop, decimalDigitsValue]
  | cons c cs ih =>
    simp only [allDecimalDigits, List.all_cons, Bool.and_eq_true, decide_eq_true_eq] at h
    have hcs : allDecimalDigits cs = true := by simpa [allDecimalDigits] using h.2
    have hge := decimalDigitsValue_ge cs (n * 10 + (c.toNat - 48))
    have hstep : decimalDigitsValue (c :: cs) n = decimalDigitsValue cs (n * 10 + (c.toNat - 48)) := by
      simp [decimalDigitsValue]
    have hd : c.toNat - 48 < 10 := by omega
    rw [parseUintLoop, digitOf_digit c h.1]
    simp only []
    rw [if_neg (by omega)]
    by_cases hcut : n ≥ (2 ^ 64 - 1) / 10 + 1
    · rw [if_pos hcut, if_neg]
      rw [hstep]
      norm_num at hcut ⊢
      omega
    · rw [if_neg hcut]
      have hm1 : n * 10 % 2 ^ 64 = n * 10 := Nat.mod_eq_of_lt (by norm_num at hcut ⊢; omega)
      rw [hm1]
      by_cases hov : n * 10 + (c.toNat - 48) < 2 ^ 64
      · rw [Nat.mod_eq_of_lt hov, if_neg (by omega), ih _ hcs hov, hstep]
      · have hw : (n * 10 + (c.toNat - 48)) % 2 ^ 64 = n * 10 + (c.toNat - 48) - 2 ^ 64 := by
          norm_num at hcut hov ⊢
          omega
        rw [hw, if_pos (Or.inl (by norm_num at hcut hov ⊢; omega)), if_neg]
        rw [hstep]
        omega

theorem ParseUint_digits_full (ds : List Char) (hne : ds ≠ []) (h : allDecimalDigits ds = true) :
    ParseUint ds 0 =
      if decimalDigitsValue ds 0 < 2 ^ 64 then (decimalDigitsValue ds 0, none)
      else (2 ^ 64 - 1, some .ErrRange) := by
  have hb : (if (0 : Nat) = 0 then intSize else 0) = 64 := rfl
  unfold ParseUint
  rw [if_neg hne]
  dsimp only
  rw [hb]
  exact parseUintLoop_digits_full ds 0 h (by norm_num)

end strconv

namespace strconv

/-- A string of fewer than 19 decimal digits is below `2^63`. -/
theorem digits_short_lt (ds : List Char) (h : allDecimalDigits ds = true)
    (hlen : ds.length < 19) : decimalDigitsValue ds 0 < 2 ^ 63 := by
  have h1 := decimalDigitsValue_lt_pow ds 0 h
  have h2 : (10 : Nat) ^ ds.length ≤ 10 ^ 18 := Nat.pow_le_pow_right (by norm_num) (by omega)
  have h3 : (10 : Nat) ^ 18 < 2 ^ 63 := by norm_num
  omega

/-- `ParseUint` on digits never reports a syntax error. -/
theorem ParseUint_digits_error_kind (ds : List Char) (hne : ds ≠ [])
    (h : allDecimalDigits ds = true) :
    (ParseUint ds 0).2 ≠ some NumError.ErrSyntax := by
  rw [ParseUint_digits_full ds hne h]
  split <;> simp

theorem ParseUint_digits_value (ds : List Char) (hne : ds ≠ [])
    (h : allDecimalDigits ds = true) (v : Nat) (hv : v ≤ decimalDigitsValue ds 0)
    (hv64 : v < 2 ^ 64) :
    v ≤ (ParseUint ds 0).1 := by
  rw [ParseUint_digits_full ds hne h]
  split
  · exact hv
  · show v ≤ 2 ^ 64 - 1
    omega

theorem ParseInt_unsigned_above (ds : List Char) (hne : ds ≠ [])
    (h : allDecimalDigits ds = true) (hv : 2 ^ 63 ≤ decimalDigitsValue ds 0) :
    ParseInt ds 0 = (2 ^ 63 - 1, some .ErrRange) := by
  obtain ⟨c, cs, rfl⟩ := List.exists_cons_of_ne_nil hne
  obtain ⟨hp, hm⟩ := head_digit_not_sign c cs h
  rw [ParseInt_of_ParseUint (c :: cs) (c :: cs) (ParseUint (c :: cs) 0).1
    (ParseUint (c :: cs) 0).2 hne (by simp [hp, hm]) rfl (ParseUint_digits_error_kind _ hne h)]
  have := ParseUint_digits_value _ hne h (2 ^ 63) hv (by norm_num)
  simp only [List.head?_cons, Option.some.injEq, hm, decide_False, Bool.not_false, true_and]
  rw [if_pos this]
  norm_num

theorem ParseInt_plus_above (ds : List Char) (hne : ds ≠ [])
    (h : allDecimalDigits ds = true) (hv : 2 ^ 63 ≤ decimalDigitsValue ds 0) :
    ParseInt ('+' :: ds) 0 = (2 ^ 63 - 1, some .ErrRange) := by
  rw [ParseInt_of_ParseUint ('+' :: ds) ds (ParseUint ds 0).1
    (ParseUint ds 0).2 (by simp) (by simp) rfl (ParseUint_digits_error_kind _ hne h)]
  have := ParseUint_digits_value _ hne h (2 ^ 63) hv (by norm_num)
  simp only [List.head?_cons, Option.some.injEq, Char.reduceEq, decide_False, Bool.not_false,
    true_and]
  rw [if_pos this]
  norm_num

theorem ParseInt_minus_below (ds : List Char) (hne : ds ≠ [])
    (h : allDecimalDigits ds = true) (hv : 2 ^ 63 < decimalDigitsValue ds 0) :
    ParseInt ('-' :: ds) 0 = (-2 ^ 63, some .ErrRange) := by
  rw [ParseInt_of_ParseUint ('-' :: ds) ds (ParseUint ds 0).1
    (ParseUint ds 0).2 (by simp) (by simp) rfl (ParseUint_digits_error_kind _ hne h)]
  have := ParseUint_digits_value _ hne h (2 ^ 63 + 1) hv (by norm_num)
  have h2 : (ParseUint ds 0).1 > 2 ^ 63 := by omega
  simp only [List.head?_cons, decide_True, Bool.not_true, Bool.false_eq_true, false_and,
    if_false, true_and]
  rw [if_pos h2]
  norm_num

/-- The fast path of `Atoi` is not taken by a string of digits (with or
without sign) whose value is `2^63` or more. -/
theorem not_fast_of_large (sign : List Char) (ds : List Char)
    (h : allDecimalDigits ds = true) (hv : 2 ^ 63 ≤ decimalDigitsValue ds 0) :
    ¬ ((intSize = 32 ∧ 0 < byteLen (sign ++ ds) ∧ byteLen (sign ++ ds) < 10) ∨
      (intSize = 64 ∧ 0 < byteLen (sign ++ ds) ∧ byteLen (sign ++ ds) < 19)) := by
  have hlen : ¬ ds.length < 19 := fun hl => by
    have := digits_short_lt ds h hl
    omega
  have hb := byteLen_digits ds h
  have hge : byteLen ds ≤ byteLen (sign ++ ds) := by
    simp [byteLen]
  have h32 : intSize ≠ 32 := by decide
  rintro (⟨h1, -⟩ | ⟨-, -, h3⟩)
  · exact h32 h1
  · omega

end strconv

namespace strconv

theorem atoiChars_slow (s : List Char)
    (h : ¬ ((intSize = 32 ∧ 0 < byteLen s ∧ byteLen s < 10) ∨
      (intSize = 64 ∧ 0 < byteLen s ∧ byteLen s < 19))) :
    atoiChars s = ParseInt s 0 := by
  unfold atoiChars
  dsimp only
  rw [if_neg h]

/-- `Atoi` on a decimal representation of an integer above the range of `int`:
the largest `int` and a range error. -/
theorem Atoi_above (s : String) (n : Int) (h : decimalValue s = some n) (hn : 2 ^ 63 ≤ n) :
    Atoi s = (2 ^ 63 - 1, some .ErrRange) := by
  unfold decimalValue at h
  unfold Atoi
  split at h
  · rename_i ds hs
    split at h
    · rename_i hd
      simp only [Option.some.injEq] at h
      subst h
      have hv : 2 ^ 63 ≤ decimalDigitsValue ds 0 := by exact_mod_cast hn
      rw [hs, atoiChars_slow ('+' :: ds) (not_fast_of_large ['+'] ds hd.2 hv)]
      exact ParseInt_plus_above ds hd.1 hd.2 hv
    · exact absurd h (by simp)
  · rename_i ds hs
    split at h
    · simp only [Option.some.injEq] at h
      omega
    · exact absurd h (by simp)
  · split at h
    · rename_i hd
      simp only [Option.some.injEq] at h
      subst h
      have hv : 2 ^ 63 ≤ decimalDigitsValue s.data 0 := by exact_mod_cast hn
      rw [atoiChars_slow s.data (not_fast_of_large [] s.data hd.2 hv)]
      exact ParseInt_unsigned_above _ hd.1 hd.2 hv
    · exact absurd h (by simp)

/-- `Atoi` on a decimal representation of an integer below the range of `int`:
the smallest `int` and a range error. -/
theorem Atoi_below (s : String) (n : Int) (h : decimalValue s = some n) (hn : n < -2 ^ 63) :
    Atoi s = (-2 ^ 63, some .ErrRange) := by
  unfold decimalValue at h
  unfold Atoi
  split at h
  · split at h
    · simp only [Option.some.injEq] at h
      omega
    · exact absurd h (by simp)
  · rename_i ds hs
    split at h
    · rename_i hd
      simp only [Option.some.injEq] at h
      subst h
      have hv' : (2 : Int) ^ 63 < (decimalDigitsValue ds 0 : Int) := by omega
      have hv : 2 ^ 63 < decimalDigitsValue ds 0 := by exact_mod_cast hv'
      rw [hs, atoiChars_slow ('-' :: ds) (not_fast_of_large ['-'] ds hd.2 (by omega))]
      exact ParseInt_minus_below ds hd.1 hd.2 hv
    · exact absurd h (by simp)
  · split at h
    · simp only [Option.some.injEq] at h
      omega
    · exact absurd h (by simp)

theorem atoiLoop_not_digits (ds : List Char) (n : Nat) (h : allDecimalDigits ds = false) :
    atoiLoop ds n = none := by
  induction ds generalizing n with
  | nil => simp [allDecimalDigits] at h
  | cons c cs ih =>
    have hc : '0'.toNat = 48 := by decide
    have h9 : '9'.toNat = 57 := by decide
    by_cases hd : 48 ≤ c.toNat ∧ c.toNat ≤ 57
    · have hcs : allDecimalDigits cs = false := by
        simpa [allDecimalDigits, hd] using h
      simp only [atoiLoop, hc, h9, hd, and_self, if_true]
      exact ih _ hcs
    · simp only [atoiLoop, hc, h9, hd, if_false]

/-- The fast path of `Atoi` on a string that is not a decimal representation:
zero and a syntax error. -/
theorem Atoi_syntax_short (s : String) (h : decimalValue s = none)
    (hlen : byteLen s.data < 19) : Atoi s = (0, some .ErrSyntax) := by
  unfold Atoi
  by_cases hnil : s.data = []
  · rw [hnil]
    decide
  · obtain ⟨c, cs, hs⟩ := List.exists_cons_of_ne_nil hnil
    have hfast : (intSize = 32 ∧ 0 < byteLen s.data ∧ byteLen s.data < 10) ∨
        (intSize = 64 ∧ 0 < byteLen s.data ∧ byteLen s.data < 19) :=
      Or.inr ⟨rfl, by rw [hs]; exact byteLen_cons_pos c cs, hlen⟩
    unfold atoiChars
    dsimp only
    rw [if_pos hfast]
    unfold decimalValue at h
    split at h
    · rename_i ds hs'
      rw [hs']
      by_cases hds : ds = []
      · simp [hds]
      · have hnd : allDecimalDigits ds = false := by
          by_contra hcon
          simp [hds, hcon] at h
        simp [atoiLoop_not_digits ds 0 hnd]
    · rename_i ds hs'
      rw [hs']
      by_cases hds : ds = []
      · simp [hds]
      · have hnd : allDecimalDigits ds = false := by
          by_contra hcon
          simp [hds, hcon] at h
        simp [atoiLoop_not_digits ds 0 hnd]
    · rename_i hplus hminus
      have hnd : allDecimalDigits s.data = false := by
        by_contra hcon
        simp [hnil, hcon] at h
      have hp : c ≠ '+' := fun hc => hplus cs (by rw [hs, hc])
      have hm : c ≠ '-' := fun hc => hminus cs (by rw [hs, hc])
      rw [hs] at hnd ⊢
      simp [hp, hm, atoiLoop_not_digits _ 0 hnd]

/-- The value `Atoi` returns with an error: zero with a syntax error, the
nearest bound of `int` with a range error. -/
theorem Atoi_error_value (s : String) :
    ((Atoi s).2 = some .ErrSyntax → (Atoi s).1 = 0) ∧
    ((Atoi s).2 = some .ErrRange → (Atoi s).1 = 2 ^ 63 - 1 ∨ (Atoi s).1 = -2 ^ 63) := by
  have hb : (if (0 : Nat) = 0 then intSize else 0) - 1 = 63 := rfl
  unfold Atoi atoiChars
  dsimp only
  by_cases hfast : (intSize = 32 ∧ 0 < byteLen s.data ∧ byteLen s.data < 10) ∨
      (intSize = 64 ∧ 0 < byteLen s.data ∧ byteLen s.data < 19)
  · rw [if_pos hfast]
    generalize (if decide (s.data.head? = some '-' ∨ s.data.head? = some '+') = true
      then s.data.tail else s.data) = body
    split_ifs <;> cases atoiLoop body 0 <;> simp
  · rw [if_neg hfast]
    unfold ParseInt
    dsimp only
    rw [hb]
    generalize ParseUint (if s.data.head? = some '+' ∨ s.data.head? = some '-'
      then s.data.tail else s.data) 0 = r
    split_ifs <;> simp

end strconv

/-! ## Claims about `convertTransmission` -/

/-- C3. For every Transmission whose ContactID, ProgramID, AccountID, IsPrint,
IsCoverPage and TryAllowed strings are decimal representations of integers
within the integer range, `convertTransmission` returns the record whose
same-named integer fields are those integers and whose Title is unchanged. -/
theorem convertTransmission_decimal_fields (t : Transmission)
    (contactID programID accountID isPrint isCoverPage tryAllowed : Int)
    (hContact : decimalValue t.ContactID = some contactID ∧ inIntRange contactID)
    (hProgram : decimalValue t.ProgramID = some programID ∧ inIntRange programID)
    (hAccount : decimalValue t.AccountID = some accountID ∧ inIntRange accountID)
    (hPrint : decimalValue t.IsPrint = some isPrint ∧ inIntRange isPrint)
    (hCover : decimalValue t.IsCoverPage = some isCoverPage ∧ inIntRange isCoverPage)
    (hTry : decimalValue t.TryAllowed = some tryAllowed ∧ inIntRange tryAllowed) :
    convertTransmission t =
      { Title := t.Title
        ContactID := contactID
        AccountID := accountID
        ProgramID := programID
        IsPrint := isPrint
        IsCoverPage := isCoverPage
        TryAllowed := tryAllowed } := by
  unfold convertTransmission
  simp only [strconv.Atoi_decimal _ _ hContact.1 hContact.2.1 hContact.2.2,
    strconv.Atoi_decimal _ _ hProgram.1 hProgram.2.1 hProgram.2.2,
    strconv.Atoi_decimal _ _ hAccount.1 hAccount.2.1 hAccount.2.2,
    strconv.Atoi_decimal _ _ hPrint.1 hPrint.2.1 hPrint.2.2,
    strconv.Atoi_decimal _ _ hCover.1 hCover.2.1 hCover.2.2,
    strconv.Atoi_decimal _ _ hTry.1 hTry.2.1 hTry.2.2]

/-- C3, at the specification's example: ContactID "12", ProgramID "7",
AccountID "3", IsPrint "1", IsCoverPage "0", TryAllowed "2" give the integer
fields 12, 3, 7, 1, 0, 2. -/
theorem convertTransmission_decimal_fields_witness :
    convertTransmission
        { Title := "fax", ContactID := "12", AccountID := "3", ProgramID := "7",
          IsPrint := "1", IsCoverPage := "0", TryAllowed := "2" } =
      { Title := "fax", ContactID := 12, AccountID := 3, ProgramID := 7,
        IsPrint := 1, IsCoverPage := 0, TryAllowed := 2 } :=
  convertTransmission_decimal_fields
    { Title := "fax", ContactID := "12", AccountID := "3", ProgramID := "7",
      IsPrint := "1", IsCoverPage := "0", TryAllowed := "2" }
    12 7 3 1 0 2 (by decide) (by decide) (by decide) (by decide) (by decide) (by decide)

/-- C4 as stated fails: the AccountID "9223372036854775808", a digit string too
large for `int`, fails integer conversion (a range error), and the converted
field is 9223372036854775807, not 0. -/
theorem convertTransmission_too_large_not_zero :
    (strconv.Atoi "9223372036854775808").2 = some strconv.NumError.ErrRange ∧
    (convertTransmission
        { Title := "fax", ContactID := "12", AccountID := "9223372036854775808",
          ProgramID := "7", IsPrint := "1", IsCoverPage := "0",
          TryAllowed := "2" }).AccountID = 9223372036854775807 ∧
    (convertTransmission
        { Title := "fax", ContactID := "12", AccountID := "9223372036854775808",
          ProgramID := "7", IsPrint := "1", IsCoverPage := "0",
          TryAllowed := "2" }).AccountID ≠ 0 := by
  decide

/-- C4, amended. For every Transmission, each numeric field of the result is
what `strconv.Atoi` returns for its own source string alone (so a failure in
one field changes no other, and no error is raised). A field whose string fails
with a syntax error is 0: the empty string, and every string shorter than 19
bytes that is not an optional sign followed by decimal digits (non-numeric
text, text with surrounding white space). A field whose string fails with a
range error is the nearest bound of `int`: 9223372036854775807 for a decimal
representation of an integer above the range, -9223372036854775808 for one
below it. -/
theorem convertTransmission_failed_fields (t : Transmission) :
    ((convertTransmission t).ContactID = (strconv.Atoi t.ContactID).1 ∧
      (convertTransmission t).ProgramID = (strconv.Atoi t.ProgramID).1 ∧
      (convertTransmission t).AccountID = (strconv.Atoi t.AccountID).1 ∧
      (convertTransmission t).IsPrint = (strconv.Atoi t.IsPrint).1 ∧
      (convertTransmission t).IsCoverPage = (strconv.Atoi t.IsCoverPage).1 ∧
      (convertTransmission t).TryAllowed = (strconv.Atoi t.TryAllowed).1 ∧
      (convertTransmission t).Title = t.Title) ∧
    (∀ s : String, (strconv.Atoi s).2 = some strconv.NumError.ErrSyntax →
      (strconv.Atoi s).1 = 0) ∧
    (∀ s : String, (strconv.Atoi s).2 = some strconv.NumError.ErrRange →
      (strconv.Atoi s).1 = 2 ^ 63 - 1 ∨ (strconv.Atoi s).1 = -2 ^ 63) ∧
    strconv.Atoi "" = (0, some strconv.NumError.ErrSyntax) ∧
    (∀ s : String, decimalValue s = none → strconv.byteLen s.data < 19 →
      strconv.Atoi s = (0, some strconv.NumError.ErrSyntax)) ∧
    (∀ (s : String) (n : Int), decimalValue s = some n → 2 ^ 63 ≤ n →
      strconv.Atoi s = (2 ^ 63 - 1, some strconv.NumError.ErrRange)) ∧
    (∀ (s : String) (n : Int), decimalValue s = some n → n < -2 ^ 63 →
      strconv.Atoi s = (-2 ^ 63, some strconv.NumError.ErrRange)) :=
  ⟨⟨rfl, rfl, rfl, rfl, rfl, rfl, rfl⟩,
    fun s => (strconv.Atoi_error_value s).1,
    fun s => (strconv.Atoi_error_value s).2,
    by decide,
    strconv.Atoi_syntax_short,
    strconv.Atoi_above,
    strconv.Atoi_below⟩

/-! ## `filepath.Ext`, `strings`: lemmas -/

theorem afterLast_not_mem (c : Char) (s : List Char) (h : c ∉ s) : afterLast c s = none := by
  induction s with
  | nil => rfl
  | cons x xs ih =>
    simp only [List.mem_cons, not_or] at h
    simp [afterLast, ih h.2, Ne.symm h.1]

theorem afterLast_append_of_not_mem (c : Char) (a b : List Char) (h : c ∉ b) :
    afterLast c (a ++ b) = (afterLast c a).map (· ++ b) := by
  induction a with
  | nil => simp [afterLast, afterLast_not_mem c b h]
  | cons x xs ih =>
    rw [List.cons_append, afterLast, afterLast, ih]
    cases afterLast c xs with
    | none =>
      by_cases hx : x = c <;> simp [hx]
    | some r => simp

theorem afterLast_append_cons (c : Char) (a b : List Char) (h : c ∉ b) :
    afterLast c (a ++ c :: b) = some b := by
  induction a with
  | nil => simp [afterLast, afterLast_not_mem c b h]
  | cons x xs ih => simp [afterLast, ih]

theorem afterLast_some_not_mem (c : Char) (s r : List Char) (h : afterLast c s = some r) :
    c ∉ r := by
  induction s generalizing r with
  | nil => simp [afterLast] at h
  | cons x xs ih =>
    simp only [afterLast] at h
    cases hxs : afterLast c xs with
    | some r' =>
      rw [hxs] at h
      simp only [Option.some.injEq] at h
      subst h
      exact ih r' hxs
    | none =>
      rw [hxs] at h
      by_cases hx : x = c
      · simp only [hx, if_true, Option.some.injEq] at h
        subst h
        intro hmem
        have : afterLast c xs ≠ none := by
          clear hxs ih
          induction xs with
          | nil => simp at hmem
          | cons y ys ih2 =>
            simp only [List.mem_cons] at hmem
            simp only [afterLast]
            cases hys : afterLast c ys with
            | some _ => simp
            | none =>
              rcases hmem with hy | hy
              · simp [hy]
              · exact absurd hys (ih2 hy)
        exact this hxs
      · simp [hx] at h

theorem finalElement_append (a b : List Char) (h : '/' ∉ b) :
    finalElement (a ++ b) = finalElement a ++ b := by
  unfold finalElement
  rw [afterLast_append_of_not_mem '/' a b h]
  cases afterLast '/' a <;> simp

namespace filepath

/-- The specification's extension with its dot, as `Ext` returns it. -/
theorem extLoop_eq (pre suf : List Char) (hdot : '.' ∉ suf) (hsep : '/' ∉ suf) :
    extLoop (pre ++ suf) pre.length =
      match extensionText (pre ++ suf) with
      | some e => '.' :: e
      | none => [] := by
  induction pre using List.reverseRecOn generalizing suf with
  | nil =>
    simp [extLoop, extensionText, finalElement, afterLast_not_mem _ _ hdot,
      afterLast_not_mem _ _ hsep]
  | append_singleton pre' c ih =>
    have hget : (pre' ++ c :: suf)[pre'.length]? = some c := by
      rw [List.getElem?_append_right (le_refl _)]
      simp
    have hlen : (pre' ++ [c]).length = pre'.length + 1 := by simp
    rw [hlen, List.append_assoc, List.singleton_append, extLoop, hget]
    simp only [IsPathSeparator, decide_eq_true_eq]
    by_cases hc1 : c = '/'
    · subst hc1
      have : extensionText (pre' ++ '/' :: suf) = none := by
        unfold extensionText finalElement
        rw [afterLast_append_cons '/' pre' suf hsep]
        simpa using afterLast_not_mem _ _ hdot
      simp [this]
    · by_cases hc2 : c = '.'
      · subst hc2
        have : extensionText (pre' ++ '.' :: suf) = some suf := by
          unfold extensionText
          rw [finalElement_append pre' ('.' :: suf) (by simpa using hsep)]
          exact afterLast_append_cons '.' _ suf hdot
        simp [this, hc1, List.drop_append]
      · have := ih (c :: suf) (by simp [hdot, Ne.symm hc2]) (by simp [hsep, Ne.symm hc1])
        simp only [hc1, hc2, if_false]
        exact this

theorem Ext_eq (path : List Char) :
    Ext path =
      match extensionText path with
      | some e => '.' :: e
      | none => [] := by
  have := extLoop_eq path [] (by simp) (by simp)
  simpa [Ext] using this

end filepath

namespace strings

theorem replaceFrom_single (c : Char) (s : List Char) :
    replaceFrom [c] [] 0 s = s.filter (fun x => x ≠ c) := by
  induction s with
  | nil => simp [replaceFrom]
  | cons x xs ih =>
    by_cases hx : c = x
    · subst hx
      simp [replaceFrom, List.isPrefixOf, ih]
    · have hx' : ¬ x = c := fun h => hx h.symm
      simp [replaceFrom, List.isPrefixOf, ih, hx, hx']

/-- Deleting every occurrence of one character. -/
theorem ReplaceAll_single (c : Char) (s : List Char) :
    ReplaceAll s [c] [] = s.filter (fun x => x ≠ c) := by
  simp [ReplaceAll, replaceFrom_single]

theorem dropWhile_append_of_all (f : Char → Bool) (l s : List Char) (h : ∀ x ∈ l, f x = true) :
    (l ++ s).dropWhile f = s.dropWhile f := by
  induction l with
  | nil => rfl
  | cons x xs ih =>
    simp only [List.mem_cons, forall_eq_or_imp] at h
    simp [List.dropWhile, h.1, ih h.2]

/-- Trimming does not see a prefix and a suffix made of trimmed characters. -/
theorem TrimFunc_append_of_all (f : Char → Bool) (l s r : List Char)
    (hl : ∀ x ∈ l, f x = true) (hr : ∀ x ∈ r, f x = true) :
    TrimFunc (l ++ s ++ r) f = TrimFunc s f := by
  unfold TrimFunc TrimLeftFunc TrimRightFunc
  rw [List.append_assoc, dropWhile_append_of_all f l _ hl]
  by_cases hs : ∀ x ∈ s, f x = true
  · have h1 : (s ++ r).dropWhile f = [] := by
      rw [List.dropWhile_eq_nil_iff]
      intro x hx
      rcases List.mem_append.mp hx with h | h
      · exact hs x h
      · exact hr x h
    have h2 : s.dropWhile f = [] := by
      rw [List.dropWhile_eq_nil_iff]
      exact hs
    rw [h1, h2]
  · have hsplit : (s ++ r).dropWhile f = s.dropWhile f ++ r := by
      clear hl hr
      induction s with
      | nil => simp at hs
      | cons x xs ih =>
        by_cases hx : f x = true
        · have hxs : ¬ ∀ y ∈ xs, f y = true := by
            intro hall
            apply hs
            intro y hy
            rcases List.mem_cons.mp hy with h | h
            · rw [h]; exact hx
            · exact hall y h
          simp [List.dropWhile, hx, ih hxs]
        · simp [List.dropWhile, hx]
    rw [hsplit, List.reverse_append,
      dropWhile_append_of_all f r.reverse _ (by simpa using hr)]

end strings

namespace strings

/-- What trimming removes: a prefix and a suffix of trimmed characters. -/
theorem TrimFunc_decompose (f : Char → Bool) (s : List Char) :
    ∃ l r, s = l ++ TrimFunc s f ++ r ∧ (∀ x ∈ l, f x = true) ∧ (∀ x ∈ r, f x = true) := by
  refine ⟨s.takeWhile f, ((s.dropWhile f).reverse.takeWhile f).reverse, ?_, ?_, ?_⟩
  · unfold TrimFunc TrimLeftFunc TrimRightFunc
    rw [List.append_assoc, ← List.reverse_append, List.takeWhile_append_dropWhile,
      List.reverse_reverse, List.takeWhile_append_dropWhile]
  · intro x hx
    exact List.mem_takeWhile_imp hx
  · intro x hx
    exact List.mem_takeWhile_imp (List.mem_reverse.mp hx)

end strings

/-! ## `src/utilities/FileHelper.go`: lemmas -/

theorem space_cutset_isSpace (x : Char) (h : [' '].contains x = true) :
    unicode.IsSpace x = true := by
  have hx : x = ' ' := by simpa using h
  subst hx
  decide

/-- `CleanupFilePath` after `RemoveDot` on a text without dots: the first trim
of spaces is absorbed by the final trim of white space. -/
theorem cleanup_removeDot (e : List Char) (hdot : '.' ∉ e) :
    CleanupFilePath (RemoveDot ⟨'.' :: e⟩) =
      ⟨strings.TrimSpace (e.filter (fun c => c ≠ '\n'))⟩ := by
  have hfilter : ('.' :: e).filter (fun x => decide (x ≠ '.')) = e := by
    rw [List.filter_cons_of_neg (by simp)]
    exact List.filter_eq_self.mpr (fun a ha => by
      have : a ≠ '.' := fun h => hdot (h ▸ ha)
      simpa using this)
  unfold CleanupFilePath RemoveDot
  simp only [strings.ReplaceAll_single, hfilter, strings.Trim, strings.TrimSpace]
  obtain ⟨l, r, hs, hl, hr⟩ := strings.TrimFunc_decompose (fun c => [' '].contains c) e
  congr 1
  conv_rhs => rw [hs]
  rw [List.filter_append, List.filter_append]
  rw [strings.TrimFunc_append_of_all]
  · intro x hx
    exact space_cutset_isSpace x (hl x (List.mem_filter.mp hx).1)
  · intro x hx
    exact space_cutset_isSpace x (hr x (List.mem_filter.mp hx).1)

/-- `CalculateFileExtension` is the specification's cleaned extension, and the
empty string when the final element has no dot. -/
theorem CalculateFileExtension_eq (path : String) :
    CalculateFileExtension path = (cleanedExtension path).getD "" := by
  unfold CalculateFileExtension cleanedExtension
  dsimp only
  rw [filepath.Ext_eq]
  cases h : extensionText path.data with
  | none => decide
  | some e =>
    have hdot : '.' ∉ e := afterLast_some_not_mem '.' _ e h
    simp only [Option.map_some', Option.getD_some]
    exact cleanup_removeDot e hdot

theorem mem_supportedExtensions (e : String) :
    e ∈ supportedExtensions ↔
      (e = TEXT_FILE_EXTENSION ∨ e = PDF_FILE_EXTENSION ∨ e = TIFF_FILE_EXTENSION ∨
        e = JPEG_FILE_EXTENSION ∨ e = JPG_FILE_EXTENSION ∨ e = PNG_FILE_EXTENSION ∨
        e = DOCX_FILE_EXTENSION ∨ e = DOC_FILE_EXTENSION ∨ e = TIF_FILE_EXTENSION ∨
        e = ODT_FILE_EXTENSION) := by
  unfold supportedExtensions TEXT_FILE_EXTENSION PDF_FILE_EXTENSION TIFF_FILE_EXTENSION
    JPEG_FILE_EXTENSION JPG_FILE_EXTENSION PNG_FILE_EXTENSION DOCX_FILE_EXTENSION
    DOC_FILE_EXTENSION TIF_FILE_EXTENSION ODT_FILE_EXTENSION
  constructor
  · intro h
    repeat' rw [List.mem_cons] at h
    rcases h with h | h | h | h | h | h | h | h | h | h | h
    · exact Or.inl h
    · exact Or.inr (Or.inl h)
    · exact Or.inr (Or.inr (Or.inl h))
    · exact Or.inr (Or.inr (Or.inr (Or.inr (Or.inr (Or.inr (Or.inr (Or.inr (Or.inl h))))))))
    · exact Or.inr (Or.inr (Or.inr (Or.inl h)))
    · exact Or.inr (Or.inr (Or.inr (Or.inr (Or.inl h))))
    · exact Or.inr (Or.inr (Or.inr (Or.inr (Or.inr (Or.inl h)))))
    · exact Or.inr (Or.inr (Or.inr (Or.inr (Or.inr (Or.inr (Or.inr (Or.inl h)))))))
    · exact Or.inr (Or.inr (Or.inr (Or.inr (Or.inr (Or.inr (Or.inl h))))))
    · exact Or.inr (Or.inr (Or.inr (Or.inr (Or.inr (Or.inr (Or.inr (Or.inr (Or.inr h))))))))
    · exact absurd h (List.not_mem_nil _)
  · intro h
    rcases h with h | h | h | h | h | h | h | h | h | h <;> subst h <;> decide

theorem ExtractFileExtension_of_supported (path : String)
    (h : CalculateFileExtension path ∈ supportedExtensions) :
    ExtractFileExtension path = CalculateFileExtension path := by
  unfold ExtractFileExtension
  dsimp only
  rw [if_pos ((mem_supportedExtensions _).mp h)]

theorem ExtractFileExtension_of_not_supported (path : String)
    (h : CalculateFileExtension path ∉ supportedExtensions) :
    ExtractFileExtension path = "" := by
  unfold ExtractFileExtension
  dsimp only
  rw [if_neg (fun hc => h ((mem_supportedExtensions _).mpr hc))]
  rfl

/-! ## Claims about the file extension -/

/-- C6. For every path whose final element's extension (the text after its last
dot), after deleting newline characters and trimming surrounding white space,
is one of the ten supported extensions, both `CalculateFileExtension` and
`ExtractFileExtension` return that extension. -/
theorem extension_of_supported_path (path e : String)
    (hext : cleanedExtension path = some e) (hsup : e ∈ supportedExtensions) :
    CalculateFileExtension path = e ∧ ExtractFileExtension path = e := by
  have hcalc : CalculateFileExtension path = e := by
    rw [CalculateFileExtension_eq, hext]
    rfl
  refine ⟨hcalc, ?_⟩
  rw [ExtractFileExtension_of_supported path (by rw [hcalc]; exact hsup), hcalc]

/-- C6, at the examples of the specification and of the repository's test:
"report.pdf" gives "pdf", "notes.txt " gives "txt", and
"/home/mehran/topology ali.pdf \n" gives "pdf". -/
theorem extension_of_supported_path_witness :
    (CalculateFileExtension "report.pdf" = "pdf" ∧ ExtractFileExtension "report.pdf" = "pdf") ∧
    (CalculateFileExtension "notes.txt " = "txt" ∧ ExtractFileExtension "notes.txt " = "txt") ∧
    (CalculateFileExtension "/home/mehran/topology ali.pdf \n" = "pdf" ∧
      ExtractFileExtension "/home/mehran/topology ali.pdf \n" = "pdf") ∧
    CalculateFileExtension "/home/mehran/topology ali.pdf \n" ≠ EMPTY_FILE_EXTENSION :=
  ⟨extension_of_supported_path "report.pdf" "pdf" (by decide) (by decide),
    extension_of_supported_path "notes.txt " "txt" (by decide) (by decide),
    extension_of_supported_path "/home/mehran/topology ali.pdf \n" "pdf" (by decide)
      (by decide),
    by decide⟩

/-- C7, the code at the specification's input: for "scan.DOCX" the function
`ExtractFileExtension` returns the empty string, not "docx"; the calculated
extension keeps its letter case. -/
theorem ExtractFileExtension_upper_case :
    CalculateFileExtension "scan.DOCX" = "DOCX" ∧ ExtractFileExtension "scan.DOCX" = "" := by
  decide

/-- C8. For every path, `ExtractFileExtension` returns the empty string or one
of the ten supported extensions; it returns the empty string whenever the
cleaned extension is not one of them, in particular when the final element has
no dot; "archive.zip" gives "". -/
theorem ExtractFileExtension_empty_or_supported :
    (∀ path : String,
      ExtractFileExtension path = "" ∨ ExtractFileExtension path ∈ supportedExtensions) ∧
    (∀ path : String, (∀ e, cleanedExtension path = some e → e ∉ supportedExtensions) →
      ExtractFileExtension path = "") ∧
    (∀ path : String, extensionText path.data = none → ExtractFileExtension path = "") ∧
    ExtractFileExtension "archive.zip" = "" ∧
    ExtractFileExtension "/var/spool.d/archive" = "" := by
  refine ⟨?_, ?_, ?_, by decide, by decide⟩
  · intro path
    by_cases h : CalculateFileExtension path ∈ supportedExtensions
    · right
      rw [ExtractFileExtension_of_supported path h]
      exact h
    · left
      exact ExtractFileExtension_of_not_supported path h
  · intro path h
    apply ExtractFileExtension_of_not_supported
    rw [CalculateFileExtension_eq]
    cases hc : cleanedExtension path with
    | none => decide
    | some e => exact h e hc
  · intro path h
    apply ExtractFileExtension_of_not_supported
    rw [CalculateFileExtension_eq]
    simp only [cleanedExtension, h, Option.map_none']
    decide

/-! ## Claims about `SendFaxICT` -/

section SendFax

variable {σ : Type} (ops : ICTOperations σ) (userData : UserData) (authToken : String)
  (contact : Contact) (document : DocumentRecord) (transmission : Transmission)
  (fileContents : List Nat) (fileModel : SendFileInfo)

theorem SendFaxICT_fail1 (s s1 : σ) (e : String)
    (h1 : ops.CreateContact userData authToken contact s = (.error e, s1)) :
    SendFaxICT ops userData authToken contact document transmission fileContents fileModel s =
      ⟨some (Step.errorPrefix .CreateContact ++ e),
        [.CreateContact userData authToken contact], s1⟩ := by
  simp [SendFaxICT, h1, Step.errorPrefix]

theorem SendFaxICT_fail2 (s s1 s2 : σ) (contactID : Int) (e : String)
    (h1 : ops.CreateContact userData authToken contact s = (.ok contactID, s1))
    (h2 : ops.CreateDocumentRecord userData authToken document s1 = (.error e, s2)) :
    SendFaxICT ops userData authToken contact document transmission fileContents fileModel s =
      ⟨some (Step.errorPrefix .CreateDocumentRecord ++ e),
        [.CreateContact userData authToken contact,
         .CreateDocumentRecord userData authToken document], s2⟩ := by
  simp [SendFaxICT, h1, h2, Step.errorPrefix]

theorem SendFaxICT_fail3 (s s1 s2 s3 : σ) (contactID documentID : Int) (e : String)
    (h1 : ops.CreateContact userData authToken contact s = (.ok contactID, s1))
    (h2 : ops.CreateDocumentRecord userData authToken document s1 = (.ok documentID, s2))
    (h3 : ops.UploadDocumentFile userData authToken documentID fileContents
      fileModel.ContentType s2 = (.error e, s3)) :
    SendFaxICT ops userData authToken contact document transmission fileContents fileModel s =
      ⟨some (Step.errorPrefix .UploadDocumentFile ++ e),
        [.CreateContact userData authToken contact,
         .CreateDocumentRecord userData authToken document,
         .UploadDocumentFile userData authToken documentID fileContents fileModel.ContentType],
        s3⟩ := by
  simp [SendFaxICT, h1, h2, h3, Step.errorPrefix]

theorem SendFaxICT_fail4 (s s1 s2 s3 s4 : σ) (contactID documentID : Int) (e : String)
    (h1 : ops.CreateContact userData authToken contact s = (.ok contactID, s1))
    (h2 : ops.CreateDocumentRecord userData authToken document s1 = (.ok documentID, s2))
    (h3 : ops.UploadDocumentFile userData authToken documentID fileContents
      fileModel.ContentType s2 = (.ok (), s3))
    (h4 : ops.CreateProgram userData authToken documentID s3 = (.error e, s4)) :
    SendFaxICT ops userData authToken contact document transmission fileContents fileModel s =
      ⟨some (Step.errorPrefix .CreateProgram ++ e),
        [.CreateContact userData authToken contact,
         .CreateDocumentRecord userData authToken document,
         .UploadDocumentFile userData authToken documentID fileContents fileModel.ContentType,
         .CreateProgram userData authToken documentID],
        s4⟩ := by
  simp [SendFaxICT, h1, h2, h3, h4, Step.errorPrefix]

theorem SendFaxICT_fail5 (s s1 s2 s3 s4 s5 : σ) (contactID documentID programID : Int)
    (e : String)
    (h1 : ops.CreateContact userData authToken contact s = (.ok contactID, s1))
    (h2 : ops.CreateDocumentRecord userData authToken document s1 = (.ok documentID, s2))
    (h3 : ops.UploadDocumentFile userData authToken documentID fileContents
      fileModel.ContentType s2 = (.ok (), s3))
    (h4 : ops.CreateProgram userData authToken documentID s3 = (.ok programID, s4))
    (h5 : ops.CreateTransmission userData authToken transmission contactID
      (strconv.Atoi transmission.AccountID).1 programID s4 = (.error e, s5)) :
    SendFaxICT ops userData authToken contact document transmission fileContents fileModel s =
      ⟨some (Step.errorPrefix .CreateTransmission ++ e),
        [.CreateContact userData authToken contact,
         .CreateDocumentRecord userData authToken document,
         .UploadDocumentFile userData authToken documentID fileContents fileModel.ContentType,
         .CreateProgram userData authToken documentID,
         .CreateTransmission userData authToken transmission contactID
           (strconv.Atoi transmission.AccountID).1 programID],
        s5⟩ := by
  simp [SendFaxICT, h1, h2, h3, h4, h5, Step.errorPrefix]

theorem SendFaxICT_fail6 (s s1 s2 s3 s4 s5 s6 : σ)
    (contactID documentID programID transmissionID : Int) (e : String)
    (h1 : ops.CreateContact userData authToken contact s = (.ok contactID, s1))
    (h2 : ops.CreateDocumentRecord userData authToken document s1 = (.ok documentID, s2))
    (h3 : ops.UploadDocumentFile userData authToken documentID fileContents
      fileModel.ContentType s2 = (.ok (), s3))
    (h4 : ops.CreateProgram userData authToken documentID s3 = (.ok programID, s4))
    (h5 : ops.CreateTransmission userData authToken transmission contactID
      (strconv.Atoi transmission.AccountID).1 programID s4 = (.ok transmissionID, s5))
    (h6 : ops.SendTransmission userData authToken transmissionID s5 = (.error e, s6)) :
    SendFaxICT ops userData authToken contact document transmission fileContents fileModel s =
      ⟨some (Step.errorPrefix .SendTransmission ++ e),
        [.CreateContact userData authToken contact,
         .CreateDocumentRecord userData authToken document,
         .UploadDocumentFile userData authToken documentID fileContents fileModel.ContentType,
         .CreateProgram userData authToken documentID,
         .CreateTransmission userData authToken transmission contactID
           (strconv.Atoi transmission.AccountID).1 programID,
         .SendTransmission userData authToken transmissionID],
        s6⟩ := by
  simp [SendFaxICT, h1, h2, h3, h4, h5, h6, Step.errorPrefix]

theorem SendFaxICT_success (s s1 s2 s3 s4 s5 s6 : σ)
    (contactID documentID programID transmissionID : Int)
    (h1 : ops.CreateContact userData authToken contact s = (.ok contactID, s1))
    (h2 : ops.CreateDocumentRecord userData authToken document s1 = (.ok documentID, s2))
    (h3 : ops.UploadDocumentFile userData authToken documentID fileContents
      fileModel.ContentType s2 = (.ok (), s3))
    (h4 : ops.CreateProgram userData authToken documentID s3 = (.ok programID, s4))
    (h5 : ops.CreateTransmission userData authToken transmission contactID
      (strconv.Atoi transmission.AccountID).1 programID s4 = (.ok transmissionID, s5))
    (h6 : ops.SendTransmission userData authToken transmissionID s5 = (.ok (), s6)) :
    SendFaxICT ops userData authToken contact document transmission fileContents fileModel s =
      ⟨none,
        [.CreateContact userData authToken contact,
         .CreateDocumentRecord userData authToken document,
         .UploadDocumentFile userData authToken documentID fileContents fileModel.ContentType,
         .CreateProgram userData authToken documentID,
         .CreateTransmission userData authToken transmission contactID
           (strconv.Atoi transmission.AccountID).1 programID,
         .SendTransmission userData authToken transmissionID],
        s6⟩ := by
  simp [SendFaxICT, h1, h2, h3, h4, h5, h6]

end SendFax

section SendFaxCases

variable {σ : Type} (ops : ICTOperations σ) (userData : UserData) (authToken : String)
  (contact : Contact) (document : DocumentRecord) (transmission : Transmission)
  (fileContents : List Nat) (fileModel : SendFileInfo)

/-- Every run of `SendFaxICT` stops at the first failing step, or runs all
six: the calls made, the step they stop at, and the error returned. -/
theorem SendFaxICT_cases (s : σ) :
    (∃ st e, (SendFaxICT ops userData authToken contact document transmission fileContents
          fileModel s).err = some (Step.errorPrefix st ++ e) ∧
        (SendFaxICT ops userData authToken contact document transmission fileContents
          fileModel s).calls.map StepCall.step =
            stepOrder.take (stepOrder.indexOf st + 1)) ∨
    ((SendFaxICT ops userData authToken contact document transmission fileContents
          fileModel s).err = none ∧
      (SendFaxICT ops userData authToken contact document transmission fileContents
          fileModel s).calls.map StepCall.step = stepOrder ∧
      ∃ (s1 s2 s3 s4 s5 s6 : σ) (contactID documentID programID transmissionID : Int),
        ops.CreateContact userData authToken contact s = (.ok contactID, s1) ∧
        ops.CreateDocumentRecord userData authToken document s1 = (.ok documentID, s2) ∧
        ops.UploadDocumentFile userData authToken documentID fileContents
          fileModel.ContentType s2 = (.ok (), s3) ∧
        ops.CreateProgram userData authToken documentID s3 = (.ok programID, s4) ∧
        ops.CreateTransmission userData authToken transmission contactID
          (strconv.Atoi transmission.AccountID).1 programID s4 = (.ok transmissionID, s5) ∧
        ops.SendTransmission userData authToken transmissionID s5 = (.ok (), s6)) := by
  rcases h1 : ops.CreateContact userData authToken contact s with ⟨r1, s1⟩
  cases r1 with
  | error e =>
    left
    refine ⟨.CreateContact, e, ?_, ?_⟩ <;>
      (rw [SendFaxICT_fail1 ops userData authToken contact document transmission fileContents
        fileModel s s1 e h1]; try rfl)
  | ok contactID =>
  rcases h2 : ops.CreateDocumentRecord userData authToken document s1 with ⟨r2, s2⟩
  cases r2 with
  | error e =>
    left
    refine ⟨.CreateDocumentRecord, e, ?_, ?_⟩ <;>
      (rw [SendFaxICT_fail2 ops userData authToken contact document transmission fileContents
        fileModel s s1 s2 contactID e h1 h2]; try rfl)
  | ok documentID =>
  rcases h3 : ops.UploadDocumentFile userData authToken documentID fileContents
    fileModel.ContentType s2 with ⟨r3, s3⟩
  cases r3 with
  | error e =>
    left
    refine ⟨.UploadDocumentFile, e, ?_, ?_⟩ <;>
      (rw [SendFaxICT_fail3 ops userData authToken contact document transmission fileContents
        fileModel s s1 s2 s3 contactID documentID e h1 h2 h3]; try rfl)
  | ok u3 =>
  rcases h4 : ops.CreateProgram userData authToken documentID s3 with ⟨r4, s4⟩
  cases r4 with
  | error e =>
    left
    refine ⟨.CreateProgram, e, ?_, ?_⟩ <;>
      (rw [SendFaxICT_fail4 ops userData authToken contact document transmission fileContents
        fileModel s s1 s2 s3 s4 contactID documentID e h1 h2 h3 h4]; try rfl)
  | ok programID =>
  rcases h5 : ops.CreateTransmission userData authToken transmission contactID
    (strconv.Atoi transmission.AccountID).1 programID s4 with ⟨r5, s5⟩
  cases r5 with
  | error e =>
    left
    refine ⟨.CreateTransmission, e, ?_, ?_⟩ <;>
      (rw [SendFaxICT_fail5 ops userData authToken contact document transmission fileContents
        fileModel s s1 s2 s3 s4 s5 contactID documentID programID e h1 h2 h3 h4 h5]; try rfl)
  | ok transmissionID =>
  rcases h6 : ops.SendTransmission userData authToken transmissionID s5 with ⟨r6, s6⟩
  cases r6 with
  | error e =>
    left
    refine ⟨.SendTransmission, e, ?_, ?_⟩ <;>
      (rw [SendFaxICT_fail6 ops userData authToken contact document transmission fileContents
        fileModel s s1 s2 s3 s4 s5 s6 contactID documentID programID transmissionID e
        h1 h2 h3 h4 h5 h6]; try rfl)
  | ok u6 =>
    right
    have hrun := SendFaxICT_success ops userData authToken contact document transmission
      fileContents fileModel s s1 s2 s3 s4 s5 s6 contactID documentID programID
      transmissionID h1 h2 h3 h4 h5 h6
    refine ⟨by rw [hrun], by rw [hrun]; rfl, s1, s2, s3, s4, s5, s6, contactID, documentID,
      programID, transmissionID, rfl, h2, h3, h4, h5, h6⟩

end SendFaxCases

/-- The first 18 characters of the six error prefixes are pairwise different,
and every prefix is at least that long. -/
theorem errorPrefix_take_injective (a b : Step)
    (h : a.errorPrefix.data.take 18 = b.errorPrefix.data.take 18) : a = b := by
  cases a <;> cases b <;> first | rfl | exact absurd h (by decide)

/-- A message made of the prefix of step `a` and any error text starts with the
prefix of no other step: the message identifies the step. -/
theorem errorPrefix_identifies (a b : Step) (e : String)
    (h : b.errorPrefix.data <+: (a.errorPrefix ++ e).data) : b = a := by
  have hlen : ∀ st : Step, 18 ≤ st.errorPrefix.data.length := by
    intro st
    cases st <;> decide
  obtain ⟨t, ht⟩ := h
  have h1 : (a.errorPrefix ++ e).data.take 18 = b.errorPrefix.data.take 18 := by
    rw [← ht, List.take_append_of_le_length (hlen b)]
  have h2 : (a.errorPrefix ++ e).data.take 18 = a.errorPrefix.data.take 18 := by
    rw [String.data_append, List.take_append_of_le_length (hlen a)]
  exact errorPrefix_take_injective b a (by rw [← h1, h2])

/-- C2. In `SendFaxICT` the six steps run in the fixed order CreateContact,
CreateDocumentRecord, UploadDocumentFile, CreateProgram, CreateTransmission,
SendTransmission. For every run: the calls made are the first steps of that
order, once each and nothing else; if steps 1..k-1 succeed and step k fails,
the calls are exactly those of steps 1..k and the error is the prefix of step k
followed by the step's error; the run returns nil exactly when all six steps
succeed; and the six prefixes are pairwise distinct, a message with the prefix
of one step starting with the prefix of no other. -/
theorem SendFaxICT_short_circuit {σ : Type} (ops : ICTOperations σ) (userData : UserData)
    (authToken : String) (contact : Contact) (document : DocumentRecord)
    (transmission : Transmission) (fileContents : List Nat) (fileModel : SendFileInfo)
    (s : σ) :
    -- the calls are the first steps of the fixed order, once each
    (1 ≤ (SendFaxICT ops userData authToken contact document transmission fileContents
        fileModel s).calls.length ∧
      (SendFaxICT ops userData authToken contact document transmission fileContents
        fileModel s).calls.map StepCall.step =
        stepOrder.take (SendFaxICT ops userData authToken contact document transmission
          fileContents fileModel s).calls.length) ∧
    -- step 1 fails
    (∀ (s1 : σ) (e : String),
      ops.CreateContact userData authToken contact s = (.error e, s1) →
      SendFaxICT ops userData authToken contact document transmission fileContents fileModel s =
        ⟨some (Step.errorPrefix .CreateContact ++ e),
          [.CreateContact userData authToken contact], s1⟩) ∧
    -- step 1 succeeds, step 2 fails
    (∀ (s1 s2 : σ) (contactID : Int) (e : String),
      ops.CreateContact userData authToken contact s = (.ok contactID, s1) →
      ops.CreateDocumentRecord userData authToken document s1 = (.error e, s2) →
      SendFaxICT ops userData authToken contact document transmission fileContents fileModel s =
        ⟨some (Step.errorPrefix .CreateDocumentRecord ++ e),
          [.CreateContact userData authToken contact,
           .CreateDocumentRecord userData authToken document], s2⟩) ∧
    -- steps 1, 2 succeed, step 3 fails
    (∀ (s1 s2 s3 : σ) (contactID documentID : Int) (e : String),
      ops.CreateContact userData authToken contact s = (.ok contactID, s1) →
      ops.CreateDocumentRecord userData authToken document s1 = (.ok documentID, s2) →
      ops.UploadDocumentFile userData authToken documentID fileContents
        fileModel.ContentType s2 = (.error e, s3) →
      SendFaxICT ops userData authToken contact document transmission fileContents fileModel s =
        ⟨some (Step.errorPrefix .UploadDocumentFile ++ e),
          [.CreateContact userData authToken contact,
           .CreateDocumentRecord userData authToken document,
           .UploadDocumentFile userData authToken documentID fileContents
             fileModel.ContentType], s3⟩) ∧
    -- steps 1..3 succeed, step 4 fails
    (∀ (s1 s2 s3 s4 : σ) (contactID documentID : Int) (e : String),
      ops.CreateContact userData authToken contact s = (.ok contactID, s1) →
      ops.CreateDocumentRecord userData authToken document s1 = (.ok documentID, s2) →
      ops.UploadDocumentFile userData authToken documentID fileContents
        fileModel.ContentType s2 = (.ok (), s3) →
      ops.CreateProgram userData authToken documentID s3 = (.error e, s4) →
      SendFaxICT ops userData authToken contact document transmission fileContents fileModel s =
        ⟨some (Step.errorPrefix .CreateProgram ++ e),
          [.CreateContact userData authToken contact,
           .CreateDocumentRecord userData authToken document,
           .UploadDocumentFile userData authToken documentID fileContents
             fileModel.ContentType,
           .CreateProgram userData authToken documentID], s4⟩) ∧
    -- steps 1..4 succeed, step 5 fails
    (∀ (s1 s2 s3 s4 s5 : σ) (contactID documentID programID : Int) (e : String),
      ops.CreateContact userData authToken contact s = (.ok contactID, s1) →
      ops.CreateDocumentRecord userData authToken document s1 = (.ok documentID, s2) →
      ops.UploadDocumentFile userData authToken documentID fileContents
        fileModel.ContentType s2 = (.ok (), s3) →
      ops.CreateProgram userData authToken documentID s3 = (.ok programID, s4) →
      ops.CreateTransmission userData authToken transmission contactID
        (strconv.Atoi transmission.AccountID).1 programID s4 = (.error e, s5) →
      SendFaxICT ops userData authToken contact document transmission fileContents fileModel s =
        ⟨some (Step.errorPrefix .CreateTransmission ++ e),
          [.CreateContact userData authToken contact,
           .CreateDocumentRecord userData authToken document,
           .UploadDocumentFile userData authToken documentID fileContents
             fileModel.ContentType,
           .CreateProgram userData authToken documentID,
           .CreateTransmission userData authToken transmission contactID
             (strconv.Atoi transmission.AccountID).1 programID], s5⟩) ∧
    -- steps 1..5 succeed, step 6 fails
    (∀ (s1 s2 s3 s4 s5 s6 : σ) (contactID documentID programID transmissionID : Int)
      (e : String),
      ops.CreateContact userData authToken contact s = (.ok contactID, s1) →
      ops.CreateDocumentRecord userData authToken document s1 = (.ok documentID, s2) →
      ops.UploadDocumentFile userData authToken documentID fileContents
        fileModel.ContentType s2 = (.ok (), s3) →
      ops.CreateProgram userData authToken documentID s3 = (.ok programID, s4) →
      ops.CreateTransmission userData authToken transmission contactID
        (strconv.Atoi transmission.AccountID).1 programID s4 = (.ok transmissionID, s5) →
      ops.SendTransmission userData authToken transmissionID s5 = (.error e, s6) →
      SendFaxICT ops userData authToken contact document transmission fileContents fileModel s =
        ⟨some (Step.errorPrefix .SendTransmission ++ e),
          [.CreateContact userData authToken contact,
           .CreateDocumentRecord userData authToken document,
           .UploadDocumentFile userData authToken documentID fileContents
             fileModel.ContentType,
           .CreateProgram userData authToken documentID,
           .CreateTransmission userData authToken transmission contactID
             (strconv.Atoi transmission.AccountID).1 programID,
           .SendTransmission userData authToken transmissionID], s6⟩) ∧
    -- nil is returned exactly when all six steps succeed
    ((SendFaxICT ops userData authToken contact document transmission fileContents
        fileModel s).err = none ↔
      ∃ (s1 s2 s3 s4 s5 s6 : σ) (contactID documentID programID transmissionID : Int),
        ops.CreateContact userData authToken contact s = (.ok contactID, s1) ∧
        ops.CreateDocumentRecord userData authToken document s1 = (.ok documentID, s2) ∧
        ops.UploadDocumentFile userData authToken documentID fileContents
          fileModel.ContentType s2 = (.ok (), s3) ∧
        ops.CreateProgram userData authToken documentID s3 = (.ok programID, s4) ∧
        ops.CreateTransmission userData authToken transmission contactID
          (strconv.Atoi transmission.AccountID).1 programID s4 = (.ok transmissionID, s5) ∧
        ops.SendTransmission userData authToken transmissionID s5 = (.ok (), s6)) ∧
    -- a returned error carries the prefix of the last step called
    (∀ msg : String,
      (SendFaxICT ops userData authToken contact document transmission fileContents
        fileModel s).err = some msg →
      ∃ (st : Step) (e : String), msg = Step.errorPrefix st ++ e ∧
        (SendFaxICT ops userData authToken contact document transmission fileContents
          fileModel s).calls.map StepCall.step = stepOrder.take (stepOrder.indexOf st + 1)) ∧
    -- the prefixes are pairwise distinct and identify the step
    (stepOrder.map Step.errorPrefix).Nodup ∧
    (∀ (a b : Step) (e : String),
      b.errorPrefix.data <+: (a.errorPrefix ++ e).data → b = a) := by
  have hcases := SendFaxICT_cases ops userData authToken contact document transmission
    fileContents fileModel s
  refine ⟨?_, ?_, ?_, ?_, ?_, ?_, ?_, ?_, ?_, by decide, errorPrefix_identifies⟩
  · rcases hcases with ⟨st, e, -, hcalls⟩ | ⟨-, hcalls, -⟩
    · have hlen := congrArg List.length hcalls
      rw [List.length_map] at hlen
      rw [hlen, hcalls]
      cases st <;> decide
    · have hlen := congrArg List.length hcalls
      rw [List.length_map] at hlen
      rw [hlen, hcalls]
      decide
  · intro s1 e h1
    exact SendFaxICT_fail1 ops userData authToken contact document transmission fileContents
      fileModel s s1 e h1
  · intro s1 s2 contactID e h1 h2
    exact SendFaxICT_fail2 ops userData authToken contact document transmission fileContents
      fileModel s s1 s2 contactID e h1 h2
  · intro s1 s2 s3 contactID documentID e h1 h2 h3
    exact SendFaxICT_fail3 ops userData authToken contact document transmission fileContents
      fileModel s s1 s2 s3 contactID documentID e h1 h2 h3
  · intro s1 s2 s3 s4 contactID documentID e h1 h2 h3 h4
    exact SendFaxICT_fail4 ops userData authToken contact document transmission fileContents
      fileModel s s1 s2 s3 s4 contactID documentID e h1 h2 h3 h4
  · intro s1 s2 s3 s4 s5 contactID documentID programID e h1 h2 h3 h4 h5
    exact SendFaxICT_fail5 ops userData authToken contact document transmission fileContents
      fileModel s s1 s2 s3 s4 s5 contactID documentID programID e h1 h2 h3 h4 h5
  · intro s1 s2 s3 s4 s5 s6 contactID documentID programID transmissionID e h1 h2 h3 h4 h5 h6
    exact SendFaxICT_fail6 ops userData authToken contact document transmission fileContents
      fileModel s s1 s2 s3 s4 s5 s6 contactID documentID programID transmissionID e
      h1 h2 h3 h4 h5 h6
  · constructor
    · intro hnil
      rcases hcases with ⟨st, e, herr, -⟩ | ⟨-, -, hall⟩
      · rw [herr] at hnil
        exact absurd hnil (by simp)
      · exact hall
    · rintro ⟨s1, s2, s3, s4, s5, s6, contactID, documentID, programID, transmissionID,
        h1, h2, h3, h4, h5, h6⟩
      rw [SendFaxICT_success ops userData authToken contact document transmission fileContents
        fileModel s s1 s2 s3 s4 s5 s6 contactID documentID programID transmissionID
        h1 h2 h3 h4 h5 h6]
  · intro msg hmsg
    rcases hcases with ⟨st, e, herr, hcalls⟩ | ⟨hnil, -, -⟩
    · rw [herr] at hmsg
      exact ⟨st, e, (Option.some.inj hmsg).symm, hcalls⟩
    · rw [hnil] at hmsg
      exact absurd hmsg (by simp)

/-- C2, at a remote side where CreateContact succeeds and CreateDocumentRecord
fails: exactly CreateContact and CreateDocumentRecord are called (the remote
side has received two calls), UploadDocumentFile, CreateProgram,
CreateTransmission and SendTransmission are not, and the error names the
document-creation step. -/
theorem SendFaxICT_short_circuit_witness :
    SendFaxICT documentFailureOps ⟨"user", "pw", "http://host"⟩ "token"
        ⟨"A", "B", "a@b.c", "100", "", "", "", "", ""⟩ ⟨"title", "text"⟩
        ⟨"title", "", "3", "", "1", "0", "2"⟩ [37, 80, 68, 70] ⟨"application/pdf"⟩ 0 =
      ⟨some ("Failed to create document record: " ++
          "CreateDocumentRecord API call failed with status code: 500"),
        [.CreateContact ⟨"user", "pw", "http://host"⟩ "token"
            ⟨"A", "B", "a@b.c", "100", "", "", "", "", ""⟩,
          .CreateDocumentRecord ⟨"user", "pw", "http://host"⟩ "token" ⟨"title", "text"⟩],
        2⟩ :=
  (SendFaxICT_short_circuit documentFailureOps ⟨"user", "pw", "http://host"⟩ "token"
      ⟨"A", "B", "a@b.c", "100", "", "", "", "", ""⟩ ⟨"title", "text"⟩
      ⟨"title", "", "3", "", "1", "0", "2"⟩ [37, 80, 68, 70] ⟨"application/pdf"⟩ 0).2.2.1
    1 2 11 "CreateDocumentRecord API call failed with status code: 500" rfl rfl

/-! ## Claims about `GetLastFaxes` -/

theorem filterPrinted_foldl (L init : List FaxResponse) :
    L.foldl
        (fun filtered response =>
          if response.Is_Print = WITH_PRINT then filtered ++ [response] else filtered)
        init =
      init ++ L.filter (fun r => r.Is_Print = "1") := by
  induction L generalizing init with
  | nil => simp
  | cons r rs ih =>
    rw [List.foldl_cons, ih]
    by_cases h : r.Is_Print = "1"
    · simp [WITH_PRINT, h]
    · simp [WITH_PRINT, h]

/-- The filter loop of `GetLastFaxes` keeps the print-flagged records, in
order. -/
theorem filterPrinted_eq (L : List FaxResponse) :
    filterPrinted L = L.filter (fun r => r.Is_Print = "1") := by
  unfold filterPrinted
  rw [filterPrinted_foldl]
  rfl

/-- C5. `ApiServerDirectCalls.GetLastFaxes` selects by print flag and keeps
order: when the settings load, the authentication and the transmissions fetch
succeed with list `L`, and `count` (an `int`) is at least the number of records
of `L` whose `Is_Print` is "1", the result has one entry per such record, the
i-th entry being the conversion of the i-th such record in the order of `L`,
and no entry for any other record. -/
theorem GetLastFaxes_selects_printed (env : DirectCallsEnv) (count : Int)
    (userData : UserData) (authResponse : AuthResponse) (L : List FaxResponse)
    (hload : env.loadUserDataFromFile = .ok userData)
    (hauth : env.AuthenticateICT userData = .ok authResponse)
    (hfetch : env.TransmissionsICT userData authResponse.Token = .ok L)
    (hcount : ((L.filter (fun r => r.Is_Print = "1")).length : Int) ≤ count)
    (hint : count < 2 ^ 63) :
    ∃ result : List FaxData,
      GetLastFaxes env count = .ok result ∧
      result = (L.filter (fun r => r.Is_Print = "1")).map convertFaxResponse ∧
      result.length = L.countP (fun r => r.Is_Print = "1") ∧
      ∀ i : Nat, result[i]? =
        ((L.filter (fun r => r.Is_Print = "1"))[i]?).map convertFaxResponse := by
  refine ⟨(L.filter (fun r => r.Is_Print = "1")).map convertFaxResponse, ?_, rfl, ?_, ?_⟩
  · unfold GetLastFaxes
    simp only [hload, hauth, hfetch, filterPrinted_eq]
    have hstart : (if strconv.wrapInt64
          (((L.filter (fun r => r.Is_Print = "1")).length : Int) - count) < 0 then 0
        else strconv.wrapInt64
          (((L.filter (fun r => r.Is_Print = "1")).length : Int) - count)) = 0 := by
      unfold strconv.wrapInt64
      split
      · rfl
      · omega
    rw [hstart]
    simp [sliceFrom, ConvertFilteredFaxResponsesToFaxData]
  · rw [List.length_map, List.countP_eq_length_filter]
  · intro i
    rw [List.getElem?_map]

/-- C5, at the specification's example: three flagged and two unflagged
records, with a count of 3, give exactly the conversions of the three flagged
records, in order. -/
theorem GetLastFaxes_selects_printed_witness :
    ∃ result : List FaxData,
      GetLastFaxes sampleEnv 3 = .ok result ∧
      result = ([sampleFax "a" "1", sampleFax "c" "1", sampleFax "d" "1"]).map
        convertFaxResponse ∧
      result.length = 3 ∧
      ∀ i : Nat, result[i]? =
        ([sampleFax "a" "1", sampleFax "c" "1", sampleFax "d" "1"][i]?).map
          convertFaxResponse :=
  GetLastFaxes_selects_printed sampleEnv 3 ⟨"user", "pw", "http://host"⟩
    ⟨"token", "A", "B", "a@b.c", "100", "IR", "ICT"⟩ sampleFaxes rfl rfl rfl
    (by decide) (by decide)

/-! ## Known answers of the models of `crypto/aes` and `crypto/cipher` -/

/-- The example vector of FIPS 197, appendix C.1: AES-128 with the key
`00 01 .. 0f` on the block `00 11 .. ff`. -/
theorem aes_known_answer :
    aes.Cipher (aes.KeyExpansion (List.range 16))
        [0x00, 0x11, 0x22, 0x33, 0x44, 0x55, 0x66, 0x77, 0x88, 0x99, 0xaa, 0xbb, 0xcc, 0xdd,
          0xee, 0xff] =
      [0x69, 0xc4, 0xe0, 0xd8, 0x6a, 0x7b, 0x04, 0x30, 0xd8, 0xcd, 0xb7, 0x80, 0x70, 0xb4,
        0xc5, 0x5a] := by
  decide!

/-- Test case 2 of the GCM specification: the zero key, the zero nonce and one
zero block give the ciphertext `0388dace60b6a392f328c2b971b2fe78` and the tag
`ab6e47d42cec13bdf53a67b21257bddf`. -/
theorem gcm_known_answer :
    cipher.GCM.Seal
        { cipher := { roundKeys := aes.KeyExpansion (List.replicate 16 0) }
          nonceSize := 12, tagSize := 16 }
        [] (List.replicate 12 0) (List.replicate 16 0) [] =
      .ok [0x03, 0x88, 0xda, 0xce, 0x60, 0xb6, 0xa3, 0x92, 0xf3, 0x28, 0xc2, 0xb9, 0x71, 0xb2,
        0xfe, 0x78, 0xab, 0x6e, 0x47, 0xd4, 0x2c, 0xec, 0x13, 0xbd, 0xf5, 0x3a, 0x67, 0xb2,
        0x12, 0x57, 0xbd, 0xdf] := by
  decide!

/-! ## `crypto/aes`, `crypto/cipher`: lengths -/

namespace aes

theorem AddRoundKey_length (state roundKey : List Nat) :
    (AddRoundKey state roundKey).length = 16 := by
  simp [AddRoundKey]

theorem rounds_length (k : List Nat) (ks : List (List Nat)) (state : List Nat) :
    (rounds (k :: ks) state).length = 16 := by
  induction ks generalizing k state with
  | nil => simp [rounds, AddRoundKey_length]
  | cons k' ks ih =>
    rw [rounds]
    · exact ih k' _
    · simp

/-- A block encrypted under a non-empty key schedule has 16 bytes. -/
theorem Cipher_length (roundKeys : List (List Nat)) (h : roundKeys ≠ []) (input : List Nat) :
    (Cipher roundKeys input).length = 16 := by
  cases roundKeys with
  | nil => exact absurd rfl h
  | cons k0 ks =>
    cases ks with
    | nil => simp [Cipher, rounds, AddRoundKey_length]
    | cons k ks => simp [Cipher, rounds_length]

theorem KeyExpansion_length (key : List Nat) :
    (KeyExpansion key).length = key.length / 4 + 7 := by
  simp [KeyExpansion]

theorem KeyExpansion_ne_nil (key : List Nat) : KeyExpansion key ≠ [] := by
  intro h
  have := KeyExpansion_length key
  rw [h] at this
  simp at this

end aes

namespace cipher

theorem settingsGCM_Encrypt_length (input : List Nat) :
    (settingsGCM.cipher.Encrypt input).length = 16 :=
  aes.Cipher_length _ (aes.KeyExpansion_ne_nil _) input

theorem keyStream_length (c : aes.Block) (hc : ∀ x, (c.Encrypt x).length = 16) (n : Nat)
    (counter : List Nat) : (keyStream c n counter).length = 16 * n := by
  induction n generalizing counter with
  | zero => simp [keyStream]
  | succ n ih =>
    simp only [keyStream, List.length_append, hc, ih]
    omega

theorem zipWith_xor_cancel (a ks : List Nat) (h : a.length ≤ ks.length) :
    List.zipWith (· ^^^ ·) (List.zipWith (· ^^^ ·) a ks) ks = a := by
  induction a generalizing ks with
  | nil => simp
  | cons x xs ih =>
    cases ks with
    | nil => simp at h
    | cons k ks =>
      simp only [List.length_cons, Nat.add_le_add_iff_right] at h
      simp only [List.zipWith_cons_cons, ih ks h, Nat.xor_assoc, Nat.xor_self, Nat.xor_zero]

theorem counterCrypt_length (g : GCM) (hc : ∀ x, (g.cipher.Encrypt x).length = 16)
    (input counter : List Nat) : (g.counterCrypt input counter).length = input.length := by
  simp only [GCM.counterCrypt, List.length_zipWith, keyStream_length _ hc]
  omega

/-- Counter mode is its own inverse. -/
theorem counterCrypt_counterCrypt (g : GCM) (hc : ∀ x, (g.cipher.Encrypt x).length = 16)
    (input counter : List Nat) :
    g.counterCrypt (g.counterCrypt input counter) counter = input := by
  have hlen := counterCrypt_length g hc input counter
  unfold GCM.counterCrypt at hlen ⊢
  rw [hlen]
  apply zipWith_xor_cancel
  rw [keyStream_length _ hc]
  omega

theorem auth_length (g : GCM) (ciphertext additionalData tagMask : List Nat)
    (h : tagMask.length = 16) : (g.auth ciphertext additionalData tagMask).length = 16 := by
  simp [GCM.auth, natToBE, h]

end cipher

/-! ## `src/utilities/CryptionHelper.go`: lemmas -/

theorem NewCipher_key :
    aes.NewCipher getEncryptionKey = .ok settingsGCM.cipher := by
  unfold aes.NewCipher
  rw [if_pos (by decide)]
  rfl

theorem NewGCM_key : cipher.NewGCM settingsGCM.cipher = .ok settingsGCM := by
  simp [cipher.NewGCM, aes.BlockSize, cipher.gcmBlockSize, settingsGCM]

theorem readFull_length (n : Nat) (supplied : List Nat) : (readFull n supplied).length = n := by
  simp [readFull]

/-- `EncryptData` without the construction steps, which cannot fail. -/
theorem EncryptData_eq (randomBytes : Except String (List Nat)) (binaryData : List Nat) :
    EncryptData randomBytes binaryData =
      match randomBytes with
      | .error err => .error err
      | .ok supplied =>
        settingsGCM.Seal (readFull 12 supplied) (readFull 12 supplied) binaryData [] := by
  unfold EncryptData
  rw [NewCipher_key]
  simp only [NewGCM_key]
  rfl

/-- `DecryptData` without the construction steps, which cannot fail. -/
theorem DecryptData_eq (encryptedData : List Nat) :
    DecryptData encryptedData =
      if encryptedData.length < 12 then .error "encrypted data is too short"
      else settingsGCM.Open [] (encryptedData.take 12) (encryptedData.drop 12) [] := by
  unfold DecryptData
  rw [NewCipher_key]
  simp only [NewGCM_key]
  by_cases h : encryptedData.length < 12
  · have h' : encryptedData.length < settingsGCM.NonceSize := h
    rw [if_pos h, if_pos h']
  · have h' : ¬ encryptedData.length < settingsGCM.NonceSize := h
    have h12 : settingsGCM.NonceSize = 12 := rfl
    rw [if_neg h, if_neg h']
    have h1 : sliceTo encryptedData settingsGCM.NonceSize = some (encryptedData.take 12) := by
      rw [h12]
      unfold sliceTo
      rw [if_pos (by omega)]
    have h2 : sliceFrom encryptedData (settingsGCM.NonceSize : Int) =
        some (encryptedData.drop 12) := by
      rw [h12]
      unfold sliceFrom
      rw [if_pos (by omega)]
      rfl
    rw [h1, h2]

/-- What a successful `EncryptData` returns: the nonce, the counter-mode
encryption of the data, and the tag. -/
theorem EncryptData_ok (randomBytes : Except String (List Nat)) (binaryData c : List Nat)
    (h : EncryptData randomBytes binaryData = .ok c) :
    ∃ supplied, randomBytes = .ok supplied ∧
      binaryData.length ≤ (2 ^ 32 - 2) * 16 ∧
      c = readFull 12 supplied ++
        settingsGCM.counterCrypt binaryData
          (cipher.gcmInc32 (readFull 12 supplied ++ [0, 0, 0, 1])) ++
        settingsGCM.auth
          (settingsGCM.counterCrypt binaryData
            (cipher.gcmInc32 (readFull 12 supplied ++ [0, 0, 0, 1])))
          [] (settingsGCM.cipher.Encrypt (readFull 12 supplied ++ [0, 0, 0, 1])) := by
  rw [EncryptData_eq] at h
  cases randomBytes with
  | error err => simp at h
  | ok supplied =>
    refine ⟨supplied, rfl, ?_⟩
    have hn : (readFull 12 supplied).length = 12 := readFull_length 12 supplied
    simp only [cipher.GCM.Seal, cipher.GCM.deriveCounter, settingsGCM, hn,
      cipher.gcmStandardNonceSize, cipher.gcmBlockSize, ne_eq, not_true_eq_false, if_false,
      if_true] at h
    split at h
    · simp at h
    · rename_i hlen
      simp only [Outcome.ok.injEq] at h
      refine ⟨by omega, ?_⟩
      rw [← h]
      rfl

/-- `Open` on a nonce of 12 bytes and a body followed by 16 bytes of tag: the
tag is compared with the one computed from the body, and the body decrypted. -/
theorem Open_body_tag (nonce body tag : List Nat) (hn : nonce.length = 12)
    (ht : tag.length = 16) (hb : body.length ≤ (2 ^ 32 - 2) * 16) :
    settingsGCM.Open [] nonce (body ++ tag) [] =
      if settingsGCM.auth body [] (settingsGCM.cipher.Encrypt (nonce ++ [0, 0, 0, 1])) ≠ tag
      then .error cipher.errOpen
      else .ok (settingsGCM.counterCrypt body (cipher.gcmInc32 (nonce ++ [0, 0, 0, 1]))) := by
  have hlen : (body ++ tag).length - 16 = body.length := by
    rw [List.length_append, ht]
    omega
  have hdrop : (body ++ tag).drop ((body ++ tag).length - 16) = tag := by
    rw [hlen, List.drop_left]
  have htake : (body ++ tag).take ((body ++ tag).length - 16) = body := by
    rw [hlen, List.take_left]
  have h1 : ¬ (body ++ tag).length < 16 := by
    rw [List.length_append, ht]
    omega
  have h2 : ¬ (body ++ tag).length > (2 ^ 32 - 2) * 16 + 16 := by
    rw [List.length_append, ht]
    omega
  unfold cipher.GCM.Open cipher.GCM.deriveCounter
  simp only [settingsGCM, hn, cipher.gcmStandardNonceSize, cipher.gcmTagSize,
    cipher.gcmBlockSize, ne_eq, not_true_eq_false, if_false, if_true, h1, h2, hdrop, htake,
    List.nil_append]

/-- `DecryptData` on a nonce of 12 bytes, a body and 16 bytes of tag. -/
theorem DecryptData_nonce_body_tag (nonce body tag : List Nat) (hn : nonce.length = 12)
    (ht : tag.length = 16) (hb : body.length ≤ (2 ^ 32 - 2) * 16) :
    DecryptData (nonce ++ body ++ tag) =
      if settingsGCM.auth body [] (settingsGCM.cipher.Encrypt (nonce ++ [0, 0, 0, 1])) ≠ tag
      then .error cipher.errOpen
      else .ok (settingsGCM.counterCrypt body (cipher.gcmInc32 (nonce ++ [0, 0, 0, 1]))) := by
  rw [DecryptData_eq, if_neg (by simp [hn])]
  have h1 : (nonce ++ body ++ tag).take 12 = nonce := by
    rw [List.append_assoc, ← hn, List.take_left]
  have h2 : (nonce ++ body ++ tag).drop 12 = body ++ tag := by
    rw [List.append_assoc, ← hn, List.drop_left]
  rw [h1, h2, Open_body_tag nonce body tag hn ht hb]

/-! ## Claims about `EncryptData` and `DecryptData` -/

/-- C1. For every byte sequence B (the empty one included), whenever
`EncryptData` returns a ciphertext C without error, `DecryptData` of C returns
exactly B without error. -/
theorem DecryptData_EncryptData (randomBytes : Except String (List Nat))
    (binaryData c : List Nat) (h : EncryptData randomBytes binaryData = .ok c) :
    DecryptData c = .ok binaryData := by
  obtain ⟨supplied, -, hlen, hc⟩ := EncryptData_ok randomBytes binaryData c h
  have hn : (readFull 12 supplied).length = 12 := readFull_length 12 supplied
  rw [hc, DecryptData_nonce_body_tag _ _ _ hn
    (cipher.auth_length _ _ _ _ (cipher.settingsGCM_Encrypt_length _))
    (by rw [cipher.counterCrypt_length _ cipher.settingsGCM_Encrypt_length]; exact hlen)]
  rw [if_neg (by simp), cipher.counterCrypt_counterCrypt _ cipher.settingsGCM_Encrypt_length]

/-- C9. For every byte sequence shorter than the GCM nonce size (12 bytes), the
empty one included, `DecryptData` returns the error "encrypted data is too
short" and no plaintext; for every input of at least 12 bytes the split into
nonce (the first 12 bytes) and ciphertext (the rest) is within bounds; and no
input makes `DecryptData` slice out of bounds or panic in another way. -/
theorem DecryptData_short :
    (∀ encryptedData : List Nat, encryptedData.length < 12 →
      DecryptData encryptedData = .error "encrypted data is too short") ∧
    DecryptData [] = .error "encrypted data is too short" ∧
    (∀ encryptedData : List Nat, 12 ≤ encryptedData.length →
      sliceTo encryptedData settingsGCM.NonceSize = some (encryptedData.take 12) ∧
      sliceFrom encryptedData settingsGCM.NonceSize = some (encryptedData.drop 12) ∧
      (encryptedData.take 12).length = 12 ∧
      encryptedData.take 12 ++ encryptedData.drop 12 = encryptedData ∧
      DecryptData encryptedData =
        settingsGCM.Open [] (encryptedData.take 12) (encryptedData.drop 12) []) ∧
    (∀ (encryptedData : List Nat) (msg : String), DecryptData encryptedData ≠ .panic msg) := by
  refine ⟨?_, ?_, ?_, ?_⟩
  · intro encryptedData h
    rw [DecryptData_eq, if_pos h]
  · rw [DecryptData_eq, if_pos (by decide)]
  · intro encryptedData h
    have h12 : settingsGCM.NonceSize = 12 := rfl
    refine ⟨?_, ?_, ?_, List.take_append_drop 12 encryptedData, ?_⟩
    · rw [h12]
      unfold sliceTo
      rw [if_pos h]
    · rw [h12]
      unfold sliceFrom
      rw [if_pos (by omega)]
      rfl
    · rw [List.length_take]
      omega
    · rw [DecryptData_eq, if_neg (by omega)]
  · intro encryptedData msg
    rw [DecryptData_eq]
    split
    · simp
    · rename_i h
      have hn : (encryptedData.take 12).length = 12 := by
        rw [List.length_take]
        omega
      unfold cipher.GCM.Open
      simp only [settingsGCM, hn, cipher.gcmStandardNonceSize, ne_eq, not_true_eq_false,
        if_false]
      split
      · simp
      · split
        · simp
        · split <;> simp

/-! ## `crypto/aes`: the cipher is injective on blocks -/

namespace aes

theorem xor_left_comm (a b c : Nat) : a ^^^ (b ^^^ c) = b ^^^ (a ^^^ c) := by
  rw [← Nat.xor_assoc, Nat.xor_comm a b, Nat.xor_assoc]

theorem xor_cancel_left (a b : Nat) : a ^^^ (a ^^^ b) = b := by
  rw [← Nat.xor_assoc, Nat.xor_self, Nat.zero_xor]

theorem xor_cancel_right (a b : Nat) : (a ^^^ b) ^^^ b = a := by
  rw [Nat.xor_assoc, Nat.xor_self, Nat.xor_zero]

theorem xor_right_inj (a b c : Nat) (h : a ^^^ c = b ^^^ c) : a = b := by
  have := congrArg (· ^^^ c) h
  simpa [xor_cancel_right] using this

theorem xor_left_inj (a b c : Nat) (h : c ^^^ a = c ^^^ b) : a = b := by
  have := congrArg (c ^^^ ·) h
  simpa [xor_cancel_left] using this

theorem subByte_lt (b : Nat) : subByte b < 256 := by
  have hall : ∀ x ∈ sbox, x < 256 := by decide!
  unfold subByte
  rw [List.getD_eq_getElem?_getD]
  cases h : sbox[b]? with
  | none => simp
  | some x =>
    have := List.getElem?_eq_some_iff.mp h
    obtain ⟨hb, hx⟩ := this
    simp only [Option.getD_some]
    exact hall x (hx ▸ List.getElem_mem _)

theorem invSubByte_subByte : ∀ b < 256, invSubByte (subByte b) = b := by
  decide!

theorem xtime_lt : ∀ b < 256, xtime b < 256 := by
  decide!

theorem shiftLeft_xor (a b : Nat) : (a ^^^ b) <<< 1 = (a <<< 1) ^^^ (b <<< 1) := by
  apply Nat.eq_of_testBit_eq
  intro i
  simp only [Nat.testBit_shiftLeft, Nat.testBit_xor]
  cases decide (i ≥ 1) <;> simp

/-- Multiplication by `x` is additive. -/
theorem xtime_xor (a b : Nat) : xtime (a ^^^ b) = xtime a ^^^ xtime b := by
  unfold xtime
  rw [shiftLeft_xor, Nat.testBit_xor]
  cases a.testBit 7 <;> cases b.testBit 7 <;>
    simp [Nat.xor_assoc, Nat.xor_comm, xor_left_comm, xor_cancel_left]

end aes

namespace aes

theorem list16 (s : List Nat) (h : s.length = 16) :
    ∃ a0 a1 a2 a3 a4 a5 a6 a7 a8 a9 a10 a11 a12 a13 a14 a15 : Nat,
      s = [a0, a1, a2, a3, a4, a5, a6, a7, a8, a9, a10, a11, a12, a13, a14, a15] := by
  rcases s with _ | ⟨a0, s⟩
  · simp at h
  rcases s with _ | ⟨a1, s⟩
  · simp at h
  rcases s with _ | ⟨a2, s⟩
  · simp at h
  rcases s with _ | ⟨a3, s⟩
  · simp at h
  rcases s with _ | ⟨a4, s⟩
  · simp at h
  rcases s with _ | ⟨a5, s⟩
  · simp at h
  rcases s with _ | ⟨a6, s⟩
  · simp at h
  rcases s with _ | ⟨a7, s⟩
  · simp at h
  rcases s with _ | ⟨a8, s⟩
  · simp at h
  rcases s with _ | ⟨a9, s⟩
  · simp at h
  rcases s with _ | ⟨a10, s⟩
  · simp at h
  rcases s with _ | ⟨a11, s⟩
  · simp at h
  rcases s with _ | ⟨a12, s⟩
  · simp at h
  rcases s with _ | ⟨a13, s⟩
  · simp at h
  rcases s with _ | ⟨a14, s⟩
  · simp at h
  rcases s with _ | ⟨a15, s⟩
  · simp at h
  rcases s with _ | ⟨x, s⟩
  · exact ⟨a0, a1, a2, a3, a4, a5, a6, a7, a8, a9, a10, a11, a12, a13, a14, a15, rfl⟩
  · simp at h

theorem getD_lt_of_Bytes (s : List Nat) (h : Bytes s) (i : Nat) : s.getD i 0 < 256 := by
  rw [List.getD_eq_getElem?_getD]
  cases hi : s[i]? with
  | none => simp
  | some x =>
    obtain ⟨hb, hx⟩ := List.getElem?_eq_some_iff.mp hi
    simp only [Option.getD_some]
    exact h x (hx ▸ List.getElem_mem _)

theorem AddRoundKey_getElem? (state roundKey : List Nat) (i : Nat) (hi : i < 16) :
    (AddRoundKey state roundKey)[i]? = some (state.getD i 0 ^^^ roundKey.getD i 0) := by
  simp [AddRoundKey, List.getElem?_map, List.getElem?_range, hi]

theorem AddRoundKey_inj (s t roundKey : List Nat) (hs : s.length = 16) (ht : t.length = 16)
    (h : AddRoundKey s roundKey = AddRoundKey t roundKey) : s = t := by
  apply List.ext_getElem (by rw [hs, ht])
  intro i h1 h2
  have hi : i < 16 := by omega
  have := congrArg (fun l => l[i]?) h
  simp only [AddRoundKey_getElem? _ _ i hi, Option.some.injEq] at this
  have := xor_right_inj _ _ _ this
  rwa [List.getD_eq_getElem _ _ h1, List.getD_eq_getElem _ _ h2] at this

theorem AddRoundKey_Bytes (s roundKey : List Nat) (hs : Bytes s) (hk : Bytes roundKey) :
    Bytes (AddRoundKey s roundKey) := by
  intro x hx
  simp only [AddRoundKey, List.mem_map, List.mem_range] at hx
  obtain ⟨i, -, rfl⟩ := hx
  exact Nat.xor_lt_two_pow (n := 8) (getD_lt_of_Bytes s hs i) (getD_lt_of_Bytes roundKey hk i)

theorem SubBytes_inj (s t : List Nat) (hs : Bytes s) (ht : Bytes t)
    (h : SubBytes s = SubBytes t) : s = t := by
  have key : ∀ l : List Nat, Bytes l → (SubBytes l).map invSubByte = l := by
    intro l hl
    unfold SubBytes
    rw [List.map_map]
    conv_rhs => rw [← List.map_id l]
    apply List.map_congr_left
    intro x hx
    exact invSubByte_subByte x (hl x hx)
  rw [← key s hs, ← key t ht, h]

theorem SubBytes_Bytes (s : List Nat) : Bytes (SubBytes s) := by
  intro x hx
  simp only [SubBytes, List.mem_map] at hx
  obtain ⟨b, -, rfl⟩ := hx
  exact subByte_lt b

theorem ShiftRows_length (s : List Nat) : (ShiftRows s).length = 16 := by
  simp [ShiftRows]

theorem ShiftRows_Bytes (s : List Nat) (hs : Bytes s) : Bytes (ShiftRows s) := by
  intro x hx
  simp only [ShiftRows, List.mem_map] at hx
  obtain ⟨i, -, rfl⟩ := hx
  exact getD_lt_of_Bytes s hs i

theorem ShiftRows_inj (s t : List Nat) (hs : s.length = 16) (ht : t.length = 16)
    (h : ShiftRows s = ShiftRows t) : s = t := by
  obtain ⟨a0, a1, a2, a3, a4, a5, a6, a7, a8, a9, a10, a11, a12, a13, a14, a15, rfl⟩ :=
    list16 s hs
  obtain ⟨b0, b1, b2, b3, b4, b5, b6, b7, b8, b9, b10, b11, b12, b13, b14, b15, rfl⟩ :=
    list16 t ht
  simp only [ShiftRows, List.map_cons, List.map_nil, List.getD_cons_zero, List.getD_cons_succ,
    List.cons.injEq, and_true] at h
  obtain ⟨h0, h5, h10, h15, h4, h9, h14, h3, h8, h13, h2, h7, h12, h1, h6, h11⟩ := h
  subst h0 h1 h2 h3 h4 h5 h6 h7 h8 h9 h10 h11 h12 h13 h14 h15
  rfl

end aes

namespace aes

/-- The square of `MixColumns` on one column: `x^2 (a + c)` added to `a` and `c`,
and `x^2 (b + d)` to `b` and `d`. -/
theorem mixColumn_mixColumn (a b c d : Nat) :
    mixColumn (xtime a ^^^ (xtime b ^^^ b) ^^^ c ^^^ d)
        (a ^^^ xtime b ^^^ (xtime c ^^^ c) ^^^ d)
        (a ^^^ b ^^^ xtime c ^^^ (xtime d ^^^ d))
        ((xtime a ^^^ a) ^^^ b ^^^ c ^^^ xtime d) =
      [a ^^^ xtime (xtime (a ^^^ c)), b ^^^ xtime (xtime (b ^^^ d)),
        c ^^^ xtime (xtime (a ^^^ c)), d ^^^ xtime (xtime (b ^^^ d))] := by
  simp only [mixColumn, xtime_xor, List.cons.injEq, and_true]
  refine ⟨?_, ?_, ?_, ?_⟩ <;>
    simp only [Nat.xor_assoc, Nat.xor_comm, xor_left_comm, xor_cancel_left, Nat.xor_self,
      Nat.xor_zero, Nat.zero_xor]

/-- The inputs of `MixColumns` on one column, from its outputs. -/
theorem mixColumn_inj (a b c d a' b' c' d' : Nat)
    (h : mixColumn a b c d = mixColumn a' b' c' d') :
    a = a' ∧ b = b' ∧ c = c' ∧ d = d' := by
  have h2 := mixColumn_mixColumn a b c d
  have h2' := mixColumn_mixColumn a' b' c' d'
  have hm := h
  simp only [mixColumn, List.cons.injEq, and_true] at hm
  obtain ⟨e0, e1, e2, e3⟩ := hm
  rw [e0, e1, e2, e3, h2'] at h2
  simp only [List.cons.injEq, and_true] at h2
  obtain ⟨f0, f1, f2, f3⟩ := h2
  -- the sums a + c and b + d agree
  have hac : a ^^^ c = a' ^^^ c' := by
    have := congrArg₂ (· ^^^ ·) f0 f2
    simp only [Nat.xor_assoc, Nat.xor_comm, xor_left_comm, xor_cancel_left, Nat.xor_self,
      Nat.xor_zero, Nat.zero_xor] at this
    simpa [Nat.xor_comm] using this.symm
  have hbd : b ^^^ d = b' ^^^ d' := by
    have := congrArg₂ (· ^^^ ·) f1 f3
    simp only [Nat.xor_assoc, Nat.xor_comm, xor_left_comm, xor_cancel_left, Nat.xor_self,
      Nat.xor_zero, Nat.zero_xor] at this
    simpa [Nat.xor_comm] using this.symm
  rw [hac] at f0 f2
  rw [hbd] at f1 f3
  exact ⟨(xor_right_inj _ _ _ f0).symm, (xor_right_inj _ _ _ f1).symm,
    (xor_right_inj _ _ _ f2).symm, (xor_right_inj _ _ _ f3).symm⟩

end aes

namespace aes

theorem MixColumns_length (s : List Nat) : (MixColumns s).length = 16 := by
  simp [MixColumns, mixColumn]

theorem MixColumns_Bytes (s : List Nat) (hs : Bytes s) : Bytes (MixColumns s) := by
  have hg := getD_lt_of_Bytes s hs
  have hx : ∀ i, xtime (s.getD i 0) < 256 := fun i => xtime_lt _ (hg i)
  have hxor : ∀ a b : Nat, a < 256 → b < 256 → a ^^^ b < 256 :=
    fun a b ha hb => Nat.xor_lt_two_pow (n := 8) ha hb
  intro x hmem
  simp only [MixColumns, mixColumn, List.foldr_cons, List.foldr_nil, List.cons_append,
    List.nil_append, List.mem_cons, List.not_mem_nil, or_false] at hmem
  rcases hmem with h | h | h | h | h | h | h | h | h | h | h | h | h | h | h | h <;>
    (subst h; repeat' (first | apply hx | apply hg | apply hxor))

theorem MixColumns_inj (s t : List Nat) (hs : s.length = 16) (ht : t.length = 16)
    (h : MixColumns s = MixColumns t) : s = t := by
  obtain ⟨a0, a1, a2, a3, a4, a5, a6, a7, a8, a9, a10, a11, a12, a13, a14, a15, rfl⟩ :=
    list16 s hs
  obtain ⟨b0, b1, b2, b3, b4, b5, b6, b7, b8, b9, b10, b11, b12, b13, b14, b15, rfl⟩ :=
    list16 t ht
  have hc0 : mixColumn a0 a1 a2 a3 = mixColumn b0 b1 b2 b3 := by
    have := congrArg (fun l => l.take 4) h
    simpa [MixColumns, mixColumn] using this
  have hc1 : mixColumn a4 a5 a6 a7 = mixColumn b4 b5 b6 b7 := by
    have := congrArg (fun l => (l.drop 4).take 4) h
    simpa [MixColumns, mixColumn] using this
  have hc2 : mixColumn a8 a9 a10 a11 = mixColumn b8 b9 b10 b11 := by
    have := congrArg (fun l => (l.drop 8).take 4) h
    simpa [MixColumns, mixColumn] using this
  have hc3 : mixColumn a12 a13 a14 a15 = mixColumn b12 b13 b14 b15 := by
    have := congrArg (fun l => l.drop 12) h
    simpa [MixColumns, mixColumn] using this
  obtain ⟨h0, h1, h2, h3⟩ := mixColumn_inj _ _ _ _ _ _ _ _ hc0
  obtain ⟨h4, h5, h6, h7⟩ := mixColumn_inj _ _ _ _ _ _ _ _ hc1
  obtain ⟨h8, h9, h10, h11⟩ := mixColumn_inj _ _ _ _ _ _ _ _ hc2
  obtain ⟨h12, h13, h14, h15⟩ := mixColumn_inj _ _ _ _ _ _ _ _ hc3
  subst h0 h1 h2 h3 h4 h5 h6 h7 h8 h9 h10 h11 h12 h13 h14 h15
  rfl

theorem rounds_cons_cons (k k' : List Nat) (ks : List (List Nat)) (s : List Nat) :
    rounds (k :: k' :: ks) s =
      rounds (k' :: ks) (AddRoundKey (MixColumns (ShiftRows (SubBytes s))) k) := by
  rw [rounds]
  simp

theorem IsState_AddRoundKey (s k : List Nat) (hs : Bytes s) (hk : Bytes k) :
    IsState (AddRoundKey s k) :=
  ⟨AddRoundKey_length s k, AddRoundKey_Bytes s k hs hk⟩

/-- The rounds after the first `AddRoundKey` are injective on states. -/
theorem rounds_inj (ks : List (List Nat)) (hks : ∀ k ∈ ks, Bytes k) (s t : List Nat)
    (hs : IsState s) (ht : IsState t) (h : rounds ks s = rounds ks t) : s = t := by
  induction ks generalizing s t with
  | nil => simpa [rounds] using h
  | cons k ks ih =>
    have hk : Bytes k := hks k (List.mem_cons_self _ _)
    cases ks with
    | nil =>
      simp only [rounds] at h
      have h1 := AddRoundKey_inj _ _ _ (ShiftRows_length _) (ShiftRows_length _) h
      have h2 := ShiftRows_inj _ _ (by simp [SubBytes, hs.1]) (by simp [SubBytes, ht.1]) h1
      exact SubBytes_inj s t hs.2 ht.2 h2
    | cons k' ks =>
      rw [rounds_cons_cons, rounds_cons_cons] at h
      have hB : ∀ u : List Nat, Bytes (MixColumns (ShiftRows (SubBytes u))) := fun u =>
          MixColumns_Bytes _ (ShiftRows_Bytes _ (SubBytes_Bytes u))
      have h0 := ih (fun k hk' => hks k (List.mem_cons_of_mem _ hk')) _ _
        (IsState_AddRoundKey _ k (hB s) hk) (IsState_AddRoundKey _ k (hB t) hk) h
      have h1 := AddRoundKey_inj _ _ _ (MixColumns_length _) (MixColumns_length _) h0
      have h2 := MixColumns_inj _ _ (ShiftRows_length _) (ShiftRows_length _) h1
      have h3 := ShiftRows_inj _ _ (by simp [SubBytes, hs.1]) (by simp [SubBytes, ht.1]) h2
      exact SubBytes_inj s t hs.2 ht.2 h3

/-- `Cipher` is injective on blocks of 16 bytes, for round keys made of bytes. -/
theorem Cipher_inj (roundKeys : List (List Nat)) (hks : ∀ k ∈ roundKeys, Bytes k)
    (s t : List Nat) (hs : IsState s) (ht : IsState t)
    (h : Cipher roundKeys s = Cipher roundKeys t) : s = t := by
  cases roundKeys with
  | nil => simpa [Cipher] using h
  | cons k0 ks =>
    have hk0 : Bytes k0 := hks k0 (List.mem_cons_self _ _)
    simp only [Cipher] at h
    have h0 := rounds_inj ks (fun k hk' => hks k (List.mem_cons_of_mem _ hk')) _ _
      (IsState_AddRoundKey s k0 hs.2 hk0) (IsState_AddRoundKey t k0 ht.2 hk0) h
    exact AddRoundKey_inj s t k0 hs.1 ht.1 h0

/-- A block encrypted under two or more round keys, the last one made of
bytes, is made of bytes. -/
theorem rounds_Bytes (k : List Nat) (ks : List (List Nat))
    (hks : ∀ k' ∈ k :: ks, Bytes k') (s : List Nat) : Bytes (rounds (k :: ks) s) := by
  induction ks generalizing k s with
  | nil =>
    simp only [rounds]
    exact AddRoundKey_Bytes _ _ (ShiftRows_Bytes _ (SubBytes_Bytes s))
      (hks k (List.mem_cons_self _ _))
  | cons k' ks ih =>
    rw [rounds_cons_cons]
    exact ih k' (fun x hx => hks x (List.mem_cons_of_mem _ hx)) _

end aes

namespace aes

theorem Cipher_Bytes (roundKeys : List (List Nat)) (hlen : 2 ≤ roundKeys.length)
    (hks : ∀ k ∈ roundKeys, Bytes k) (input : List Nat) : Bytes (Cipher roundKeys input) := by
  rcases roundKeys with _ | ⟨k0, _ | ⟨k, ks⟩⟩
  · simp at hlen
  · simp at hlen
  · simp only [Cipher]
    exact rounds_Bytes k ks (fun x hx => hks x (List.mem_cons_of_mem _ hx)) _

end aes

/-- The round keys of the encryption key are made of bytes. -/
theorem settingsGCM_roundKeys_Bytes : ∀ k ∈ settingsGCM.cipher.roundKeys, Bytes k := by
  decide!

theorem settingsGCM_Encrypt_Bytes (input : List Nat) :
    Bytes (settingsGCM.cipher.Encrypt input) :=
  aes.Cipher_Bytes _ (by rw [show settingsGCM.cipher.roundKeys = aes.KeyExpansion getEncryptionKey
    from rfl, aes.KeyExpansion_length]; decide) settingsGCM_roundKeys_Bytes input

/-- The block cipher of the encryption key is injective on blocks. -/
theorem settingsGCM_Encrypt_inj (s t : List Nat) (hs : aes.IsState s) (ht : aes.IsState t)
    (h : settingsGCM.cipher.Encrypt s = settingsGCM.cipher.Encrypt t) : s = t :=
  aes.Cipher_inj _ settingsGCM_roundKeys_Bytes s t hs ht h

/-- The hash subkey of the encryption key. -/
theorem settingsGCM_hashKey : settingsGCM.hashKey = 0xa7a38b12edd1b13e1b707ff365fa1fc7 := by
  decide!

/-! ## `crypto/cipher`: the multiplication by the hash subkey is injective -/

namespace cipher

theorem gfMulLoop_xor (x x' n i z z' v : Nat) :
    gfMulLoop (x ^^^ x') n i (z ^^^ z') v = gfMulLoop x n i z v ^^^ gfMulLoop x' n i z' v := by
  induction n generalizing i z z' v with
  | zero => rfl
  | succ n ih =>
    simp only [gfMulLoop, Nat.testBit_xor]
    cases x.testBit (127 - i) <;> cases x'.testBit (127 - i)
    · simpa using ih (i + 1) z z' (mulX v)
    · have e : z ^^^ z' ^^^ v = z ^^^ (z' ^^^ v) := Nat.xor_assoc _ _ _
      simpa [e] using ih (i + 1) z (z' ^^^ v) (mulX v)
    · have e : z ^^^ z' ^^^ v = (z ^^^ v) ^^^ z' := by
        rw [Nat.xor_assoc, Nat.xor_comm z' v, ← Nat.xor_assoc]
      simpa [e] using ih (i + 1) (z ^^^ v) z' (mulX v)
    · have e : z ^^^ z' = (z ^^^ v) ^^^ (z' ^^^ v) := by
        rw [Nat.xor_assoc, aes.xor_left_comm v z' v, Nat.xor_self, Nat.xor_zero]
      simpa [e] using ih (i + 1) (z ^^^ v) (z' ^^^ v) (mulX v)

/-- The product is additive in its first factor. -/
theorem gfMul_xor (x x' y : Nat) : gfMul (x ^^^ x') y = gfMul x y ^^^ gfMul x' y := by
  have := gfMulLoop_xor x x' 128 0 0 0 y
  simpa [gfMul] using this

theorem gfMul_zero (y : Nat) : gfMul 0 y = 0 := by
  have := gfMul_xor 0 0 y
  simpa using this

theorem mulX_lt (v : Nat) (hv : v < 2 ^ 128) : mulX v < 2 ^ 128 := by
  unfold mulX
  apply Nat.xor_lt_two_pow
  · rw [Nat.shiftRight_eq_div_pow]
    omega
  · split <;> decide

theorem gfMulLoop_lt (x n i z v : Nat) (hz : z < 2 ^ 128) (hv : v < 2 ^ 128) :
    gfMulLoop x n i z v < 2 ^ 128 := by
  induction n generalizing i z v with
  | zero => simpa [gfMulLoop] using hz
  | succ n ih =>
    rw [gfMulLoop]
    apply ih _ _ _ _ (mulX_lt v hv)
    split
    · exact Nat.xor_lt_two_pow hz hv
    · exact hz

theorem gfMul_lt (x y : Nat) (hy : y < 2 ^ 128) : gfMul x y < 2 ^ 128 :=
  gfMulLoop_lt x 128 0 0 y (by decide) hy

/-- The inverse of the hash subkey of the encryption key, on the powers of
two. -/
theorem gfMul_hashKey_inverse_basis :
    ∀ n < 128, gfMul (gfMul (2 ^ n) 0xa7a38b12edd1b13e1b707ff365fa1fc7)
      0x7512625ad46801e7d884a9ffed9e0f81 = 2 ^ n := by
  decide!

theorem xor_two_pow_lt (x n : Nat) (hlo : 2 ^ n ≤ x) (hhi : x < 2 ^ (n + 1)) :
    x ^^^ 2 ^ n < 2 ^ n := by
  apply Nat.lt_pow_two_of_testBit
  intro i hi
  rw [Nat.testBit_xor, Nat.testBit_two_pow]
  rcases Nat.eq_or_lt_of_le hi with h | h
  · subst h
    have hx : x.testBit n = true := by
      rw [Nat.testBit_to_div_mod]
      have : x / 2 ^ n = 1 := by
        apply Nat.div_eq_of_lt_le
        · simpa using hlo
        · rw [Nat.pow_succ] at hhi
          omega
      simp [this]
    simp [hx]
  · have hx : x.testBit i = false := by
      apply Nat.testBit_lt_two_pow
      calc x < 2 ^ (n + 1) := hhi
        _ ≤ 2 ^ i := Nat.pow_le_pow_right (by norm_num) h
    have hne : ¬ n = i := by omega
    simp [hx, hne]

/-- Multiplying by the hash subkey and then by its inverse gives back every
block. -/
theorem gfMul_hashKey_inverse (n : Nat) (hn : n ≤ 128) (x : Nat) (hx : x < 2 ^ n) :
    gfMul (gfMul x 0xa7a38b12edd1b13e1b707ff365fa1fc7) 0x7512625ad46801e7d884a9ffed9e0f81 =
      x := by
  induction n generalizing x with
  | zero =>
    have : x = 0 := by simpa using hx
    subst this
    rw [gfMul_zero, gfMul_zero]
  | succ n ih =>
    by_cases hlt : x < 2 ^ n
    · exact ih (by omega) x hlt
    · have hx' := xor_two_pow_lt x n (by omega) hx
      have hdec : x = (x ^^^ 2 ^ n) ^^^ 2 ^ n := (aes.xor_cancel_right x (2 ^ n)).symm
      conv_lhs => rw [hdec]
      rw [gfMul_xor, gfMul_xor, ih (by omega) _ hx', gfMul_hashKey_inverse_basis n (by omega)]
      exact aes.xor_cancel_right x (2 ^ n)

/-- The multiplication by the hash subkey of the encryption key is injective on
blocks. -/
theorem gfMul_hashKey_inj (x x' : Nat) (hx : x < 2 ^ 128) (hx' : x' < 2 ^ 128)
    (h : gfMul x settingsGCM.hashKey = gfMul x' settingsGCM.hashKey) : x = x' := by
  rw [settingsGCM_hashKey] at h
  rw [← gfMul_hashKey_inverse 128 (le_refl _) x hx,
    ← gfMul_hashKey_inverse 128 (le_refl _) x' hx', h]

end cipher

/-! ## `crypto/cipher`: blocks and numbers -/

namespace cipher

theorem beToNat_append_singleton (l : List Nat) (x : Nat) :
    beToNat (l ++ [x]) = beToNat l * 256 + x := by
  simp [beToNat]

theorem beToNat_lt (l : List Nat) (hl : Bytes l) : beToNat l < 256 ^ l.length := by
  induction l using List.reverseRecOn with
  | nil => simp [beToNat]
  | append_singleton l x ih =>
    have hx : x < 256 := hl x (by simp)
    have hl' : Bytes l := fun y hy => hl y (by simp [hy])
    have := ih hl'
    rw [beToNat_append_singleton, List.length_append, List.length_singleton, Nat.pow_succ]
    omega

/-- Byte strings of the same length with the same big-endian value are equal. -/
theorem beToNat_inj (a b : List Nat) (ha : Bytes a) (hb : Bytes b)
    (hlen : a.length = b.length) (h : beToNat a = beToNat b) : a = b := by
  induction a using List.reverseRecOn generalizing b with
  | nil =>
    cases b with
    | nil => rfl
    | cons y ys => simp at hlen
  | append_singleton a x ih =>
    rcases List.eq_nil_or_concat b with rfl | ⟨b', y, hby⟩
    · simp at hlen
    · rw [List.concat_eq_append] at hby
      subst hby
      have hx : x < 256 := ha x (by simp)
      have hy : y < 256 := hb y (by simp)
      have ha' : Bytes a := fun z hz => ha z (by simp [hz])
      have hb' : Bytes b' := fun z hz => hb z (by simp [hz])
      rw [beToNat_append_singleton, beToNat_append_singleton] at h
      have hlen' : a.length = b'.length := by simpa using hlen
      have h1 : beToNat a = beToNat b' := by omega
      have h2 : x = y := by omega
      rw [ih b' ha' hb' hlen' h1, h2]

theorem natToBE_length (n y : Nat) : (natToBE n y).length = n := by
  simp [natToBE]

theorem natToBE_Bytes (n y : Nat) : Bytes (natToBE n y) := by
  intro x hx
  simp only [natToBE, List.mem_map] at hx
  obtain ⟨i, -, rfl⟩ := hx
  exact Nat.mod_lt _ (by norm_num)

theorem natToBE_succ (n y : Nat) : natToBE (n + 1) y = natToBE n (y / 256) ++ [y % 256] := by
  unfold natToBE
  rw [List.range_succ, List.map_append]
  congr 1
  · apply List.map_congr_left
    intro i hi
    have hi' : i < n := List.mem_range.mp hi
    have e : n + 1 - 1 - i = (n - 1 - i) + 1 := by omega
    rw [e, Nat.pow_succ, Nat.mul_comm, Nat.div_div_eq_div_mul]
  · simp

theorem beToNat_natToBE (n y : Nat) : beToNat (natToBE n y) = y % 256 ^ n := by
  induction n generalizing y with
  | zero => simp [natToBE, beToNat, Nat.mod_one]
  | succ n ih =>
    rw [natToBE_succ, beToNat_append_singleton, ih, Nat.pow_succ]
    have h1 := Nat.mod_mul_right_div_self y 256 (256 ^ n)
    have h2 : y % (256 * 256 ^ n) % 256 = y % 256 := Nat.mod_mul_right_mod y 256 (256 ^ n)
    have h3 := Nat.div_add_mod (y % (256 * 256 ^ n)) 256
    rw [Nat.mul_comm (256 ^ n) 256]
    rw [h1, h2] at h3
    omega

/-- Blocks below `2^128` with the same 16 bytes are equal. -/
theorem natToBE_inj (y y' : Nat) (hy : y < 2 ^ 128) (hy' : y' < 2 ^ 128)
    (h : natToBE 16 y = natToBE 16 y') : y = y' := by
  have := congrArg beToNat h
  rw [beToNat_natToBE, beToNat_natToBE] at this
  have e : (256 : Nat) ^ 16 = 2 ^ 128 := by norm_num
  rw [e, Nat.mod_eq_of_lt hy, Nat.mod_eq_of_lt hy'] at this
  exact this

theorem zipWith_xor_left_inj (a a' m : List Nat) (ha : a.length = m.length)
    (ha' : a'.length = m.length)
    (h : List.zipWith (· ^^^ ·) a m = List.zipWith (· ^^^ ·) a' m) : a = a' := by
  induction m generalizing a a' with
  | nil =>
    rw [List.length_nil, List.length_eq_zero] at ha ha'
    rw [ha, ha']
  | cons k ks ih =>
    cases a with
    | nil => simp at ha
    | cons x xs =>
      cases a' with
      | nil => simp at ha'
      | cons x' xs' =>
        simp only [List.zipWith_cons_cons, List.cons.injEq] at h
        rw [aes.xor_right_inj _ _ _ h.1,
          ih xs xs' (by simpa using ha) (by simpa using ha') h.2]

theorem zipWith_xor_right_inj (a m m' : List Nat) (hm : m.length = a.length)
    (hm' : m'.length = a.length)
    (h : List.zipWith (· ^^^ ·) a m = List.zipWith (· ^^^ ·) a m') : m = m' := by
  induction a generalizing m m' with
  | nil =>
    rw [List.length_nil, List.length_eq_zero] at hm hm'
    rw [hm, hm']
  | cons x xs ih =>
    cases m with
    | nil => simp at hm
    | cons k ks =>
      cases m' with
      | nil => simp at hm'
      | cons k' ks' =>
        simp only [List.zipWith_cons_cons, List.cons.injEq] at h
        rw [aes.xor_left_inj _ _ _ h.1,
          ih ks ks' (by simpa using hm) (by simpa using hm') h.2]

end cipher

/-! ## `crypto/cipher`: a changed byte changes the hash -/

namespace cipher

/-- One step of `update`. -/
theorem update_step_lt (y x : Nat) : gfMul (y ^^^ x) settingsGCM.hashKey < 2 ^ 128 :=
  gfMul_lt _ _ (by rw [settingsGCM_hashKey]; norm_num)

theorem update_foldl_lt (l : List Nat) (y : Nat) (hy : y < 2 ^ 128) :
    l.foldl (fun y x => gfMul (y ^^^ x) settingsGCM.hashKey) y < 2 ^ 128 := by
  induction l generalizing y with
  | nil => simpa using hy
  | cons x xs ih =>
    rw [List.foldl_cons]
    exact ih _ (update_step_lt y x)

/-- Hashing the same blocks from different states gives different states. -/
theorem update_foldl_ne (l : List Nat) (hl : ∀ x ∈ l, x < 2 ^ 128) (y y' : Nat)
    (hy : y < 2 ^ 128) (hy' : y' < 2 ^ 128) (hne : y ≠ y') :
    l.foldl (fun y x => gfMul (y ^^^ x) settingsGCM.hashKey) y ≠
      l.foldl (fun y x => gfMul (y ^^^ x) settingsGCM.hashKey) y' := by
  induction l generalizing y y' with
  | nil => simpa using hne
  | cons x xs ih =>
    have hx : x < 2 ^ 128 := hl x (List.mem_cons_self _ _)
    rw [List.foldl_cons, List.foldl_cons]
    apply ih (fun z hz => hl z (List.mem_cons_of_mem _ hz)) _ _ (update_step_lt y x)
      (update_step_lt y' x)
    intro h
    have := gfMul_hashKey_inj _ _ (Nat.xor_lt_two_pow hy hx) (Nat.xor_lt_two_pow hy' hx) h
    exact hne (aes.xor_right_inj _ _ _ this)

/-- Hashing two lists of blocks that differ in exactly one block gives
different states. -/
theorem update_foldl_single_diff (l l' : List Nat) (m : Nat) (hlen : l.length = l'.length)
    (hl : ∀ x ∈ l, x < 2 ^ 128) (hl' : ∀ x ∈ l', x < 2 ^ 128)
    (hne : l[m]? ≠ l'[m]?) (heq : ∀ j, j ≠ m → l[j]? = l'[j]?) (y : Nat) (hy : y < 2 ^ 128) :
    l.foldl (fun y x => gfMul (y ^^^ x) settingsGCM.hashKey) y ≠
      l'.foldl (fun y x => gfMul (y ^^^ x) settingsGCM.hashKey) y := by
  induction l generalizing l' m y with
  | nil =>
    have : l' = [] := by
      rw [← List.length_eq_zero, ← hlen]
      rfl
    subst this
    exact absurd rfl hne
  | cons x xs ih =>
    cases l' with
    | nil => simp at hlen
    | cons x' xs' =>
      have hx : x < 2 ^ 128 := hl x (List.mem_cons_self _ _)
      have hx' : x' < 2 ^ 128 := hl' x' (List.mem_cons_self _ _)
      rw [List.foldl_cons, List.foldl_cons]
      cases m with
      | zero =>
        have hxs : xs = xs' := by
          apply List.ext_getElem?
          intro j
          have := heq (j + 1) (by omega)
          simpa using this
        have hxx : x ≠ x' := by
          intro h
          apply hne
          simp [h]
        subst hxs
        apply update_foldl_ne xs (fun z hz => hl z (List.mem_cons_of_mem _ hz)) _ _
          (update_step_lt y x) (update_step_lt y x')
        intro h
        have := gfMul_hashKey_inj _ _ (Nat.xor_lt_two_pow hy hx) (Nat.xor_lt_two_pow hy hx') h
        exact hxx (aes.xor_left_inj _ _ _ this)
      | succ m =>
        have hxx : x = x' := by
          have := heq 0 (by omega)
          simpa using this
        subst hxx
        apply ih xs' m (by simpa using hlen) (fun z hz => hl z (List.mem_cons_of_mem _ hz))
          (fun z hz => hl' z (List.mem_cons_of_mem _ hz))
        · simpa using hne
        · intro j hj
          have := heq (j + 1) (by omega)
          simpa using this
        · exact update_step_lt y x

/-- The block `i` of `data` as `update` hashes it. -/
theorem blocksOf_getElem? (data : List Nat) (i : Nat) :
    (blocksOf data)[i]? =
      if i < (data.length + 15) / 16 then
        some (beToNat ((data.drop (16 * i)).take 16 ++
          List.replicate (16 - ((data.drop (16 * i)).take 16).length) 0))
      else none := by
  unfold blocksOf
  rw [List.getElem?_map]
  by_cases h : i < (data.length + 15) / 16
  · rw [List.getElem?_range h, if_pos h]
    rfl
  · rw [if_neg h, List.getElem?_eq_none (by simpa using h)]
    rfl

theorem chunk_Bytes (data : List Nat) (hd : Bytes data) (i : Nat) :
    Bytes ((data.drop (16 * i)).take 16 ++
      List.replicate (16 - ((data.drop (16 * i)).take 16).length) 0) := by
  intro x hx
  rcases List.mem_append.mp hx with h | h
  · exact hd x (List.mem_of_mem_drop (List.mem_of_mem_take h))
  · rw [List.eq_of_mem_replicate h]
    norm_num

theorem chunk_length (data : List Nat) (i : Nat) :
    ((data.drop (16 * i)).take 16 ++
      List.replicate (16 - ((data.drop (16 * i)).take 16).length) 0).length = 16 := by
  simp only [List.length_append, List.length_take, List.length_drop, List.length_replicate]
  omega

theorem blocksOf_lt (data : List Nat) (hd : Bytes data) : ∀ x ∈ blocksOf data, x < 2 ^ 128 := by
  intro x hx
  simp only [blocksOf, List.mem_map, List.mem_range] at hx
  obtain ⟨i, -, rfl⟩ := hx
  have := beToNat_lt _ (chunk_Bytes data hd i)
  rw [chunk_length] at this
  have e : (256 : Nat) ^ 16 = 2 ^ 128 := by norm_num
  rw [← e]
  exact this

theorem Bytes_set (data : List Nat) (hd : Bytes data) (p v : Nat) (hv : v < 256) :
    Bytes (data.set p v) := by
  intro x hx
  rcases List.mem_or_eq_of_mem_set hx with h | h
  · exact hd x h
  · rw [h]
    exact hv

theorem chunk_getElem? (data : List Nat) (i j : Nat) :
    ((data.drop (16 * i)).take 16)[j]? = if j < 16 then data[16 * i + j]? else none := by
  rw [List.getElem?_take]
  split
  · rw [List.getElem?_drop]
  · rfl

/-- Changing byte `p` of `data` changes block `p / 16` and no other. -/
theorem blocksOf_set (data : List Nat) (hd : Bytes data) (p v : Nat) (hp : p < data.length)
    (hv : v < 256) (hne : v ≠ data.getD p 0) :
    (blocksOf (data.set p v))[p / 16]? ≠ (blocksOf data)[p / 16]? ∧
    ∀ j, j ≠ p / 16 → (blocksOf (data.set p v))[j]? = (blocksOf data)[j]? := by
  have hd' := Bytes_set data hd p v hv
  constructor
  · rw [blocksOf_getElem?, blocksOf_getElem?, List.length_set]
    have hm : p / 16 < (data.length + 15) / 16 := by omega
    rw [if_pos hm, if_pos hm]
    intro h
    have h1 := beToNat_inj _ _ (chunk_Bytes _ hd' _) (chunk_Bytes _ hd _)
      (by rw [chunk_length, chunk_length]) (Option.some.inj h)
    have h2 := congrArg (fun l => l[p % 16]?) h1
    have hlt : p % 16 < ((data.drop (16 * (p / 16))).take 16).length := by
      simp only [List.length_take, List.length_drop]
      omega
    have hlt' : p % 16 < (((data.set p v).drop (16 * (p / 16))).take 16).length := by
      simp only [List.length_take, List.length_drop, List.length_set]
      omega
    simp only [List.getElem?_append_left hlt, List.getElem?_append_left hlt',
      chunk_getElem?, if_pos (Nat.mod_lt p (by norm_num : 0 < 16)),
      Nat.div_add_mod p 16] at h2
    rw [List.getElem?_set_self hp, List.getElem?_eq_getElem hp] at h2
    apply hne
    rw [List.getD_eq_getElem _ _ hp]
    exact Option.some.inj h2
  · intro j hj
    rw [blocksOf_getElem?, blocksOf_getElem?, List.length_set]
    have hchunk : ((data.set p v).drop (16 * j)).take 16 = (data.drop (16 * j)).take 16 := by
      apply List.ext_getElem?
      intro k
      rw [chunk_getElem?, chunk_getElem?]
      split
      · rw [List.getElem?_set_ne (by omega)]
      · rfl
    rw [hchunk]

/-- Changing one byte of the data changes the state `update` reaches. -/
theorem update_set_ne (data : List Nat) (hd : Bytes data) (p v : Nat) (hp : p < data.length)
    (hv : v < 256) (hne : v ≠ data.getD p 0) (y : Nat) (hy : y < 2 ^ 128) :
    settingsGCM.update y (data.set p v) ≠ settingsGCM.update y data := by
  obtain ⟨h1, h2⟩ := blocksOf_set data hd p v hp hv hne
  unfold GCM.update
  exact update_foldl_single_diff _ _ (p / 16) (by simp [blocksOf])
    (blocksOf_lt _ (Bytes_set data hd p v hv)) (blocksOf_lt _ hd) h1 h2 y hy

theorem update_lt (data : List Nat) (y : Nat) (hy : y < 2 ^ 128) :
    settingsGCM.update y data < 2 ^ 128 :=
  update_foldl_lt _ y hy

end cipher

/-! ## Flipping one bit of a ciphertext -/

theorem xor_two_pow_ne (x j : Nat) : x ^^^ 2 ^ j ≠ x := by
  intro h
  have h0 : x ^^^ 2 ^ j = x ^^^ 0 := by rw [h, Nat.xor_zero]
  have := aes.xor_left_inj _ _ _ h0
  exact absurd this (Nat.pos_iff_ne_zero.mp (Nat.two_pow_pos j))

theorem xor_two_pow_lt_256 (x j : Nat) (hx : x < 256) (hj : j < 8) : x ^^^ 2 ^ j < 256 :=
  Nat.xor_lt_two_pow (n := 8) hx (Nat.pow_lt_pow_right (by norm_num) hj)

theorem flipBit_length (c : List Nat) (k : Nat) : (flipBit c k).length = c.length := by
  simp [flipBit]

theorem flipBit_Bytes (c : List Nat) (hc : Bytes c) (k : Nat) : Bytes (flipBit c k) :=
  cipher.Bytes_set c hc _ _
    (xor_two_pow_lt_256 _ _ (aes.getD_lt_of_Bytes c hc _) (Nat.mod_lt k (by norm_num)))

theorem flipBit_ne (c : List Nat) (k : Nat) (hk : k / 8 < c.length) : flipBit c k ≠ c := by
  intro h
  have := congrArg (fun l => l[k / 8]?) h
  simp only [flipBit, List.getElem?_set_self hk, List.getElem?_eq_getElem hk,
    Option.some.injEq, List.getD_eq_getElem _ _ hk] at this
  exact xor_two_pow_ne _ _ this

theorem flipBit_append_left (a b : List Nat) (k : Nat) (hk : k / 8 < a.length) :
    flipBit (a ++ b) k = flipBit a k ++ b := by
  unfold flipBit
  rw [List.set_append_left _ _ hk, List.getD_append _ _ _ _ hk]

theorem flipBit_append_right (a b : List Nat) (k : Nat) (hk : a.length ≤ k / 8) :
    flipBit (a ++ b) k = a ++ flipBit b (k - 8 * a.length) := by
  have h1 : (k - 8 * a.length) / 8 = k / 8 - a.length := by omega
  have h2 : (k - 8 * a.length) % 8 = k % 8 := by omega
  unfold flipBit
  rw [List.set_append_right _ _ hk, List.getD_append_right _ _ _ _ hk, h1, h2]

theorem readFull_Bytes (n : Nat) (supplied : List Nat) : Bytes (readFull n supplied) := by
  intro x hx
  simp only [readFull, List.mem_map] at hx
  obtain ⟨i, -, rfl⟩ := hx
  exact Nat.mod_lt _ (by norm_num)

theorem Bytes_append (a b : List Nat) (ha : Bytes a) (hb : Bytes b) : Bytes (a ++ b) := by
  intro x hx
  rcases List.mem_append.mp hx with h | h
  · exact ha x h
  · exact hb x h

theorem zipWith_xor_Bytes (a b : List Nat) (ha : Bytes a) (hb : Bytes b) :
    Bytes (List.zipWith (· ^^^ ·) a b) := by
  induction a generalizing b with
  | nil => intro x hx; simp at hx
  | cons x xs ih =>
    cases b with
    | nil => intro y hy; simp at hy
    | cons k ks =>
      intro y hy
      simp only [List.zipWith_cons_cons, List.mem_cons] at hy
      rcases hy with h | h
      · rw [h]
        exact Nat.xor_lt_two_pow (n := 8) (ha x (List.mem_cons_self _ _))
          (hb k (List.mem_cons_self _ _))
      · exact ih ks (fun z hz => ha z (List.mem_cons_of_mem _ hz))
          (fun z hz => hb z (List.mem_cons_of_mem _ hz)) y h

theorem keyStream_Bytes (n : Nat) (counter : List Nat) :
    Bytes (cipher.keyStream settingsGCM.cipher n counter) := by
  induction n generalizing counter with
  | zero => intro x hx; simp [cipher.keyStream] at hx
  | succ n ih =>
    rw [cipher.keyStream]
    exact Bytes_append _ _ (settingsGCM_Encrypt_Bytes counter) (ih _)

theorem counterCrypt_Bytes (input counter : List Nat) (h : Bytes input) :
    Bytes (settingsGCM.counterCrypt input counter) :=
  zipWith_xor_Bytes _ _ h (keyStream_Bytes _ _)

/-- A flipped bit in the nonce: the tag mask changes, the tag no longer
matches. -/
theorem DecryptData_flip_nonce (nonce body : List Nat) (hn : nonce.length = 12)
    (hnb : Bytes nonce) (hb : body.length ≤ (2 ^ 32 - 2) * 16) (k : Nat) (hk : k / 8 < 12) :
    DecryptData (flipBit nonce k ++ body ++
        settingsGCM.auth body [] (settingsGCM.cipher.Encrypt (nonce ++ [0, 0, 0, 1]))) =
      .error cipher.errOpen := by
  have hlen : (flipBit nonce k).length = 12 := by rw [flipBit_length, hn]
  rw [DecryptData_nonce_body_tag _ _ _ hlen
    (cipher.auth_length _ _ _ _ (cipher.settingsGCM_Encrypt_length _)) hb, if_pos]
  intro h
  unfold cipher.GCM.auth at h
  have hmask := cipher.zipWith_xor_right_inj _ _ _
    (by rw [cipher.settingsGCM_Encrypt_length, cipher.natToBE_length])
    (by rw [cipher.settingsGCM_Encrypt_length, cipher.natToBE_length]) h
  have hfour : Bytes [0, 0, 0, 1] := by decide
  have hst : ∀ n : List Nat, n.length = 12 → Bytes n → aes.IsState (n ++ [0, 0, 0, 1]) :=
    fun n hl hbn => ⟨by simp [hl], Bytes_append _ _ hbn hfour⟩
  have hj := settingsGCM_Encrypt_inj _ _ (hst _ hlen (flipBit_Bytes nonce hnb k))
    (hst _ hn hnb) hmask
  exact flipBit_ne nonce k (by omega) (List.append_cancel_right hj)

/-- A flipped bit in the encrypted body: the hash changes, the tag no longer
matches. -/
theorem DecryptData_flip_body (nonce body : List Nat) (hn : nonce.length = 12)
    (hbb : Bytes body) (hb : body.length ≤ (2 ^ 32 - 2) * 16) (k : Nat)
    (hk : k / 8 < body.length) :
    DecryptData (nonce ++ flipBit body k ++
        settingsGCM.auth body [] (settingsGCM.cipher.Encrypt (nonce ++ [0, 0, 0, 1]))) =
      .error cipher.errOpen := by
  rw [DecryptData_nonce_body_tag _ _ _ hn
    (cipher.auth_length _ _ _ _ (cipher.settingsGCM_Encrypt_length _))
    (by rw [flipBit_length]; exact hb), if_pos]
  intro h
  unfold cipher.GCM.auth at h
  have hy := cipher.zipWith_xor_left_inj _ _ _
    (by rw [cipher.settingsGCM_Encrypt_length, cipher.natToBE_length])
    (by rw [cipher.settingsGCM_Encrypt_length, cipher.natToBE_length]) h
  have hH : settingsGCM.hashKey < 2 ^ 128 := by rw [settingsGCM_hashKey]; norm_num
  have h0 : settingsGCM.update 0 [] < 2 ^ 128 := cipher.update_lt _ _ (by norm_num)
  have hL : ∀ n : Nat, ([] : List Nat).length * 8 % 2 ^ 64 * 2 ^ 64 + n * 8 % 2 ^ 64 < 2 ^ 128 := by
    intro n
    have : n * 8 % 2 ^ 64 < 2 ^ 64 := Nat.mod_lt _ (by norm_num)
    simp only [List.length_nil, Nat.zero_mul, Nat.zero_mod]
    omega
  have hy' := cipher.natToBE_inj _ _ (cipher.gfMul_lt _ _ hH) (cipher.gfMul_lt _ _ hH) hy
  rw [flipBit_length] at hy'
  have hu := cipher.gfMul_hashKey_inj _ _
    (Nat.xor_lt_two_pow (cipher.update_lt _ _ h0) (hL _))
    (Nat.xor_lt_two_pow (cipher.update_lt _ _ h0) (hL _)) hy'
  have hu' := aes.xor_right_inj _ _ _ hu
  exact cipher.update_set_ne body hbb (k / 8) _ hk
    (xor_two_pow_lt_256 _ _ (aes.getD_lt_of_Bytes body hbb _) (Nat.mod_lt k (by norm_num)))
    (xor_two_pow_ne _ _) _ h0 hu'

/-- A flipped bit in the tag: the tag no longer matches the computed one. -/
theorem DecryptData_flip_tag (nonce body : List Nat) (hn : nonce.length = 12)
    (hb : body.length ≤ (2 ^ 32 - 2) * 16) (k : Nat) (hk : k / 8 < 16) :
    DecryptData (nonce ++ body ++
        flipBit (settingsGCM.auth body [] (settingsGCM.cipher.Encrypt (nonce ++ [0, 0, 0, 1])))
          k) =
      .error cipher.errOpen := by
  have ht := cipher.auth_length settingsGCM body []
    (settingsGCM.cipher.Encrypt (nonce ++ [0, 0, 0, 1])) (cipher.settingsGCM_Encrypt_length _)
  rw [DecryptData_nonce_body_tag _ _ _ hn (by rw [flipBit_length, ht]) hb, if_pos]
  intro h
  exact flipBit_ne _ k (by rw [ht]; exact hk) h.symm

/-- The ciphertext of the repository's test data, "data to test", under the
nonce bytes 0 to 11. -/
theorem EncryptData_sample :
    EncryptData (.ok (List.range 12)) (stringBytes "data to test") =
      .ok [0, 1, 2, 3, 4, 5, 6, 7, 8, 9, 10, 11, 196, 149, 104, 185, 27, 110, 129, 137, 201,
        155, 223, 43, 39, 233, 215, 43, 55, 249, 105, 124, 187, 104, 105, 195, 221, 147,
        188, 7] := by
  decide!

/-- The ciphertext of the empty byte sequence under the nonce bytes 0 to 11:
the nonce and the tag. -/
theorem EncryptData_sample_empty :
    EncryptData (.ok (List.range 12)) [] =
      .ok [0, 1, 2, 3, 4, 5, 6, 7, 8, 9, 10, 11, 148, 189, 41, 209, 248, 80, 125, 142, 62, 171,
        117, 164, 5, 183, 250, 9] := by
  decide!

/-- C1, at the byte sequence of the repository's test, "data to test", and at
the empty byte sequence, with the nonce bytes 0 to 11: the ciphertexts
`EncryptData` returns decrypt to the data. -/
theorem DecryptData_EncryptData_witness :
    DecryptData
        [0, 1, 2, 3, 4, 5, 6, 7, 8, 9, 10, 11, 196, 149, 104, 185, 27, 110, 129, 137, 201,
          155, 223, 43, 39, 233, 215, 43, 55, 249, 105, 124, 187, 104, 105, 195, 221, 147,
          188, 7] = .ok (stringBytes "data to test") ∧
    DecryptData
        [0, 1, 2, 3, 4, 5, 6, 7, 8, 9, 10, 11, 148, 189, 41, 209, 248, 80, 125, 142, 62, 171,
          117, 164, 5, 183, 250, 9] = .ok [] :=
  ⟨DecryptData_EncryptData (.ok (List.range 12)) (stringBytes "data to test") _
      EncryptData_sample,
    DecryptData_EncryptData (.ok (List.range 12)) [] _ EncryptData_sample_empty⟩

/-- C10. For every byte sequence B and every ciphertext C returned by
`EncryptData` of B, flipping any single bit of C (in the prepended nonce, the
encrypted body or the authentication tag) makes `DecryptData` return the
authentication error instead of a plaintext. -/
theorem DecryptData_bit_flip (randomBytes : Except String (List Nat))
    (binaryData c : List Nat) (hB : Bytes binaryData)
    (h : EncryptData randomBytes binaryData = .ok c) (k : Nat) (hk : k < 8 * c.length) :
    DecryptData (flipBit c k) = .error cipher.errOpen := by
  obtain ⟨supplied, -, hlen, hc⟩ := EncryptData_ok randomBytes binaryData c h
  have hn : (readFull 12 supplied).length = 12 := readFull_length 12 supplied
  have hnb : Bytes (readFull 12 supplied) := readFull_Bytes 12 supplied
  have hbl := cipher.counterCrypt_length settingsGCM cipher.settingsGCM_Encrypt_length
    binaryData (cipher.gcmInc32 (readFull 12 supplied ++ [0, 0, 0, 1]))
  have hbb := counterCrypt_Bytes binaryData
    (cipher.gcmInc32 (readFull 12 supplied ++ [0, 0, 0, 1])) hB
  have ht := cipher.auth_length settingsGCM
    (settingsGCM.counterCrypt binaryData (cipher.gcmInc32 (readFull 12 supplied ++ [0, 0, 0, 1])))
    [] (settingsGCM.cipher.Encrypt (readFull 12 supplied ++ [0, 0, 0, 1]))
    (cipher.settingsGCM_Encrypt_length _)
  have hclen : c.length = 12 + binaryData.length + 16 := by
    rw [hc, List.length_append, List.length_append, hn, hbl, ht]
  rw [hc]
  by_cases h1 : k / 8 < 12
  · rw [List.append_assoc, flipBit_append_left _ _ k (by rw [hn]; exact h1),
      ← List.append_assoc]
    exact DecryptData_flip_nonce _ _ hn hnb (by rw [hbl]; exact hlen) k h1
  · by_cases h2 : k / 8 < 12 + binaryData.length
    · rw [List.append_assoc, flipBit_append_right _ _ k (by rw [hn]; omega),
        flipBit_append_left _ _ _ (by rw [hbl, hn]; omega), ← List.append_assoc]
      exact DecryptData_flip_body _ _ hn hbb (by rw [hbl]; exact hlen) _
        (by rw [hbl, hn]; omega)
    · rw [flipBit_append_right _ _ k
        (by rw [List.length_append, hn, hbl]; omega)]
      exact DecryptData_flip_tag _ _ hn (by rw [hbl]; exact hlen) _
        (by rw [List.length_append, hn, hbl]; omega)

/-- C10, at the ciphertext of "data to test" under the nonce bytes 0 to 11:
with bit 0 of the nonce flipped, with a bit of the first byte of the body
flipped, and with the top bit of the last byte of the tag flipped,
`DecryptData` returns the authentication error. -/
theorem DecryptData_bit_flip_witness :
    DecryptData
        [1, 1, 2, 3, 4, 5, 6, 7, 8, 9, 10, 11, 196, 149, 104, 185, 27, 110, 129, 137, 201,
          155, 223, 43, 39, 233, 215, 43, 55, 249, 105, 124, 187, 104, 105, 195, 221, 147,
          188, 7] = .error "cipher: message authentication failed" ∧
    DecryptData
        [0, 1, 2, 3, 4, 5, 6, 7, 8, 9, 10, 11, 192, 149, 104, 185, 27, 110, 129, 137, 201,
          155, 223, 43, 39, 233, 215, 43, 55, 249, 105, 124, 187, 104, 105, 195, 221, 147,
          188, 7] = .error "cipher: message authentication failed" ∧
    DecryptData
        [0, 1, 2, 3, 4, 5, 6, 7, 8, 9, 10, 11, 196, 149, 104, 185, 27, 110, 129, 137, 201,
          155, 223, 43, 39, 233, 215, 43, 55, 249, 105, 124, 187, 104, 105, 195, 221, 147,
          188, 135] = .error "cipher: message authentication failed" :=
  ⟨DecryptData_bit_flip (.ok (List.range 12)) (stringBytes "data to test") _ (by decide)
      EncryptData_sample 0 (by decide),
    DecryptData_bit_flip (.ok (List.range 12)) (stringBytes "data to test") _ (by decide)
      EncryptData_sample 98 (by decide),
    DecryptData_bit_flip (.ok (List.range 12)) (stringBytes "data to test") _ (by decide)
      EncryptData_sample 319 (by decide)⟩

/-! ## `unicode/utf8`: decoding what was encoded -/

namespace utf8

theorem Char_toNat_valid (c : Char) :
    c.toNat < 0xD800 ∨ (0xDFFF < c.toNat ∧ c.toNat < 0x110000) := by
  have h := c.valid
  simp only [Char.toNat, UInt32.toNat]
  rcases h with h | h
  · left
    exact h
  · right
    exact h

theorem first_two (p0 : Nat) (h1 : 0xC2 ≤ p0) (h2 : p0 ≤ 0xDF) :
    first p0 = some (2, 0x80, 0xBF) := by
  unfold first
  rw [if_neg (by omega), if_pos h2]

theorem first_three (p0 : Nat) (h1 : 0xE1 ≤ p0) (h2 : p0 ≤ 0xEF) (h3 : p0 ≠ 0xED) :
    first p0 = some (3, 0x80, 0xBF) := by
  unfold first
  rw [if_neg (by omega), if_neg (by omega), if_neg (by omega), if_neg h3, if_pos h2]

theorem first_four (p0 : Nat) (h1 : 0xF1 ≤ p0) (h2 : p0 ≤ 0xF3) :
    first p0 = some (4, 0x80, 0xBF) := by
  unfold first
  rw [if_neg (by omega), if_neg (by omega), if_neg (by omega), if_neg (by omega),
    if_neg (by omega), if_neg (by omega), if_pos h2]

/-- Decoding the encoding of a rune that is neither ASCII nor a surrogate nor
out of range gives the rune back, and its width. -/
theorem DecodeRune_EncodeRune (n : Nat) (rest : List Nat) (h80 : 0x80 ≤ n)
    (hv : n < 0xD800 ∨ (0xDFFF < n ∧ n < 0x110000)) :
    DecodeRune (EncodeRune n ++ rest) = (n, (EncodeRune n).length) := by
  unfold EncodeRune
  rw [if_neg (by omega)]
  by_cases h2 : n ≤ 0x7FF
  · rw [if_pos h2]
    simp only [List.cons_append, List.nil_append, DecodeRune, RuneSelf,
      first_two (0xC0 + n / 64) (by omega) (by omega)]
    rw [if_neg (by omega), if_neg (by omega), if_pos (by omega)]
    simp only [List.length_cons, List.length_nil, Prod.mk.injEq, and_true]
    omega
  · rw [if_neg h2, if_neg (by unfold MaxRune; omega)]
    by_cases h3 : n ≤ 0xFFFF
    · rw [if_pos h3]
      have hval : (0xE0 + n / 4096) % 16 * 4096 + (0x80 + n / 64 % 64) % 64 * 64 +
          (0x80 + n % 64) % 64 = n := by omega
      by_cases hE0 : 0xE0 + n / 4096 = 0xE0
      · have hf : first (0xE0 + n / 4096) = some (3, 0xA0, 0xBF) := by
          rw [hE0]
          rfl
        simp only [List.cons_append, List.nil_append, DecodeRune, RuneSelf, hf]
        rw [if_neg (by omega), if_neg (by omega), if_neg (by omega), if_neg (by omega),
          if_pos (by omega), hval]
        rfl
      · by_cases hED : 0xE0 + n / 4096 = 0xED
        · have hf : first (0xE0 + n / 4096) = some (3, 0x80, 0x9F) := by
            rw [hED]
            rfl
          simp only [List.cons_append, List.nil_append, DecodeRune, RuneSelf, hf]
          rw [if_neg (by omega), if_neg (by omega), if_neg (by omega), if_neg (by omega),
            if_pos (by omega), hval]
          rfl
        · simp only [List.cons_append, List.nil_append, DecodeRune, RuneSelf,
            first_three (0xE0 + n / 4096) (by omega) (by omega) hED]
          rw [if_neg (by omega), if_neg (by omega), if_neg (by omega), if_neg (by omega),
            if_pos (by omega), hval]
          rfl
    · rw [if_neg h3]
      have hval : (0xF0 + n / 262144) % 8 * 262144 + (0x80 + n / 4096 % 64) % 64 * 4096 +
          (0x80 + n / 64 % 64) % 64 * 64 + (0x80 + n % 64) % 64 = n := by omega
      by_cases hF0 : 0xF0 + n / 262144 = 0xF0
      · have hf : first (0xF0 + n / 262144) = some (4, 0x90, 0xBF) := by
          rw [hF0]
          rfl
        simp only [List.cons_append, List.nil_append, DecodeRune, RuneSelf, hf]
        rw [if_neg (by omega), if_neg (by omega), if_neg (by omega), if_neg (by omega),
          if_neg (by omega), if_neg (by omega), hval]
        rfl
      · by_cases hF4 : 0xF0 + n / 262144 = 0xF4
        · have hf : first (0xF0 + n / 262144) = some (4, 0x80, 0x8F) := by
            rw [hF4]
            rfl
          simp only [List.cons_append, List.nil_append, DecodeRune, RuneSelf, hf]
          rw [if_neg (by omega), if_neg (by omega), if_neg (by omega), if_neg (by omega),
            if_neg (by omega), if_neg (by omega), hval]
          rfl
        · simp only [List.cons_append, List.nil_append, DecodeRune, RuneSelf,
            first_four (0xF0 + n / 262144) (by omega) (by omega)]
          rw [if_neg (by omega), if_neg (by omega), if_neg (by omega), if_neg (by omega),
            if_neg (by omega), if_neg (by omega), hval]
          rfl

/-- The first byte of the encoding of a rune that is not ASCII is not ASCII
either, and the encoding is not empty. -/
theorem EncodeRune_head (n : Nat) (h80 : 0x80 ≤ n) :
    ∃ b tail, EncodeRune n = b :: tail ∧ 0x80 ≤ b := by
  unfold EncodeRune
  rw [if_neg (by omega)]
  split_ifs
  · exact ⟨_, _, rfl, by omega⟩
  · exact ⟨_, _, rfl, by omega⟩
  · exact ⟨_, _, rfl, by omega⟩
  · exact ⟨_, _, rfl, by omega⟩

/-- The bytes of an encoded rune are bytes. -/
theorem EncodeRune_lt (n : Nat) (hn : n < 0x110000) : ∀ b ∈ EncodeRune n, b < 256 := by
  unfold EncodeRune
  split_ifs <;> simp only [List.mem_cons, List.mem_singleton, List.not_mem_nil, or_false] <;>
    intro b hb <;> rcases hb with hb | hb | hb | hb <;> omega

end utf8

/-! ## `encoding/json`: decoding what was encoded -/

namespace json

theorem consRune_some (r : Nat) (s : List Char) (rest : List Nat) :
    consRune r (some (s, rest)) = some (Char.ofNat r :: s, rest) := rfl

/-- The encoding of an ASCII rune is read back as that rune. -/
theorem unquoteLoop_ascii (b : Nat) (hb : b < 0x80) (fuel : Nat) (rest : List Nat) :
    unquoteLoop (fuel + 1)
        ((if htmlSafeSet b then [b]
          else if b = 0x5C ∨ b = 0x22 then [0x5C, b]
          else if b = 0x08 then [0x5C, 0x62]
          else if b = 0x0C then [0x5C, 0x66]
          else if b = 0x0A then [0x5C, 0x6E]
          else if b = 0x0D then [0x5C, 0x72]
          else if b = 0x09 then [0x5C, 0x74]
          else [0x5C, 0x75, 0x30, 0x30, hex (b / 16), hex (b % 16)]) ++ rest) =
      consRune b (unquoteLoop fuel rest) := by
  interval_cases b <;>
    simp [unquoteLoop, htmlSafeSet, hex, getu4, unhex, utf8.RuneSelf]

/-- One step of the decoder reads one encoded rune back. -/
theorem unquoteLoop_appendRune (c : Char) (fuel : Nat) (rest : List Nat) :
    unquoteLoop (fuel + 1) (appendRune c ++ rest) =
      consRune c.toNat (unquoteLoop fuel rest) := by
  have hv := utf8.Char_toNat_valid c
  simp only [appendRune]
  generalize c.toNat = b at hv
  by_cases hb : b < utf8.RuneSelf
  · rw [if_pos hb]
    exact unquoteLoop_ascii b hb fuel rest
  · rw [if_neg hb]
    have hb80 : 0x80 ≤ b := by
      unfold utf8.RuneSelf at hb
      omega
    by_cases hls : b = 0x2028 ∨ b = 0x2029
    · rw [if_pos hls]
      rcases hls with h | h <;> subst h <;>
        simp [unquoteLoop, hex, getu4, unhex]
    · rw [if_neg hls]
      obtain ⟨b0, tail, henc, hb0⟩ := utf8.EncodeRune_head b hb80
      have hdec := utf8.DecodeRune_EncodeRune b rest hb80 hv
      have hstep : unquoteLoop (fuel + 1) (b0 :: (tail ++ rest)) =
          consRune (utf8.DecodeRune (b0 :: (tail ++ rest))).1
            (unquoteLoop fuel
              ((b0 :: (tail ++ rest)).drop (utf8.DecodeRune (b0 :: (tail ++ rest))).2)) := by
        simp only [unquoteLoop]
        rw [if_neg (by omega), if_neg (by omega), if_neg (by omega),
          if_neg (by unfold utf8.RuneSelf; omega)]
      rw [henc] at hdec ⊢
      rw [List.cons_append] at hdec ⊢
      rw [hstep, hdec]
      simp only
      rw [← List.cons_append, List.drop_left]

theorem appendRune_ne_nil (c : Char) : appendRune c ≠ [] := by
  simp only [appendRune]
  split_ifs <;> try simp
  obtain ⟨b0, tail, henc, -⟩ := utf8.EncodeRune_head c.toNat (by
    unfold utf8.RuneSelf at *
    omega)
  rw [henc]
  simp

theorem length_le_flatMap_appendRune (s : List Char) :
    s.length ≤ (s.flatMap appendRune).length := by
  induction s with
  | nil => simp
  | cons c s ih =>
    rw [List.flatMap_cons, List.length_append, List.length_cons]
    have h : 0 < (appendRune c).length := List.length_pos.mpr (appendRune_ne_nil c)
    omega

/-- The decoder reads an encoded string back, up to its closing quote. -/
theorem unquoteLoop_flatMap_appendRune (s : List Char) (rest : List Nat) (fuel : Nat)
    (hf : s.length < fuel) :
    unquoteLoop fuel (s.flatMap appendRune ++ 0x22 :: rest) = some (s, rest) := by
  induction s generalizing fuel with
  | nil =>
    obtain ⟨k, rfl⟩ : ∃ k, fuel = k + 1 := ⟨fuel - 1, by simp at hf; omega⟩
    simp [unquoteLoop]
  | cons c s ih =>
    obtain ⟨k, rfl⟩ : ∃ k, fuel = k + 1 := ⟨fuel - 1, by simp at hf; omega⟩
    rw [List.flatMap_cons, List.append_assoc, unquoteLoop_appendRune,
      ih k (by simp at hf; omega), consRune_some, Char.ofNat_toNat]

/-- The text of a string literal the encoder wrote, read from behind its
opening quote. -/
theorem unquote_flatMap_appendRune (s : List Char) (rest : List Nat) :
    unquote (s.flatMap appendRune ++ 0x22 :: rest) = some (s, rest) := by
  unfold unquote
  apply unquoteLoop_flatMap_appendRune
  rw [List.length_append, List.length_cons]
  have := length_le_flatMap_appendRune s
  omega

end json

/-! ## `appendString` on a string that is valid UTF-8 -/

namespace json

theorem EncodeRune_length (n : Nat) (h80 : 0x80 ≤ n) : 2 ≤ (utf8.EncodeRune n).length := by
  unfold utf8.EncodeRune
  rw [if_neg (by omega)]
  split_ifs <;> simp

/-- One step of the loop of `appendString` on the encoding of a rune writes
what `appendRune` gives for the rune. -/
theorem appendStringLoop_EncodeRune (c : Char) (fuel : Nat) (rest : List Nat) :
    appendStringLoop (fuel + 1) (utf8.EncodeRune c.toNat ++ rest) =
      appendRune c ++ appendStringLoop fuel rest := by
  have hv := utf8.Char_toNat_valid c
  simp only [appendRune]
  generalize c.toNat = b at hv
  by_cases hb : b < utf8.RuneSelf
  · have henc : utf8.EncodeRune b = [b] := by
      unfold utf8.EncodeRune
      rw [if_pos (by unfold utf8.RuneSelf at hb; omega)]
    rw [henc, if_pos hb]
    simp only [List.singleton_append, appendStringLoop, if_pos hb]
    rfl
  · rw [if_neg hb]
    have hb80 : 0x80 ≤ b := by
      unfold utf8.RuneSelf at hb
      omega
    obtain ⟨b0, tail, henc, hb0⟩ := utf8.EncodeRune_head b hb80
    have hdec := utf8.DecodeRune_EncodeRune b rest hb80 hv
    have hlen := EncodeRune_length b hb80
    have hstep : appendStringLoop (fuel + 1) (b0 :: (tail ++ rest)) =
        if (utf8.DecodeRune (b0 :: (tail ++ rest))).1 = utf8.RuneError ∧
            (utf8.DecodeRune (b0 :: (tail ++ rest))).2 = 1 then
          [0x5C, 0x75, 0x66, 0x66, 0x66, 0x64] ++ appendStringLoop fuel (tail ++ rest)
        else if (utf8.DecodeRune (b0 :: (tail ++ rest))).1 = 0x2028 ∨
            (utf8.DecodeRune (b0 :: (tail ++ rest))).1 = 0x2029 then
          [0x5C, 0x75, 0x32, 0x30, 0x32,
            hex ((utf8.DecodeRune (b0 :: (tail ++ rest))).1 % 16)] ++
            appendStringLoop fuel
              ((b0 :: (tail ++ rest)).drop (utf8.DecodeRune (b0 :: (tail ++ rest))).2)
        else (b0 :: (tail ++ rest)).take (utf8.DecodeRune (b0 :: (tail ++ rest))).2 ++
          appendStringLoop fuel
            ((b0 :: (tail ++ rest)).drop (utf8.DecodeRune (b0 :: (tail ++ rest))).2) := by
      simp only [appendStringLoop]
      rw [if_neg (by unfold utf8.RuneSelf; omega)]
    rw [henc] at hdec hlen ⊢
    rw [List.cons_append] at hdec ⊢
    rw [hstep, hdec]
    simp only
    rw [if_neg (by omega)]
    rw [← List.cons_append, List.drop_left, List.take_left]
    split_ifs <;> rfl

/-- On the UTF-8 encoding of a text the loop of `appendString` writes what
`appendRune` gives for each rune of the text. -/
theorem appendStringLoop_text (cs : List Char) :
    ∀ fuel : Nat, cs.length ≤ fuel →
      appendStringLoop fuel (cs.flatMap (fun c => utf8.EncodeRune c.toNat)) =
        cs.flatMap appendRune := by
  induction cs with
  | nil =>
    intro fuel _
    cases fuel <;> rfl
  | cons c cs ih =>
    intro fuel hf
    obtain ⟨k, rfl⟩ : ∃ k, fuel = k + 1 := ⟨fuel - 1, by simp at hf; omega⟩
    rw [List.flatMap_cons, List.flatMap_cons, appendStringLoop_EncodeRune,
      ih k (by simp at hf; omega)]

theorem length_le_bytesOfString (s : String) : s.data.length ≤ (bytesOfString s).length := by
  unfold bytesOfString
  induction s.data with
  | nil => simp
  | cons c cs ih =>
    rw [List.flatMap_cons, List.length_append, List.length_cons]
    have h : 0 < (utf8.EncodeRune c.toNat).length := by
      unfold utf8.EncodeRune
      split_ifs <;> simp
    omega

/-- For a text, `appendString` writes the quoted text, rune by rune. -/
theorem appendString_text (s : String) :
    appendString (s : GoString) = [0x22] ++ s.data.flatMap appendRune ++ [0x22] := by
  unfold appendString
  show [0x22] ++ appendStringLoop (bytesOfString s).length (bytesOfString s) ++ [0x22] = _
  have h := appendStringLoop_text s.data (bytesOfString s).length (length_le_bytesOfString s)
  unfold bytesOfString at h ⊢
  rw [h]

end json

namespace json

theorem memberValue_string (v : List Char) (rest : List Nat) :
    memberValue (0x22 :: (v.flatMap appendRune ++ 0x22 :: rest)) =
      some (Member.string (String.mk v), rest) := by
  simp [memberValue, unquote_flatMap_appendRune]

/-- A member with a string value that the encoder wrote, followed by a comma
and the next key. -/
theorem objectMembers_more (fuel : Nat) (key value : List Char) (rest : List Nat) :
    objectMembers (fuel + 1)
        (0x22 :: (key.flatMap appendRune ++ 0x22 :: 0x3A :: 0x22 ::
          (value.flatMap appendRune ++ 0x22 :: 0x2C :: 0x22 :: rest))) =
      (objectMembers fuel (0x22 :: rest)).map
        (fun r => ((String.mk key, Member.string (String.mk value)) :: r.1, r.2)) := by
  simp [objectMembers, unquote_flatMap_appendRune, skipSpace, isSpace, memberValue_string]

/-- The last member of an object, with a string value that the encoder
wrote. -/
theorem objectMembers_last (fuel : Nat) (key value : List Char) (rest : List Nat) :
    objectMembers (fuel + 1)
        (0x22 :: (key.flatMap appendRune ++ 0x22 :: 0x3A :: 0x22 ::
          (value.flatMap appendRune ++ 0x22 :: 0x7D :: rest))) =
      some ([(String.mk key, Member.string (String.mk value))], rest) := by
  simp [objectMembers, unquote_flatMap_appendRune, skipSpace, isSpace, memberValue_string]

/-- The bytes `json.Marshal` writes for a `UserData` whose three fields are
valid UTF-8, that is, the encodings of three texts. -/
theorem marshal_userData_bytes (username password hostname : String) :
    marshalObject
        [("username", .string username), ("password", .string password),
         ("host", .string hostname)] =
      0x7B :: 0x22 :: ("username".data.flatMap appendRune ++ 0x22 :: 0x3A :: 0x22 ::
        (username.data.flatMap appendRune ++ 0x22 :: 0x2C :: 0x22 ::
        ("password".data.flatMap appendRune ++ 0x22 :: 0x3A :: 0x22 ::
        (password.data.flatMap appendRune ++ 0x22 :: 0x2C :: 0x22 ::
        ("host".data.flatMap appendRune ++ 0x22 :: 0x3A :: 0x22 ::
        (hostname.data.flatMap appendRune ++ [0x22, 0x7D])))))) := by
  simp only [marshalObject, appendMembers, appendField, appendString_text, List.append_assoc,
    List.cons_append, List.nil_append, List.singleton_append]

theorem objectMembers_userData (username password hostname : String) (fuel : Nat)
    (hf : 3 ≤ fuel) :
    objectMembers fuel
        (0x22 :: ("username".data.flatMap appendRune ++ 0x22 :: 0x3A :: 0x22 ::
          (username.data.flatMap appendRune ++ 0x22 :: 0x2C :: 0x22 ::
          ("password".data.flatMap appendRune ++ 0x22 :: 0x3A :: 0x22 ::
          (password.data.flatMap appendRune ++ 0x22 :: 0x2C :: 0x22 ::
          ("host".data.flatMap appendRune ++ 0x22 :: 0x3A :: 0x22 ::
          (hostname.data.flatMap appendRune ++ [0x22, 0x7D]))))))) =
      some ([("username", Member.string username), ("password", Member.string password),
         ("host", Member.string hostname)], []) := by
  obtain ⟨k, rfl⟩ : ∃ k, fuel = k + 1 + 1 + 1 := ⟨fuel - 3, by omega⟩
  rw [objectMembers_more, objectMembers_more, objectMembers_last]
  rfl

/-- The first value of the bytes `json.Marshal` wrote for a `UserData` with
valid UTF-8 in its fields is the object with its three members, and nothing
follows it. -/
theorem firstValue_marshal_userData (username password hostname : String) :
    firstValue (marshalObject
        [("username", .string username), ("password", .string password),
         ("host", .string hostname)]) =
      some (Top.object
        [("username", Member.string username), ("password", Member.string password),
         ("host", Member.string hostname)], []) := by
  rw [marshal_userData_bytes]
  unfold firstValue
  have h1 : ∀ rest : List Nat, skipSpace (0x7B :: rest) = 0x7B :: rest := by
    intro rest
    simp [skipSpace, isSpace]
  have h2 : ∀ rest : List Nat, skipSpace (0x22 :: rest) = 0x22 :: rest := by
    intro rest
    simp [skipSpace, isSpace]
  rw [h1]
  simp only [if_pos]
  rw [h2]
  simp only
  rw [if_neg (by decide)]
  rw [objectMembers_userData username password hostname _ (by
    simp only [List.length_append, List.length_cons]
    omega)]
  rfl

/-- Decoding what `json.Marshal` wrote for a `UserData` whose three fields are
valid UTF-8 gives the same `UserData`. -/
theorem UnmarshalUserData_MarshalUserData (username password hostname : String) :
    ∃ data,
      MarshalUserData { Username := username, Password := password, Hostname := hostname } =
        .ok data ∧
      UnmarshalUserData data =
        .ok (some { Username := username, Password := password, Hostname := hostname }) := by
  refine ⟨_, rfl, ?_⟩
  unfold UnmarshalUserData checkValid
  rw [firstValue_marshal_userData]
  simp only [skipSpace, if_true]
  simp [assignMembers, fieldIndex, findName, userDataFields, setUserDataField]

end json

/-! ## The settings file: `SaveSettings`, `LoadSettings`, `Logout` -/

theorem CheckIfFileExists_eq (fs : SettingsFile) : CheckIfFileExists fs = fs.content.isSome := by
  unfold CheckIfFileExists os.Stat
  cases fs.content <;> rfl

/-- Decrypting what `EncryptData` returned gives the data back. -/
theorem DecryptData_of_EncryptData (randomBytes : Except String (List Nat))
    (binaryData c : List Nat) (h : EncryptData randomBytes binaryData = .ok c) :
    DecryptData c = .ok binaryData := by
  obtain ⟨supplied, -, hlen, hc⟩ := EncryptData_ok randomBytes binaryData c h
  have hn : (readFull 12 supplied).length = 12 := readFull_length 12 supplied
  rw [hc, DecryptData_nonce_body_tag _ _ _ hn
    (cipher.auth_length _ _ _ _ (cipher.settingsGCM_Encrypt_length _))
    (by rw [cipher.counterCrypt_length _ cipher.settingsGCM_Encrypt_length]; exact hlen)]
  rw [if_neg (by simp), cipher.counterCrypt_counterCrypt _ cipher.settingsGCM_Encrypt_length]

/-- What a successful `SaveSettings` leaves behind: the file holds the
encryption of the JSON text of the user data. -/
theorem SaveSettings_ok (randomBytes : Except String (List Nat)) (userData : UserData)
    (fs fs1 : SettingsFile) (h : SaveSettings randomBytes userData fs = (.ok (), fs1)) :
    ∃ jsonData encryptedData,
      json.MarshalUserData userData = .ok jsonData ∧
      EncryptData randomBytes jsonData = .ok encryptedData ∧
      fs.writeError = none ∧
      fs1 = { fs with content := some encryptedData } := by
  unfold SaveSettings at h
  obtain ⟨jsonData, hj⟩ : ∃ jsonData, json.MarshalUserData userData = .ok jsonData :=
    ⟨_, rfl⟩
  rw [hj] at h
  simp only at h
  cases he : EncryptData randomBytes jsonData with
  | panic msg => rw [he] at h; simp at h
  | error err => rw [he] at h; simp at h
  | ok encryptedData =>
    rw [he] at h
    simp only [os.WriteFile] at h
    cases hw : fs.writeError with
    | some err => rw [hw] at h; simp at h
    | none =>
      rw [hw] at h
      simp only [Prod.mk.injEq, true_and] at h
      exact ⟨jsonData, encryptedData, hj, he, rfl, h.symm⟩

/-- `SaveSettings` succeeds when the random source delivers, the JSON text is
within the size GCM accepts, and the file can be written. -/
theorem SaveSettings_succeeds (supplied : List Nat) (userData : UserData) (fs : SettingsFile)
    (jsonData : List Nat) (hj : json.MarshalUserData userData = .ok jsonData)
    (hlen : jsonData.length ≤ (2 ^ 32 - 2) * 16) (hw : fs.writeError = none) :
    (SaveSettings (.ok supplied) userData fs).1 = .ok () := by
  unfold SaveSettings
  rw [hj]
  simp only
  rw [EncryptData_eq]
  simp only [cipher.GCM.Seal]
  rw [if_neg (by
    rw [readFull_length]
    simp [settingsGCM, cipher.gcmStandardNonceSize])]
  rw [if_neg (by
    simp only [cipher.gcmBlockSize]
    omega)]
  simp only [os.WriteFile, hw]

/-- What `LoadSettings` returns on the state a successful `SaveSettings` leaves:
the decoding of the JSON text that was saved. -/
theorem LoadSettings_after_SaveSettings (randomBytes : Except String (List Nat))
    (userData : UserData) (fs fs1 : SettingsFile) (jsonData : List Nat)
    (hj : json.MarshalUserData userData = .ok jsonData)
    (h : SaveSettings randomBytes userData fs = (.ok (), fs1)) :
    LoadSettings fs1 =
      match json.UnmarshalUserData jsonData with
      | .error _ => .error "error in load data from settings file"
      | .ok loaded => .ok loaded := by
  obtain ⟨jsonData', encryptedData, hj', he, -, rfl⟩ :=
    SaveSettings_ok randomBytes userData fs fs1 h
  rw [hj] at hj'
  cases hj'
  unfold LoadSettings loadUserDataFromFile
  rw [CheckIfFileExists_eq]
  simp only [Option.isSome_some, Bool.not_true, Bool.false_eq_true, if_false]
  unfold getSettingsFileContent os.ReadFile
  simp only
  rw [DecryptData_of_EncryptData randomBytes jsonData encryptedData he]
  simp only
  cases json.UnmarshalUserData jsonData <;> rfl

/-- C11, as the claim states it, fails. A Go string need not be valid UTF-8:
for the `UserData` whose username is the single byte 0xFF, `SaveSettings`
into a state without file succeeds, and `LoadSettings` on the state it leaves
succeeds and returns the username U+FFFD (the bytes 0xEF 0xBF 0xBD), which is
not the username that was saved: `json.Marshal` wrote the escape of U+FFFD for
the byte. -/
theorem LoadSettings_SaveSettings_invalid_utf8 :
    (SaveSettings (.ok [1, 2, 3, 4, 5, 6, 7, 8, 9, 10, 11, 12])
        { Username := { bytes := [0xFF] }, Password := "secret",
          Hostname := "http://fax.example.com" }
        ⟨none, none, none⟩).1 = .ok () ∧
    LoadSettings
        (SaveSettings (.ok [1, 2, 3, 4, 5, 6, 7, 8, 9, 10, 11, 12])
          { Username := { bytes := [0xFF] }, Password := "secret",
            Hostname := "http://fax.example.com" }
          ⟨none, none, none⟩).2 =
      .ok (some
        { Username := { bytes := [0xEF, 0xBF, 0xBD] }, Password := "secret",
          Hostname := "http://fax.example.com" }) ∧
    LoadSettings
        (SaveSettings (.ok [1, 2, 3, 4, 5, 6, 7, 8, 9, 10, 11, 12])
          { Username := { bytes := [0xFF] }, Password := "secret",
            Hostname := "http://fax.example.com" }
          ⟨none, none, none⟩).2 ≠
      .ok (some
        { Username := { bytes := [0xFF] }, Password := "secret",
          Hostname := "http://fax.example.com" }) := by
  have h1 := SaveSettings_succeeds [1, 2, 3, 4, 5, 6, 7, 8, 9, 10, 11, 12]
    { Username := { bytes := [0xFF] }, Password := "secret",
      Hostname := "http://fax.example.com" }
    ⟨none, none, none⟩ _ rfl (by decide) rfl
  have h : SaveSettings (.ok [1, 2, 3, 4, 5, 6, 7, 8, 9, 10, 11, 12])
      { Username := { bytes := [0xFF] }, Password := "secret",
        Hostname := "http://fax.example.com" }
      ⟨none, none, none⟩ =
      (.ok (),
        (SaveSettings (.ok [1, 2, 3, 4, 5, 6, 7, 8, 9, 10, 11, 12])
          { Username := { bytes := [0xFF] }, Password := "secret",
            Hostname := "http://fax.example.com" }
          ⟨none, none, none⟩).2) := by
    rw [← h1]
  have hload := LoadSettings_after_SaveSettings _ _ _ _ _ rfl h
  have hdec : (match json.UnmarshalUserData
        (json.marshalObject
          [("username", .string { bytes := [0xFF] }), ("password", .string "secret"),
           ("host", .string "http://fax.example.com")]) with
      | .error _ => (.error "error in load data from settings file" :
          Outcome (Option UserData))
      | .ok loaded => .ok loaded) =
      .ok (some
        { Username := { bytes := [0xEF, 0xBF, 0xBD] }, Password := "secret",
          Hostname := "http://fax.example.com" }) := by
    decide
  refine ⟨h1, hload.trans hdec, ?_⟩
  rw [hload.trans hdec]
  decide

/-- Saving and loading a `UserData` whose three fields are the encodings of
three texts. -/
theorem LoadSettings_of_saved_text (randomBytes : Except String (List Nat))
    (username password hostname : String) (fs fs1 : SettingsFile)
    (h : SaveSettings randomBytes
      { Username := username, Password := password, Hostname := hostname } fs = (.ok (), fs1)) :
    LoadSettings fs1 =
      .ok (some { Username := username, Password := password, Hostname := hostname }) := by
  obtain ⟨jsonData, hj, hu⟩ := json.UnmarshalUserData_MarshalUserData username password
    hostname
  rw [LoadSettings_after_SaveSettings randomBytes _ fs fs1 jsonData hj h, hu]

/-- A Go string has a text exactly when it is the UTF-8 encoding of that
text. -/
theorem GoString.toText_eq_some (g : GoString) (text : String) (h : g.toText = some text) :
    g = (text : GoString) := by
  unfold GoString.toText at h
  split_ifs at h with hb
  simp only [Option.some.injEq] at h
  subst h
  cases g
  simp only at hb
  show GoString.mk _ = GoString.mk _
  rw [hb]

/-- C11, amended. With the settings file as explicit state: for every
`UserData` whose username, password and hostname are valid UTF-8 (each is the
UTF-8 encoding of a text) and every prior state of the file, if `SaveSettings`
succeeds, `LoadSettings` on the state it leaves succeeds and returns a
`UserData` equal to the one saved, field for field. -/
theorem LoadSettings_SaveSettings (randomBytes : Except String (List Nat))
    (userData : UserData) (fs fs1 : SettingsFile)
    (hUsername : ∃ text : String, userData.Username = text)
    (hPassword : ∃ text : String, userData.Password = text)
    (hHostname : ∃ text : String, userData.Hostname = text)
    (h : SaveSettings randomBytes userData fs = (.ok (), fs1)) :
    LoadSettings fs1 = .ok (some userData) := by
  obtain ⟨username, hu⟩ := hUsername
  obtain ⟨password, hp⟩ := hPassword
  obtain ⟨hostname, hh⟩ := hHostname
  have hdata : userData =
      { Username := username, Password := password, Hostname := hostname } := by
    cases userData
    simp only at hu hp hh
    rw [hu, hp, hh]
  rw [hdata] at h ⊢
  exact LoadSettings_of_saved_text randomBytes username password hostname fs fs1 h

/-- C11, amended, at a concrete input: saving the user "user" with the twelve
random bytes 1 to 12 into a state without file succeeds, and loading from the
state it leaves returns that user. -/
theorem LoadSettings_SaveSettings_witness :
    SaveSettings (.ok [1, 2, 3, 4, 5, 6, 7, 8, 9, 10, 11, 12])
        { Username := "user", Password := "secret", Hostname := "http://fax.example.com" }
        ⟨none, none, none⟩ =
      (.ok (),
        (SaveSettings (.ok [1, 2, 3, 4, 5, 6, 7, 8, 9, 10, 11, 12])
          { Username := "user", Password := "secret", Hostname := "http://fax.example.com" }
          ⟨none, none, none⟩).2) ∧
    LoadSettings
        (SaveSettings (.ok [1, 2, 3, 4, 5, 6, 7, 8, 9, 10, 11, 12])
          { Username := "user", Password := "secret", Hostname := "http://fax.example.com" }
          ⟨none, none, none⟩).2 =
      .ok (some
        { Username := "user", Password := "secret", Hostname := "http://fax.example.com" }) := by
  have h1 := SaveSettings_succeeds [1, 2, 3, 4, 5, 6, 7, 8, 9, 10, 11, 12]
    { Username := "user", Password := "secret", Hostname := "http://fax.example.com" }
    ⟨none, none, none⟩ _ rfl (by decide) rfl
  have h : SaveSettings (.ok [1, 2, 3, 4, 5, 6, 7, 8, 9, 10, 11, 12])
      { Username := "user", Password := "secret", Hostname := "http://fax.example.com" }
      ⟨none, none, none⟩ =
      (.ok (),
        (SaveSettings (.ok [1, 2, 3, 4, 5, 6, 7, 8, 9, 10, 11, 12])
          { Username := "user", Password := "secret", Hostname := "http://fax.example.com" }
          ⟨none, none, none⟩).2) := by
    rw [← h1]
  exact ⟨h, LoadSettings_SaveSettings _ _ _ _ ⟨"user", rfl⟩ ⟨"secret", rfl⟩
    ⟨"http://fax.example.com", rfl⟩ h⟩

/-- C12, as the claim states it, fails. The file `[1, 2, 3]` cannot be
decrypted; `Logout` removes it; `LoadSettings` returns the same error before
and after, "error in load data from settings file", so its caller cannot tell
"not found" from "cannot be decrypted". -/
theorem LoadSettings_not_found_like_corrupt :
    DecryptData [1, 2, 3] = .error "encrypted data is too short" ∧
    Logout ⟨some [1, 2, 3], none, none⟩ = (none, ⟨none, none, none⟩) ∧
    LoadSettings ⟨some [1, 2, 3], none, none⟩ =
      .error "error in load data from settings file" ∧
    LoadSettings (Logout ⟨some [1, 2, 3], none, none⟩).2 =
      .error "error in load data from settings file" := by
  have hd : DecryptData [1, 2, 3] = .error "encrypted data is too short" := by
    rw [DecryptData_eq, if_pos (by decide)]
  refine ⟨hd, rfl, ?_, rfl⟩
  unfold LoadSettings loadUserDataFromFile
  rw [CheckIfFileExists_eq]
  simp only [Option.isSome_some, Bool.not_true, Bool.false_eq_true, if_false]
  unfold getSettingsFileContent os.ReadFile
  simp only
  rw [hd]

/-- C12, amended. After a successful `Logout` the inner `loadUserDataFromFile`
reports "the settings file not found", and for a file that exists but cannot
be decrypted or deserialized it reports the error of `DecryptData` or of
`json.Unmarshal`; `LoadSettings` replaces each of them by the one error
"error in load data from settings file". -/
theorem LoadSettings_one_error :
    (∀ fs fs1 : SettingsFile, Logout fs = (none, fs1) →
      loadUserDataFromFile fs1 = .error "the settings file not found" ∧
      LoadSettings fs1 = .error "error in load data from settings file") ∧
    (∀ (fs : SettingsFile) (data : List Nat) (err : String),
      fs.content = some data → DecryptData data = .error err →
      loadUserDataFromFile fs = .error err ∧
      LoadSettings fs = .error "error in load data from settings file") ∧
    (∀ (fs : SettingsFile) (data decrypted : List Nat) (err : String),
      fs.content = some data → DecryptData data = .ok decrypted →
      json.UnmarshalUserData decrypted = .error err →
      loadUserDataFromFile fs = .error err ∧
      LoadSettings fs = .error "error in load data from settings file") := by
  refine ⟨?_, ?_, ?_⟩
  · intro fs fs1 h
    have hc : fs1.content = none := by
      unfold Logout at h
      rw [CheckIfFileExists_eq] at h
      cases hcont : fs.content with
      | none =>
        rw [hcont] at h
        simp only [Option.isSome_none, Bool.false_eq_true, if_false, Prod.mk.injEq,
          true_and] at h
        rw [← h]
        exact hcont
      | some data =>
        rw [hcont] at h
        simp only [Option.isSome_some, if_true, os.Remove, hcont] at h
        cases hr : fs.removeError with
        | some err => rw [hr] at h; simp at h
        | none =>
          rw [hr] at h
          simp only [Prod.mk.injEq, true_and] at h
          rw [← h]
    have hl : loadUserDataFromFile fs1 = .error "the settings file not found" := by
      unfold loadUserDataFromFile
      rw [CheckIfFileExists_eq, hc]
      rfl
    refine ⟨hl, ?_⟩
    unfold LoadSettings
    rw [hl]
  · intro fs data err hc hd
    have hl : loadUserDataFromFile fs = .error err := by
      unfold loadUserDataFromFile
      rw [CheckIfFileExists_eq, hc]
      simp only [Option.isSome_some, Bool.not_true, Bool.false_eq_true, if_false]
      unfold getSettingsFileContent os.ReadFile
      rw [hc]
      simp only
      rw [hd]
    refine ⟨hl, ?_⟩
    unfold LoadSettings
    rw [hl]
  · intro fs data decrypted err hc hd hu
    have hl : loadUserDataFromFile fs = .error err := by
      unfold loadUserDataFromFile
      rw [CheckIfFileExists_eq, hc]
      simp only [Option.isSome_some, Bool.not_true, Bool.false_eq_true, if_false]
      unfold getSettingsFileContent os.ReadFile
      rw [hc]
      simp only
      rw [hd]
      simp only
      rw [hu]
    refine ⟨hl, ?_⟩
    unfold LoadSettings
    rw [hl]

/-- C13. With the settings file as explicit state: `Logout` on a state where
the file does not exist returns no error and leaves the state unchanged; on a
state where the file exists and its removal succeeds, it returns no error and
the file no longer exists; and `Logout` is idempotent: after a `Logout` that
returned no error, a second `Logout` returns no error and changes nothing. -/
theorem Logout_idempotent :
    (∀ fs : SettingsFile, fs.content = none → Logout fs = (none, fs)) ∧
    (∀ (fs : SettingsFile) (data : List Nat), fs.content = some data →
      fs.removeError = none →
      Logout fs = (none, { fs with content := none }) ∧
      CheckIfFileExists (Logout fs).2 = false) ∧
    (∀ fs fs1 : SettingsFile, Logout fs = (none, fs1) →
      fs1.content = none ∧ Logout fs1 = (none, fs1)) := by
  have hnone : ∀ fs : SettingsFile, fs.content = none → Logout fs = (none, fs) := by
    intro fs hc
    unfold Logout
    rw [CheckIfFileExists_eq, hc]
    rfl
  have hsome : ∀ (fs : SettingsFile) (data : List Nat), fs.content = some data →
      fs.removeError = none → Logout fs = (none, { fs with content := none }) := by
    intro fs data hc hr
    unfold Logout
    rw [CheckIfFileExists_eq, hc]
    simp only [Option.isSome_some, if_true, os.Remove, hc, hr]
  refine ⟨hnone, ?_, ?_⟩
  · intro fs data hc hr
    refine ⟨hsome fs data hc hr, ?_⟩
    rw [hsome fs data hc hr, CheckIfFileExists_eq]
    rfl
  · intro fs fs1 h
    have hc : fs1.content = none := by
      cases hcont : fs.content with
      | none =>
        rw [hnone fs hcont] at h
        simp only [Prod.mk.injEq, true_and] at h
        rw [← h]
        exact hcont
      | some data =>
        unfold Logout at h
        rw [CheckIfFileExists_eq, hcont] at h
        simp only [Option.isSome_some, if_true, os.Remove, hcont] at h
        cases hr : fs.removeError with
        | some err => rw [hr] at h; simp at h
        | none =>
          rw [hr] at h
          simp only [Prod.mk.injEq, true_and] at h
          rw [← h]
    exact ⟨hc, hnone fs1 hc⟩

/-! ## The layout of the encrypted data, and the identifiers in `SendFaxICT` -/

/-- The output of `Seal` is `dst` followed by what `Seal` appends to an empty
`dst`. -/
theorem cipher.Seal_dst (g : cipher.GCM) (dst nonce plaintext data c : List Nat)
    (h : g.Seal dst nonce plaintext data = .ok c) :
    ∃ sealed, g.Seal [] nonce plaintext data = .ok sealed ∧ c = dst ++ sealed := by
  unfold cipher.GCM.Seal at h ⊢
  split_ifs at h ⊢
  simp only [Outcome.ok.injEq] at h
  refine ⟨_, rfl, ?_⟩
  rw [← h]
  simp

/-- C19. The encryption key is 16 bytes long, so that the construction of the
AES cipher and of GCM succeeds and the only error of `EncryptData` is that of
the random source. For every byte sequence B, every successful
`EncryptData(B)` is the 12-byte nonce followed by the GCM-sealed data, of
total length len(B) + 28; and `DecryptData` uses the first 12 bytes of its
input as the nonce and the rest as the sealed data. -/
theorem EncryptData_layout :
    getEncryptionKey.length = 16 ∧
    aes.NewCipher getEncryptionKey = .ok settingsGCM.cipher ∧
    cipher.NewGCM settingsGCM.cipher = .ok settingsGCM ∧
    (∀ (randomBytes : Except String (List Nat)) (binaryData : List Nat) (err : String),
      EncryptData randomBytes binaryData = .error err → randomBytes = .error err) ∧
    (∀ (randomBytes : Except String (List Nat)) (binaryData c : List Nat),
      EncryptData randomBytes binaryData = .ok c →
      ∃ supplied sealed, randomBytes = .ok supplied ∧
        (readFull 12 supplied).length = 12 ∧
        settingsGCM.Seal [] (readFull 12 supplied) binaryData [] = .ok sealed ∧
        sealed.length = binaryData.length + 16 ∧
        c = readFull 12 supplied ++ sealed ∧
        c.length = binaryData.length + 28 ∧
        DecryptData c = settingsGCM.Open [] (readFull 12 supplied) sealed []) ∧
    (∀ encryptedData : List Nat, 12 ≤ encryptedData.length →
      DecryptData encryptedData =
        settingsGCM.Open [] (encryptedData.take 12) (encryptedData.drop 12) []) := by
  refine ⟨by decide, NewCipher_key, NewGCM_key, ?_, ?_, ?_⟩
  · intro randomBytes binaryData err h
    rw [EncryptData_eq] at h
    cases randomBytes with
    | error e =>
      simp only [Outcome.error.injEq] at h
      rw [h]
    | ok supplied =>
      exfalso
      simp only [cipher.GCM.Seal] at h
      split_ifs at h
  · intro randomBytes binaryData c h
    obtain ⟨supplied, hr, hlen, hc⟩ := EncryptData_ok randomBytes binaryData c h
    have hn : (readFull 12 supplied).length = 12 := readFull_length 12 supplied
    rw [EncryptData_eq, hr] at h
    obtain ⟨sealed, hs, hcs⟩ := cipher.Seal_dst _ _ _ _ _ _ h
    have hsl : sealed.length = binaryData.length + 16 := by
      have h1 : readFull 12 supplied ++ sealed =
          readFull 12 supplied ++
            (settingsGCM.counterCrypt binaryData
                (cipher.gcmInc32 (readFull 12 supplied ++ [0, 0, 0, 1])) ++
              settingsGCM.auth
                (settingsGCM.counterCrypt binaryData
                  (cipher.gcmInc32 (readFull 12 supplied ++ [0, 0, 0, 1])))
                [] (settingsGCM.cipher.Encrypt (readFull 12 supplied ++ [0, 0, 0, 1]))) := by
        rw [← hcs, hc, List.append_assoc]
      rw [List.append_cancel_left h1, List.length_append,
        cipher.counterCrypt_length _ cipher.settingsGCM_Encrypt_length,
        cipher.auth_length _ _ _ _ (cipher.settingsGCM_Encrypt_length _)]
    refine ⟨supplied, sealed, hr, hn, hs, hsl, hcs, ?_, ?_⟩
    · rw [hcs, List.length_append, hn, hsl]
      omega
    · rw [DecryptData_eq, if_neg (by rw [hcs, List.length_append, hn]; omega), hcs]
      rw [List.take_left' hn, List.drop_left' hn]
  · intro encryptedData h
    rw [DecryptData_eq, if_neg (by omega)]

/-- C20. In a run of `SendFaxICT` that returns no error, the identifiers the
server issued are passed on unchanged: the document ID returned by
`CreateDocumentRecord` is the one passed to `UploadDocumentFile` and to
`CreateProgram`; the contact ID returned by `CreateContact` and the program ID
returned by `CreateProgram` are the ones passed to `CreateTransmission`; the
transmission ID returned by `CreateTransmission` is the one passed to
`SendTransmission`; and `UploadDocumentFile` is given the caller's file bytes
and `fileModel.ContentType`. -/
theorem SendFaxICT_threads_ids {σ : Type} (ops : ICTOperations σ) (userData : UserData)
    (authToken : String) (contact : Contact) (document : DocumentRecord)
    (transmission : Transmission) (fileContents : List Nat) (fileModel : SendFileInfo)
    (s : σ)
    (h : (SendFaxICT ops userData authToken contact document transmission fileContents
      fileModel s).err = none) :
    ∃ (contactID documentID programID transmissionID : Int) (s1 s2 s3 s4 s5 s6 : σ),
      ops.CreateContact userData authToken contact s = (.ok contactID, s1) ∧
      ops.CreateDocumentRecord userData authToken document s1 = (.ok documentID, s2) ∧
      ops.UploadDocumentFile userData authToken documentID fileContents
        fileModel.ContentType s2 = (.ok (), s3) ∧
      ops.CreateProgram userData authToken documentID s3 = (.ok programID, s4) ∧
      ops.CreateTransmission userData authToken transmission contactID
        (strconv.Atoi transmission.AccountID).1 programID s4 = (.ok transmissionID, s5) ∧
      ops.SendTransmission userData authToken transmissionID s5 = (.ok (), s6) ∧
      (SendFaxICT ops userData authToken contact document transmission fileContents
        fileModel s).calls =
        [.CreateContact userData authToken contact,
         .CreateDocumentRecord userData authToken document,
         .UploadDocumentFile userData authToken documentID fileContents fileModel.ContentType,
         .CreateProgram userData authToken documentID,
         .CreateTransmission userData authToken transmission contactID
           (strconv.Atoi transmission.AccountID).1 programID,
         .SendTransmission userData authToken transmissionID] ∧
      (SendFaxICT ops userData authToken contact document transmission fileContents
        fileModel s).state = s6 := by
  rcases h1 : ops.CreateContact userData authToken contact s with ⟨r1, s1⟩
  cases r1 with
  | error e => simp [SendFaxICT, h1] at h
  | ok contactID =>
  rcases h2 : ops.CreateDocumentRecord userData authToken document s1 with ⟨r2, s2⟩
  cases r2 with
  | error e => simp [SendFaxICT, h1, h2] at h
  | ok documentID =>
  rcases h3 : ops.UploadDocumentFile userData authToken documentID fileContents
    fileModel.ContentType s2 with ⟨r3, s3⟩
  cases r3 with
  | error e => simp [SendFaxICT, h1, h2, h3] at h
  | ok u3 =>
  rcases h4 : ops.CreateProgram userData authToken documentID s3 with ⟨r4, s4⟩
  cases r4 with
  | error e => simp [SendFaxICT, h1, h2, h3, h4] at h
  | ok programID =>
  rcases h5 : ops.CreateTransmission userData authToken transmission contactID
    (strconv.Atoi transmission.AccountID).1 programID s4 with ⟨r5, s5⟩
  cases r5 with
  | error e => simp [SendFaxICT, h1, h2, h3, h4, h5] at h
  | ok transmissionID =>
  rcases h6 : ops.SendTransmission userData authToken transmissionID s5 with ⟨r6, s6⟩
  cases r6 with
  | error e => simp [SendFaxICT, h1, h2, h3, h4, h5, h6] at h
  | ok u6 =>
  refine ⟨contactID, documentID, programID, transmissionID, s1, s2, s3, s4, s5, s6,
    ?_, ?_, ?_, ?_, ?_, ?_, ?_, ?_⟩
  · rfl
  · exact h2
  · exact h3
  · exact h4
  · exact h5
  · exact h6
  · rw [SendFaxICT_success ops userData authToken contact document transmission fileContents
      fileModel s s1 s2 s3 s4 s5 s6 contactID documentID programID transmissionID
      h1 h2 h3 h4 h5 h6]
  · rw [SendFaxICT_success ops userData authToken contact document transmission fileContents
      fileModel s s1 s2 s3 s4 s5 s6 contactID documentID programID transmissionID
      h1 h2 h3 h4 h5 h6]

/-! ## `strconv.Atoi`: a result without error comes from a decimal representation -/

namespace strconv

theorem digitOf_lt_ten (c : Char) (d : Nat) (h : digitOf c = some d) (hd : d < 10) :
    48 ≤ c.toNat ∧ c.toNat ≤ 57 := by
  have h0 : '0'.toNat = 48 := by decide
  have h9 : '9'.toNat = 57 := by decide
  unfold digitOf at h
  rw [h0, h9] at h
  split_ifs at h with h1 h2 h3
  · exact h1
  · simp only [Option.some.injEq] at h
    omega
  · simp only [Option.some.injEq] at h
    omega

theorem parseUintLoop_ok (cutoff maxVal : Nat) (s : List Char) (n v : Nat)
    (h : parseUintLoop cutoff maxVal s n = (v, none)) : allDecimalDigits s = true := by
  induction s generalizing n with
  | nil => rfl
  | cons c cs ih =>
    rw [parseUintLoop] at h
    cases hd : digitOf c with
    | none =>
      rw [hd] at h
      simp at h
    | some d =>
      rw [hd] at h
      simp only at h
      split_ifs at h with h1 h2 h3
      · simp at h
      · simp at h
      · simp at h
      · have hc := digitOf_lt_ten c d hd (by omega)
        have hcs := ih _ h
        unfold allDecimalDigits at hcs ⊢
        rw [List.all_cons, hcs]
        simp [hc]

theorem parseUintLoop_range (cutoff maxVal : Nat) (s : List Char) (n : Nat)
    (h : (parseUintLoop cutoff maxVal s n).2 = some .ErrRange) :
    (parseUintLoop cutoff maxVal s n).1 = maxVal := by
  induction s generalizing n with
  | nil => simp [parseUintLoop] at h
  | cons c cs ih =>
    cases hd : digitOf c with
    | none =>
      rw [parseUintLoop, hd] at h
      simp at h
    | some d =>
      rw [parseUintLoop, hd] at h ⊢
      simp only at h ⊢
      split_ifs at h ⊢ with h1 h2 h3
      · simp at h
      · rfl
      · rfl
      · exact ih _ h

theorem ParseUint_range (body : List Char) (h : (ParseUint body 0).2 = some .ErrRange) :
    (ParseUint body 0).1 = 2 ^ 64 - 1 := by
  unfold ParseUint at h ⊢
  by_cases hb : body = []
  · rw [if_pos hb] at h
    simp at h
  · rw [if_neg hb] at h ⊢
    exact parseUintLoop_range _ _ _ _ h

theorem ParseUint_ok (body : List Char) (h : (ParseUint body 0).2 = none) :
    body ≠ [] ∧ allDecimalDigits body = true := by
  unfold ParseUint at h
  by_cases hb : body = []
  · rw [if_pos hb] at h
    simp at h
  · rw [if_neg hb] at h
    exact ⟨hb, parseUintLoop_ok _ _ _ _ _ (Prod.ext rfl h)⟩

/-- When `ParseInt` returns no error, its input is an optional sign followed
by decimal digits. -/
theorem ParseInt_ok_decimal (s : List Char) (v : Int) (h : ParseInt s 0 = (v, none)) :
    ∃ n, decimalValue (String.mk s) = some n := by
  unfold ParseInt at h
  by_cases hs : s = []
  · rw [if_pos hs] at h
    simp at h
  · rw [if_neg hs] at h
    dsimp only at h
    by_cases hsyn : (ParseUint (if s.head? = some '+' ∨ s.head? = some '-' then s.tail else s)
        0).2 = some .ErrSyntax
    · rw [if_pos hsyn] at h
      simp at h
    · rw [if_neg hsyn] at h
      have hbits : (if (0 : Nat) = 0 then intSize else 0) = 64 := rfl
      rw [hbits] at h
      have hnone : (ParseUint (if s.head? = some '+' ∨ s.head? = some '-' then s.tail else s)
          0).2 = none := by
        cases hx : (ParseUint (if s.head? = some '+' ∨ s.head? = some '-' then s.tail else s)
            0).2 with
        | none => rfl
        | some e =>
          exfalso
          cases e with
          | ErrSyntax => exact hsyn hx
          | ErrRange =>
            rw [ParseUint_range _ hx] at h
            by_cases hneg : s.head? = some '-'
            · simp [hneg] at h
            · simp [hneg] at h
      have hdig : (if s.head? = some '+' ∨ s.head? = some '-' then s.tail else s) ≠ [] ∧
          allDecimalDigits (if s.head? = some '+' ∨ s.head? = some '-' then s.tail else s) =
            true := ParseUint_ok _ hnone
      unfold decimalValue
      split
      · rename_i ds hds
        simp only at hds
        subst hds
        simp only [List.head?_cons, true_or, if_true, List.tail_cons] at hdig
        rw [if_pos ⟨hdig.1, hdig.2⟩]
        exact ⟨_, rfl⟩
      · rename_i ds hds
        simp only at hds
        subst hds
        simp only [List.head?_cons, or_true, if_true, List.tail_cons] at hdig
        rw [if_pos ⟨hdig.1, hdig.2⟩]
        exact ⟨_, rfl⟩
      · rename_i ds hp hm
        simp only at hp hm
        have hnosign : ¬ (s.head? = some '+' ∨ s.head? = some '-') := by
          cases s with
          | nil => exact absurd rfl hs
          | cons c cs =>
            simp only [List.head?_cons, Option.some.injEq]
            rintro (hc | hc)
            · exact hp cs (by rw [hc])
            · exact hm cs (by rw [hc])
        rw [if_neg hnosign] at hdig
        rw [if_pos ⟨hdig.1, hdig.2⟩]
        exact ⟨_, rfl⟩

/-- When `Atoi` returns no error, its input is a decimal representation of an
integer in the range of `int`, and the result is that integer. -/
theorem Atoi_ok_decimal (s : String) (h : (Atoi s).2 = none) :
    decimalValue s = some (Atoi s).1 ∧ inIntRange (Atoi s).1 := by
  have hex : ∃ n, decimalValue s = some n := by
    by_cases hfast : byteLen s.data < 19
    · cases hd : decimalValue s with
      | some n => exact ⟨n, rfl⟩
      | none =>
        rw [Atoi_syntax_short s hd hfast] at h
        simp at h
    · have hslow : ¬ ((intSize = 32 ∧ 0 < byteLen s.data ∧ byteLen s.data < 10) ∨
          (intSize = 64 ∧ 0 < byteLen s.data ∧ byteLen s.data < 19)) := by
        have h32 : intSize ≠ 32 := by decide
        rintro (⟨h1, -⟩ | ⟨-, -, h3⟩)
        · exact h32 h1
        · exact hfast h3
      have heq : Atoi s = ParseInt s.data 0 := atoiChars_slow s.data hslow
      exact ParseInt_ok_decimal s.data (Atoi s).1 (by rw [← heq]; exact Prod.ext rfl h)
  obtain ⟨n, hn⟩ := hex
  by_cases hhi : 2 ^ 63 ≤ n
  · rw [Atoi_above s n hn hhi] at h
    simp at h
  · by_cases hlo : n < -2 ^ 63
    · rw [Atoi_below s n hn hlo] at h
      simp at h
    · have hv := Atoi_decimal s n hn (by omega) (by omega)
      rw [hv]
      exact ⟨hn, by unfold inIntRange; omega⟩

/-- `Atoi` returns an error exactly when its input is not a decimal
representation of an integer in the range of `int`. -/
theorem Atoi_error_iff (s : String) :
    (Atoi s).2 ≠ none ↔ ¬ ∃ n, decimalValue s = some n ∧ inIntRange n := by
  constructor
  · rintro h ⟨n, hn, hlo, hhi⟩
    rw [Atoi_decimal s n hn hlo hhi] at h
    exact h rfl
  · intro h hnone
    exact h ⟨_, Atoi_ok_decimal s hnone⟩

end strconv

/-! ## The remote operations and the HTTP response -/

section Remote

variable (lib : Library) (userData : UserData) (authToken : String) (net : Network)
  (resp : http.Response) (rest : List (Except String http.Response)) (parsedUrl : url.URL)

theorem Network.Do_pending (req : http.Request) (hnet : net.pending = .ok resp :: rest) :
    net.Do req = (.ok resp, { pending := rest, sent := net.sent ++ [req] }) := by
  unfold Network.Do
  rw [hnet]

theorem buildICTReqeustURL_ok (uriPath : String)
    (hurl : lib.ParseRequestURI userData.Hostname = .ok parsedUrl) :
    buildICTReqeustURL lib userData uriPath =
      .returned (parsedUrl.Scheme ++ "://" ++ parsedUrl.Host ++ "/" ++ uriPath) := by
  unfold buildICTReqeustURL
  rw [hurl]

/-- `AuthenticateICT` on a response that has arrived. -/
theorem AuthenticateICT_response
    (hurl : lib.ParseRequestURI userData.Hostname = .ok parsedUrl)
    (hnet : net.pending = .ok resp :: rest) :
    (AuthenticateICT lib userData net).1 =
      if resp.StatusCode ≠ 200 then
        .returned (none, some ("Authentication failed with status code: " ++
          strconv.Itoa resp.StatusCode))
      else
        match resp.Body with
        | .error err => .returned (none, some err)
        | .ok body =>
          match json.DecodeAuthResponse body with
          | .error err => .returned (none, some err)
          | .ok authResponse => .returned (some authResponse, none) := by
  unfold AuthenticateICT
  simp only [json.MarshalUserData, buildICTReqeustURL_ok lib userData parsedUrl _ hurl,
    http.Post, Network.Do_pending net resp rest _ hnet, http.StatusOK]
  split_ifs
  · rfl
  · cases resp.Body with
    | error err => rfl
    | ok body =>
      simp only
      cases json.DecodeAuthResponse body <;> rfl

/-- `TransmissionsICT` on a response that has arrived. -/
theorem TransmissionsICT_response
    (hurl : lib.ParseRequestURI userData.Hostname = .ok parsedUrl)
    (hnet : net.pending = .ok resp :: rest) :
    (TransmissionsICT lib userData authToken net).1 =
      if resp.StatusCode ≠ 200 then
        .returned ([], some ("Fetching faxes failed with status code: " ++
          strconv.Itoa resp.StatusCode))
      else
        match resp.Body with
        | .error err => .returned ([], some err)
        | .ok body =>
          match lib.DecodeFaxResponses body with
          | .error err => .returned ([], some err)
          | .ok faxResponse => .returned (faxResponse.map parseDateTime, none) := by
  unfold TransmissionsICT
  simp only [buildICTReqeustURL_ok lib userData parsedUrl _ hurl,
    authenticatedGet, Network.Do_pending net resp rest _ hnet, http.StatusOK]
  split_ifs
  · rfl
  · cases resp.Body with
    | error err => rfl
    | ok body =>
      simp only
      cases lib.DecodeFaxResponses body <;> rfl

/-- `AccountsICT` on a response that has arrived. -/
theorem AccountsICT_response
    (hurl : lib.ParseRequestURI userData.Hostname = .ok parsedUrl)
    (hnet : net.pending = .ok resp :: rest) :
    (AccountsICT lib userData authToken net).1 =
      if resp.StatusCode ≠ 200 then
        .returned ([], some ("Fetching accounts failed with status code: " ++
          strconv.Itoa resp.StatusCode))
      else
        match resp.Body with
        | .error err => .returned ([], some err)
        | .ok body =>
          match lib.DecodeAccountResponses body with
          | .error err => .returned ([], some err)
          | .ok accountResponse => .returned (accountResponse, none) := by
  unfold AccountsICT
  simp only [buildICTReqeustURL_ok lib userData parsedUrl _ hurl,
    authenticatedGet, Network.Do_pending net resp rest _ hnet, http.StatusOK]
  split_ifs
  · rfl
  · cases resp.Body with
    | error err => rfl
    | ok body =>
      simp only
      cases lib.DecodeAccountResponses body <;> rfl

/-- `CreateContact` on a response that has arrived. -/
theorem CreateContact_response (contact : Contact)
    (hurl : lib.ParseRequestURI userData.Hostname = .ok parsedUrl)
    (hnet : net.pending = .ok resp :: rest) :
    (CreateContact lib userData authToken contact net).1 =
      if resp.StatusCode ≠ 200 then
        .returned (0, some ("CreateContact API call failed with status code: " ++
          strconv.Itoa resp.StatusCode))
      else
        match resp.Body with
        | .error err => .returned (0, some ("error reading response body: " ++ err))
        | .ok body => .returned ((strconv.Atoi (stringOfBytes body)).1, none) := by
  unfold CreateContact
  simp only [json.MarshalContact, buildICTReqeustURL_ok lib userData parsedUrl _ hurl,
    makeAuthenticatedPostRequest, Network.Do_pending net resp rest _ hnet, http.StatusOK]
  split_ifs
  · rfl
  · cases resp.Body <;> rfl

/-- `CreateDocumentRecord` on a response that has arrived. -/
theorem CreateDocumentRecord_response (document : DocumentRecord)
    (hurl : lib.ParseRequestURI userData.Hostname = .ok parsedUrl)
    (hnet : net.pending = .ok resp :: rest) :
    (CreateDocumentRecord lib userData authToken document net).1 =
      if resp.StatusCode ≠ 200 then
        .returned (0, some ("CreateDocumentRecord API call failed with status code: " ++
          strconv.Itoa resp.StatusCode))
      else
        match resp.Body with
        | .error err => .returned (0, some ("error reading response body: " ++ err))
        | .ok body => .returned ((strconv.Atoi (stringOfBytes body)).1, none) := by
  unfold CreateDocumentRecord
  simp only [json.MarshalDocumentRecord, buildICTReqeustURL_ok lib userData parsedUrl _ hurl,
    makeAuthenticatedPostRequest, Network.Do_pending net resp rest _ hnet, http.StatusOK]
  split_ifs
  · rfl
  · cases resp.Body <;> rfl

/-- `UploadDocumentFile` on a response that has arrived. -/
theorem UploadDocumentFile_response (documentID : Int) (fileContents : List Nat)
    (contentType : String)
    (hurl : lib.ParseRequestURI userData.Hostname = .ok parsedUrl)
    (hnet : net.pending = .ok resp :: rest) :
    (UploadDocumentFile lib userData authToken documentID fileContents contentType net).1 =
      if resp.StatusCode ≠ 200 then
        .returned (some ("Uploading document file failed with status code: " ++
          strconv.Itoa resp.StatusCode))
      else .returned none := by
  unfold UploadDocumentFile
  simp only [buildICTReqeustURL_ok lib userData parsedUrl _ hurl,
    makeAuthenticatedPostRequestWithBody, Network.Do_pending net resp rest _ hnet,
    http.StatusOK]
  split_ifs <;> rfl

/-- `CreateProgram` on a response that has arrived. -/
theorem CreateProgram_response (documentID : Int)
    (hurl : lib.ParseRequestURI userData.Hostname = .ok parsedUrl)
    (hnet : net.pending = .ok resp :: rest) :
    (CreateProgram lib userData authToken documentID net).1 =
      if resp.StatusCode ≠ 200 then
        .returned (0, some ("CreateProgram API call failed with status code: " ++
          strconv.Itoa resp.StatusCode))
      else
        match resp.Body with
        | .error err => .returned (0, some ("error reading response body: " ++ err))
        | .ok body =>
          match (strconv.Atoi (String.mk (strings.TrimSpace (stringOfBytes body).data))).2 with
          | some err =>
            .returned (0, some ("error converting program ID: " ++
              strconv.NumError.Error lib.Quote "Atoi"
                (String.mk (strings.TrimSpace (stringOfBytes body).data)) err))
          | none =>
            .returned
              ((strconv.Atoi (String.mk (strings.TrimSpace (stringOfBytes body).data))).1,
                none) := by
  unfold CreateProgram
  simp only [json.MarshalDocumentID, buildICTReqeustURL_ok lib userData parsedUrl _ hurl,
    makeAuthenticatedPostRequest, Network.Do_pending net resp rest _ hnet, http.StatusOK]
  split_ifs
  · rfl
  · cases resp.Body with
    | error err => rfl
    | ok body =>
      simp only
      cases (strconv.Atoi (String.mk (strings.TrimSpace (stringOfBytes body).data))).2 <;> rfl

/-- `CreateTransmission` on a response that has arrived. -/
theorem CreateTransmission_response (transmission : Transmission)
    (contactID accountID programID : Int)
    (hurl : lib.ParseRequestURI userData.Hostname = .ok parsedUrl)
    (hnet : net.pending = .ok resp :: rest) :
    (CreateTransmission lib userData authToken transmission contactID accountID programID
        net).1 =
      if resp.StatusCode ≠ 200 then
        .returned (0, some ("CreateTransmission API call failed with status code: " ++
          strconv.Itoa resp.StatusCode))
      else
        match resp.Body with
        | .error err => .returned (0, some ("error reading response body: " ++ err))
        | .ok body => .returned ((strconv.Atoi (stringOfBytes body)).1, none) := by
  unfold CreateTransmission
  simp only [json.MarshalConvertedTransmission,
    buildICTReqeustURL_ok lib userData parsedUrl _ hurl,
    makeAuthenticatedPostRequest, Network.Do_pending net resp rest _ hnet, http.StatusOK]
  split_ifs
  · rfl
  · cases resp.Body <;> rfl

/-- `SendTransmission` on a response that has arrived. -/
theorem SendTransmission_response (transmissionID : Int)
    (hurl : lib.ParseRequestURI userData.Hostname = .ok parsedUrl)
    (hnet : net.pending = .ok resp :: rest) :
    (SendTransmission lib userData authToken transmissionID net).1 =
      if resp.StatusCode ≠ 200 then
        .returned (some ("Sending transmission failed with status code: " ++
          strconv.Itoa resp.StatusCode))
      else .returned none := by
  unfold SendTransmission
  simp only [buildICTReqeustURL_ok lib userData parsedUrl _ hurl,
    makeAuthenticatedPostRequest, Network.Do_pending net resp rest _ hnet, http.StatusOK]
  split_ifs <;> rfl

end Remote

/-! ## `strconv.ParseInt` and decimal representations -/

namespace strconv

/-- `ParseInt` on a decimal representation of an integer in the range of
`int64` returns that integer and no error. -/
theorem ParseInt_decimal (s : String) (n : Int) (h : decimalValue s = some n)
    (hlo : -2 ^ 63 ≤ n) (hhi : n < 2 ^ 63) : ParseInt s.data 0 = (n, none) := by
  unfold decimalValue at h
  split at h
  · rename_i ds hs
    split at h
    · rename_i hd
      simp only [Option.some.injEq] at h
      subst h
      rw [hs]
      exact ParseInt_plus ds hd.1 hd.2 (by exact_mod_cast hhi)
    · exact absurd h (by simp)
  · rename_i ds hs
    split at h
    · rename_i hd
      simp only [Option.some.injEq] at h
      subst h
      rw [hs]
      refine ParseInt_minus ds hd.1 hd.2 ?_
      have h2 : (decimalDigitsValue ds 0 : Int) ≤ 2 ^ 63 := by omega
      exact_mod_cast h2
    · exact absurd h (by simp)
  · split at h
    · rename_i hd
      simp only [Option.some.injEq] at h
      subst h
      exact ParseInt_unsigned _ hd.1 hd.2 (by exact_mod_cast hhi)
    · exact absurd h (by simp)

/-- `ParseInt` on a decimal representation of an integer outside the range of
`int64` returns a range error. -/
theorem ParseInt_out_of_range (s : String) (n : Int) (h : decimalValue s = some n)
    (hout : n < -2 ^ 63 ∨ 2 ^ 63 ≤ n) : (ParseInt s.data 0).2 = some .ErrRange := by
  unfold decimalValue at h
  split at h
  · rename_i ds hs
    split at h
    · rename_i hd
      simp only [Option.some.injEq] at h
      subst h
      have hv : 2 ^ 63 ≤ decimalDigitsValue ds 0 := by
        have h2 : (2 : Int) ^ 63 ≤ (decimalDigitsValue ds 0 : Int) := by omega
        exact_mod_cast h2
      rw [hs, ParseInt_plus_above ds hd.1 hd.2 hv]
    · exact absurd h (by simp)
  · rename_i ds hs
    split at h
    · rename_i hd
      simp only [Option.some.injEq] at h
      subst h
      have hv : 2 ^ 63 < decimalDigitsValue ds 0 := by
        have h2 : (2 : Int) ^ 63 < (decimalDigitsValue ds 0 : Int) := by omega
        exact_mod_cast h2
      rw [hs, ParseInt_minus_below ds hd.1 hd.2 hv]
    · exact absurd h (by simp)
  · split at h
    · rename_i hd
      simp only [Option.some.injEq] at h
      subst h
      have hv : 2 ^ 63 ≤ decimalDigitsValue s.data 0 := by
        have h2 : (2 : Int) ^ 63 ≤ (decimalDigitsValue s.data 0 : Int) := by omega
        exact_mod_cast h2
      rw [ParseInt_unsigned_above _ hd.1 hd.2 hv]
    · exact absurd h (by simp)

/-- On a 64-bit platform `ParseInt(s, 10, 64)` is `ParseInt(s, 10, 0)`. -/
theorem ParseInt_64 (s : List Char) : ParseInt s 64 = ParseInt s 0 := rfl

/-- `ParseInt(s, 10, 64)` returns `v` without error exactly when `s` is a
decimal representation of `v` and `v` is in the range of `int64`. -/
theorem ParseInt_ok_iff (s : String) (v : Int) :
    ParseInt s.data 64 = (v, none) ↔ decimalValue s = some v ∧ inIntRange v := by
  rw [ParseInt_64]
  constructor
  · intro h
    obtain ⟨n, hn⟩ := ParseInt_ok_decimal s.data v h
    have hn' : decimalValue s = some n := hn
    by_cases hr : -2 ^ 63 ≤ n ∧ n < 2 ^ 63
    · have hv := ParseInt_decimal s n hn' hr.1 hr.2
      rw [h] at hv
      simp only [Prod.mk.injEq, and_true] at hv
      subst hv
      exact ⟨hn', hr⟩
    · have he := ParseInt_out_of_range s n hn' (by omega)
      rw [h] at he
      simp at he
  · rintro ⟨hn, hlo, hhi⟩
    exact ParseInt_decimal s v hn hlo hhi

end strconv

/-! ## Claims about the remote operations -/

/-- C14, as the claim states it, fails. A response with status 200 whose body
is the JSON object `{}`, which holds no token, is no authentication failure:
`AuthenticateICT` returns an `AuthResponse` with an empty `Token` and no
error. The same holds for an object with other members but no token. -/
theorem AuthenticateICT_accepts_no_token :
    (AuthenticateICT (sampleLibrary []) sampleUser (respondingNetwork 200 "\x7b\x7d")).1 =
      .returned
        (some { Token := "", FirstName := "", LastName := "", Email := "", Phone := "",
                Country := "", Company := "" }, none) ∧
    (AuthenticateICT (sampleLibrary []) sampleUser
        (respondingNetwork 200 "\x7b\"first_name\":\"Ann\"\x7d")).1 =
      .returned
        (some { Token := "", FirstName := "Ann", LastName := "", Email := "", Phone := "",
                Country := "", Company := "" }, none) :=
  ⟨rfl, rfl⟩

/-- C14, amended. For every HTTP response to the authenticate call,
`AuthenticateICT` returns an `AuthResponse` without error if and only if the
status is exactly 200 and the body, read without error, decodes into an
`AuthResponse`; the result is then the decoded record, whether or not it holds
a token. Every other status returns no `AuthResponse` and the error
"Authentication failed with status code: " followed by the status; and every
return is either a record without error or an error without record. -/
theorem AuthenticateICT_success_iff (lib : Library) (userData : UserData) (net : Network)
    (resp : http.Response) (rest : List (Except String http.Response)) (parsedUrl : url.URL)
    (hurl : lib.ParseRequestURI userData.Hostname = .ok parsedUrl)
    (hnet : net.pending = .ok resp :: rest) :
    ((∃ a, (AuthenticateICT lib userData net).1 = .returned (some a, none)) ↔
      (resp.StatusCode = 200 ∧
        ∃ body a, resp.Body = .ok body ∧ json.DecodeAuthResponse body = .ok a)) ∧
    (∀ body a, resp.StatusCode = 200 → resp.Body = .ok body →
      json.DecodeAuthResponse body = .ok a →
      (AuthenticateICT lib userData net).1 = .returned (some a, none)) ∧
    (resp.StatusCode ≠ 200 →
      (AuthenticateICT lib userData net).1 =
        .returned (none, some ("Authentication failed with status code: " ++
          strconv.Itoa resp.StatusCode))) ∧
    ((∃ a, (AuthenticateICT lib userData net).1 = .returned (some a, none)) ∨
      (∃ err, (AuthenticateICT lib userData net).1 = .returned (none, some err))) := by
  have hr := AuthenticateICT_response lib userData net resp rest parsedUrl hurl hnet
  have hok : ∀ body a, resp.StatusCode = 200 → resp.Body = .ok body →
      json.DecodeAuthResponse body = .ok a →
      (AuthenticateICT lib userData net).1 = .returned (some a, none) := by
    intro body a hs hb hd
    rw [hr, if_neg (by simp [hs]), hb]
    simp only
    rw [hd]
  have hbad : resp.StatusCode ≠ 200 →
      (AuthenticateICT lib userData net).1 =
        .returned (none, some ("Authentication failed with status code: " ++
          strconv.Itoa resp.StatusCode)) := by
    intro hs
    rw [hr, if_pos hs]
  refine ⟨⟨?_, ?_⟩, hok, hbad, ?_⟩
  · rintro ⟨a, ha⟩
    by_cases hs : resp.StatusCode = 200
    · refine ⟨hs, ?_⟩
      rw [hr, if_neg (by simp [hs])] at ha
      cases hb : resp.Body with
      | error err =>
        rw [hb] at ha
        simp at ha
      | ok body =>
        rw [hb] at ha
        simp only at ha
        cases hd : json.DecodeAuthResponse body with
        | error err =>
          rw [hd] at ha
          simp at ha
        | ok a' => exact ⟨body, a', rfl, hd⟩
    · rw [hbad hs] at ha
      simp at ha
  · rintro ⟨hs, body, a, hb, hd⟩
    exact ⟨a, hok body a hs hb hd⟩
  · by_cases hs : resp.StatusCode = 200
    · rw [hr, if_neg (by simp [hs])]
      cases hb : resp.Body with
      | error err => exact Or.inr ⟨err, rfl⟩
      | ok body =>
        simp only
        cases hd : json.DecodeAuthResponse body with
        | error err => exact Or.inr ⟨err, rfl⟩
        | ok a => exact Or.inl ⟨a, rfl⟩
    · exact Or.inr ⟨_, hbad hs⟩

/-- C14 (amended) at a concrete input: a 200 response whose body holds a token
and an e-mail address is returned as the decoded record. -/
theorem AuthenticateICT_success_iff_witness :
    (AuthenticateICT (sampleLibrary []) sampleUser
        (respondingNetwork 200 "\x7b\"token\":\"abc\",\"email\":\"ann@example.com\"\x7d")).1 =
      .returned
        (some { Token := "abc", FirstName := "", LastName := "", Email := "ann@example.com",
                Phone := "", Country := "", Company := "" }, none) :=
  (AuthenticateICT_success_iff (sampleLibrary []) sampleUser
    (respondingNetwork 200 "\x7b\"token\":\"abc\",\"email\":\"ann@example.com\"\x7d")
    { StatusCode := 200,
      Body := .ok (bytesOfString "\x7b\"token\":\"abc\",\"email\":\"ann@example.com\"\x7d") }
    [] { Scheme := "http", Host := "fax.example.com" } rfl rfl).2.1 _ _ rfl rfl rfl

/-- C15. For each of the nine remote operations and every response with a
status other than 200 (201 and 204 included), whatever its body: the operation
returns the zero result (`nil`, or the ID 0) and an error whose message ends
with the status in decimal. -/
theorem status_not_200_is_error (lib : Library) (userData : UserData) (authToken : String)
    (contact : Contact) (document : DocumentRecord) (transmission : Transmission)
    (documentID contactID accountID programID transmissionID : Int)
    (fileContents : List Nat) (contentType : String) (net : Network)
    (resp : http.Response) (rest : List (Except String http.Response)) (parsedUrl : url.URL)
    (hurl : lib.ParseRequestURI userData.Hostname = .ok parsedUrl)
    (hnet : net.pending = .ok resp :: rest)
    (hs : resp.StatusCode ≠ 200) :
    (AuthenticateICT lib userData net).1 =
      .returned (none, some ("Authentication failed with status code: " ++
        strconv.Itoa resp.StatusCode)) ∧
    (TransmissionsICT lib userData authToken net).1 =
      .returned ([], some ("Fetching faxes failed with status code: " ++
        strconv.Itoa resp.StatusCode)) ∧
    (AccountsICT lib userData authToken net).1 =
      .returned ([], some ("Fetching accounts failed with status code: " ++
        strconv.Itoa resp.StatusCode)) ∧
    (CreateContact lib userData authToken contact net).1 =
      .returned (0, some ("CreateContact API call failed with status code: " ++
        strconv.Itoa resp.StatusCode)) ∧
    (CreateDocumentRecord lib userData authToken document net).1 =
      .returned (0, some ("CreateDocumentRecord API call failed with status code: " ++
        strconv.Itoa resp.StatusCode)) ∧
    (UploadDocumentFile lib userData authToken documentID fileContents contentType net).1 =
      .returned (some ("Uploading document file failed with status code: " ++
        strconv.Itoa resp.StatusCode)) ∧
    (CreateProgram lib userData authToken documentID net).1 =
      .returned (0, some ("CreateProgram API call failed with status code: " ++
        strconv.Itoa resp.StatusCode)) ∧
    (CreateTransmission lib userData authToken transmission contactID accountID programID
        net).1 =
      .returned (0, some ("CreateTransmission API call failed with status code: " ++
        strconv.Itoa resp.StatusCode)) ∧
    (SendTransmission lib userData authToken transmissionID net).1 =
      .returned (some ("Sending transmission failed with status code: " ++
        strconv.Itoa resp.StatusCode)) := by
  refine ⟨?_, ?_, ?_, ?_, ?_, ?_, ?_, ?_, ?_⟩
  · rw [AuthenticateICT_response lib userData net resp rest parsedUrl hurl hnet, if_pos hs]
  · rw [TransmissionsICT_response lib userData authToken net resp rest parsedUrl hurl hnet,
      if_pos hs]
  · rw [AccountsICT_response lib userData authToken net resp rest parsedUrl hurl hnet,
      if_pos hs]
  · rw [CreateContact_response lib userData authToken net resp rest parsedUrl contact hurl
      hnet, if_pos hs]
  · rw [CreateDocumentRecord_response lib userData authToken net resp rest parsedUrl document
      hurl hnet, if_pos hs]
  · rw [UploadDocumentFile_response lib userData authToken net resp rest parsedUrl documentID
      fileContents contentType hurl hnet, if_pos hs]
  · rw [CreateProgram_response lib userData authToken net resp rest parsedUrl documentID hurl
      hnet, if_pos hs]
  · rw [CreateTransmission_response lib userData authToken net resp rest parsedUrl
      transmission contactID accountID programID hurl hnet, if_pos hs]
  · rw [SendTransmission_response lib userData authToken net resp rest parsedUrl
      transmissionID hurl hnet, if_pos hs]

/-- C15 at a concrete input: on a response with status 201 `CreateProgram`
returns the ID 0 and `SendTransmission` an error, each with the status 201 in
its message. -/
theorem status_not_200_is_error_witness :
    strconv.Itoa 201 = "201" ∧
    (CreateProgram (sampleLibrary []) sampleUser "token" 22 (respondingNetwork 201 "33")).1 =
      .returned (0, some ("CreateProgram API call failed with status code: " ++
        strconv.Itoa 201)) ∧
    (SendTransmission (sampleLibrary []) sampleUser "token" 44
        (respondingNetwork 201 "33")).1 =
      .returned (some ("Sending transmission failed with status code: " ++
        strconv.Itoa 201)) := by
  have h := status_not_200_is_error (sampleLibrary []) sampleUser "token" sampleContact
    ⟨"title", "text"⟩ ⟨"title", "", "3", "", "1", "0", "2"⟩ 22 11 3 33 44 [37, 80, 68, 70]
    "application/pdf" (respondingNetwork 201 "33")
    { StatusCode := 201, Body := .ok (bytesOfString "33") } []
    { Scheme := "http", Host := "fax.example.com" } rfl rfl (by decide)
  exact ⟨by decide, h.2.2.2.2.2.2.1, h.2.2.2.2.2.2.2.2⟩

/-- C17, as the claim states it, fails. The body "9223372036854775808" is the
decimal text of an integer, the first above the range of `int`; on a 200
response with that body `CreateProgram` does not return that integer with a
`nil` error: `strconv.Atoi` fails with a range error, and the result is the
ID 0 with the error "error converting program ID: " followed by the error of
`Atoi`. -/
theorem CreateProgram_id_out_of_range :
    decimalValue
        (String.mk (strings.TrimSpace
          (stringOfBytes (bytesOfString "9223372036854775808")).data)) =
      some 9223372036854775808 ∧
    (CreateProgram (sampleLibrary []) sampleUser "token" 22
        (respondingNetwork 200 "9223372036854775808")).1 =
      .returned (0, some ("error converting program ID: " ++
        "strconv.Atoi: parsing \"9223372036854775808\": value out of range")) ∧
    (CreateProgram (sampleLibrary []) sampleUser "token" 22
        (respondingNetwork 200 "9223372036854775808")).1 ≠
      .returned (9223372036854775808, none) := by
  have hr := CreateProgram_response (sampleLibrary []) sampleUser "token"
    (respondingNetwork 200 "9223372036854775808")
    { StatusCode := 200, Body := .ok (bytesOfString "9223372036854775808") } []
    { Scheme := "http", Host := "fax.example.com" } 22 rfl rfl
  have hc : (CreateProgram (sampleLibrary []) sampleUser "token" 22
        (respondingNetwork 200 "9223372036854775808")).1 =
      .returned (0, some ("error converting program ID: " ++
        "strconv.Atoi: parsing \"9223372036854775808\": value out of range")) := by
    rw [hr, if_neg (by decide)]
    rfl
  refine ⟨by decide, hc, ?_⟩
  rw [hc]
  intro h
  injection h with h
  injection h with h1 h2
  exact absurd h2 (by simp)

/-- C17, amended. For `CreateProgram` on a 200 response whose body was read: if the body
as text, with surrounding white space trimmed, is the decimal text of an
integer n in the range of `int`, the result is (n, nil); otherwise the result
is the ID 0 together with the error "error converting program ID: " followed
by the error of `strconv.Atoi`, so that a malformed program ID never becomes
program 0 without an error. -/
theorem CreateProgram_id_of_body (lib : Library) (userData : UserData) (authToken : String)
    (documentID : Int) (net : Network)
    (resp : http.Response) (rest : List (Except String http.Response)) (parsedUrl : url.URL)
    (body : List Nat)
    (hurl : lib.ParseRequestURI userData.Hostname = .ok parsedUrl)
    (hnet : net.pending = .ok resp :: rest)
    (hs : resp.StatusCode = 200) (hb : resp.Body = .ok body) :
    (∀ n : Int,
      decimalValue (String.mk (strings.TrimSpace (stringOfBytes body).data)) = some n →
      inIntRange n →
      (CreateProgram lib userData authToken documentID net).1 = .returned (n, none)) ∧
    ((¬ ∃ n : Int,
        decimalValue (String.mk (strings.TrimSpace (stringOfBytes body).data)) = some n ∧
        inIntRange n) →
      ∃ err : strconv.NumError,
        (strconv.Atoi (String.mk (strings.TrimSpace (stringOfBytes body).data))).2 =
          some err ∧
        (CreateProgram lib userData authToken documentID net).1 =
          .returned (0, some ("error converting program ID: " ++
            strconv.NumError.Error lib.Quote "Atoi"
              (String.mk (strings.TrimSpace (stringOfBytes body).data)) err))) := by
  have hr := CreateProgram_response lib userData authToken net resp rest parsedUrl documentID
    hurl hnet
  rw [if_neg (by simp [hs]), hb] at hr
  simp only at hr
  refine ⟨?_, ?_⟩
  · intro n hn hrange
    rw [hr, strconv.Atoi_decimal _ n hn hrange.1 hrange.2]
  · intro hno
    have herr := (strconv.Atoi_error_iff _).mpr hno
    cases he : (strconv.Atoi (String.mk (strings.TrimSpace (stringOfBytes body).data))).2 with
    | none => exact absurd he herr
    | some err =>
      refine ⟨err, rfl, ?_⟩
      rw [hr, he]

/-- C17, amended, at a concrete input: the body " 33" with a trailing newline gives the
program ID 33 and no error. -/
theorem CreateProgram_id_of_body_witness :
    decimalValue (String.mk (strings.TrimSpace (stringOfBytes (bytesOfString " 33\n")).data)) =
      some 33 ∧
    (CreateProgram (sampleLibrary []) sampleUser "token" 22
        (respondingNetwork 200 " 33\n")).1 = .returned (33, none) := by
  have h := CreateProgram_id_of_body (sampleLibrary []) sampleUser "token" 22
    (respondingNetwork 200 " 33\n")
    { StatusCode := 200, Body := .ok (bytesOfString " 33\n") } []
    { Scheme := "http", Host := "fax.example.com" } (bytesOfString " 33\n") rfl rfl rfl rfl
  exact ⟨by decide, h.1 33 (by decide) (by decide)⟩

/-- C18, as the claim states it, fails. `FaxResponse.DateTimeParsed` has no
JSON tag, so the decoder fills it from a member "DateTimeParsed" of the
response. The list below is the decoding of the body
`[{"last_run":"abc","DateTimeParsed":"1970-01-01T00:00:05Z"}]`: its `DateTime`
"abc" is no integer, and the returned record keeps the decoded
`DateTimeParsed`, five seconds after the epoch, which is not the zero time. -/
theorem TransmissionsICT_keeps_decoded_time :
    (strconv.ParseInt "abc".data 64).2 = some strconv.NumError.ErrSyntax ∧
    (TransmissionsICT
        (sampleLibrary
          [{ DateTime := "abc", Title := "", DestinationFax := "", CallerID := "",
             Status := "", Is_Print := "", DateTimeParsed := Time.unix 5 }])
        sampleUser "token"
        (respondingNetwork 200
          "[\x7b\"last_run\":\"abc\",\"DateTimeParsed\":\"1970-01-01T00:00:05Z\"\x7d]")).1 =
      .returned
        ([{ DateTime := "abc", Title := "", DestinationFax := "", CallerID := "",
            Status := "", Is_Print := "", DateTimeParsed := Time.unix 5 }], none) ∧
    Time.unix 5 ≠ Time.zero :=
  ⟨by decide, rfl, by decide⟩

/-- C18, amended. For every list of `FaxResponse` records decoded from a 200
response, `TransmissionsICT` returns without error a list of the same length
and order in which every record keeps its `DateTime`, `Title`,
`DestinationFax`, `CallerID`, `Status` and `Is_Print`; its `DateTimeParsed` is
the time n seconds after the Unix epoch when `DateTime` is the decimal text of
an integer n in the range of `int64`, and otherwise the value the decoder gave
it (the zero time when the decoded record holds the zero time). A record
depends on the decoded record at its index alone. -/
theorem TransmissionsICT_records (lib : Library) (userData : UserData) (authToken : String)
    (net : Network) (resp : http.Response) (rest : List (Except String http.Response))
    (parsedUrl : url.URL) (body : List Nat) (decoded : List FaxResponse)
    (hurl : lib.ParseRequestURI userData.Hostname = .ok parsedUrl)
    (hnet : net.pending = .ok resp :: rest)
    (hs : resp.StatusCode = 200) (hb : resp.Body = .ok body)
    (hd : lib.DecodeFaxResponses body = .ok decoded) :
    ∃ result : List FaxResponse,
      (TransmissionsICT lib userData authToken net).1 = .returned (result, none) ∧
      result.length = decoded.length ∧
      ∀ (i : Nat) (d : FaxResponse), decoded[i]? = some d →
        ∃ r : FaxResponse, result[i]? = some r ∧
          r.DateTime = d.DateTime ∧ r.Title = d.Title ∧
          r.DestinationFax = d.DestinationFax ∧ r.CallerID = d.CallerID ∧
          r.Status = d.Status ∧ r.Is_Print = d.Is_Print ∧
          (∀ n : Int, decimalValue d.DateTime = some n → inIntRange n →
            r.DateTimeParsed = Time.unix n) ∧
          ((¬ ∃ n : Int, decimalValue d.DateTime = some n ∧ inIntRange n) →
            r.DateTimeParsed = d.DateTimeParsed) ∧
          (d.DateTimeParsed = Time.zero →
            (¬ ∃ n : Int, decimalValue d.DateTime = some n ∧ inIntRange n) →
            r.DateTimeParsed = Time.zero) := by
  refine ⟨decoded.map parseDateTime, ?_, List.length_map _ _, ?_⟩
  · rw [TransmissionsICT_response lib userData authToken net resp rest parsedUrl hurl hnet,
      if_neg (by simp [hs]), hb]
    simp only
    rw [hd]
  · intro i d hi
    refine ⟨parseDateTime d, ?_, ?_⟩
    · rw [List.getElem?_map, hi]
      rfl
    · by_cases hp : (strconv.ParseInt d.DateTime.data 64).2 = none
      · have hv : strconv.ParseInt d.DateTime.data 64 =
            ((strconv.ParseInt d.DateTime.data 64).1, none) := Prod.ext rfl hp
        have hdec := (strconv.ParseInt_ok_iff d.DateTime _).mp hv
        have hpd : parseDateTime d =
            { d with DateTimeParsed := Time.unix (strconv.ParseInt d.DateTime.data 64).1 } := by
          unfold parseDateTime
          simp only [hp, if_true]
        rw [hpd]
        refine ⟨rfl, rfl, rfl, rfl, rfl, rfl, ?_, ?_, ?_⟩
        · intro n hn _
          rw [hdec.1] at hn
          simp only [Option.some.injEq] at hn
          rw [hn]
        · intro hno
          exact absurd ⟨_, hdec⟩ hno
        · intro _ hno
          exact absurd ⟨_, hdec⟩ hno
      · have hpd : parseDateTime d = d := by
          unfold parseDateTime
          simp only [hp, if_false]
        rw [hpd]
        refine ⟨rfl, rfl, rfl, rfl, rfl, rfl, ?_, ?_, ?_⟩
        · intro n hn hr
          exact absurd ((strconv.ParseInt_ok_iff d.DateTime n).mpr ⟨hn, hr⟩ ▸ rfl) hp
        · intro _
          rfl
        · intro hz _
          exact hz

/-- C18 (amended) at a concrete input: of two decoded records with the zero
time, the first, with the timestamp "1700000000", gets that time, and the
second, with the timestamp "soon", keeps the zero time. -/
theorem TransmissionsICT_records_witness :
    ∃ result : List FaxResponse,
      (TransmissionsICT
          (sampleLibrary
            [{ DateTime := "1700000000", Title := "first", DestinationFax := "100",
               CallerID := "200", Status := "sent", Is_Print := "1",
               DateTimeParsed := Time.zero },
             { DateTime := "soon", Title := "second", DestinationFax := "101",
               CallerID := "200", Status := "queued", Is_Print := "0",
               DateTimeParsed := Time.zero }])
          sampleUser "token" (respondingNetwork 200 "[]")).1 = .returned (result, none) ∧
      result.length = 2 ∧
      ∃ r0 r1 : FaxResponse, result[0]? = some r0 ∧ result[1]? = some r1 ∧
        r0.Title = "first" ∧ r0.DateTimeParsed = Time.unix 1700000000 ∧
        r1.Title = "second" ∧ r1.DateTimeParsed = Time.zero := by
  obtain ⟨result, h1, h2, h3⟩ := TransmissionsICT_records
    (sampleLibrary
      [{ DateTime := "1700000000", Title := "first", DestinationFax := "100",
         CallerID := "200", Status := "sent", Is_Print := "1",
         DateTimeParsed := Time.zero },
       { DateTime := "soon", Title := "second", DestinationFax := "101",
         CallerID := "200", Status := "queued", Is_Print := "0",
         DateTimeParsed := Time.zero }])
    sampleUser "token" (respondingNetwork 200 "[]")
    { StatusCode := 200, Body := .ok (bytesOfString "[]") } []
    { Scheme := "http", Host := "fax.example.com" } (bytesOfString "[]") _ rfl rfl rfl rfl rfl
  obtain ⟨r0, hr0, -, ht0, -, -, -, -, hp0, -, -⟩ := h3 0 _ rfl
  obtain ⟨r1, hr1, -, ht1, -, -, -, -, -, -, hz1⟩ := h3 1 _ rfl
  refine ⟨result, h1, h2, r0, r1, hr0, hr1, ht0, hp0 1700000000 (by decide) (by decide), ht1,
    hz1 rfl ?_⟩
  rintro ⟨n, hn, -⟩
  have hsoon : decimalValue "soon" = some n := hn
  rw [show decimalValue "soon" = none by decide] at hsoon
  exact absurd hsoon (by simp)

/-- C20 at a concrete input: a run on a remote side where every operation
succeeds. -/
theorem SendFaxICT_threads_ids_witness :
    (SendFaxICT succeedingOps sampleUser "token" sampleContact ⟨"title", "text"⟩
        ⟨"title", "", "3", "", "1", "0", "2"⟩ [37, 80, 68, 70] ⟨"application/pdf"⟩ 0).err =
      none ∧
    ∃ (contactID documentID programID transmissionID : Int) (s1 s2 s3 s4 s5 s6 : Nat),
      succeedingOps.CreateContact sampleUser "token" sampleContact 0 = (.ok contactID, s1) ∧
      succeedingOps.CreateDocumentRecord sampleUser "token" ⟨"title", "text"⟩ s1 =
        (.ok documentID, s2) ∧
      succeedingOps.UploadDocumentFile sampleUser "token" documentID [37, 80, 68, 70]
        "application/pdf" s2 = (.ok (), s3) ∧
      succeedingOps.CreateProgram sampleUser "token" documentID s3 = (.ok programID, s4) ∧
      succeedingOps.CreateTransmission sampleUser "token" ⟨"title", "", "3", "", "1", "0", "2"⟩
        contactID (strconv.Atoi "3").1 programID s4 = (.ok transmissionID, s5) ∧
      succeedingOps.SendTransmission sampleUser "token" transmissionID s5 = (.ok (), s6) ∧
      (SendFaxICT succeedingOps sampleUser "token" sampleContact ⟨"title", "text"⟩
        ⟨"title", "", "3", "", "1", "0", "2"⟩ [37, 80, 68, 70] ⟨"application/pdf"⟩ 0).calls =
        [.CreateContact sampleUser "token" sampleContact,
         .CreateDocumentRecord sampleUser "token" ⟨"title", "text"⟩,
         .UploadDocumentFile sampleUser "token" documentID [37, 80, 68, 70] "application/pdf",
         .CreateProgram sampleUser "token" documentID,
         .CreateTransmission sampleUser "token" ⟨"title", "", "3", "", "1", "0", "2"⟩ contactID
           (strconv.Atoi "3").1 programID,
         .SendTransmission sampleUser "token" transmissionID] ∧
      (SendFaxICT succeedingOps sampleUser "token" sampleContact ⟨"title", "text"⟩
        ⟨"title", "", "3", "", "1", "0", "2"⟩ [37, 80, 68, 70] ⟨"application/pdf"⟩ 0).state =
        s6 :=
  ⟨rfl, SendFaxICT_threads_ids succeedingOps sampleUser "token" sampleContact
    ⟨"title", "text"⟩ ⟨"title", "", "3", "", "1", "0", "2"⟩ [37, 80, 68, 70]
    ⟨"application/pdf"⟩ 0 rfl⟩

/-! ## The account information and the content types -/

/-- C25. `ConvertAuthResponseToAccountInfo` takes the first name, the last
name, the e-mail address, the phone number and the company from the response,
and not the country: `Country` is the constant "N/A" whatever the response
holds, so that for a response with the country "IR" the account information
does not have the country of the response. -/
theorem ConvertAuthResponseToAccountInfo_country :
    (∀ r : AuthResponse,
      (ConvertAuthResponseToAccountInfo r).FirstName = r.FirstName ∧
      (ConvertAuthResponseToAccountInfo r).LastName = r.LastName ∧
      (ConvertAuthResponseToAccountInfo r).Email = r.Email ∧
      (ConvertAuthResponseToAccountInfo r).Phone = r.Phone ∧
      (ConvertAuthResponseToAccountInfo r).Company = r.Company ∧
      (ConvertAuthResponseToAccountInfo r).Country = "N/A") ∧
    (ConvertAuthResponseToAccountInfo
        { Token := "token", FirstName := "A", LastName := "B", Email := "a@b.c",
          Phone := "100", Country := "IR", Company := "ICT" }).Country ≠ "IR" := by
  refine ⟨fun r => ⟨rfl, rfl, rfl, rfl, rfl, rfl⟩, ?_⟩
  decide

/-- `strings.ToLower` on a string of ASCII characters without an upper-case
letter. -/
theorem strings.ToLower_of_lower (unicodeToLower : Char → Char) (s : List Char)
    (hascii : s.all (fun c => c.toNat < utf8.RuneSelf) = true)
    (hupper : s.any (fun c => 65 ≤ c.toNat ∧ c.toNat ≤ 90) = false) :
    strings.ToLower unicodeToLower s = s := by
  simp only [strings.ToLower, hascii, hupper]
  rfl

/-- C29. The text extension has no content type: `ExtractFileExtension`
accepts a path that ends in ".txt" and returns "txt", for which
`GetContentType` returns the empty string, so that the send form sets an empty
content type for a text file; each of the nine other extensions has a
non-empty content type. -/
theorem GetContentType_txt_empty (unicodeToLower : Char → Char) :
    ExtractFileExtension "/home/user/notes.txt" = "txt" ∧
    GetContentType unicodeToLower "txt" = "" ∧
    onSendClickContentType unicodeToLower "/home/user/notes.txt" = "" ∧
    ∀ e ∈ supportedExtensions, e ≠ "txt" → GetContentType unicodeToLower e ≠ "" := by
  have hext : ExtractFileExtension "/home/user/notes.txt" = "txt" := by decide
  have htxt : GetContentType unicodeToLower "txt" = "" := by
    unfold GetContentType
    rw [strings.ToLower_of_lower unicodeToLower _ (by decide) (by decide)]
    decide
  refine ⟨hext, htxt, ?_, ?_⟩
  · unfold onSendClickContentType
    rw [hext]
    exact htxt
  · intro e he hne
    simp only [supportedExtensions, List.mem_cons, List.mem_singleton, List.not_mem_nil,
      or_false] at he
    rcases he with h | h | h | h | h | h | h | h | h | h <;> subst h <;>
      first
      | exact absurd rfl hne
      | (unfold GetContentType
         rw [strings.ToLower_of_lower unicodeToLower _ (by decide) (by decide)]
         decide)

/-! ## `strings.ToLower` applied twice -/

namespace strings

theorem lowerASCII_upper (c : Char) (h1 : 65 ≤ c.toNat) (h2 : c.toNat ≤ 90) :
    (lowerASCII c).toNat = c.toNat + 32 := by
  have hn : ∀ n : Nat, 65 ≤ n → n ≤ 90 → (Char.ofNat (n + 32)).toNat = n + 32 := by
    intro n h1 h2
    interval_cases n <;> rfl
  unfold lowerASCII
  rw [if_pos ⟨h1, h2⟩]
  exact hn _ h1 h2

theorem lowerASCII_other (c : Char) (h : ¬ (65 ≤ c.toNat ∧ c.toNat ≤ 90)) :
    lowerASCII c = c := by
  unfold lowerASCII
  rw [if_neg h]

/-- The ASCII mapping gives an ASCII character that is not an upper-case
letter. -/
theorem lowerASCII_range (c : Char) (h : c.toNat < 128) :
    (lowerASCII c).toNat < 128 ∧ ¬ (65 ≤ (lowerASCII c).toNat ∧ (lowerASCII c).toNat ≤ 90) := by
  by_cases hu : 65 ≤ c.toNat ∧ c.toNat ≤ 90
  · rw [lowerASCII_upper c hu.1 hu.2]
    omega
  · rw [lowerASCII_other c hu]
    exact ⟨h, hu⟩

/-- `strings.ToLower` applied to its own result changes nothing, for a
`unicode.ToLower` that is idempotent and is the ASCII mapping on ASCII
characters. -/
theorem ToLower_ToLower (unicodeToLower : Char → Char)
    (hidem : ∀ c, unicodeToLower (unicodeToLower c) = unicodeToLower c)
    (hascii : ∀ c : Char, c.toNat < 128 → unicodeToLower c = lowerASCII c)
    (s : List Char) :
    ToLower unicodeToLower (ToLower unicodeToLower s) = ToLower unicodeToLower s := by
  by_cases hs : s.all (fun c => c.toNat < utf8.RuneSelf) = true
  · by_cases hu : s.any (fun c => 65 ≤ c.toNat ∧ c.toNat ≤ 90) = true
    · have hr : ToLower unicodeToLower s = s.map lowerASCII := by
        simp only [ToLower, hs, hu]
        rfl
      rw [hr]
      apply ToLower_of_lower
      · rw [List.all_eq_true]
        intro x hx
        obtain ⟨c, hc, rfl⟩ := List.mem_map.mp hx
        have hc128 : c.toNat < 128 := by
          have := List.all_eq_true.mp hs c hc
          simpa [utf8.RuneSelf] using this
        have := (lowerASCII_range c hc128).1
        simpa [utf8.RuneSelf] using this
      · rw [List.any_eq_false]
        intro x hx
        obtain ⟨c, hc, rfl⟩ := List.mem_map.mp hx
        have hc128 : c.toNat < 128 := by
          have := List.all_eq_true.mp hs c hc
          simpa [utf8.RuneSelf] using this
        have := (lowerASCII_range c hc128).2
        simpa using this
    · have hu' : s.any (fun c => 65 ≤ c.toNat ∧ c.toNat ≤ 90) = false := by
        simpa using hu
      rw [ToLower_of_lower unicodeToLower s hs hu', ToLower_of_lower unicodeToLower s hs hu']
  · have hr : ToLower unicodeToLower s = s.map unicodeToLower := by
      simp only [ToLower, hs]
      rfl
    rw [hr]
    by_cases hm : (s.map unicodeToLower).all (fun c => c.toNat < utf8.RuneSelf) = true
    · apply ToLower_of_lower _ _ hm
      rw [List.any_eq_false]
      intro x hx
      obtain ⟨c, hc, rfl⟩ := List.mem_map.mp hx
      have hx128 : (unicodeToLower c).toNat < 128 := by
        have := List.all_eq_true.mp hm _ hx
        simpa [utf8.RuneSelf] using this
      have hfix : lowerASCII (unicodeToLower c) = unicodeToLower c := by
        rw [← hascii _ hx128, hidem]
      intro hup
      have hup' : 65 ≤ (unicodeToLower c).toNat ∧ (unicodeToLower c).toNat ≤ 90 := by
        simpa using hup
      have := lowerASCII_upper _ hup'.1 hup'.2
      rw [hfix] at this
      omega
    · simp only [ToLower, hm, Bool.false_eq_true, if_false]
      rw [List.map_map]
      apply List.map_congr_left
      intro c _
      exact hidem c

end strings

/-- `GetContentType` ignores letter case: the extension and its lower-case
form have the same content type. -/
theorem GetContentType_ToLower (unicodeToLower : Char → Char)
    (hidem : ∀ c, unicodeToLower (unicodeToLower c) = unicodeToLower c)
    (hascii : ∀ c : Char, c.toNat < 128 → unicodeToLower c = strings.lowerASCII c)
    (e : String) :
    GetContentType unicodeToLower ⟨strings.ToLower unicodeToLower e.data⟩ =
      GetContentType unicodeToLower e := by
  unfold GetContentType
  rw [strings.ToLower_ToLower unicodeToLower hidem hascii]

/-! ## `ConvertFilteredFaxResponsesToFaxData` -/

/-- An entry whose `DateTime` is a decimal representation of an `int64` is
filled from the record. -/
theorem convertFaxResponse_parsed (r : FaxResponse) (v : Int)
    (hv : decimalValue r.DateTime = some v) (hr : inIntRange v) :
    convertFaxResponse r =
      { DateTime := Time.unix v, Title := r.Title, DestinationFax := r.DestinationFax,
        CallerID := r.CallerID, Status := r.Status } := by
  have h := (strconv.ParseInt_ok_iff r.DateTime v).mpr ⟨hv, hr⟩
  unfold convertFaxResponse
  simp only [h, if_true]

/-- An entry whose `DateTime` is not a decimal representation of an `int64`
stays the zero value. -/
theorem convertFaxResponse_unparsed (r : FaxResponse)
    (hv : ∀ v, decimalValue r.DateTime = some v → ¬ inIntRange v) :
    convertFaxResponse r = FaxData.zeroValue := by
  unfold convertFaxResponse
  simp only
  split_ifs with h
  · exfalso
    have hp : strconv.ParseInt r.DateTime.data 64 =
        ((strconv.ParseInt r.DateTime.data 64).1, none) := by
      rw [← h]
    obtain ⟨hd, hr⟩ := (strconv.ParseInt_ok_iff r.DateTime _).mp hp
    exact hv _ hd hr
  · rfl

/-- C24. `ConvertFilteredFaxResponsesToFaxData` returns a list of the same
length, and the entry of a record whose `DateTime` is the decimal text of an
`int64` has the record's title, destination, caller and status and that Unix
time; the entry of any other record is the zero value, with none of the
record's fields: a record with the title "Invoice" and the `DateTime` "soon"
gives an entry with an empty title. -/
theorem ConvertFilteredFaxResponsesToFaxData_unparsed :
    (∀ res : List FaxResponse,
      (ConvertFilteredFaxResponsesToFaxData res).length = res.length) ∧
    (∀ (res : List FaxResponse) (i : Nat) (r : FaxResponse) (v : Int),
      res[i]? = some r → decimalValue r.DateTime = some v → inIntRange v →
      (ConvertFilteredFaxResponsesToFaxData res)[i]? =
        some { DateTime := Time.unix v, Title := r.Title,
               DestinationFax := r.DestinationFax, CallerID := r.CallerID,
               Status := r.Status }) ∧
    (∀ (res : List FaxResponse) (i : Nat) (r : FaxResponse),
      res[i]? = some r → (∀ v, decimalValue r.DateTime = some v → ¬ inIntRange v) →
      (ConvertFilteredFaxResponsesToFaxData res)[i]? = some FaxData.zeroValue) ∧
    ConvertFilteredFaxResponsesToFaxData
        [{ DateTime := "soon", Title := "Invoice", DestinationFax := "100",
           CallerID := "200", Status := "done", Is_Print := "1",
           DateTimeParsed := Time.zero }] =
      [{ DateTime := Time.zero, Title := "", DestinationFax := "", CallerID := "",
         Status := "" }] := by
  refine ⟨?_, ?_, ?_, ?_⟩
  · intro res
    unfold ConvertFilteredFaxResponsesToFaxData
    rw [List.length_map]
  · intro res i r v hi hv hr
    unfold ConvertFilteredFaxResponsesToFaxData
    rw [List.getElem?_map, hi, Option.map_some', convertFaxResponse_parsed r v hv hr]
  · intro res i r hi hv
    unfold ConvertFilteredFaxResponsesToFaxData
    rw [List.getElem?_map, hi, Option.map_some', convertFaxResponse_unparsed r hv]
  · decide

/-! ## `RemoveDot` -/

namespace strings

theorem head_dropWhile_not (f : Char → Bool) (s : List Char) (x : Char)
    (h : (s.dropWhile f).head? = some x) : f x = false := by
  induction s with
  | nil => simp at h
  | cons c cs ih =>
    by_cases hc : f c = true
    · rw [List.dropWhile_cons_of_pos hc] at h
      exact ih h
    · rw [List.dropWhile_cons_of_neg hc] at h
      simp only [List.head?_cons, Option.some.injEq] at h
      subst h
      simpa using hc

/-- The text `TrimRightFunc` leaves is a beginning of the text. -/
theorem TrimRightFunc_append (f : Char → Bool) (s : List Char) :
    ∃ t, s = TrimRightFunc s f ++ t ∧ ∀ x ∈ t, f x = true := by
  refine ⟨(s.reverse.takeWhile f).reverse, ?_, ?_⟩
  · unfold TrimRightFunc
    rw [← List.reverse_append, List.takeWhile_append_dropWhile, List.reverse_reverse]
  · intro x hx
    exact List.mem_takeWhile_imp (List.mem_reverse.mp hx)

/-- The text `TrimFunc` leaves does not start with a trimmed character. -/
theorem TrimFunc_head (f : Char → Bool) (s : List Char) (x : Char)
    (h : (TrimFunc s f).head? = some x) : f x = false := by
  unfold TrimFunc at h
  obtain ⟨t, ht, -⟩ := TrimRightFunc_append f (TrimLeftFunc s f)
  apply head_dropWhile_not f s x
  have hd : s.dropWhile f = TrimRightFunc (TrimLeftFunc s f) f ++ t := ht
  rw [hd]
  cases hr : TrimRightFunc (TrimLeftFunc s f) f with
  | nil => rw [hr] at h; simp at h
  | cons c cs => rw [hr] at h; simpa using h

/-- The text `TrimFunc` leaves does not end with a trimmed character. -/
theorem TrimFunc_getLast (f : Char → Bool) (s : List Char) (x : Char)
    (h : (TrimFunc s f).getLast? = some x) : f x = false := by
  unfold TrimFunc TrimRightFunc at h
  rw [List.getLast?_reverse] at h
  exact head_dropWhile_not f _ x h

end strings

/-- C26. `RemoveDot(s)` holds no dot and neither starts nor ends with a space;
it is `s` with every dot deleted and the spaces at both ends stripped: the
text of `s` without its dots is some spaces, then the result, then some
spaces, every other character kept in its place. For the test's path, which
ends in a space and a newline, the result ends with the newline, not with a
space. -/
theorem RemoveDot_spec :
    (∀ s : String,
      '.' ∉ (RemoveDot s).data ∧
      (RemoveDot s).data.head? ≠ some ' ' ∧
      (RemoveDot s).data.getLast? ≠ some ' ' ∧
      ∃ l t : List Char,
        s.data.filter (fun c => c ≠ '.') = l ++ (RemoveDot s).data ++ t ∧
        (∀ x ∈ l, x = ' ') ∧ (∀ x ∈ t, x = ' ')) ∧
    RemoveDot "/home/mehran/topology ali.pdf \n" = "/home/mehran/topology alipdf \n" ∧
    (RemoveDot "/home/mehran/topology ali.pdf \n").data.getLast? = some '\n' := by
  refine ⟨?_, by decide, by decide⟩
  intro s
  have hdata : (RemoveDot s).data =
      strings.TrimFunc (s.data.filter (fun c => c ≠ '.')) (fun c => [' '].contains c) := by
    unfold RemoveDot strings.Trim
    rw [strings.ReplaceAll_single]
  obtain ⟨l, t, hlt, hl, ht⟩ :=
    strings.TrimFunc_decompose (fun c => [' '].contains c) (s.data.filter (fun c => c ≠ '.'))
  have hspace : ∀ x : Char, [' '].contains x = true → x = ' ' := by
    intro x hx
    simpa using hx
  refine ⟨?_, ?_, ?_, l, t, ?_, fun x hx => hspace x (hl x hx), fun x hx => hspace x (ht x hx)⟩
  · intro hmem
    have hin : '.' ∈ s.data.filter (fun c => c ≠ '.') := by
      rw [hlt, ← hdata]
      simp [hmem]
    simp at hin
  · intro hhead
    rw [hdata] at hhead
    have := strings.TrimFunc_head _ _ _ hhead
    simp at this
  · intro hlast
    rw [hdata] at hlast
    have := strings.TrimFunc_getLast _ _ _ hlast
    simp at this
  · rw [hdata]
    exact hlt

/-! ## `strconv.Itoa` followed by `strconv.Atoi` -/

namespace strconv

theorem digitChar_toNat (k : Nat) (hk : k < 10) : (Char.ofNat (48 + k)).toNat = 48 + k := by
  interval_cases k <;> rfl

theorem decimalDigitsValue_append_single (ds : List Char) (c : Char) :
    decimalDigitsValue (ds ++ [c]) 0 = decimalDigitsValue ds 0 * 10 + (c.toNat - 48) := by
  unfold decimalDigitsValue
  rw [List.foldl_append]
  rfl

theorem allDecimalDigits_append_single (ds : List Char) (c : Char)
    (hds : allDecimalDigits ds = true) (hc : 48 ≤ c.toNat ∧ c.toNat ≤ 57) :
    allDecimalDigits (ds ++ [c]) = true := by
  unfold allDecimalDigits at hds ⊢
  rw [List.all_append, hds]
  simp [hc.1, hc.2]

/-- The loop of `formatBits`, given enough fuel, puts before `acc` the decimal
digits of `u`: one digit at least, whose value is `u`. -/
theorem formatBitsLoop_digits (fuel : Nat) :
    ∀ (u : Nat) (acc : List Char), u < fuel →
      ∃ ds : List Char, formatBitsLoop fuel u acc = ds ++ acc ∧ ds ≠ [] ∧
        allDecimalDigits ds = true ∧ decimalDigitsValue ds 0 = u := by
  induction fuel with
  | zero => intro u acc h; omega
  | succ fuel ih =>
    intro u acc hu
    unfold formatBitsLoop
    by_cases h10 : 10 ≤ u
    · rw [if_pos h10]
      obtain ⟨ds, hds, -, hall, hval⟩ :=
        ih (u / 10) (Char.ofNat (48 + u % 10) :: acc) (by omega)
      have hd := digitChar_toNat (u % 10) (Nat.mod_lt u (by decide))
      refine ⟨ds ++ [Char.ofNat (48 + u % 10)], ?_, by simp, ?_, ?_⟩
      · rw [hds]
        simp
      · exact allDecimalDigits_append_single ds _ hall (by omega)
      · rw [decimalDigitsValue_append_single, hval, hd]
        omega
    · rw [if_neg h10]
      have hd := digitChar_toNat u (by omega)
      refine ⟨[Char.ofNat (48 + u)], rfl, by simp, ?_, ?_⟩
      · simp only [allDecimalDigits, List.all_cons, List.all_nil, Bool.and_true, hd]
        simp
        omega
      · simp only [decimalDigitsValue, List.foldl_cons, List.foldl_nil, hd]
        omega

/-- The text of `Itoa(i)` is a decimal representation of `i`. -/
theorem decimalValue_Itoa (i : Int) : decimalValue (Itoa i) = some i := by
  obtain ⟨ds, hds, hne, hall, hval⟩ := formatBitsLoop_digits (i.natAbs + 1) i.natAbs []
    (Nat.lt_succ_self _)
  rw [List.append_nil] at hds
  unfold Itoa FormatInt
  by_cases hneg : i < 0
  · rw [if_pos hneg, hds]
    simp only [decimalValue]
    rw [if_pos ⟨hne, hall⟩, hval]
    congr 1
    omega
  · rw [if_neg hneg, hds]
    obtain ⟨c, cs, rfl⟩ := List.exists_cons_of_ne_nil hne
    have hc : 48 ≤ c.toNat ∧ c.toNat ≤ 57 := by
      have h := hall
      simp only [allDecimalDigits, List.all_cons, Bool.and_eq_true, decide_eq_true_eq] at h
      exact h.1
    have hplus : c ≠ '+' := by
      rintro rfl
      revert hc
      decide
    have hminus : c ≠ '-' := by
      rintro rfl
      revert hc
      decide
    unfold decimalValue
    split
    · rename_i ds' heq
      simp only [List.cons.injEq] at heq
      exact absurd heq.1 hplus
    · rename_i ds' heq
      simp only [List.cons.injEq] at heq
      exact absurd heq.1 hminus
    · rw [if_pos ⟨hne, hall⟩, hval]
      congr 1
      omega

/-- Formatting an `int` as decimal text and parsing the text gives the `int`
back, without error. -/
theorem Atoi_Itoa (i : Int) (hi : inIntRange i) : Atoi (Itoa i) = (i, none) :=
  Atoi_decimal (Itoa i) i (decimalValue_Itoa i) hi.1 hi.2

end strconv

/-! ## The record `CreateTransmission` sends -/

theorem Network.Do_sent (net : Network) (req : http.Request) :
    (net.Do req).2.sent = net.sent ++ [req] := by
  unfold Network.Do
  cases net.pending <;> rfl

/-- The request `CreateTransmission` sends when the hostname parses: an
authenticated `POST` whose body is the JSON text of the record. -/
theorem CreateTransmission_sent (lib : Library) (userData : UserData) (authToken : String)
    (transmission : Transmission) (contactID accountID programID : Int) (net : Network)
    (parsedUrl : url.URL) (hurl : lib.ParseRequestURI userData.Hostname = .ok parsedUrl) :
    (CreateTransmission lib userData authToken transmission contactID accountID programID
        net).2.sent =
      net.sent ++
        [{ Method := "POST"
           URL := parsedUrl.Scheme ++ "://" ++ parsedUrl.Host ++ "/" ++ "api/transmissions"
           ContentType := some ""
           Authorization := some ("Bearer " ++ authToken)
           Body := .bytes (json.marshalObject
             [("title", .string (transmissionRecord transmission contactID programID).Title),
              ("contact_id", .int (transmissionRecord transmission contactID programID).ContactID),
              ("account_id", .int (transmissionRecord transmission contactID programID).AccountID),
              ("program_id", .int (transmissionRecord transmission contactID programID).ProgramID),
              ("is_print", .int (transmissionRecord transmission contactID programID).IsPrint),
              ("is_coverpage",
                .int (transmissionRecord transmission contactID programID).IsCoverPage),
              ("try_allowed",
                .int (transmissionRecord transmission contactID programID).TryAllowed)])
           Timeout := some 10 }] := by
  rw [← Network.Do_sent]
  unfold CreateTransmission
  simp only [json.MarshalConvertedTransmission,
    buildICTReqeustURL_ok lib userData parsedUrl _ hurl, makeAuthenticatedPostRequest,
    ICT_TRANSMISSION_API_PATH]
  rcases hdo : net.Do _ with ⟨r, net1⟩
  cases r with
  | error err => rfl
  | ok resp =>
    simp only
    split_ifs
    · rfl
    · cases resp.Body <;> rfl

/-- C21. For all `int` values `c` and `p` and every transmission `t`, the
record `CreateTransmission` marshals has `ContactID` `c` and `ProgramID` `p`,
whatever `t.ContactID` and `t.ProgramID` hold, because `Atoi` of `Itoa` of an
`int` is that `int`; its `AccountID` is the conversion of `t.AccountID`, its
title and its three flags are those of the conversion of `t`; the call does
not depend on the account argument, and the body of the request it sends is
the JSON text of that record. -/
theorem transmissionRecord_ids (t : Transmission) (c p : Int)
    (hc : inIntRange c) (hp : inIntRange p) :
    strconv.Atoi (strconv.Itoa c) = (c, none) ∧
    strconv.Atoi (strconv.Itoa p) = (p, none) ∧
    (transmissionRecord t c p).ContactID = c ∧
    (transmissionRecord t c p).ProgramID = p ∧
    (transmissionRecord t c p).AccountID = (strconv.Atoi t.AccountID).1 ∧
    (transmissionRecord t c p).Title = t.Title ∧
    (transmissionRecord t c p).IsPrint = (convertTransmission t).IsPrint ∧
    (transmissionRecord t c p).IsCoverPage = (convertTransmission t).IsCoverPage ∧
    (transmissionRecord t c p).TryAllowed = (convertTransmission t).TryAllowed ∧
    (∀ x y : String,
      transmissionRecord { t with ContactID := x, ProgramID := y } c p =
        transmissionRecord t c p) ∧
    (∀ (lib : Library) (userData : UserData) (authToken : String) (net : Network)
        (a b : Int),
      CreateTransmission lib userData authToken t c a p net =
        CreateTransmission lib userData authToken t c b p net) ∧
    (∀ (lib : Library) (userData : UserData) (authToken : String) (net : Network)
        (a : Int) (parsedUrl : url.URL),
      lib.ParseRequestURI userData.Hostname = .ok parsedUrl →
      (CreateTransmission lib userData authToken t c a p net).2.sent =
        net.sent ++
          [{ Method := "POST"
             URL := parsedUrl.Scheme ++ "://" ++ parsedUrl.Host ++ "/" ++ "api/transmissions"
             ContentType := some ""
             Authorization := some ("Bearer " ++ authToken)
             Body := .bytes (json.marshalObject
               [("title", .string t.Title), ("contact_id", .int c),
                ("account_id", .int (strconv.Atoi t.AccountID).1), ("program_id", .int p),
                ("is_print", .int (strconv.Atoi t.IsPrint).1),
                ("is_coverpage", .int (strconv.Atoi t.IsCoverPage).1),
                ("try_allowed", .int (strconv.Atoi t.TryAllowed).1)])
             Timeout := some 10 }]) := by
  have hcc := strconv.Atoi_Itoa c hc
  have hpp := strconv.Atoi_Itoa p hp
  have hContact : (transmissionRecord t c p).ContactID = c := by
    show (strconv.Atoi (strconv.Itoa c)).1 = c
    rw [hcc]
  have hProgram : (transmissionRecord t c p).ProgramID = p := by
    show (strconv.Atoi (strconv.Itoa p)).1 = p
    rw [hpp]
  refine ⟨hcc, hpp, hContact, hProgram, rfl, rfl, rfl, rfl, rfl, fun _ _ => rfl,
    fun _ _ _ _ _ _ => rfl, ?_⟩
  intro lib userData authToken net a parsedUrl hurl
  rw [CreateTransmission_sent lib userData authToken t c a p net parsedUrl hurl, hContact,
    hProgram]
  rfl

/-- C21 at a transmission whose own identifiers are "1" and "2", with the
contact 0 and the program -5. -/
theorem transmissionRecord_ids_witness :
    inIntRange 0 ∧ inIntRange (-5) ∧
    (transmissionRecord sampleTransmission 0 (-5)).ContactID = 0 ∧
    (transmissionRecord sampleTransmission 0 (-5)).ProgramID = -5 ∧
    (transmissionRecord sampleTransmission 0 (-5)).AccountID = 7 :=
  have h := transmissionRecord_ids sampleTransmission 0 (-5) (by decide) (by decide)
  ⟨by decide, by decide, h.2.2.1, h.2.2.2.1, by rw [h.2.2.2.2.1]; decide⟩

/-! ## The request each remote operation sends -/

section Sent

variable (lib : Library) (userData : UserData) (authToken : String) (net : Network)
  (parsedUrl : url.URL)

theorem AuthenticateICT_sent
    (hurl : lib.ParseRequestURI userData.Hostname = .ok parsedUrl) :
    (AuthenticateICT lib userData net).2.sent =
      net.sent ++
        [{ Method := "POST"
           URL := parsedUrl.Scheme ++ "://" ++ parsedUrl.Host ++ "/" ++ "api/authenticate"
           ContentType := some "application/json"
           Authorization := none
           Body := .bytes (json.marshalObject
             [("username", .string userData.Username), ("password", .string userData.Password),
              ("host", .string userData.Hostname)])
           Timeout := none }] := by
  rw [← Network.Do_sent]
  unfold AuthenticateICT
  simp only [json.MarshalUserData, buildICTReqeustURL_ok lib userData parsedUrl _ hurl,
    http.Post, ICT_AUTHENTICATION_API_PATH, JSON_CONTENT_TYPE]
  rcases hdo : net.Do _ with ⟨r, net1⟩
  cases r with
  | error err => rfl
  | ok resp =>
    simp only
    split_ifs
    · rfl
    · cases resp.Body with
      | error err => rfl
      | ok body =>
        simp only
        cases json.DecodeAuthResponse body <;> rfl

theorem TransmissionsICT_sent
    (hurl : lib.ParseRequestURI userData.Hostname = .ok parsedUrl) :
    (TransmissionsICT lib userData authToken net).2.sent =
      net.sent ++
        [{ Method := "GET"
           URL := parsedUrl.Scheme ++ "://" ++ parsedUrl.Host ++ "/" ++ "api/transmissions"
           ContentType := none
           Authorization := some ("Bearer " ++ authToken)
           Body := .none
           Timeout := some 10 }] := by
  rw [← Network.Do_sent]
  unfold TransmissionsICT
  simp only [buildICTReqeustURL_ok lib userData parsedUrl _ hurl, authenticatedGet,
    ICT_TRANSMISSION_API_PATH]
  rcases hdo : net.Do _ with ⟨r, net1⟩
  cases r with
  | error err => rfl
  | ok resp =>
    simp only
    split_ifs
    · rfl
    · cases resp.Body with
      | error err => rfl
      | ok body =>
        simp only
        cases lib.DecodeFaxResponses body <;> rfl

theorem AccountsICT_sent
    (hurl : lib.ParseRequestURI userData.Hostname = .ok parsedUrl) :
    (AccountsICT lib userData authToken net).2.sent =
      net.sent ++
        [{ Method := "GET"
           URL := parsedUrl.Scheme ++ "://" ++ parsedUrl.Host ++ "/" ++ "api/accounts"
           ContentType := none
           Authorization := some ("Bearer " ++ authToken)
           Body := .none
           Timeout := some 10 }] := by
  rw [← Network.Do_sent]
  unfold AccountsICT
  simp only [buildICTReqeustURL_ok lib userData parsedUrl _ hurl, authenticatedGet,
    ICT_ACCOUNTS_API_PATH]
  rcases hdo : net.Do _ with ⟨r, net1⟩
  cases r with
  | error err => rfl
  | ok resp =>
    simp only
    split_ifs
    · rfl
    · cases resp.Body with
      | error err => rfl
      | ok body =>
        simp only
        cases lib.DecodeAccountResponses body <;> rfl

theorem CreateContact_sent (contact : Contact)
    (hurl : lib.ParseRequestURI userData.Hostname = .ok parsedUrl) :
    ((CreateContact lib userData authToken contact net).2.sent.map http.Request.URL) =
      net.sent.map http.Request.URL ++
        [parsedUrl.Scheme ++ "://" ++ parsedUrl.Host ++ "/" ++ "api/contacts"] := by
  unfold CreateContact
  simp only [json.MarshalContact, buildICTReqeustURL_ok lib userData parsedUrl _ hurl,
    makeAuthenticatedPostRequest, ICT_CONTACTS_API_PATH]
  rcases hdo : net.Do _ with ⟨r, net1⟩
  have hnet1 := congrArg (fun x => x.2.sent) hdo
  simp only [Network.Do_sent] at hnet1
  cases r with
  | error err => simp only [← hnet1, List.map_append, List.map_cons, List.map_nil]
  | ok resp =>
    simp only
    split_ifs
    · simp only [← hnet1, List.map_append, List.map_cons, List.map_nil]
    · cases resp.Body <;> simp only [← hnet1, List.map_append, List.map_cons, List.map_nil]

theorem CreateDocumentRecord_sent (document : DocumentRecord)
    (hurl : lib.ParseRequestURI userData.Hostname = .ok parsedUrl) :
    ((CreateDocumentRecord lib userData authToken document net).2.sent.map
        http.Request.URL) =
      net.sent.map http.Request.URL ++
        [parsedUrl.Scheme ++ "://" ++ parsedUrl.Host ++ "/" ++ "api/documents"] := by
  unfold CreateDocumentRecord
  simp only [json.MarshalDocumentRecord, buildICTReqeustURL_ok lib userData parsedUrl _ hurl,
    makeAuthenticatedPostRequest, ICT_Document_API_PATH]
  rcases hdo : net.Do _ with ⟨r, net1⟩
  have hnet1 := congrArg (fun x => x.2.sent) hdo
  simp only [Network.Do_sent] at hnet1
  cases r with
  | error err => simp only [← hnet1, List.map_append, List.map_cons, List.map_nil]
  | ok resp =>
    simp only
    split_ifs
    · simp only [← hnet1, List.map_append, List.map_cons, List.map_nil]
    · cases resp.Body <;> simp only [← hnet1, List.map_append, List.map_cons, List.map_nil]

theorem UploadDocumentFile_sent (documentID : Int) (fileContents : List Nat)
    (contentType : String)
    (hurl : lib.ParseRequestURI userData.Hostname = .ok parsedUrl) :
    ((UploadDocumentFile lib userData authToken documentID fileContents contentType
        net).2.sent.map http.Request.URL) =
      net.sent.map http.Request.URL ++
        [parsedUrl.Scheme ++ "://" ++ parsedUrl.Host ++ "/" ++
          ("api/documents/" ++ strconv.Itoa documentID ++ "/media")] := by
  unfold UploadDocumentFile
  simp only [buildICTReqeustURL_ok lib userData parsedUrl _ hurl,
    makeAuthenticatedPostRequestWithBody, ICT_DOCUMENS_WITH_ID_API_PATH]
  rcases hdo : net.Do _ with ⟨r, net1⟩
  have hnet1 := congrArg (fun x => x.2.sent) hdo
  simp only [Network.Do_sent] at hnet1
  cases r with
  | error err => simp only [← hnet1, List.map_append, List.map_cons, List.map_nil]
  | ok resp =>
    simp only
    split_ifs <;> simp only [← hnet1, List.map_append, List.map_cons, List.map_nil]

theorem CreateProgram_sent (documentID : Int)
    (hurl : lib.ParseRequestURI userData.Hostname = .ok parsedUrl) :
    ((CreateProgram lib userData authToken documentID net).2.sent.map http.Request.URL) =
      net.sent.map http.Request.URL ++
        [parsedUrl.Scheme ++ "://" ++ parsedUrl.Host ++ "/" ++ "api/programs/sendfax"] := by
  unfold CreateProgram
  simp only [json.MarshalDocumentID, buildICTReqeustURL_ok lib userData parsedUrl _ hurl,
    makeAuthenticatedPostRequest, ICT_PROGRAMS_API_PATH]
  rcases hdo : net.Do _ with ⟨r, net1⟩
  have hnet1 := congrArg (fun x => x.2.sent) hdo
  simp only [Network.Do_sent] at hnet1
  cases r with
  | error err => simp only [← hnet1, List.map_append, List.map_cons, List.map_nil]
  | ok resp =>
    simp only
    split_ifs
    · simp only [← hnet1, List.map_append, List.map_cons, List.map_nil]
    · cases resp.Body with
      | error err => simp only [← hnet1, List.map_append, List.map_cons, List.map_nil]
      | ok body =>
        simp only
        cases (strconv.Atoi (String.mk (strings.TrimSpace (stringOfBytes body).data))).2 <;>
          simp only [← hnet1, List.map_append, List.map_cons, List.map_nil]

theorem SendTransmission_sent (transmissionID : Int)
    (hurl : lib.ParseRequestURI userData.Hostname = .ok parsedUrl) :
    ((SendTransmission lib userData authToken transmissionID net).2.sent.map
        http.Request.URL) =
      net.sent.map http.Request.URL ++
        [parsedUrl.Scheme ++ "://" ++ parsedUrl.Host ++ "/" ++
          ("api/transmissions/" ++ strconv.Itoa transmissionID ++ "/send")] := by
  unfold SendTransmission
  simp only [buildICTReqeustURL_ok lib userData parsedUrl _ hurl,
    makeAuthenticatedPostRequest, ICT_TRANMISSTIONS_WITH_ID_API_PATH]
  rcases hdo : net.Do _ with ⟨r, net1⟩
  have hnet1 := congrArg (fun x => x.2.sent) hdo
  simp only [Network.Do_sent] at hnet1
  cases r with
  | error err => simp only [← hnet1, List.map_append, List.map_cons, List.map_nil]
  | ok resp =>
    simp only
    split_ifs <;> simp only [← hnet1, List.map_append, List.map_cons, List.map_nil]

end Sent

/-! ## The URL of a request -/

/-- C22. When the hostname parses as a request URI with scheme `S` and host
`H`, `buildICTReqeustURL` returns `S://H/path`, in which nothing else of the
hostname is left; the paths with an identifier are `api/documents/<d>/media`
and `api/transmissions/<t>/send` with the identifier in decimal, and each of
the nine operations sends its request to `S://H/` followed by its path. -/
theorem buildICTReqeustURL_of_parsed (lib : Library) (userData : UserData) (S H : String)
    (hparse : lib.ParseRequestURI userData.Hostname = .ok { Scheme := S, Host := H }) :
    (∀ path : String,
      buildICTReqeustURL lib userData path = .returned (S ++ "://" ++ H ++ "/" ++ path)) ∧
    (∀ d : Int,
      ICT_DOCUMENS_WITH_ID_API_PATH d = "api/documents/" ++ strconv.Itoa d ++ "/media" ∧
      ICT_TRANMISSTIONS_WITH_ID_API_PATH d =
        "api/transmissions/" ++ strconv.Itoa d ++ "/send" ∧
      decimalValue (strconv.Itoa d) = some d) ∧
    (∀ (authToken : String) (net : Network),
      (AuthenticateICT lib userData net).2.sent.map http.Request.URL =
        net.sent.map http.Request.URL ++ [S ++ "://" ++ H ++ "/" ++ "api/authenticate"] ∧
      (TransmissionsICT lib userData authToken net).2.sent.map http.Request.URL =
        net.sent.map http.Request.URL ++ [S ++ "://" ++ H ++ "/" ++ "api/transmissions"] ∧
      (AccountsICT lib userData authToken net).2.sent.map http.Request.URL =
        net.sent.map http.Request.URL ++ [S ++ "://" ++ H ++ "/" ++ "api/accounts"] ∧
      (∀ contact : Contact,
        (CreateContact lib userData authToken contact net).2.sent.map http.Request.URL =
          net.sent.map http.Request.URL ++ [S ++ "://" ++ H ++ "/" ++ "api/contacts"]) ∧
      (∀ document : DocumentRecord,
        (CreateDocumentRecord lib userData authToken document net).2.sent.map
            http.Request.URL =
          net.sent.map http.Request.URL ++ [S ++ "://" ++ H ++ "/" ++ "api/documents"]) ∧
      (∀ (d : Int) (fileContents : List Nat) (contentType : String),
        (UploadDocumentFile lib userData authToken d fileContents contentType net).2.sent.map
            http.Request.URL =
          net.sent.map http.Request.URL ++
            [S ++ "://" ++ H ++ "/" ++ ("api/documents/" ++ strconv.Itoa d ++ "/media")]) ∧
      (∀ d : Int,
        (CreateProgram lib userData authToken d net).2.sent.map http.Request.URL =
          net.sent.map http.Request.URL ++
            [S ++ "://" ++ H ++ "/" ++ "api/programs/sendfax"]) ∧
      (∀ (transmission : Transmission) (c a p : Int),
        (CreateTransmission lib userData authToken transmission c a p net).2.sent.map
            http.Request.URL =
          net.sent.map http.Request.URL ++
            [S ++ "://" ++ H ++ "/" ++ "api/transmissions"]) ∧
      (∀ t : Int,
        (SendTransmission lib userData authToken t net).2.sent.map http.Request.URL =
          net.sent.map http.Request.URL ++
            [S ++ "://" ++ H ++ "/" ++
              ("api/transmissions/" ++ strconv.Itoa t ++ "/send")])) := by
  refine ⟨fun path => buildICTReqeustURL_ok lib userData _ path hparse,
    fun d => ⟨rfl, rfl, strconv.decimalValue_Itoa d⟩, ?_⟩
  intro authToken net
  refine ⟨?_, ?_, ?_, ?_, ?_, ?_, ?_, ?_, ?_⟩
  · rw [AuthenticateICT_sent lib userData net _ hparse]
    simp only [List.map_append, List.map_cons, List.map_nil]
  · rw [TransmissionsICT_sent lib userData authToken net _ hparse]
    simp only [List.map_append, List.map_cons, List.map_nil]
  · rw [AccountsICT_sent lib userData authToken net _ hparse]
    simp only [List.map_append, List.map_cons, List.map_nil]
  · exact fun contact => CreateContact_sent lib userData authToken net _ contact hparse
  · exact fun document =>
      CreateDocumentRecord_sent lib userData authToken net _ document hparse
  · exact fun d fileContents contentType =>
      UploadDocumentFile_sent lib userData authToken net _ d fileContents contentType hparse
  · exact fun d => CreateProgram_sent lib userData authToken net _ d hparse
  · intro transmission c a p
    rw [CreateTransmission_sent lib userData authToken transmission c a p net _ hparse]
    simp only [List.map_append, List.map_cons, List.map_nil]
  · exact fun t => SendTransmission_sent lib userData authToken net _ t hparse

/-- C22 at a hostname with credentials, a port, a path and a query: only the
scheme and the host with its port are left in the URL. -/
theorem buildICTReqeustURL_of_parsed_witness :
    (sampleLibrary []).withURLParsing.ParseRequestURI
        "https://user:pw@fax.example.com:8080/base/path?x=1" =
      .ok { Scheme := "https", Host := "fax.example.com:8080" } ∧
    buildICTReqeustURL (sampleLibrary []).withURLParsing
        { Username := "user", Password := "secret",
          Hostname := "https://user:pw@fax.example.com:8080/base/path?x=1" }
        "api/contacts" =
      .returned ("https" ++ "://" ++ "fax.example.com:8080" ++ "/" ++ "api/contacts") :=
  ⟨by decide,
    (buildICTReqeustURL_of_parsed (sampleLibrary []).withURLParsing
      { Username := "user", Password := "secret",
        Hostname := "https://user:pw@fax.example.com:8080/base/path?x=1" }
      "https" "fax.example.com:8080" (by decide)).1 "api/contacts"⟩

/-- A hostname that does not parse makes `buildICTReqeustURL` panic. -/
theorem buildICTReqeustURL_error (lib : Library) (userData : UserData) (uriPath e : String)
    (hurl : lib.ParseRequestURI userData.Hostname = .error e) :
    buildICTReqeustURL lib userData uriPath =
      .panicked "runtime error: invalid memory address or nil pointer dereference" := by
  unfold buildICTReqeustURL
  rw [hurl]

/-- C28. `buildICTReqeustURL` is not total: when `url.ParseRequestURI` fails on
the hostname, the parse result is `nil` and reading its scheme panics. The
empty string and "example.com" do not parse as request URIs, so the function
panics on them, and with such a hostname each of the nine remote operations
panics before it sends a request. -/
theorem buildICTReqeustURL_panics :
    url.ParseRequestURI "" = .error (.New "empty url") ∧
    url.ParseRequestURI "example.com" = .error (.New "invalid URI for request") ∧
    (∀ (lib : Library) (username password path : String),
      buildICTReqeustURL lib.withURLParsing
          { Username := username, Password := password, Hostname := "" } path =
        .panicked "runtime error: invalid memory address or nil pointer dereference" ∧
      buildICTReqeustURL lib.withURLParsing
          { Username := username, Password := password, Hostname := "example.com" } path =
        .panicked "runtime error: invalid memory address or nil pointer dereference") ∧
    (∀ (lib : Library) (userData : UserData) (e authToken : String) (net : Network),
      lib.ParseRequestURI userData.Hostname = .error e →
      (AuthenticateICT lib userData net).1 =
        .panicked "runtime error: invalid memory address or nil pointer dereference" ∧
      (TransmissionsICT lib userData authToken net).1 =
        .panicked "runtime error: invalid memory address or nil pointer dereference" ∧
      (AccountsICT lib userData authToken net).1 =
        .panicked "runtime error: invalid memory address or nil pointer dereference" ∧
      (∀ contact : Contact, (CreateContact lib userData authToken contact net).1 =
        .panicked "runtime error: invalid memory address or nil pointer dereference") ∧
      (∀ document : DocumentRecord,
        (CreateDocumentRecord lib userData authToken document net).1 =
          .panicked "runtime error: invalid memory address or nil pointer dereference") ∧
      (∀ (d : Int) (fileContents : List Nat) (contentType : String),
        (UploadDocumentFile lib userData authToken d fileContents contentType net).1 =
          .panicked "runtime error: invalid memory address or nil pointer dereference") ∧
      (∀ d : Int, (CreateProgram lib userData authToken d net).1 =
        .panicked "runtime error: invalid memory address or nil pointer dereference") ∧
      (∀ (transmission : Transmission) (c a p : Int),
        (CreateTransmission lib userData authToken transmission c a p net).1 =
          .panicked "runtime error: invalid memory address or nil pointer dereference") ∧
      (∀ t : Int, (SendTransmission lib userData authToken t net).1 =
        .panicked "runtime error: invalid memory address or nil pointer dereference")) := by
  refine ⟨by decide, by decide, ?_, ?_⟩
  · intro lib username password path
    have hempty : lib.withURLParsing.ParseRequestURI (("" : String) : GoString) =
        .error (url.ParseError.Error lib.Quote "" (.New "empty url")) := by
      show (match GoString.toText (("" : String) : GoString) with
        | none => lib.ParseRequestURI (("" : String) : GoString)
        | some text =>
          match url.ParseRequestURI text with
          | .error err => .error (err.Error lib.Quote text)
          | .ok parsedUrl => .ok parsedUrl) = _
      rw [show GoString.toText (("" : String) : GoString) = some "" by decide]
      simp only
      rw [show url.ParseRequestURI "" = .error (.New "empty url") by decide]
    have hbare : lib.withURLParsing.ParseRequestURI (("example.com" : String) : GoString) =
        .error (url.ParseError.Error lib.Quote "example.com"
          (.New "invalid URI for request")) := by
      show (match GoString.toText (("example.com" : String) : GoString) with
        | none => lib.ParseRequestURI (("example.com" : String) : GoString)
        | some text =>
          match url.ParseRequestURI text with
          | .error err => .error (err.Error lib.Quote text)
          | .ok parsedUrl => .ok parsedUrl) = _
      rw [show GoString.toText (("example.com" : String) : GoString) = some "example.com"
        by decide]
      simp only
      rw [show url.ParseRequestURI "example.com" = .error (.New "invalid URI for request")
        by decide]
    constructor
    · unfold buildICTReqeustURL
      simp only [hempty]
    · unfold buildICTReqeustURL
      simp only [hbare]
  · intro lib userData e authToken net he
    have hb := fun uriPath => buildICTReqeustURL_error lib userData uriPath e he
    refine ⟨?_, ?_, ?_, ?_, ?_, ?_, ?_, ?_, ?_⟩
    · unfold AuthenticateICT
      simp only [json.MarshalUserData, hb]
    · unfold TransmissionsICT
      simp only [hb]
    · unfold AccountsICT
      simp only [hb]
    · intro contact
      unfold CreateContact
      simp only [hb]
    · intro document
      unfold CreateDocumentRecord
      simp only [hb]
    · intro d fileContents contentType
      unfold UploadDocumentFile
      simp only [hb]
    · intro d
      unfold CreateProgram
      simp only [hb]
    · intro transmission c a p
      unfold CreateTransmission
      simp only [hb]
    · intro t
      unfold SendTransmission
      simp only [hb]

/-! ## The last faxes, directly and through the relay -/

/-- The start index of the tail slice: for a count from 0 on, the slice
`s[max(len(s) - count, 0):]` is in range and holds the last
`min(count, len(s))` entries. -/
theorem sliceFrom_tail {α : Type} (s : List α) (count : Int) (hcount : 0 ≤ count)
    (hint : count < 2 ^ 63) (hlen : (s.length : Int) < 2 ^ 63) :
    sliceFrom s
        (if strconv.wrapInt64 ((s.length : Int) - count) < 0 then 0
          else strconv.wrapInt64 ((s.length : Int) - count)) =
      some (s.drop (s.length - min count.toNat s.length)) := by
  have hwrap : strconv.wrapInt64 ((s.length : Int) - count) = (s.length : Int) - count := by
    unfold strconv.wrapInt64
    omega
  rw [hwrap]
  unfold sliceFrom
  split_ifs with h1 h2 h3
  · have h0 : s.length - min count.toNat s.length = 0 := by omega
    rw [h0]
    rfl
  · omega
  · congr 2
    omega
  · omega

/-- `GetLastFaxes` when the three calls before the filter succeed, for a count
from 0 on. -/
theorem GetLastFaxes_tail (env : DirectCallsEnv) (count : Int)
    (userData : UserData) (authResponse : AuthResponse) (L : List FaxResponse)
    (hload : env.loadUserDataFromFile = .ok userData)
    (hauth : env.AuthenticateICT userData = .ok authResponse)
    (hfetch : env.TransmissionsICT userData authResponse.Token = .ok L)
    (hcount : 0 ≤ count) (hint : count < 2 ^ 63) (hlen : (L.length : Int) < 2 ^ 63) :
    GetLastFaxes env count =
      .ok (((L.filter (fun r => r.Is_Print = "1")).drop
        ((L.filter (fun r => r.Is_Print = "1")).length -
          min count.toNat (L.filter (fun r => r.Is_Print = "1")).length)).map
        convertFaxResponse) := by
  have hn : (((L.filter (fun r => r.Is_Print = "1")).length : Nat) : Int) < 2 ^ 63 := by
    have := List.length_filter_le (fun r : FaxResponse => decide (r.Is_Print = "1")) L
    omega
  unfold GetLastFaxes
  simp only [hload, hauth, hfetch, filterPrinted_eq]
  rw [sliceFrom_tail _ count hcount hint hn]
  rfl

/-- `(*ApiUI).GetLastFaxes` on a response of the relay with status 200 that
carries a list, for a count from 0 on. -/
theorem ApiUI_GetLastFaxes_tail (allFaxes : List FaxData) (count : Int)
    (hcount : 0 ≤ count) (hint : count < 2 ^ 63) (hlen : (allFaxes.length : Int) < 2 ^ 63) :
    ApiUI.GetLastFaxes (.ok { StatusCode := 200, obj := .ok allFaxes }) count =
      .ok (allFaxes.drop (allFaxes.length - min count.toNat allFaxes.length)) := by
  unfold ApiUI.GetLastFaxes ApiUI.readBody
  simp only [http.StatusOK, ne_eq, not_true_eq_false, if_false]
  rw [sliceFrom_tail _ count hcount hint hlen]

/-- C27. For a count from 0 on (an `int`) and a fetched list with `n`
print-flagged records, the start index `GetLastFaxes` computes is
`max(n - count, 0)`, which lies within the filtered list, so that the slice
does not panic; the result has `min(count, n)` entries, the conversions of the
last `min(count, n)` print-flagged records in their order; a count of 0 gives
the empty list. The tail slice of `(*ApiUI).GetLastFaxes` has the same start
index and the same shape of result on the list the relay answers. -/
theorem GetLastFaxes_last_count (env : DirectCallsEnv) (count : Int)
    (userData : UserData) (authResponse : AuthResponse) (L : List FaxResponse)
    (hload : env.loadUserDataFromFile = .ok userData)
    (hauth : env.AuthenticateICT userData = .ok authResponse)
    (hfetch : env.TransmissionsICT userData authResponse.Token = .ok L)
    (hcount : 0 ≤ count) (hint : count < 2 ^ 63) (hlen : (L.length : Int) < 2 ^ 63) :
    ((if strconv.wrapInt64 (((filterPrinted L).length : Int) - count) < 0 then 0
        else strconv.wrapInt64 (((filterPrinted L).length : Int) - count)) =
      max (((filterPrinted L).length : Int) - count) 0 ∧
     0 ≤ max (((filterPrinted L).length : Int) - count) 0 ∧
     max (((filterPrinted L).length : Int) - count) 0 ≤ ((filterPrinted L).length : Int)) ∧
    (∃ result : List FaxData,
      GetLastFaxes env count = .ok result ∧
      result =
        ((L.filter (fun r => r.Is_Print = "1")).drop
          ((L.filter (fun r => r.Is_Print = "1")).length -
            min count.toNat (L.filter (fun r => r.Is_Print = "1")).length)).map
          convertFaxResponse ∧
      result.length = min count.toNat (L.filter (fun r => r.Is_Print = "1")).length) ∧
    (count = 0 → GetLastFaxes env count = .ok []) ∧
    (∀ allFaxes : List FaxData, (allFaxes.length : Int) < 2 ^ 63 →
      ((if strconv.wrapInt64 ((allFaxes.length : Int) - count) < 0 then 0
          else strconv.wrapInt64 ((allFaxes.length : Int) - count)) =
        max ((allFaxes.length : Int) - count) 0 ∧
       0 ≤ max ((allFaxes.length : Int) - count) 0 ∧
       max ((allFaxes.length : Int) - count) 0 ≤ (allFaxes.length : Int)) ∧
      ∃ lastFaxes : List FaxData,
        ApiUI.GetLastFaxes (.ok { StatusCode := 200, obj := .ok allFaxes }) count =
          .ok lastFaxes ∧
        lastFaxes = allFaxes.drop (allFaxes.length - min count.toNat allFaxes.length) ∧
        lastFaxes.length = min count.toNat allFaxes.length) := by
  have hstart : ∀ n : Nat, (n : Int) < 2 ^ 63 →
      ((if strconv.wrapInt64 ((n : Int) - count) < 0 then 0
          else strconv.wrapInt64 ((n : Int) - count)) = max ((n : Int) - count) 0 ∧
       0 ≤ max ((n : Int) - count) 0 ∧ max ((n : Int) - count) 0 ≤ (n : Int)) := by
    intro n hn
    have hwrap : strconv.wrapInt64 ((n : Int) - count) = (n : Int) - count := by
      unfold strconv.wrapInt64
      omega
    rw [hwrap]
    refine ⟨?_, ?_, ?_⟩
    · split_ifs <;> omega
    · omega
    · omega
  have hn : (((filterPrinted L).length : Nat) : Int) < 2 ^ 63 := by
    rw [filterPrinted_eq]
    have := List.length_filter_le (fun r : FaxResponse => decide (r.Is_Print = "1")) L
    omega
  have hres := GetLastFaxes_tail env count userData authResponse L hload hauth hfetch hcount
    hint hlen
  refine ⟨hstart _ hn, ⟨_, hres, rfl, ?_⟩, ?_, ?_⟩
  · rw [List.length_map, List.length_drop]
    omega
  · intro h0
    rw [hres, h0]
    simp
  · intro allFaxes hall
    refine ⟨hstart _ hall, _, ApiUI_GetLastFaxes_tail allFaxes count hcount hint hall, rfl, ?_⟩
    rw [List.length_drop]
    omega

/-- C27 at the specification's example list, three print-flagged records, with
a count of 2: the conversions of the last two of them, in order. -/
theorem GetLastFaxes_last_count_witness :
    (0 : Int) ≤ 2 ∧
    ∃ result : List FaxData,
      GetLastFaxes sampleEnv 2 = .ok result ∧
      result =
        ((sampleFaxes.filter (fun r => r.Is_Print = "1")).drop
          ((sampleFaxes.filter (fun r => r.Is_Print = "1")).length -
            min (2 : Int).toNat (sampleFaxes.filter (fun r => r.Is_Print = "1")).length)).map
          convertFaxResponse ∧
      result.length =
        min (2 : Int).toNat (sampleFaxes.filter (fun r => r.Is_Print = "1")).length :=
  ⟨by decide,
    (GetLastFaxes_last_count sampleEnv 2 ⟨"user", "pw", "http://host"⟩
      ⟨"token", "A", "B", "a@b.c", "100", "IR", "ICT"⟩ sampleFaxes rfl rfl rfl
      (by decide) (by decide) (by decide)).2.1⟩

/-- C23. The relay does not return what the direct call returns: the route
calls `GetLastFaxes(0)`, whose slice starts at the length of the filtered
list, so the route answers the empty list whatever the remote side returned,
and `(*ApiUI).GetLastFaxes(count)` returns the empty list; on the
specification's example list the direct call with a count of 2 returns the
two last print-flagged faxes. -/
theorem routeLastFaxes_returns_no_fax :
    (∀ (env : DirectCallsEnv) (userData : UserData) (authResponse : AuthResponse)
        (L : List FaxResponse),
      env.loadUserDataFromFile = .ok userData →
      env.AuthenticateICT userData = .ok authResponse →
      env.TransmissionsICT userData authResponse.Token = .ok L →
      (L.length : Int) < 2 ^ 63 →
      routeLastFaxes env = .returned { StatusCode := 200, obj := .ok [] } ∧
      ∀ count : Int, 0 ≤ count → count < 2 ^ 63 →
        ApiUI.GetLastFaxes (.ok { StatusCode := 200, obj := .ok [] }) count = .ok []) ∧
    routeLastFaxes sampleEnv = .returned { StatusCode := 200, obj := .ok [] } ∧
    ApiUI.GetLastFaxes (.ok { StatusCode := 200, obj := .ok [] }) 2 = .ok [] ∧
    GetLastFaxes sampleEnv 2 =
      .ok [{ DateTime := Time.unix 1700000000, Title := "c", DestinationFax := "100",
             CallerID := "200", Status := "done" },
           { DateTime := Time.unix 1700000000, Title := "d", DestinationFax := "100",
             CallerID := "200", Status := "done" }] := by
  refine ⟨?_, rfl, by decide, by decide⟩
  intro env userData authResponse L hload hauth hfetch hlen
  constructor
  · unfold routeLastFaxes
    rw [GetLastFaxes_tail env 0 userData authResponse L hload hauth hfetch (le_refl 0)
      (by decide) hlen]
    simp [http.StatusOK]
  · intro count hcount hint
    rw [ApiUI_GetLastFaxes_tail [] count hcount hint (by decide)]
    simp

/-! ## `SendFax` and the error of the workflow -/

/-- `SendFax` when the settings load and the authentication succeed: the
error is the fixed message when the workflow fails, and `nil` when it
succeeds. -/
theorem SendFax_of_run {σ : Type} (env : DirectCallsEnv) (ops : ICTOperations σ)
    (contact : Contact) (document : DocumentRecord) (transmission : Transmission)
    (fileContents : List Nat) (fileModel : SendFileInfo) (s : σ)
    (userData : UserData) (authResponse : AuthResponse)
    (hload : env.loadUserDataFromFile = .ok userData)
    (hauth : env.AuthenticateICT userData = .ok authResponse) :
    (SendFax env ops contact document transmission fileContents fileModel s).1 =
      match (SendFaxICT ops userData authResponse.Token contact document transmission
        fileContents fileModel s).err with
      | some _ => some "error sending the fax"
      | none => none := by
  unfold SendFax
  simp only [hload, hauth]
  cases (SendFaxICT ops userData authResponse.Token contact document transmission
    fileContents fileModel s).err <;> rfl

/-- C30. When the settings load and the authentication succeed and the
workflow `SendFaxICT` fails, with whatever error, `SendFax` returns the error
"error sending the fax", the relay's route answers status 500 with that
message, and `(*ApiUI).SendFax` returns the error of a 500 response; so a
second run that fails, at whatever step and with whatever status code, gives
the same three results, and the failing step cannot be told from them. -/
theorem SendFax_one_error {σ : Type} (env : DirectCallsEnv) (ops : ICTOperations σ)
    (contact : Contact) (document : DocumentRecord) (transmission : Transmission)
    (fileContents : List Nat) (fileModel : SendFileInfo) (s : σ)
    (userData : UserData) (authResponse : AuthResponse) (e : String)
    (hload : env.loadUserDataFromFile = .ok userData)
    (hauth : env.AuthenticateICT userData = .ok authResponse)
    (hfail : (SendFaxICT ops userData authResponse.Token contact document transmission
      fileContents fileModel s).err = some e) :
    (SendFax env ops contact document transmission fileContents fileModel s).1 =
      some "error sending the fax" ∧
    (routeSendFax env ops contact document transmission fileContents fileModel s).1 =
      { StatusCode := 500, obj := .error "error sending the fax" } ∧
    ApiUI.SendFax
        (.ok (routeSendFax env ops contact document transmission fileContents fileModel s).1) =
      some "APIUI call failed with status code: 500" ∧
    ∀ {τ : Type} (env2 : DirectCallsEnv) (ops2 : ICTOperations τ) (contact2 : Contact)
      (document2 : DocumentRecord) (transmission2 : Transmission) (fileContents2 : List Nat)
      (fileModel2 : SendFileInfo) (s2 : τ) (userData2 : UserData)
      (authResponse2 : AuthResponse) (e2 : String),
      env2.loadUserDataFromFile = .ok userData2 →
      env2.AuthenticateICT userData2 = .ok authResponse2 →
      (SendFaxICT ops2 userData2 authResponse2.Token contact2 document2 transmission2
        fileContents2 fileModel2 s2).err = some e2 →
      (SendFax env ops contact document transmission fileContents fileModel s).1 =
        (SendFax env2 ops2 contact2 document2 transmission2 fileContents2 fileModel2 s2).1 ∧
      (routeSendFax env ops contact document transmission fileContents fileModel s).1 =
        (routeSendFax env2 ops2 contact2 document2 transmission2 fileContents2 fileModel2
          s2).1 ∧
      ApiUI.SendFax
          (.ok (routeSendFax env ops contact document transmission fileContents fileModel
            s).1) =
        ApiUI.SendFax
          (.ok (routeSendFax env2 ops2 contact2 document2 transmission2 fileContents2
            fileModel2 s2).1) := by
  have hone : ∀ {τ : Type} (env2 : DirectCallsEnv) (ops2 : ICTOperations τ)
      (contact2 : Contact) (document2 : DocumentRecord) (transmission2 : Transmission)
      (fileContents2 : List Nat) (fileModel2 : SendFileInfo) (s2 : τ) (userData2 : UserData)
      (authResponse2 : AuthResponse) (e2 : String),
      env2.loadUserDataFromFile = .ok userData2 →
      env2.AuthenticateICT userData2 = .ok authResponse2 →
      (SendFaxICT ops2 userData2 authResponse2.Token contact2 document2 transmission2
        fileContents2 fileModel2 s2).err = some e2 →
      (SendFax env2 ops2 contact2 document2 transmission2 fileContents2 fileModel2 s2).1 =
        some "error sending the fax" ∧
      (routeSendFax env2 ops2 contact2 document2 transmission2 fileContents2 fileModel2
        s2).1 = { StatusCode := 500, obj := .error "error sending the fax" } := by
    intro τ env2 ops2 contact2 document2 transmission2 fileContents2 fileModel2 s2 userData2
      authResponse2 e2 h1 h2 h3
    have hs := SendFax_of_run env2 ops2 contact2 document2 transmission2 fileContents2
      fileModel2 s2 userData2 authResponse2 h1 h2
    rw [h3] at hs
    simp only at hs
    refine ⟨hs, ?_⟩
    unfold routeSendFax
    rcases hsf : SendFax env2 ops2 contact2 document2 transmission2 fileContents2 fileModel2
      s2 with ⟨err, s1⟩
    rw [hsf] at hs
    simp only at hs
    subst hs
    rfl
  obtain ⟨h1, h2⟩ := hone env ops contact document transmission fileContents fileModel s
    userData authResponse e hload hauth hfail
  refine ⟨h1, h2, ?_, ?_⟩
  · rw [h2]
    rfl
  · intro τ env2 ops2 contact2 document2 transmission2 fileContents2 fileModel2 s2 userData2
      authResponse2 e2 hl ha hf
    obtain ⟨h3, h4⟩ := hone env2 ops2 contact2 document2 transmission2 fileContents2
      fileModel2 s2 userData2 authResponse2 e2 hl ha hf
    rw [h1, h2, h3, h4]
    exact ⟨rfl, rfl, rfl⟩

/-- C30 at two runs: one fails at the second step with status 500, the other
at the last step with status 404; the workflow's errors differ and the error
of `SendFax` is the same. -/
theorem SendFax_one_error_witness :
    (SendFaxICT documentFailureOps ⟨"user", "pw", "http://host"⟩ "token" sampleContact
        sampleDocument sampleTransmission [1, 2] ⟨"application/pdf"⟩ 0).err =
      some ("Failed to create document record: " ++
        "CreateDocumentRecord API call failed with status code: 500") ∧
    (SendFaxICT sendFailureOps ⟨"user", "pw", "http://host"⟩ "token" sampleContact
        sampleDocument sampleTransmission [1, 2] ⟨"application/pdf"⟩ 0).err =
      some ("Failed to send transmission: " ++
        "Sending transmission failed with status code: 404") ∧
    (SendFax sampleEnv documentFailureOps sampleContact sampleDocument sampleTransmission
        [1, 2] ⟨"application/pdf"⟩ 0).1 = some "error sending the fax" ∧
    (SendFax sampleEnv documentFailureOps sampleContact sampleDocument sampleTransmission
        [1, 2] ⟨"application/pdf"⟩ 0).1 =
      (SendFax sampleEnv sendFailureOps sampleContact sampleDocument sampleTransmission
        [1, 2] ⟨"application/pdf"⟩ 0).1 :=
  have h := SendFax_one_error sampleEnv documentFailureOps sampleContact sampleDocument
    sampleTransmission [1, 2] ⟨"application/pdf"⟩ 0 ⟨"user", "pw", "http://host"⟩
    ⟨"token", "A", "B", "a@b.c", "100", "IR", "ICT"⟩
    ("Failed to create document record: " ++
      "CreateDocumentRecord API call failed with status code: 500") rfl rfl rfl
  ⟨rfl, rfl, h.1,
    (h.2.2.2 sampleEnv sendFailureOps sampleContact sampleDocument sampleTransmission [1, 2]
      ⟨"application/pdf"⟩ 0 ⟨"user", "pw", "http://host"⟩
      ⟨"token", "A", "B", "a@b.c", "100", "IR", "ICT"⟩
      ("Failed to send transmission: " ++
        "Sending transmission failed with status code: 404") rfl rfl rfl).1⟩
